import Mathlib

/-!
# replication-manager: server monitor and replication bootstrap

A shallow embedding of `cluster/srv.go` and `cluster/prov.go`.

* Memory is a total map from addresses to server records (`Cluster.heap`);
  a Go pointer `*ServerMonitor` is an address, `nil` is `none`.  Two pointers
  alias exactly when the addresses are equal, so a write through
  `cluster.master` is seen through `server` when both name the same record.
* Every answer that comes from outside the two source files (the database
  driver, the `dbhelper` package, cluster methods declared in other files) is
  an explicit observation argument.
* Calls whose effect lies outside the modelled records (logging, alerts,
  cookies, SQL statements) are recorded, in program order, in a trace of
  `Event`s.
* Go `int`/`int64` counters are modelled by `Int`; none of the modelled
  arithmetic approaches the 64-bit range in a finite run of ticks.
* The completion channel `errorChan` of the orchestrator jobs is the list of
  the messages that the receives of one operation obtain, in order; a receive
  that finds no message blocks for ever.
-/

namespace ReplicationManager

/-! ## Constants of `srv.go` -/

def stateFailed : String := "Failed"
def stateMaster : String := "Master"
def stateSlave : String := "Slave"
def stateSlaveErr : String := "SlaveErr"
def stateSlaveLate : String := "SlaveLate"
def stateMaintenance : String := "Maintenance"
def stateUnconn : String := "StandAlone"
def stateErrorAuth : String := "ErrorAuth"
def stateSuspect : String := "Suspect"
def stateShard : String := "Shard"
def stateProv : String := "Provision"
def stateMasterAlone : String := "MasterAlone"
def stateRelay : String := "Relay"
def stateRelayErr : String := "RelayErr"
def stateRelayLate : String := "RelayLate"
def stateWsrep : String := "Wsrep"
def stateWsrepDonor : String := "WsrepDonor"
def stateWsrepLate : String := "WsrepUnsync"

/-! ## Go values -/

/-- A Go `error` value, by dynamic kind: a `*mysql.MySQLError` with its number,
the sentinel `sql.ErrNoRows`, or any other error.  `text` is what `Error()`
returns. -/
inductive GoError where
  | MySQLError (Number : Nat) (text : String)
  | ErrNoRows
  | Other (text : String)
  deriving DecidableEq, Repr, Inhabited

/-- The method `Error()` of a Go error. -/
def GoError.Error : GoError → String
  | .MySQLError _ t => t
  | .ErrNoRows => "sql: no rows in result set"
  | .Other t => t

/-- Whether the second list of characters starts the first one. -/
def startsWith : List Char → List Char → Bool
  | _, [] => true
  | [], _ :: _ => false
  | c :: cs, d :: ds => c == d && startsWith cs ds

/-- Substring search over character lists. -/
def containsChars : List Char → List Char → Bool
  | [], sub => startsWith [] sub
  | c :: cs, sub => startsWith (c :: cs) sub || containsChars cs sub

/-- Go `strings.Contains`. -/
def Contains (s substr : String) : Bool :=
  containsChars s.toList substr.toList

/-- The line feed that `fmt.Sprintln` appends. -/
def newline : String := String.singleton (Char.ofNat 10)

/-- What a Go function hands back to its caller: `return nil`, `return err`,
or a run-time panic (nil dereference, index out of range). -/
inductive Ret where
  | nil
  | err (e : GoError)
  | panic
  deriving DecidableEq, Repr, Inhabited

/-! ## Data model -/

/-- Modelled from the spec: `dbhelper.MySQLVersion` is declared outside the
given sources; the spec describes it as a version descriptor made of a flavor
and major.minor.patch numbers. -/
structure MySQLVersion where
  Flavor : String
  Major : Int
  Minor : Int
  Release : Int
  deriving DecidableEq, Repr, Inhabited

/-- Modelled from the spec: the method `IsMariaDB` of the version descriptor
is declared outside the given sources; it holds when the flavor is MariaDB. -/
def MySQLVersion.IsMariaDB (v : MySQLVersion) : Bool := v.Flavor == "MariaDB"

/-- Modelled from the spec: the method `IsPPostgreSQL` of the version
descriptor is declared outside the given sources; it holds when the flavor is
PostgreSQL. -/
def MySQLVersion.IsPPostgreSQL (v : MySQLVersion) : Bool := v.Flavor == "PostgreSQL"

/-- One replication-channel status record (`dbhelper.SlaveStatus`), reduced to
the columns that identify the channel and its source. -/
structure SlaveStatus where
  ConnectionName : String
  MasterHost : String
  MasterPort : String
  deriving DecidableEq, Repr, Inhabited

/-- The fields of `ServerMonitor` that the modelled functions read or write.
`Conn` is the persistent connection handle (`none` is `nil`); a slice field
is `none` when it is the `nil` slice. -/
structure ServerMonitor where
  Id : String
  URL : String
  Host : String
  Port : String
  ServerID : Nat
  State : String
  PrevState : String
  FailCount : Int
  FailSuspectHeartbeat : Int
  Conn : Option Nat
  CurrentGtid : String
  BinaryLogFile : String
  BinaryLogPos : String
  HaveMySQLGTID : Bool
  HaveWsrep : Bool
  IsMaxscale : Bool
  IsRelay : Bool
  IsSlave : Bool
  IsVirtualMaster : Bool
  IsDelayed : Bool
  IsFull : Bool
  Prefered : Bool
  InCaptureMode : Bool
  Replications : Option (List SlaveStatus)
  LastSeenReplications : Option (List SlaveStatus)
  DBVersion : MySQLVersion
  PostgressDB : String
  EngineInnoDB : List (String × String)
  deriving DecidableEq, Repr, Inhabited

/-- The options of `cluster.Conf` that the modelled functions read. -/
structure Config where
  CheckType : String
  MaxFail : Int
  MasterConn : String
  PrefMaster : String
  ReadOnly : Bool
  Arbitration : Bool
  Autorejoin : Bool
  Verbose : Bool
  ForceSlaveNoGtid : Bool
  ForceSlaveHeartbeatRetry : Int
  ForceSlaveHeartbeatTime : Int
  HostsDelayedTime : Int
  ReplicationSSL : Bool
  MultiMaster : Bool
  MultiMasterRing : Bool
  MultiMasterWsrep : Bool
  MultiTierSlave : Bool
  MxsBinlogOn : Bool
  SwitchWaitKill : Int
  SwitchDecreaseMaxConn : Bool
  SwitchDecreaseMaxConnValue : Int
  ProvOrchestrator : String
  deriving DecidableEq, Repr, Inhabited

/-- Modelled from the spec: the state machine record (`state.StateMachine`) is
declared outside the given sources; the spec gives it a heartbeat counter, an
"in failover" flag and a "discovered" flag. -/
structure StateMachine where
  Heartbeats : Int
  InFailover : Bool
  Discovered : Bool
  deriving DecidableEq, Repr, Inhabited

/-- The cluster: memory, the ordered list of declared servers, the derived
pointers, the state machine, the configuration and replication credentials. -/
structure Cluster where
  heap : Nat → ServerMonitor
  Servers : List Nat
  master : Option Nat
  vmaster : Option Nat
  slaves : Option (List Nat)
  sme : StateMachine
  Conf : Config
  rplUser : String
  rplPass : String

/-- Store a record at an address. -/
def Cluster.store (c : Cluster) (p : Nat) (s : ServerMonitor) : Cluster :=
  { c with heap := Function.update c.heap p s }

/-- Modelled from the spec: `SetFailoverState` is declared outside the given
sources; it takes the failover gate. -/
def Cluster.SetFailoverState (c : Cluster) : Cluster :=
  { c with sme := { c.sme with InFailover := true } }

/-- Modelled from the spec: `RemoveFailoverState` is declared outside the
given sources; it releases the failover gate. -/
def Cluster.RemoveFailoverState (c : Cluster) : Cluster :=
  { c with sme := { c.sme with InFailover := false } }

/-! ## Commands and trace -/

/-- The argument record `dbhelper.ChangeMasterOpt`, as filled in by
`ChangeMasterTo`.  Numeric options are kept as numbers (the source formats
them with `strconv.Itoa`). -/
structure ChangeMasterOpt where
  Host : String
  Port : String
  User : String
  Password : String
  Retry : Int
  Heartbeat : Int
  Mode : String
  Logfile : String
  Logpos : String
  Channel : String
  IsDelayed : Bool
  Delay : Int
  SSL : Bool
  PostgressDB : String
  deriving DecidableEq, Repr, Inhabited

/-- A statement or helper call sent to one database. -/
inductive Cmd where
  | SetGlobalGtidSlavePos (gtid : String)
  | ChangeMaster (opt : ChangeMasterOpt)
  | StartSlave (channel : String)
  | SetDefaultMasterConn (channel : String)
  | ResetMaster (channel : String)
  | StopAllSlaves
  | StopSlave (channel : String)
  | ResetAllSlaves
  | SetGTIDSlavePos (gtid : String)
  | FlushTables
  | Exec (query : String)
  | SetReadOnly (flag : Bool)
  | CheckLongRunningWrites
  | GetVariableByName (name : String)
  | SetMaxConnections (value : Int)
  | KillThreads
  | GetMSlaveStatus (channel : String)
  | GetSlaveStatus (channel : String)
  | GetProcesslist
  | GetEngineInnoDBSatus
  | GetStatus
  | GetAllSlavesStatus
  | GetChannelSlaveStatus
  deriving DecidableEq, Repr, Inhabited

/-- One observable step of a run.  `Log` keeps the format string of the
message and the URL of the server it is about; `LogSQL` also keeps the error
it is handed.  `Call` is a call to a method whose body is not modelled, named
by its Go identifier, on the server with the given URL.  `ChangeMasterTo`
records a call `server.ChangeMasterTo(master, master_use_gitd)` made by the
bootstrap, with the addresses of the two servers.  `Job` is a call of an
orchestrator adapter function on a server or proxy: `go cluster.name(target)`
when `async` is true, a plain call otherwise. -/
inductive Event where
  | Log (level : String) (format : String) (url : String)
  | LogSQL (err : Option GoError) (format : String) (url : String)
  | SetState (code : String) (url : String)
  | PreserveState (code : String)
  | CopyOldStateFromUnknowServer (url : String)
  | SQL (url : String) (cmd : Cmd)
  | ConnClose (conn : Nat)
  | Call (name : String) (url : String)
  | TopologyDiscover
  | ChangeMasterTo (server master : Nat) (master_use_gitd : String)
  | Job (async : Bool) (name : String) (target : String)
  deriving DecidableEq, Repr, Inhabited

/-! ## Observations -/

/-- What the database behind one server answers during `Refresh`. -/
structure RefreshObs where
  /-- Whether `server.Conn.Unsafe()` is `nil`. -/
  ConnUnusable : Bool
  /-- the error of `server.Conn.Ping()` -/
  PingErr : Option GoError
  /-- the version string of `dbhelper.GetMaxscaleVersion` -/
  MxsVersion : String
  /-- the version of `dbhelper.GetDBVersion` -/
  DBVersion : MySQLVersion
  /-- the error of `dbhelper.GetVariables` -/
  VariablesErr : Option GoError
  /-- the value of `server.HasWsrep()` on the fetched variables -/
  HasWsrep : Bool
  /-- the value of `server.HasMySQLGTID()` on the fetched variables -/
  HasMySQLGTID : Bool
  /-- the variable `GTID_CURRENT_POS` (MariaDB) or `GTID_EXECUTED` -/
  CurrentGtid : String
  /-- the variable `SERVER_ID`, parsed -/
  ServerID : Nat
  /-- the error of `dbhelper.GetEventStatus` -/
  EventStatusErr : Option GoError
  /-- the error of `dbhelper.GetMasterStatus` -/
  MasterStatusErr : Option GoError
  /-- the column `File` of the master status -/
  MasterStatusFile : String
  /-- the column `Position` of the master status, formatted -/
  MasterStatusPosition : String
  /-- the error of the first `dbhelper.GetBinlogDumpThreads` -/
  BinlogDumpThreadsErr : Option GoError
  /-- the rows of `GetAllSlavesStatus` or `GetChannelSlaveStatus` -/
  Replications : Option (List SlaveStatus)
  /-- the error of `server.GetSlaveStatus(server.ReplicationSourceName)` -/
  GetSlaveStatusErr : Option GoError
  /-- the error of the `GetBinlogDumpThreads` made every 60 heartbeats -/
  PluginsDumpThreadsErr : Option GoError
  deriving DecidableEq, Repr, Inhabited

/-- What the database behind one server answers to the commands of one
operation.  A server gives a command the same answer throughout the
operation. -/
structure DBObs where
  Refresh : RefreshObs
  /-- the value of `server.HasMySQLGTID()` -/
  HasMySQLGTID : Bool
  /-- the error of `Exec("SET GLOBAL gtid_slave_pos = ...")` -/
  ExecSetGlobalGtidSlavePos : Option GoError
  /-- the error of `dbhelper.ChangeMaster` -/
  ChangeMaster : Option GoError
  /-- the error of `Exec("START SLAVE ...")` -/
  ExecStartSlave : Option GoError
  /-- the error of `dbhelper.SetDefaultMasterConn` -/
  SetDefaultMasterConn : Option GoError
  /-- the error of `dbhelper.ResetMaster` -/
  ResetMaster : Option GoError
  /-- the error of `dbhelper.StopAllSlaves` -/
  StopAllSlaves : Option GoError
  /-- the error of `dbhelper.StopSlave` -/
  StopSlave : Option GoError
  /-- the error of `dbhelper.SetGTIDSlavePos` -/
  SetGTIDSlavePos : Option GoError
  /-- the value of `cluster.IsInIgnoredReadonly(server)` -/
  IsInIgnoredReadonly : Bool
  deriving DecidableEq, Repr, Inhabited

/-! ## `Refresh` (srv.go) -/

/-- The disk-full test made on the error of `GetBinlogDumpThreads`. -/
def isDiskFull (err : GoError) : Bool :=
  Contains err.Error "Errcode: 28 " || Contains err.Error "errno: 28 "

/-- Lines 542-555 of `Refresh`: MaxScale detection. -/
def refreshMaxscale (conf : Config) (o : RefreshObs) (server : ServerMonitor) :
    ServerMonitor × List Event :=
  if conf.MxsBinlogOn then
    if o.MxsVersion != "" then
      ({ server with IsMaxscale := true, IsRelay := true, State := stateRelay },
        [.Log "INFO" "Found Maxscale" server.URL])
    else ({ server with IsMaxscale := false }, [])
  else ({ server with IsMaxscale := false }, [])

/-- Lines 557-654 of `Refresh`: version and variables.  The third component
is true when the function returns `nil` from inside this block. -/
def refreshVariables (conf : Config) (heartbeats : Int) (o : RefreshObs)
    (server : ServerMonitor) : ServerMonitor × List Event × Bool :=
  if !(conf.MxsBinlogOn && server.IsMaxscale) then
    let s1 := { server with DBVersion := o.DBVersion }
    if o.VariablesErr.isSome then (s1, [], true)
    else if !s1.DBVersion.IsPPostgreSQL then
      let s2 := { s1 with
        HaveWsrep := o.HasWsrep, HaveMySQLGTID := o.HasMySQLGTID,
        CurrentGtid := o.CurrentGtid, ServerID := o.ServerID }
      let ev1 := if o.EventStatusErr.isSome then [Event.SetState "ERR00073" server.URL] else []
      let ev2 :=
        if heartbeats % 30 == 0 then [Event.Call "CheckPrivileges" server.URL]
        else [.PreserveState "ERR00007", .PreserveState "ERR00006", .PreserveState "ERR00008",
              .PreserveState "ERR00015", .PreserveState "ERR00078", .PreserveState "ERR00009"]
      (s2, ev1 ++ ev2, false)
    else (s1, [], false)
  else (server, [], false)

/-- Lines 655-676 of `Refresh`: capture warning and master status. -/
def refreshMasterStatus (o : RefreshObs) (server : ServerMonitor) :
    ServerMonitor × List Event :=
  let ev := if server.InCaptureMode then [Event.SetState "WARN0085" server.URL] else []
  if o.MasterStatusErr.isSome then (server, ev)
  else
    ({ server with BinaryLogFile := o.MasterStatusFile, BinaryLogPos := o.MasterStatusPosition },
      ev)

/-- Lines 678-714 of `Refresh`: binlog dump threads and the disk-full exit.
The third component is true when the function returns `nil` from inside this
block. -/
def refreshDumpThreads (o : RefreshObs) (server : ServerMonitor) :
    ServerMonitor × List Event × Bool :=
  if !server.DBVersion.IsPPostgreSQL then
    match o.BinlogDumpThreadsErr with
    | some err =>
      if isDiskFull err then
        ({ server with IsFull := true }, [.SetState "WARN0100" server.URL], true)
      else ({ server with IsFull := false }, [.SetState "ERR00014" server.URL], false)
    | none => ({ server with IsFull := false }, [], false)
  else (server, [], false)

/-- Lines 720-763 of `Refresh`: replication status. -/
def refreshReplications (o : RefreshObs) (server : ServerMonitor) : ServerMonitor :=
  { server with Replications := o.Replications, IsSlave := o.GetSlaveStatusErr.isNone }

/-- Lines 764-851 of `Refresh`: status counters and the plugin pass made every
60 heartbeats. -/
def refreshStatus (conf : Config) (heartbeats : Int) (o : RefreshObs)
    (server : ServerMonitor) : ServerMonitor × List Event :=
  if conf.MxsBinlogOn && server.IsMaxscale then (server, [])
  else if !server.DBVersion.IsPPostgreSQL && heartbeats % 60 == 0 then
    match o.PluginsDumpThreadsErr with
    | some err =>
      if isDiskFull err then ({ server with IsFull := true }, [.SetState "WARN0100" server.URL])
      else ({ server with IsFull := false }, [.Call "CheckMaxConnections" server.URL])
    | none => ({ server with IsFull := false }, [.Call "CheckMaxConnections" server.URL])
  else (server, [.Call "CheckMaxConnections" server.URL])

/-- The method `Refresh` on one server record.  Writes to fields outside
`ServerMonitor` as modelled here are left out, and so is the write of
`EngineInnoDB`, which is made only under the option `MonitorInnoDBStatus`;
the queries themselves are left out too: of the calls of `Refresh` the trace keeps `CheckVersion`,
`CheckPrivileges`, `CheckMaxConnections`, the preserved codes and the
published codes `ERR00073`, `WARN0085`, `WARN0100` and `ERR00014`. -/
def refreshServer (conf : Config) (heartbeats : Int) (o : RefreshObs)
    (server : ServerMonitor) : ServerMonitor × List Event × Option GoError :=
  if server.Conn.isNone then
    (server, [], some (.Other "Connection is nil, server unreachable"))
  else if o.ConnUnusable then
    (server, [], some (.Other "Connection is unsafe, server unreachable"))
  else
    match o.PingErr with
    | some err => (server, [], some err)
    | none =>
      let ev0 := [Event.Call "CheckVersion" server.URL]
      let (s1, ev1) := refreshMaxscale conf o server
      let (s2, ev2, stop2) := refreshVariables conf heartbeats o s1
      if stop2 then (s2, ev0 ++ ev1 ++ ev2, none)
      else
        let (s3, ev3) := refreshMasterStatus o s2
        let (s4, ev4, stop4) := refreshDumpThreads o s3
        if stop4 then (s4, ev0 ++ ev1 ++ ev2 ++ ev3 ++ ev4, none)
        else
          let s5 := refreshReplications o s4
          let (s6, ev6) := refreshStatus conf heartbeats o s5
          (s6, ev0 ++ ev1 ++ ev2 ++ ev3 ++ ev4 ++ ev6, none)

/-- The method `Refresh` called on the server at address `p`. -/
def Refresh (c : Cluster) (p : Nat) (o : RefreshObs) : Cluster × List Event × Option GoError :=
  let r := refreshServer c.Conf c.sme.Heartbeats o (c.heap p)
  (c.store p r.1, r.2.1, r.2.2)

/-! ## `ChangeMasterTo` (srv.go) -/

/-- The option record common to the three calls of `dbhelper.ChangeMaster`;
`Logfile` and `Logpos` are filled in by the positional call only. -/
def changeMasterOpt (c : Cluster) (server master : ServerMonitor) (mode : String) :
    ChangeMasterOpt :=
  { Host := master.Host, Port := master.Port, User := c.rplUser, Password := c.rplPass,
    Retry := c.Conf.ForceSlaveHeartbeatRetry, Heartbeat := c.Conf.ForceSlaveHeartbeatTime,
    Mode := mode, Logfile := "", Logpos := "", Channel := c.Conf.MasterConn,
    IsDelayed := server.IsDelayed, Delay := c.Conf.HostsDelayedTime,
    SSL := c.Conf.ReplicationSSL, PostgressDB := server.PostgressDB }

/-- Lines 1327-1334 of `ChangeMasterTo`: log a failed CHANGE MASTER, then
issue START SLAVE on the configured channel and return its error. -/
def changeMasterStart (c : Cluster) (server : Nat) (db : DBObs) (ev : List Event) :
    Cluster × List Event × Ret :=
  let url := (c.heap server).URL
  let ev1 := match db.ChangeMaster with
    | some e => ev ++ [Event.LogSQL (some e) "Replication can't be bootstrap for server %s with %s as master: %s " url]
    | none => ev
  match (c.heap server).Conn with
  | none => (c, ev1, .panic)
  | some _ =>
    let ev2 := ev1 ++ [.SQL url (.StartSlave c.Conf.MasterConn)]
    match db.ExecStartSlave with
    | some err => (c, ev2, .err (.Other ("Can't start slave:  " ++ err.Error ++ newline)))
    | none => (c, ev2, .nil)

/-- The method `ChangeMasterTo` called on the server at address `server`, with
`master` the address of the new source. -/
def ChangeMasterTo (c : Cluster) (server master : Nat) (master_use_gitd : String)
    (db : Nat → DBObs) : Cluster × List Event × Ret :=
  let hasMyGTID := (db server).HasMySQLGTID
  let srv := c.heap server
  if srv.State != stateFailed && c.Conf.ForceSlaveNoGtid == false && srv.DBVersion.IsMariaDB
      && decide (srv.DBVersion.Major ≥ 10) then
    let (c1, ev1, _) := Refresh c master (db master).Refresh
    let srv1 := c1.heap server
    let mst1 := c1.heap master
    match srv1.Conn with
    | none => (c1, ev1, .panic)
    | some _ =>
      let ev2 := ev1 ++ [.SQL srv1.URL (.SetGlobalGtidSlavePos mst1.CurrentGtid)]
      match (db server).ExecSetGlobalGtidSlavePos with
      | some err => (c1, ev2, .err err)
      | none =>
        changeMasterStart c1 server (db server)
          (ev2 ++ [.SQL srv1.URL (.ChangeMaster (changeMasterOpt c1 srv1 mst1 master_use_gitd)),
                   .Log "INFO" "Replication bootstrapped with %s as master" mst1.URL])
  else if hasMyGTID && c.Conf.ForceSlaveNoGtid == false then
    let mst := c.heap master
    changeMasterStart c server (db server)
      [.SQL srv.URL (.ChangeMaster (changeMasterOpt c srv mst "MASTER_AUTO_POSITION")),
       .Log "INFO" "Replication bootstrapped with MySQL GTID replication style and %s as master" mst.URL]
  else
    let mst := c.heap master
    changeMasterStart c server (db server)
      [.SQL srv.URL (.ChangeMaster { changeMasterOpt c srv mst "POSITIONAL" with
          Logfile := mst.BinaryLogFile, Logpos := mst.BinaryLogPos }),
       .Log "INFO" "Replication bootstrapped with old replication style and %s as master" mst.URL]

/-! ## `delete` (srv.go) -/

/-- The index of the first entry of a server list whose record has the given
URL: the `for k, s := range lsm` search of `delete`. -/
def deleteIndex (heap : Nat → ServerMonitor) (url : String) : List Nat → Option Nat
  | [] => none
  | s :: rest =>
    if url == (heap s).URL then some 0
    else (deleteIndex heap url rest).map (· + 1)

/-- The body of `delete` on a non-nil list: overwrite the first entry with
the URL by the last entry and cut the last entry off. -/
def deleteList (heap : Nat → ServerMonitor) (server : Nat) (lsm : List Nat) : List Nat :=
  match deleteIndex heap (heap server).URL lsm with
  | none => lsm
  | some k =>
    match lsm.getLast? with
    | none => lsm
    | some last => (lsm.set k last).dropLast

/-- The method `delete` called on the server at address `server`; `sl` is the
list behind the pointer argument (`none` is the nil slice). -/
def delete (heap : Nat → ServerMonitor) (server : Nat) (sl : Option (List Nat)) :
    Option (List Nat) :=
  sl.map (deleteList heap server)

/-! ## `Ping` (srv.go) -/

/-- What the outside world answers during one call of `Ping`. -/
structure PingObs where
  /-- The connection returned by `server.GetNewDBConn()`, the connectivity
  check of the `tcp` mode (`none` is `nil`). -/
  conn : Option Nat
  /-- The error returned by `server.GetNewDBConn()`. -/
  err : Option GoError
  /-- The response returned by `http.Get`, the connectivity check of the
  `agent` mode: its status code, `none` for a `nil` response. -/
  resp : Option Nat
  /-- The error returned by `http.Get`. -/
  httpErr : Option GoError
  /-- The answers to `server.Refresh()`. -/
  Refresh : RefreshObs
  /-- The error `errss` of `dbhelper.GetSlaveStatus`. -/
  errss : Option GoError
  /-- The value of `cluster.IsActive()`. -/
  IsActive : Bool
  /-- Whether `cluster.Status == ConstMonitorActif`. -/
  StatusIsActif : Bool
  /-- Whether `cluster.Status == ConstMonitorStandby`. -/
  StatusIsStandby : Bool
  /-- The value of `cluster.IsInIgnoredReadonly(server)`. -/
  IsInIgnoredReadonly : Bool
  /-- Whether `cluster.GetTopology() == topoMultiMasterWsrep`. -/
  TopologyIsWsrep : Bool
  deriving DecidableEq, Repr, Inhabited

/-- Modelled from the spec: `IsDiscovered` is declared outside the given
sources; it reads the "discovered" flag of the state machine. -/
def Cluster.IsDiscovered (c : Cluster) : Bool := c.sme.Discovered

/-- Lines 290-296 of `Ping`: the virtual-master flag. -/
def pingVirtualMaster (c : Cluster) (server : Nat) : Cluster :=
  match c.vmaster with
  | some vmaster =>
    c.store server { c.heap server with
      IsVirtualMaster := (c.heap vmaster).ServerID == (c.heap server).ServerID }
  | none => c

/-- Lines 339-352 of `Ping`: the failing server is the current master. -/
def pingFailedMaster (c : Cluster) (server master : Nat) : Cluster × List Event :=
  let url := (c.heap server).URL
  let c1 := c.store server { c.heap server with FailSuspectHeartbeat := c.sme.Heartbeats }
  let ev1 :=
    if (c1.heap master).FailCount ≤ c1.Conf.MaxFail then
      [Event.Log "INFO" "Master Failure detected! Retry %d/%d" url]
    else []
  if (c1.heap server).FailCount ≥ c1.Conf.MaxFail then
    let ev2 :=
      if (c1.heap server).FailCount = c1.Conf.MaxFail then
        [Event.Log "INFO" "Declaring db master as failed %s" url]
      else []
    (c1.store master { c1.heap master with State := stateFailed },
      ev1 ++ ev2 ++ [.Call "DelWaitStopCookie" url])
  else
    (c1.store master { c1.heap master with State := stateSuspect }, ev1)

/-- Lines 354-371 of `Ping`: the failing server is not the master. -/
def pingFailedSlave (c : Cluster) (server : Nat) : Cluster × List Event :=
  let srv := c.heap server
  let ev1 := [Event.Log "DEBUG" "Failure detection of no master FailCount %d MaxFail %d" srv.URL]
  if srv.FailCount ≥ c.Conf.MaxFail then
    if srv.FailCount = c.Conf.MaxFail then
      let c1 := c.store server { srv with State := stateFailed }
      let c2 := { c1 with slaves := delete c1.heap server c1.slaves }
      let srv2 := c2.heap server
      let srv3 :=
        if srv2.Replications.isSome then
          { srv2 with LastSeenReplications := srv2.Replications }
        else srv2
      (c2.store server { srv3 with Replications := none },
        ev1 ++ [.Log "INFO" "Declaring slave db %s as failed" srv.URL,
                .Call "DelWaitStopCookie" srv.URL])
    else (c, ev1)
  else (c.store server { srv with State := stateSuspect }, ev1)

/-- Lines 333-372 of `Ping`: fail accounting for an error other than
`sql.ErrNoRows`. -/
def pingFailCount (c : Cluster) (server : Nat) : Cluster × List Event :=
  let c1 := c.store server { c.heap server with FailCount := (c.heap server).FailCount + 1 }
  let url := (c1.heap server).URL
  match c1.master with
  | none =>
    let r := pingFailedSlave c1 server
    (r.1, [Event.Log "DEBUG" "Master not defined" url] ++ r.2)
  | some master =>
    if url == (c1.heap master).URL then pingFailedMaster c1 server master
    else pingFailedSlave c1 server

/-- Lines 373-387 of `Ping`: alerts on a state change and update of
`PrevState`.  `ProcessFailedSlave` writes no modelled field. -/
def pingFailAlert (c : Cluster) (server : Nat) : Cluster × List Event :=
  let srv := c.heap server
  if srv.PrevState != srv.State then
    let ev1 := [Event.Log "DEBUG" "Server %s state changed from %s to %s" srv.URL]
    let ev2 :=
      if srv.State != stateSuspect then
        [Event.Log "ALERT" "Server %s state changed from %s to %s" srv.URL,
         .Call "backendStateChangeProxies" srv.URL, .Call "SendAlert" srv.URL,
         .Call "ProcessFailedSlave" srv.URL]
      else []
    (c.store server { srv with PrevState := srv.State }, ev1 ++ ev2)
  else (c, [])

/-- Lines 333-387 of `Ping`: fail accounting and alerts, for an error that is
not an access-denied driver error. -/
def pingFailRest (c : Cluster) (server : Nat) (err : GoError) : Cluster × List Event :=
  let r := if err != GoError.ErrNoRows then pingFailCount c server else (c, [])
  let a := pingFailAlert r.1 server
  (a.1, r.2 ++ a.2)

/-- Lines 313-388 of `Ping`: the connectivity check left the error `err`. -/
def pingFailure (c : Cluster) (server : Nat) (err : GoError) : Cluster × List Event :=
  let srv := c.heap server
  let ev0 :=
    if srv.State != stateFailed then [Event.CopyOldStateFromUnknowServer srv.URL] else []
  match err with
  | .MySQLError Number _ =>
    if Number == 1045 then
      (c.store server { srv with State := stateErrorAuth },
        ev0 ++ [.SetState "ERR00004" srv.URL])
    else
      let r := pingFailRest c server err
      (r.1, ev0 ++ [Event.Log "ERROR" "Driver Error %s %d " srv.URL] ++ r.2)
  | _ =>
    let r := pingFailRest c server err
    (r.1, ev0 ++ r.2)

/-- Lines 436-451 of `Ping`: read-only on a server that comes back from
`Failed` or `ErrorAuth`. -/
def pingRejoinReadOnly (c : Cluster) (server : Nat) (o : PingObs) : List Event :=
  let srv := c.heap server
  if c.Conf.ReadOnly && srv.HaveWsrep == false && c.IsDiscovered then
    match c.master with
    | some master =>
      if o.StatusIsActif && (c.heap master).Id != srv.Id && !o.IsInIgnoredReadonly then
        [.Log "INFO" "Setting Read Only on unconnected server %s as active monitor and other master is discovered" srv.URL,
         .Call "SetReadOnly" srv.URL]
      else if o.StatusIsStandby && c.Conf.Arbitration && !o.IsInIgnoredReadonly then
        [.Log "INFO" "Setting Read Only on unconnected server %s as a standby monitor " srv.URL,
         .Call "SetReadOnly" srv.URL]
      else []
    | none => []
  else []

/-- Lines 439-463 of `Ping`: no replication, previous state `Failed` or
`ErrorAuth`. -/
def pingRejoinMaster (c : Cluster) (server : Nat) (o : PingObs) : Cluster × List Event :=
  let srv := c.heap server
  let ev1 := [Event.Log "DEBUG" "State comparison reinitialized failed server %s as unconnected" srv.URL]
  let ev2 := pingRejoinReadOnly c server o
  let c1 := c.store server { srv with State := stateUnconn, FailCount := 0 }
  let ev3 := [Event.Call "backendStateChangeProxies" srv.URL, .Call "SendAlert" srv.URL]
  let ev4 :=
    if c.Conf.Autorejoin && o.IsActive then [Event.Call "RejoinMaster" srv.URL]
    else [.Log "INFO" "Auto Rejoin is disabled" srv.URL]
  (c1, ev1 ++ ev2 ++ ev3 ++ ev4)

/-- Lines 464-479 of `Ping`: no replication, the server is neither `Master`
nor previously `StandAlone`. -/
def pingUnconnected (c : Cluster) (server : Nat) (o : PingObs) : Cluster × List Event :=
  let srv := c.heap server
  let (c1, ev1) :=
    if !o.TopologyIsWsrep then
      (c.store server { srv with State := stateUnconn },
        [Event.Log "DEBUG" "State unconnected set by non-master rule on server %s" srv.URL])
    else (c, [])
  let srv1 := c1.heap server
  let ev2 :=
    if c1.Conf.ReadOnly && srv1.HaveWsrep == false && c1.IsDiscovered && !o.IsInIgnoredReadonly then
      [Event.Log "INFO" "Setting Read Only on unconnected server: %s no master state and replication found" srv.URL,
       .Call "SetReadOnly" srv.URL]
    else []
  let ev3 :=
    if srv1.State != stateSuspect then
      [Event.Call "backendStateChangeProxies" srv.URL, .Call "SendAlert" srv.URL]
    else []
  (c1, ev1 ++ ev2 ++ ev3)

/-- Lines 424-484 of `Ping`: classification from the slave status. -/
def pingClassify (c : Cluster) (server : Nat) (o : PingObs) : Cluster × List Event :=
  let srv := c.heap server
  let noChannel :=
    match o.errss with
    | some e => Contains e.Error "1617"
    | none => false
  if o.errss == some GoError.ErrNoRows || noChannel then
    if srv.PrevState == stateFailed || srv.PrevState == stateErrorAuth then
      pingRejoinMaster c server o
    else if srv.State != stateMaster && srv.PrevState != stateUnconn then
      pingUnconnected c server o
    else (c, [])
  else if o.IsActive && o.errss.isNone && srv.PrevState == stateFailed then
    (c, [.Call "rejoinSlave" srv.URL])
  else (c, [])

/-- Lines 413-422 of `Ping`: cookies of a returning server and reset of
`FailCount`. -/
def pingResetFailCount (c : Cluster) (server : Nat) : Cluster × List Event :=
  let srv := c.heap server
  let ev :=
    if srv.PrevState == stateFailed then
      [Event.Call "DelWaitStartCookie" srv.URL, .Call "DelRestartCookie" srv.URL]
    else []
  if (srv.State != stateFailed && srv.State != stateErrorAuth && srv.State != stateSuspect)
      && decide (srv.FailCount > 0) then
    (c.store server { srv with FailCount := 0, FailSuspectHeartbeat := 0 }, ev)
  else (c, ev)

/-- Lines 486-492 of `Ping`: update of `PrevState` at the end of the success
path. -/
def pingPrevState (c : Cluster) (server : Nat) : Cluster × List Event :=
  let srv := c.heap server
  if srv.PrevState != srv.State then
    let c1 := c.store server { srv with PrevState := srv.State }
    if (c1.heap server).PrevState != stateSuspect then
      (c1, [.Call "backendStateChangeProxies" srv.URL, .Call "SendAlert" srv.URL])
    else (c1, [])
  else (c, [])

/-- Lines 390-493 of `Ping`: the connectivity check left no error.  Closing a
`nil` connection is a nil dereference; the deferred close of the probe
connection is the last event. -/
def pingSuccess (c : Cluster) (server : Nat) (o : PingObs) : Cluster × List Event × Ret :=
  let url := (c.heap server).URL
  if c.sme.InFailover then
    match o.conn with
    | none => (c, [], .panic)
    | some conn => (c, [.ConnClose conn, .Log "DEBUG" "Inside failover, skiping refresh" url], .nil)
  else if (c.heap server).Conn.isNone then
    (c.store server { c.heap server with Conn := o.conn },
      [.Log "INFO" "Assigning a global connection on server %s" url], .nil)
  else
    let (c1, ev1, err) := Refresh c server o.Refresh
    match err with
    | some _ =>
      (c1.store server { c1.heap server with Conn := o.conn },
        ev1 ++ [.Log "INFO" "Server refresh failed but ping connect %s" url], .nil)
    | none =>
      match o.conn with
      | none => (c1, ev1, .panic)
      | some conn =>
        let (c2, ev2) := pingResetFailCount c1 server
        let (c3, ev3) := pingClassify c2 server o
        let (c4, ev4) := pingPrevState c3 server
        (c4, ev1 ++ ev2 ++ ev3 ++ ev4 ++ [.ConnClose conn], .nil)

/-- Lines 297-309 of `Ping`: the `switch` on `CheckType`.  The result is the
pair of the variables `conn` and `err` when the switch is left.  In `tcp` mode
both come from `GetNewDBConn`.  In `agent` mode `conn` stays `nil` and line
305 reads `resp.StatusCode`: on a `nil` response this is a nil dereference
(the result `none`), on a status other than 200 `err` is replaced by the
error "HTTP Response Code Error".  With any other value no case is taken and
both variables stay `nil`. -/
def pingCheck (conf : Config) (o : PingObs) : Option (Option Nat × Option GoError) :=
  if conf.CheckType == "tcp" then some (o.conn, o.err)
  else if conf.CheckType == "agent" then
    match o.resp with
    | none => none
    | some status =>
      if status != 200 then
        some (none, some (.Other ("HTTP Response Code Error: " ++ toString status)))
      else some (none, o.httpErr)
  else some (none, none)

/-- The method `Ping` called on the server at address `server`.  After the
`switch` on `CheckType` the code goes on with the variables `conn` and `err`:
`pingSuccess` reads `conn` in the field `conn` of its observation.  The
methods `SetReadOnly`, `RejoinMaster` and `rejoinSlave` are declared outside
the given sources: they are recorded in the trace and their own writes are
not modelled. -/
def Ping (c : Cluster) (server : Nat) (o : PingObs) : Cluster × List Event × Ret :=
  let c0 := pingVirtualMaster c server
  match pingCheck c.Conf o with
  | none => (c0, [], .panic)
  | some (conn, err) =>
    match err with
    | some err =>
      let r := pingFailure c0 server err
      (r.1, r.2, .nil)
    | none => pingSuccess c0 server { o with conn := conn }

/-! ## `BootstrapReplicationCleanup` and `BootstrapReplication` (prov.go) -/

/-- What topology discovery finds: its error and the pointers it derives. -/
structure TopologyObs where
  err : Option GoError
  master : Option Nat
  vmaster : Option Nat
  slaves : Option (List Nat)
  deriving DecidableEq, Repr, Inhabited

/-- Modelled from the spec: `TopologyDiscover` is declared outside the given
sources.  From the server states it derives the master, vmaster and slaves
pointers; it refuses to rewrite them while the failover gate is set; it
returns an error when the topology is ambiguous or no master is elected. -/
def TopologyDiscover (c : Cluster) (o : TopologyObs) : Cluster × Option GoError :=
  if c.sme.InFailover then (c, o.err)
  else ({ c with master := o.master, vmaster := o.vmaster, slaves := o.slaves }, o.err)

/-- Modelled from the spec: the getter `IsPrefered` is declared outside the
given sources; it reads the role flag `Prefered`. -/
def ServerMonitor.IsPrefered (s : ServerMonitor) : Bool := s.Prefered

/-- The method `StopSlave` (srv.go). -/
def StopSlave (c : Cluster) (server : Nat) (db : DBObs) : List Event × Option GoError :=
  if (c.heap server).Conn.isNone then ([], some (.Other "No database connection pool"))
  else ([.SQL (c.heap server).URL (.StopSlave c.Conf.MasterConn)], db.StopSlave)

/-- One iteration of the loop of `BootstrapReplicationCleanup`, after a
successful refresh (lines 409-441). -/
def cleanupServer (c : Cluster) (server : Nat) (db : DBObs) : List Event :=
  let srv := c.heap server
  let url := srv.URL
  let ev1 :=
    (if c.Conf.Verbose then [Event.Log "INFO" "SetDefaultMasterConn on server %s " url] else [])
      ++ [.SQL url (.SetDefaultMasterConn c.Conf.MasterConn),
          .LogSQL db.SetDefaultMasterConn "BootstrapReplicationCleanup %s %s " url]
  if db.SetDefaultMasterConn.isSome then
    ev1 ++ (if c.Conf.Verbose then [Event.Log "INFO" "RemoveFailoverState on server %s " url] else [])
  else
    let ev2 :=
      [Event.Log "INFO" "Reset Master on server %s " url,
       .SQL url (.ResetMaster c.Conf.MasterConn),
       .LogSQL db.ResetMaster "Reset Master on server %s %s" url]
        ++ (if c.Conf.Verbose then [Event.Log "INFO" "Stop all slaves or stop slave %s " url] else [])
    let stop :=
      if srv.DBVersion.IsMariaDB then ([Event.SQL url .StopAllSlaves], db.StopAllSlaves)
      else StopSlave c server db
    let ev3 := stop.1 ++ [.LogSQL stop.2 "Stop all slaves or just slave %s %s" url]
    let ev4 :=
      if srv.DBVersion.IsMariaDB then
        (if c.Conf.Verbose then [Event.Log "INFO" "SET GLOBAL gtid_slave_pos='' on %s" url] else [])
          ++ [.SQL url (.SetGTIDSlavePos ""),
              .LogSQL db.SetGTIDSlavePos "Can reset GTID slave pos %s %s" url]
      else []
    ev1 ++ ev2 ++ ev3 ++ ev4

/-- The loop of `BootstrapReplicationCleanup` over the remaining servers.  The
third component is the error of an early `return err`. -/
def cleanupLoop (db : Nat → DBObs) : List Nat → Cluster → List Event →
    Cluster × List Event × Option GoError
  | [], c, ev => (c, ev, none)
  | server :: rest, c, ev =>
    let (c1, ev1, err) := Refresh c server (db server).Refresh
    match err with
    | some e =>
      (c1, ev ++ ev1 ++ [.Log "ERROR" "Refresh failed in Cleanup on server %s %s" (c1.heap server).URL],
        some e)
    | none => cleanupLoop db rest c1 (ev ++ ev1 ++ cleanupServer c1 server (db server))

/-- The method `BootstrapReplicationCleanup`. -/
def BootstrapReplicationCleanup (c : Cluster) (db : Nat → DBObs) :
    Cluster × List Event × Ret :=
  let ev0 := [Event.Log "INFO" "Cleaning up replication on existing servers" ""]
  let c0 := c.SetFailoverState
  let (c1, ev1, err) := cleanupLoop db c0.Servers c0 ev0
  match err with
  | some e => (c1, ev1, .err e)
  | none =>
    let c2 := { c1 with master := none, vmaster := none, slaves := none }
    (c2.RemoveFailoverState, ev1, .nil)

/-- Lines 466-472 of `BootstrapReplication`: refresh every server that is not
`Failed`. -/
def bootstrapRefresh (db : Nat → DBObs) : List Nat → Cluster → List Event →
    Cluster × List Event
  | [], c, ev => (c, ev)
  | server :: rest, c, ev =>
    if (c.heap server).State == stateFailed then bootstrapRefresh db rest c ev
    else
      let (c1, ev1, _) := Refresh c server (db server).Refresh
      bootstrapRefresh db rest c1 (ev ++ ev1)

/-- Lines 484-493 of `BootstrapReplication`: the index of the first server
flagged preferred, `-1` when there is none; `k` is the index of the head of
the list. -/
def preferedKey (heap : Nat → ServerMonitor) : List Nat → Int → Int
  | [], _ => -1
  | server :: rest, k => if (heap server).IsPrefered then k else preferedKey heap rest (k + 1)

/-- The read-only call that follows a `ChangeMasterTo` in the wiring loops. -/
def setReadOnlyUnlessIgnored (c : Cluster) (server : Nat) (db : Nat → DBObs) : List Event :=
  if !(db server).IsInIgnoredReadonly then [.Call "SetReadOnly" (c.heap server).URL] else []

/-- Lines 502-517 of `BootstrapReplication`: the master-slave loop.  The third
component is an early exit (here only a panic). -/
def wireMasterSlave (db : Nat → DBObs) (masterKey : Int) : List Nat → Int → Cluster →
    List Event → Cluster × List Event × Option Ret
  | [], _, c, ev => (c, ev, none)
  | server :: rest, key, c, ev =>
    if (c.heap server).State == stateFailed then wireMasterSlave db masterKey rest (key + 1) c ev
    else if key == masterKey then
      wireMasterSlave db masterKey rest (key + 1) c
        (ev ++ [.SQL (c.heap server).URL .FlushTables, .Call "SetReadWrite" (c.heap server).URL])
    else
      match c.Servers[masterKey.toNat]? with
      | none => (c, ev, some .panic)
      | some master =>
        let (c1, ev1, r) := ChangeMasterTo c server master "SLAVE_POS" db
        let ev2 := ev ++ [.ChangeMasterTo server master "SLAVE_POS"] ++ ev1
        match r with
        | .panic => (c1, ev2, some .panic)
        | _ =>
          wireMasterSlave db masterKey rest (key + 1) c1
            (ev2 ++ setReadOnlyUnlessIgnored c1 server db)

/-- Lines 523-553 of `BootstrapReplication`: the multi-tier loop, with
`masterKey = 0` and `relaykey = 1`. -/
def wireMultiTier (db : Nat → DBObs) : List Nat → Int → Cluster → List Event →
    Cluster × List Event × Option Ret
  | [], _, c, ev => (c, ev, none)
  | server :: rest, key, c, ev =>
    if (c.heap server).State == stateFailed then wireMultiTier db rest (key + 1) c ev
    else if key == 0 then
      wireMultiTier db rest (key + 1) c
        (ev ++ [.SQL (c.heap server).URL .FlushTables, .Call "SetReadWrite" (c.heap server).URL])
    else
      let url := (c.heap server).URL
      let ev0 := ev ++ [.SQL url .StopAllSlaves, .SQL url .ResetAllSlaves]
      match c.Servers[if key == 1 then 0 else 1]? with
      | none => (c, ev0, some .panic)
      | some source =>
        let (c1, ev1, r) := ChangeMasterTo c server source "CURRENT_POS" db
        let ev2 := ev0 ++ [.ChangeMasterTo server source "CURRENT_POS"] ++ ev1
        match r with
        | .panic => (c1, ev2, some .panic)
        | .err e => (c1.RemoveFailoverState, ev2, some (.err e))
        | .nil =>
          wireMultiTier db rest (key + 1) c1 (ev2 ++ setReadOnlyUnlessIgnored c1 server db)

/-- Lines 562-578 of `BootstrapReplication`: what the multi-master loop does
for the servers of index 0 and 1 before the common read-only call. -/
def wireMultiMasterPair (db : Nat → DBObs) (server : Nat) (key : Int) (c : Cluster) :
    Cluster × List Event × Option Ret :=
  if key == 0 then
    match c.Servers[1]? with
    | none => (c, [], some .panic)
    | some partner =>
      let (c1, ev1, r) := ChangeMasterTo c server partner "CURRENT_POS" db
      let ev2 := Event.ChangeMasterTo server partner "CURRENT_POS" :: ev1
      match r with
      | .panic => (c1, ev2, some .panic)
      | .err e => (c1.RemoveFailoverState, ev2, some (.err e))
      | .nil => (c1, ev2 ++ setReadOnlyUnlessIgnored c1 server db, none)
  else if key == 1 then
    match c.Servers[0]? with
    | none => (c, [], some .panic)
    | some partner =>
      let (c1, ev1, r) := ChangeMasterTo c server partner "CURRENT_POS" db
      let ev2 := Event.ChangeMasterTo server partner "CURRENT_POS" :: ev1
      match r with
      | .panic => (c1, ev2, some .panic)
      | .err e => (c1.RemoveFailoverState, ev2, some (.err e))
      | .nil => (c1, ev2, none)
  else (c, [], none)

/-- Lines 558-582 of `BootstrapReplication`: the multi-master loop. -/
def wireMultiMaster (db : Nat → DBObs) : List Nat → Int → Cluster → List Event →
    Cluster × List Event × Option Ret
  | [], _, c, ev => (c, ev, none)
  | server :: rest, key, c, ev =>
    if (c.heap server).State == stateFailed then wireMultiMaster db rest (key + 1) c ev
    else
      let (c1, ev1, r) := wireMultiMasterPair db server key c
      match r with
      | some x => (c1, ev ++ ev1, some x)
      | none =>
        wireMultiMaster db rest (key + 1) c1 (ev ++ ev1 ++ setReadOnlyUnlessIgnored c1 server db)

/-- Lines 586-599 of `BootstrapReplication`: the ring loop. -/
def wireRing (db : Nat → DBObs) : List Nat → Int → Cluster → List Event →
    Cluster × List Event × Option Ret
  | [], _, c, ev => (c, ev, none)
  | server :: rest, key, c, ev =>
    if (c.heap server).State == stateFailed then wireRing db rest (key + 1) c ev
    else
      let n : Int := c.Servers.length
      let i := (n + key - 1) % n
      match c.Servers[i.toNat]? with
      | none => (c, ev, some .panic)
      | some source =>
        let (c1, ev1, r) := ChangeMasterTo c server source "SLAVE_POS" db
        let ev2 := ev ++ [.ChangeMasterTo server source "SLAVE_POS"] ++ ev1
        match r with
        | .panic => (c1, ev2, some .panic)
        | .err e => (c1.RemoveFailoverState, ev2, some (.err e))
        | .nil => wireRing db rest (key + 1) { c1 with vmaster := c1.Servers[0]? } ev2

/-- Run the next block of a function unless an earlier block has already
returned or panicked. -/
def andThen (r : Cluster × List Event × Option Ret)
    (f : Cluster → List Event → Cluster × List Event × Option Ret) :
    Cluster × List Event × Option Ret :=
  match r.2.2 with
  | some _ => r
  | none => f r.1 r.2.1

/-- Lines 460-465 of `BootstrapReplication`: the optional cleanup, whose error
is only logged. -/
def bootstrapClean (c : Cluster) (clean : Bool) (db : Nat → DBObs) : Cluster × List Event :=
  if clean then
    let r := BootstrapReplicationCleanup c db
    match r.2.2 with
    | .nil => (r.1, r.2.1)
    | _ => (r.1, r.2.1 ++ [Event.Log "ERROR" "Cleanup error %s" ""])
  else (c, [])

/-- Lines 451-480 of `BootstrapReplication`: the Galera exit, the optional
cleanup, the refresh of the servers and the first topology discovery.  The
third component is an early `return`. -/
def bootstrapPrepare (c : Cluster) (clean : Bool) (db : Nat → DBObs) (topo : TopologyObs) :
    Cluster × List Event × Option Ret :=
  if c.Conf.MultiMasterWsrep then
    (c, [.Log "INFO" "Galera cluster ignoring replication setup" ""], some .nil)
  else
    let r1 := bootstrapClean c clean db
    let r2 := bootstrapRefresh db r1.1.Servers r1.1 r1.2
    let r3 := TopologyDiscover r2.1 topo
    match r3.2 with
    | none =>
      (r3.1, r2.2 ++ [.TopologyDiscover],
        some (.err (.Other "Environment already has an existing master/slave setup")))
    | some _ => (r3.1, r2.2 ++ [.TopologyDiscover], none)

/-- Lines 481-494 of `BootstrapReplication`: take the failover gate and select
the master index.  With a non-empty `PrefMaster` the function literal
releases the gate before it returns its index. -/
def selectMaster (c : Cluster) : Cluster × Int :=
  let c1 := c.SetFailoverState
  if c1.Conf.PrefMaster != "" then
    (c1.RemoveFailoverState, preferedKey c1.heap c1.Servers 0)
  else (c1, 0)

/-- Lines 499-518 of `BootstrapReplication`: master-slave wiring, made when no
other topology flag is set. -/
def phaseMasterSlave (db : Nat → DBObs) (masterKey : Int) (c : Cluster) (ev : List Event) :
    Cluster × List Event × Option Ret :=
  if c.Conf.MultiMasterRing == false && c.Conf.MultiMaster == false
      && c.Conf.MxsBinlogOn == false && c.Conf.MultiTierSlave == false then
    wireMasterSlave db masterKey c.Servers 0 c ev
  else (c, ev, none)

/-- Lines 519-555 of `BootstrapReplication`: multi-tier wiring. -/
def phaseMultiTier (db : Nat → DBObs) (c : Cluster) (ev : List Event) :
    Cluster × List Event × Option Ret :=
  if c.Conf.MultiTierSlave == true then
    andThen (wireMultiTier db c.Servers 0 c ev) fun c1 ev1 =>
      match c1.Servers[0]? with
      | none => (c1, ev1, some .panic)
      | some master =>
        (c1, ev1 ++ [.Log "INFO" "Environment bootstrapped with %s as master" (c1.heap master).URL],
          none)
  else (c, ev, none)

/-- Lines 556-583 of `BootstrapReplication`: two-node multi-master wiring. -/
def phaseMultiMaster (db : Nat → DBObs) (c : Cluster) (ev : List Event) :
    Cluster × List Event × Option Ret :=
  if c.Conf.MultiMaster == true then wireMultiMaster db c.Servers 0 c ev else (c, ev, none)

/-- Lines 584-600 of `BootstrapReplication`: ring wiring. -/
def phaseRing (db : Nat → DBObs) (c : Cluster) (ev : List Event) :
    Cluster × List Event × Option Ret :=
  if c.Conf.MultiMasterRing == true then wireRing db c.Servers 0 c ev else (c, ev, none)

/-- Lines 499-609 of `BootstrapReplication`: the wiring with the selected
master index, the release of the gate and the second topology discovery,
whose error is dropped. -/
def bootstrapWire (c : Cluster) (db : Nat → DBObs) (masterKey : Int) (ev : List Event)
    (topo : TopologyObs) : Cluster × List Event × Ret :=
  let r :=
    andThen (andThen (andThen (phaseMasterSlave db masterKey c ev) (phaseMultiTier db))
      (phaseMultiMaster db)) (phaseRing db)
  match r.2.2 with
  | some x => (r.1, r.2.1, x)
  | none =>
    let c1 := r.1.RemoveFailoverState
    ((TopologyDiscover c1 topo).1, r.2.1 ++ [.TopologyDiscover], .nil)

/-- The method `BootstrapReplication`; `topo1` and `topo2` are what the first
and the second topology discovery find. -/
def BootstrapReplication (c : Cluster) (clean : Bool) (db : Nat → DBObs)
    (topo1 topo2 : TopologyObs) : Cluster × List Event × Ret :=
  match bootstrapPrepare c clean db topo1 with
  | (c1, ev1, some r) => (c1, ev1, r)
  | (c1, ev1, none) =>
    let (c2, masterKey) := selectMaster c1
    if masterKey == -1 then
      (c2, ev1, .err (.Other "Preferred master could not be found in existing servers"))
    else bootstrapWire c2 db masterKey ev1 topo2

/-! ## Runs of the monitor -/

/-- A run of consecutive ticks of the monitor of one server.  Before each tick
the rest of the system has set the state machine (heartbeat counter, failover
gate, discovered flag); the run stops at a panic. -/
def pingRun (server : Nat) : List (StateMachine × PingObs) → Cluster → Cluster × List Event × Ret
  | [], c => (c, [], .nil)
  | (sme, o) :: rest, c =>
    let r := Ping { c with sme := sme } server o
    match r.2.2 with
    | .nil =>
      let r2 := pingRun server rest r.1
      (r2.1, r.2.1 ++ r2.2.1, r2.2.2)
    | x => (r.1, r.2.1, x)

/-! ## Reading a trace -/

/-- Whether an event acts on a database or on the replication set-up: a
command sent to a database, or a call of `SetReadOnly`, `SetReadWrite`,
`RejoinMaster`, `rejoinSlave` or `ChangeMasterTo`. -/
def Event.isAction : Event → Bool
  | .SQL _ _ => true
  | .ChangeMasterTo _ _ _ => true
  | .Call n _ => n == "SetReadOnly" || n == "SetReadWrite" || n == "RejoinMaster"
      || n == "rejoinSlave"
  | _ => false

/-- A trace without any action on a database or on the replication set-up. -/
def passive (ev : List Event) : Prop := ∀ e ∈ ev, Event.isAction e = false

/-- Whether an event is the log line with the given format string. -/
def isLog (format : String) : Event → Bool
  | .Log _ f _ => f == format
  | _ => false

/-- How many times the log line with the given format string occurs. -/
def countLog (format : String) (ev : List Event) : Nat := ev.countP (isLog format)

/-- Whether an event is a call of the named method. -/
def isCall (name : String) : Event → Bool
  | .Call n _ => n == name
  | _ => false

/-- Whether the named method is called somewhere in the trace. -/
def calls (name : String) (ev : List Event) : Bool := ev.any (isCall name)

/-- The access-denied test of `Ping`: a driver error with number 1045. -/
def accessDenied : GoError → Bool
  | .MySQLError n _ => n == 1045
  | _ => false

/-- The three replication styles of `ChangeMasterTo`. -/
inductive Style where
  | MariaDBGtid
  | AutoPosition
  | Positional
  deriving DecidableEq, Repr

/-- The replication style shown by a trace of `ChangeMasterTo`, read off the
first replication command in it: setting `gtid_slave_pos` is the MariaDB GTID
style; a CHANGE MASTER is classified by its mode. -/
def styleOf : List Event → Option Style
  | [] => none
  | .SQL _ (.SetGlobalGtidSlavePos _) :: _ => some .MariaDBGtid
  | .SQL _ (.ChangeMaster opt) :: _ =>
    if opt.Mode == "MASTER_AUTO_POSITION" then some .AutoPosition
    else if opt.Mode == "POSITIONAL" then some .Positional
    else none
  | _ :: rest => styleOf rest

/-- The fields of a server record that `Refresh` never writes. -/
def kept (s : ServerMonitor) :=
  (s.Id, s.URL, s.Host, s.Port, s.PrevState, s.FailCount, s.FailSuspectHeartbeat, s.Conn,
    s.Prefered, s.LastSeenReplications, s.IsDelayed, s.PostgressDB, s.IsVirtualMaster)

/-! ## Concrete inputs -/

/-- A MariaDB 10.5 server `a:3306` with a connection, in state `Slave`. -/
def srvA : ServerMonitor :=
  { (default : ServerMonitor) with
    Id := "db1", URL := "a:3306", Host := "a", Port := "3306", ServerID := 1,
    State := stateSlave, PrevState := stateSlave, Conn := some 1,
    Replications := some [{ ConnectionName := "", MasterHost := "b", MasterPort := "3306" }],
    DBVersion := { Flavor := "MariaDB", Major := 10, Minor := 5, Release := 0 } }

/-- A MariaDB 10.5 server `b:3306` with a connection, in state `Master`. -/
def srvB : ServerMonitor :=
  { (default : ServerMonitor) with
    Id := "db2", URL := "b:3306", Host := "b", Port := "3306", ServerID := 2,
    State := stateMaster, PrevState := stateMaster, Conn := some 2,
    BinaryLogFile := "bin.000001", BinaryLogPos := "4",
    DBVersion := { Flavor := "MariaDB", Major := 10, Minor := 5, Release := 0 } }

/-- A MariaDB 10.5 server `c:3306` with a connection, in state `Slave`. -/
def srvC : ServerMonitor :=
  { srvA with Id := "db3", URL := "c:3306", Host := "c", ServerID := 3 }

/-- The memory of the sample cluster: `srvA` at address 0, `srvB` at address 1,
`srvC` everywhere else. -/
def sampleHeap : Nat → ServerMonitor := fun p => if p = 0 then srvA else if p = 1 then srvB else srvC

/-- A cluster of three servers with `b` as master, `MaxFail = 3`, read-only by
default, discovered, gate released. -/
def sampleCluster : Cluster :=
  { heap := sampleHeap, Servers := [0, 1, 2], master := some 1, vmaster := none,
    slaves := some [0, 2],
    sme := { Heartbeats := 7, InFailover := false, Discovered := true },
    Conf := { (default : Config) with CheckType := "tcp", MaxFail := 3, ReadOnly := true },
    rplUser := "repl", rplPass := "secret" }

/-- Database answers without any error. -/
def quietDB : Nat → DBObs := fun _ => default

/-- A tick whose connectivity check fails with a timeout. -/
def failingObs : PingObs :=
  { (default : PingObs) with err := some (.Other "dial tcp: i/o timeout") }

/-- A tick whose connectivity check succeeds, whose refresh succeeds and whose
slave status is empty (`sql.ErrNoRows`); the monitor is the active one. -/
def standaloneObs : PingObs :=
  { (default : PingObs) with
    conn := some 9, errss := some .ErrNoRows, IsActive := true, StatusIsActif := true }

/-- The sample cluster after the slave `a` has reached `FailCount = MaxFail = 3`
and is classified `Slave` again. -/
def flappingSlave : Cluster := sampleCluster.store 0 { srvA with FailCount := 3 }

/-- The sample cluster where the slave `a` has failed twice (`Suspect`,
`FailCount = 2`) and the slaves list names it twice. -/
def doubleSlave : Cluster :=
  { sampleCluster.store 0
      { srvA with FailCount := 2, State := stateSuspect, PrevState := stateSuspect } with
    slaves := some [0, 0] }

/-- How many entries of a server list have the given URL. -/
def countURL (heap : Nat → ServerMonitor) (url : String) (l : List Nat) : Nat :=
  l.countP (fun p => (heap p).URL == url)

/-- Whether the connectivity check of a tick failed with an error that is
counted: neither the access-denied driver error nor `sql.ErrNoRows`. -/
def failing (conf : Config) (o : PingObs) : Bool :=
  match pingCheck conf o with
  | some (_, some e) => !accessDenied e && e != GoError.ErrNoRows
  | _ => false

/-- The sample cluster after one failed probe of the slave `a`, taken as a
server that has no replication: `Suspect`, `FailCount = 1`. -/
def suspectSlave : Cluster :=
  sampleCluster.store 0
    { srvA with FailCount := 1, State := stateSuspect, PrevState := stateSuspect,
                Replications := none }

/-- The sample cluster after the slave `a` has been declared `Failed`. -/
def failedSlave : Cluster :=
  { sampleCluster.store 0
      { srvA with FailCount := 3, State := stateFailed, PrevState := stateFailed,
                  Replications := none } with
    slaves := some [2] }

/-- A successful tick with empty slave status on a server that runs wsrep. -/
def wsrepObs : PingObs :=
  { standaloneObs with Refresh := { (default : RefreshObs) with HasWsrep := true } }

/-- Whether an event is a wiring command of the bootstrap: a call of
`ChangeMasterTo`, a CHANGE MASTER with the `gtid_slave_pos` and START SLAVE
statements of `ChangeMasterTo`, or a read/write or read-only change. -/
def Event.isWiring : Event → Bool
  | .ChangeMasterTo _ _ _ => true
  | .SQL _ (.ChangeMaster _) => true
  | .SQL _ (.SetGlobalGtidSlavePos _) => true
  | .SQL _ (.StartSlave _) => true
  | .Call n _ => n == "SetReadWrite" || n == "SetReadOnly"
  | _ => false

/-- A trace without any wiring command. -/
def noWiring (ev : List Event) : Prop := ∀ e ∈ ev, Event.isWiring e = false

/-- The second cluster has the configuration, the server list and the
preferred flags of the first. -/
def sameSetup (c c2 : Cluster) : Prop :=
  c2.Conf = c.Conf ∧ c2.Servers = c.Servers ∧ ∀ q, (c2.heap q).Prefered = (c.heap q).Prefered

/-- The sample cluster with `PrefMaster` set and the server `b` flagged
preferred; topology discovery has not run yet. -/
def preferedCluster : Cluster :=
  { heap := fun p => if p = 1 then { srvB with Prefered := true } else sampleHeap p,
    Servers := [0, 1, 2], master := none, vmaster := none, slaves := none,
    sme := { Heartbeats := 7, InFailover := false, Discovered := false },
    Conf := { (default : Config) with CheckType := "tcp", MaxFail := 3, ReadOnly := true,
                                      PrefMaster := "b:3306" },
    rplUser := "repl", rplPass := "secret" }

/-- A topology discovery that finds no master. -/
def emptyTopology : TopologyObs :=
  { err := some (.Other "No master found"), master := none, vmaster := none, slaves := none }

/-- A topology discovery that finds the master `b` and the slaves `a`, `c`. -/
def foundTopology : TopologyObs :=
  { err := none, master := some 1, vmaster := none, slaves := some [0, 2] }

/-- The cluster `flappingSlave` while a failover holds the gate. -/
def flappingInFailover : Cluster :=
  { flappingSlave with sme := { flappingSlave.sme with InFailover := true } }
/-! ## Reading the wiring of a bootstrap -/

/-- Whether an event is one of the calls by which the bootstrap wires a
server: a call of `ChangeMasterTo`, `SetReadWrite` or `SetReadOnly`. -/
def Event.isWiringCall : Event → Bool
  | .ChangeMasterTo _ _ _ => true
  | .Call n _ => n == "SetReadWrite" || n == "SetReadOnly"
  | _ => false

/-- The wiring calls of a trace, in program order. -/
def wiringCalls (ev : List Event) : List Event := ev.filter Event.isWiringCall

/-- The calls made for the servers of a list, in list order: `f k s` are the
calls for the server `s` found at index `k`; the last argument is the index of
the head of the list. -/
def perServer (f : Nat → Nat → List Event) : List Nat → Nat → List Event
  | [], _ => []
  | s :: rest, k => f k s ++ perServer f rest (k + 1)

/-- The second cluster has the configuration and the server list of the
first; every record has kept the fields that `Refresh` never writes, and no
record that was not `Failed` has become `Failed`. -/
def sameServers (c c2 : Cluster) : Prop :=
  c2.Conf = c.Conf ∧ c2.Servers = c.Servers ∧ (∀ q, kept (c2.heap q) = kept (c.heap q))
    ∧ ∀ q, (c.heap q).State ≠ stateFailed → (c2.heap q).State ≠ stateFailed

/-- The wiring of master-slave mode in the words of the specification: the
server at the master index is set read/write; every other server is pointed at
the master with `SLAVE_POS` and set read-only unless it is in the
ignored-readonly set. -/
def masterSlaveWiring (c : Cluster) (db : Nat → DBObs) (masterKey master : Nat) : List Event :=
  perServer (fun k s =>
    if k = masterKey then [Event.Call "SetReadWrite" (c.heap s).URL]
    else if (db s).IsInIgnoredReadonly = true then [Event.ChangeMasterTo s master "SLAVE_POS"]
    else [Event.ChangeMasterTo s master "SLAVE_POS", Event.Call "SetReadOnly" (c.heap s).URL])
    c.Servers 0

/-- The wiring of multi-tier mode as the code makes it: server 0 is set
read/write; server 1 is pointed at server 0 and every later server at server 1,
with `CURRENT_POS`; each of them is set read-only unless it is in the
ignored-readonly set. -/
def multiTierWiring (c : Cluster) (db : Nat → DBObs) (s0 s1 : Nat) : List Event :=
  perServer (fun k s =>
    if k = 0 then [Event.Call "SetReadWrite" (c.heap s).URL]
    else Event.ChangeMasterTo s (if k = 1 then s0 else s1) "CURRENT_POS"
      :: setReadOnlyUnlessIgnored c s db)
    c.Servers 0

/-- The wiring of two-node multi-master mode as the code makes it: server 0 is
pointed at server 1 and server 1 at server 0, with `CURRENT_POS`; no other
server is pointed anywhere; every server is set read-only unless it is in the
ignored-readonly set, server 0 twice. -/
def multiMasterWiring (c : Cluster) (db : Nat → DBObs) (s0 s1 : Nat) : List Event :=
  perServer (fun k s =>
    (if k = 0 then
      Event.ChangeMasterTo s s1 "CURRENT_POS" :: setReadOnlyUnlessIgnored c s db
     else if k = 1 then [Event.ChangeMasterTo s s0 "CURRENT_POS"]
     else []) ++ setReadOnlyUnlessIgnored c s db)
    c.Servers 0

/-- The wiring of ring mode in the words of the specification: the server at
index `k` is pointed, with `SLAVE_POS`, at the server at index `n - 1` when
`k = 0` and `k - 1` otherwise, `n` being the number of servers. -/
def ringWiring (c : Cluster) : List Event :=
  perServer (fun k s =>
    match c.Servers[if k = 0 then c.Servers.length - 1 else k - 1]? with
    | some source => [Event.ChangeMasterTo s source "SLAVE_POS"]
    | none => [])
    c.Servers 0

/-- The memory of a freshly provisioned cluster: the MariaDB 10.5 servers
`a:3306`, `b:3306` and `c:3306` at the addresses 0, 1 and 2, each with a
connection, in state `StandAlone` and without replication. -/
def freshHeap : Nat → ServerMonitor := fun p =>
  { sampleHeap p with State := stateUnconn, PrevState := stateUnconn, Replications := none }

/-- A freshly provisioned cluster of three servers: no topology flag set (the
master-slave mode), no `PrefMaster`, nothing discovered, gate released. -/
def freshCluster : Cluster :=
  { heap := freshHeap, Servers := [0, 1, 2], master := none, vmaster := none, slaves := none,
    sme := { Heartbeats := 7, InFailover := false, Discovered := false },
    Conf := { (default : Config) with CheckType := "tcp", MaxFail := 3, ReadOnly := true },
    rplUser := "repl", rplPass := "secret" }

/-- The fresh cluster in multi-tier mode. -/
def tierCluster : Cluster :=
  { freshCluster with Conf := { freshCluster.Conf with MultiTierSlave := true } }

/-- The fresh cluster in multi-tier mode with a `PrefMaster` that names none of
its servers: no server is flagged preferred. -/
def tierNoPrefered : Cluster :=
  { freshCluster with
    Conf := { freshCluster.Conf with MultiTierSlave := true, PrefMaster := "d:3306" } }

/-- Database answers without any error, where the server `c` (address 2) is in
the ignored-readonly set. -/
def ignoredDB : Nat → DBObs := fun p =>
  if p = 2 then { (default : DBObs) with IsInIgnoredReadonly := true } else default

/-- The fresh cluster in two-node multi-master mode, with a third server
declared. -/
def multiMasterCluster : Cluster :=
  { freshCluster with Conf := { freshCluster.Conf with MultiMaster := true } }

/-- The fresh cluster in ring mode. -/
def ringCluster : Cluster :=
  { freshCluster with Conf := { freshCluster.Conf with MultiMasterRing := true } }

/-- The servers on which a cleanup has been attempted, in program order: the
URLs of the `SetDefaultMasterConn` commands of a trace, the first command of
the cleanup of a server. -/
def cleanupAttempts : List Event → List String
  | [] => []
  | .SQL url (.SetDefaultMasterConn _) :: rest => url :: cleanupAttempts rest
  | _ :: rest => cleanupAttempts rest

/-- Database answers where the persistent connection of the server `b`
(address 1) does not answer the ping of `Refresh`, and every other answer is
without error. -/
def unreachableDB : Nat → DBObs := fun p =>
  if p = 1 then
    { (default : DBObs) with
      Refresh := { (default : RefreshObs) with PingErr := some (.Other "invalid connection") } }
  else default

/-- The fresh cluster in ring mode with `PrefMaster` set and the server `b`
flagged preferred. -/
def ringPrefered : Cluster :=
  { freshCluster with
    heap := fun p => if p = 1 then { freshHeap 1 with Prefered := true } else freshHeap p,
    Conf := { freshCluster.Conf with MultiMasterRing := true, PrefMaster := "b:3306" } }

/-- Database answers where the cleanup commands fail: `SetDefaultMasterConn`
on the server `a` (address 0), `ResetMaster`, `StopAllSlaves` and
`SetGTIDSlavePos` on the server `b` (address 1); every refresh succeeds. -/
def commandErrorDB : Nat → DBObs := fun p =>
  if p = 0 then
    { (default : DBObs) with SetDefaultMasterConn := some (.Other "Unknown system variable") }
  else if p = 1 then
    { (default : DBObs) with
      ResetMaster := some (.Other "Access denied"),
      StopAllSlaves := some (.Other "Access denied"),
      SetGTIDSlavePos := some (.Other "Access denied") }
  else default

/-! ## Orchestrator-facing operations (prov.go) -/

/-- Modelled from the spec: the constant `config.ConstOrchestratorOpenSVC` is
declared outside the given sources; the spec lists `opensvc` among the values
of `ProvOrchestrator`. -/
def ConstOrchestratorOpenSVC : String := "opensvc"

/-- Modelled from the spec: the constant `config.ConstOrchestratorKubernetes`
is declared outside the given sources; the spec lists `kubernetes` among the
values of `ProvOrchestrator`. -/
def ConstOrchestratorKubernetes : String := "kubernetes"

/-- Modelled from the spec: the constant `config.ConstOrchestratorSlapOS` is
declared outside the given sources; the spec lists `slapos` among the values
of `ProvOrchestrator`. -/
def ConstOrchestratorSlapOS : String := "slapos"

/-- Modelled from the spec: the constant `config.ConstOrchestratorOnPremise`
is declared outside the given sources; the spec lists `onpremise` among the
values of `ProvOrchestrator`. -/
def ConstOrchestratorOnPremise : String := "onpremise"

/-- Modelled from the spec: the constant `config.ConstOrchestratorLocalhost`
is declared outside the given sources; the spec lists `localhost` among the
values of `ProvOrchestrator`. -/
def ConstOrchestratorLocalhost : String := "localhost"

/-- Modelled from the spec: `UnDiscovered` of the state machine is declared
outside the given sources; it clears the "discovered" flag. -/
def Cluster.UnDiscovered (c : Cluster) : Cluster :=
  { c with sme := { c.sme with Discovered := false } }

/-- How a call of an orchestrator-facing operation ends: it returns a Go error
value (`none` is `nil`), or it waits for ever in a receive on the completion
channel. -/
inductive Outcome where
  | returns (err : Option GoError)
  | blocks
  deriving DecidableEq, Repr, Inhabited

/-- The adapter function picked by a `switch cluster.Conf.ProvOrchestrator`
whose cases are OpenSVC, Kubernetes, SlapOS and Localhost; `none` is the
`default` case.  `service` is the common ending of the four function names,
such as `ProvisionDatabaseService`. -/
def orchestratorJob (c : Cluster) (service : String) : Option String :=
  if c.Conf.ProvOrchestrator == ConstOrchestratorOpenSVC then some ("OpenSVC" ++ service)
  else if c.Conf.ProvOrchestrator == ConstOrchestratorKubernetes then some ("K8S" ++ service)
  else if c.Conf.ProvOrchestrator == ConstOrchestratorSlapOS then some ("SlapOS" ++ service)
  else if c.Conf.ProvOrchestrator == ConstOrchestratorLocalhost then
    some ("Localhost" ++ service)
  else none

/-- A loop `for _, x := range xs` whose body is such a `switch`: each case
launches `go cluster.job(x)`, the `default` case releases the gate and returns
`nil`.  The third component is true when the `default` case has returned. -/
def launchLoop (job : Option String) : List String → Cluster → List Event →
    Cluster × List Event × Bool
  | [], c, ev => (c, ev, false)
  | x :: rest, c, ev =>
    match job with
    | some j => launchLoop job rest c (ev ++ [.Job true j x])
    | none => (c.RemoveFailoverState, ev, true)

/-- A loop `for _, x := range xs { select { case err := <-cluster.errorChan:
... } }`: one message is received per element.  A non-nil message is logged
with `errFormat`; a nil message is logged with `okFormat` and followed by the
calls `done x`.  `errorChan` lists the messages that the receives of the
operation obtain, in order; the last component is true when a receive finds no
message, in which case the operation blocks. -/
def awaitLoop (errFormat okFormat : String) (done : String → List Event) :
    List String → List (Option GoError) → List Event →
    List Event × List (Option GoError) × Bool
  | [], errorChan, ev => (ev, errorChan, false)
  | _ :: _, [], ev => (ev, [], true)
  | x :: rest, m :: errorChan, ev =>
    match m with
    | some _ =>
      awaitLoop errFormat okFormat done rest errorChan (ev ++ [.Log "ERROR" errFormat x])
    | none =>
      awaitLoop errFormat okFormat done rest errorChan
        (ev ++ [.Log "INFO" okFormat x] ++ done x)

/-- The URLs of the declared servers, in list order. -/
def serverURLs (c : Cluster) : List String := c.Servers.map (fun s => (c.heap s).URL)

/-- The method `ProvisionServices`; `proxies` are the names of the proxies of
the cluster. -/
def ProvisionServices (c : Cluster) (proxies : List String)
    (errorChan : List (Option GoError)) :
    Cluster × List Event × List (Option GoError) × Outcome :=
  let c0 := c.SetFailoverState
  let ev0 := [Event.Call "os.Remove" "", .Call "ResetCrashes" ""]
  let r1 := launchLoop (orchestratorJob c "ProvisionDatabaseService") (serverURLs c) c0 ev0
  if r1.2.2 then (r1.1, r1.2.1, errorChan, .returns none)
  else
    let r2 := awaitLoop "Provisionning error %s on  %s" "Provisionning done for database %s"
      (fun x => [.Call "SetProvisionCookie" x, .Call "DelReprovisionCookie" x,
                 .Call "DelRestartCookie" x])
      (serverURLs c) errorChan r1.2.1
    if r2.2.2 then (r1.1, r2.1, r2.2.1, .blocks)
    else
      let r3 := launchLoop (orchestratorJob c "ProvisionProxyService") proxies r1.1 r2.1
      if r3.2.2 then (r3.1, r3.2.1, r2.2.1, .returns none)
      else
        let r4 := awaitLoop "Provisionning proxy error %s on  %s"
          "Provisionning done for proxy %s" (fun x => [.Call "Proxy.SetProvisionCookie" x])
          proxies r2.2.1 r3.2.1
        if r4.2.2 then (r3.1, r4.1, r4.2.1, .blocks)
        else (r3.1.RemoveFailoverState, r4.1, r4.2.1, .returns none)

/-- The method `InitDatabaseService`. -/
def InitDatabaseService (c : Cluster) (server : Nat) (errorChan : List (Option GoError)) :
    Cluster × List Event × List (Option GoError) × Outcome :=
  let c0 := c.SetFailoverState
  let url := (c.heap server).URL
  match orchestratorJob c "ProvisionDatabaseService" with
  | none => (c0.RemoveFailoverState, [], errorChan, .returns none)
  | some j =>
    match errorChan with
    | [] => (c0, [.Job true j url], [], .blocks)
    | err :: rest =>
      (c0.RemoveFailoverState,
        [.Job true j url] ++ (if err.isNone then [.Call "SetProvisionCookie" url] else []),
        rest, .returns err)

/-- The method `InitProxyService`. -/
def InitProxyService (c : Cluster) (prx : String) (errorChan : List (Option GoError)) :
    Cluster × List Event × List (Option GoError) × Outcome :=
  match orchestratorJob c "ProvisionProxyService" with
  | none => (c, [], errorChan, .returns none)
  | some j =>
    match errorChan with
    | [] => (c, [.Job true j prx], [], .blocks)
    | err :: rest =>
      (c.RemoveFailoverState,
        [.Job true j prx] ++ (if err.isNone then [.Call "Proxy.SetProvisionCookie" prx] else []),
        rest, .returns err)

/-- The method `Unprovision`.  The write to `IsAllDbUp`, a field that no other
modelled function reads, is left out. -/
def Unprovision (c : Cluster) (proxies : List String) (errorChan : List (Option GoError)) :
    Cluster × List Event × List (Option GoError) × Outcome :=
  let c0 := c.SetFailoverState
  let r1 := launchLoop (orchestratorJob c "UnprovisionDatabaseService") (serverURLs c) c0 []
  if r1.2.2 then (r1.1, r1.2.1, errorChan, .returns none)
  else
    let r2 := awaitLoop "Unprovision error %s on  %s" "Unprovision done for database %s"
      (fun x => [.Call "DelProvisionCookie" x, .Call "DelRestartCookie" x,
                 .Call "DelReprovisionCookie" x])
      (serverURLs c) errorChan r1.2.1
    if r2.2.2 then (r1.1, r2.1, r2.2.1, .blocks)
    else
      let r3 := launchLoop (orchestratorJob c "UnprovisionProxyService") proxies r1.1 r2.1
      if r3.2.2 then (r3.1, r3.2.1, r2.2.1, .returns none)
      else
        let r4 := awaitLoop "Unprovision proxy error %s on  %s" "Unprovision done for proxy %s"
          (fun x => [.Call "Proxy.DelProvisionCookie" x, .Call "Proxy.DelRestartCookie" x,
                     .Call "Proxy.DelReprovisionCookie" x])
          proxies r2.2.1 r3.2.1
        if r4.2.2 then (r3.1, r4.1, r4.2.1, .blocks)
        else
          let c5 := { r3.1 with slaves := none, master := none, vmaster := none }
          (c5.UnDiscovered.RemoveFailoverState, r4.1, r4.2.1, .returns none)

/-- The method `UnprovisionProxyService`: the `default` case of its `switch`
is empty, and the receive follows in every case. -/
def UnprovisionProxyService (c : Cluster) (prx : String) (errorChan : List (Option GoError)) :
    List Event × List (Option GoError) × Outcome :=
  let ev0 :=
    match orchestratorJob c "UnprovisionProxyService" with
    | some j => [Event.Job true j prx]
    | none => []
  match errorChan with
  | [] => (ev0, [], .blocks)
  | err :: rest =>
    (ev0 ++ (if err.isNone then
        [.Call "Proxy.DelProvisionCookie" prx, .Call "Proxy.DelReprovisionCookie" prx,
         .Call "Proxy.DelRestartCookie" prx]
      else []),
      rest, .returns err)

/-- The method `UnprovisionDatabaseService`: its `switch` has the cases
OpenSVC, Kubernetes and SlapOS, and the `default` case launches the localhost
adapter. -/
def UnprovisionDatabaseService (c : Cluster) (server : Nat)
    (errorChan : List (Option GoError)) : List Event × List (Option GoError) × Outcome :=
  let url := (c.heap server).URL
  let job :=
    if c.Conf.ProvOrchestrator == ConstOrchestratorOpenSVC then
      "OpenSVCUnprovisionDatabaseService"
    else if c.Conf.ProvOrchestrator == ConstOrchestratorKubernetes then
      "K8SUnprovisionDatabaseService"
    else if c.Conf.ProvOrchestrator == ConstOrchestratorSlapOS then
      "SlapOSUnprovisionDatabaseService"
    else "LocalhostUnprovisionDatabaseService"
  let ev0 := [Event.Call "ResetCrashes" "", .Job true job url]
  match errorChan with
  | [] => (ev0, [], .blocks)
  | err :: rest =>
    (ev0 ++ (if err.isNone then
        [.Call "DelProvisionCookie" url, .Call "DelReprovisionCookie" url,
         .Call "DelRestartCookie" url]
      else []),
      rest, .returns err)

/-- The `switch` of `StopDatabaseService` and `StartDatabaseService`; `action`
is `Stop` or `Start`, and `adapter` gives the error that an adapter function
returns for a server. -/
def databaseService (c : Cluster) (server : Nat) (action : String)
    (adapter : String → String → Option GoError) : List Event × Option GoError :=
  let url := (c.heap server).URL
  let o := c.Conf.ProvOrchestrator
  if o == ConstOrchestratorOpenSVC then
    ([.Job false ("OpenSVC" ++ action ++ "DatabaseService") url],
      adapter ("OpenSVC" ++ action ++ "DatabaseService") url)
  else if o == ConstOrchestratorKubernetes then
    ([.Job false ("K8S" ++ action ++ "DatabaseService") url, .Call "DelRestartCookie" url],
      none)
  else if o == ConstOrchestratorSlapOS then
    ([.Job false ("SlapOS" ++ action ++ "DatabaseService") url, .Call "DelRestartCookie" url],
      none)
  else if o == ConstOrchestratorOnPremise then
    ([.Job false ("OnPremise" ++ action ++ "DatabaseService") url,
      .Call "DelRestartCookie" url], none)
  else if o == ConstOrchestratorLocalhost then
    ([.Job false ("Localhost" ++ action ++ "DatabaseService") url],
      adapter ("Localhost" ++ action ++ "DatabaseService") url)
  else ([], some (.Other "No valid orchestrator"))

/-- The method `StopDatabaseService`. -/
def StopDatabaseService (c : Cluster) (server : Nat)
    (adapter : String → String → Option GoError) : List Event × Option GoError :=
  databaseService c server "Stop" adapter

/-- The method `StartDatabaseService`. -/
def StartDatabaseService (c : Cluster) (server : Nat)
    (adapter : String → String → Option GoError) : List Event × Option GoError :=
  let r := databaseService c server "Start" adapter
  (Event.Log "INFO" "Starting Database service %s" (c.heap server).URL :: r.1, r.2)

/-- The `switch` of `StopProxyService` and `StartProxyService`: the `default`
case calls the localhost adapter. -/
def proxyService (c : Cluster) (prx : String) (action : String)
    (adapter : String → String → Option GoError) : List Event × Option GoError :=
  let o := c.Conf.ProvOrchestrator
  if o == ConstOrchestratorOpenSVC then
    ([.Job false ("OpenSVC" ++ action ++ "ProxyService") prx],
      adapter ("OpenSVC" ++ action ++ "ProxyService") prx)
  else if o == ConstOrchestratorKubernetes then
    ([.Job false ("K8S" ++ action ++ "ProxyService") prx, .Call "Proxy.DelRestartCookie" prx],
      none)
  else if o == ConstOrchestratorSlapOS then
    ([.Job false ("SlapOS" ++ action ++ "ProxyService") prx,
      .Call "Proxy.DelRestartCookie" prx], none)
  else
    ([.Job false ("Localhost" ++ action ++ "ProxyService") prx],
      adapter ("Localhost" ++ action ++ "ProxyService") prx)

/-- The method `StopProxyService`. -/
def StopProxyService (c : Cluster) (prx : String)
    (adapter : String → String → Option GoError) : List Event × Option GoError :=
  proxyService c prx "Stop" adapter

/-- The method `StartProxyService`. -/
def StartProxyService (c : Cluster) (prx : String)
    (adapter : String → String → Option GoError) : List Event × Option GoError :=
  proxyService c prx "Start" adapter

/-! ## Reading the trace of an orchestrator-facing operation -/

/-- Whether an event is a call of an orchestrator adapter function, launched
with `go` or called directly. -/
def Event.isJob : Event → Bool
  | .Job _ _ _ => true
  | _ => false

/-- A trace on which no orchestrator job is launched. -/
def noJob (ev : List Event) : Prop := ∀ e ∈ ev, Event.isJob e = false

/-- The `ProvOrchestrator` value is none of the five kinds of the
specification. -/
def unknownOrchestrator (c : Cluster) : Prop :=
  c.Conf.ProvOrchestrator ≠ ConstOrchestratorOpenSVC
  ∧ c.Conf.ProvOrchestrator ≠ ConstOrchestratorKubernetes
  ∧ c.Conf.ProvOrchestrator ≠ ConstOrchestratorSlapOS
  ∧ c.Conf.ProvOrchestrator ≠ ConstOrchestratorOnPremise
  ∧ c.Conf.ProvOrchestrator ≠ ConstOrchestratorLocalhost

/-- Modelled from the spec: a cookie is a marker file attached to a server,
set and deleted by idempotent operations; the methods `Set<name>Cookie` and
`Del<name>Cookie` are declared outside the given sources.  Whether the cookie
`name` is present on the server `url` after a trace, `before` telling whether
it was present before. -/
def cookieAfter (name url : String) : List Event → Bool → Bool
  | [], before => before
  | .Call n u :: rest, before =>
    if u == url && n == "Set" ++ name ++ "Cookie" then cookieAfter name url rest true
    else if u == url && n == "Del" ++ name ++ "Cookie" then cookieAfter name url rest false
    else cookieAfter name url rest before
  | _ :: rest, before => cookieAfter name url rest before

/-- The calls of the cookie methods of a server that a trace makes, in program
order. -/
def cookieCalls (ev : List Event) : List Event :=
  ev.filter fun e =>
    match e with
    | .Call n _ =>
      ["SetProvisionCookie", "DelProvisionCookie", "SetReprovisionCookie",
       "DelReprovisionCookie", "SetRestartCookie", "DelRestartCookie", "SetWaitStartCookie",
       "DelWaitStartCookie", "SetWaitStopCookie", "DelWaitStopCookie"].contains n
    | _ => false

/-- The cookie calls of `Unprovision` as the code makes them: the `k`-th
message received decides for the `k`-th server; when it is `nil` the
Provisioned, Restart and Reprovision cookies of that server are deleted, when
it is an error no cookie call is made. -/
def unprovisionCookies : List String → List (Option GoError) → List Event
  | [], _ => []
  | _ :: _, [] => []
  | x :: rest, m :: errorChan =>
    (if m.isNone then
      [Event.Call "DelProvisionCookie" x, .Call "DelRestartCookie" x,
       .Call "DelReprovisionCookie" x]
     else []) ++ unprovisionCookies rest errorChan

/-- The fresh cluster with the localhost orchestrator, after a discovery that
has found `b` as master and `a`, `c` as slaves. -/
def localhostCluster : Cluster :=
  { freshCluster with
    master := some 1, slaves := some [0, 2],
    sme := { Heartbeats := 7, InFailover := false, Discovered := true },
    Conf := { freshCluster.Conf with ProvOrchestrator := "localhost" } }

/-- The cluster `localhostCluster` with an orchestrator kind that the
specification does not list. -/
def nomadCluster : Cluster :=
  { localhostCluster with Conf := { localhostCluster.Conf with ProvOrchestrator := "nomad" } }

/-- An adapter whose functions all succeed. -/
def quietAdapter : String → String → Option GoError := fun _ _ => none

/-- The cluster `localhostCluster` with the on-premise orchestrator. -/
def onPremiseCluster : Cluster :=
  { localhostCluster with
    Conf := { localhostCluster.Conf with ProvOrchestrator := "onpremise" } }

/-! ## `freeze` (srv.go) -/

/-- What the database answers during `freeze`.  `threads k` and `CheckErr k`
are the results of the call of `dbhelper.CheckLongRunningWrites` that follows
`k` earlier calls. -/
structure FreezeObs where
  /-- the error of `dbhelper.SetReadOnly` -/
  SetReadOnly : Option GoError
  /-- the number of threads reported by each poll -/
  threads : Nat → Int
  /-- the error of each poll -/
  CheckErr : Nat → Option GoError
  /-- the error of `dbhelper.GetVariableByName` -/
  GetVariableByName : Option GoError
  /-- the error of `dbhelper.SetMaxConnections` -/
  SetMaxConnections : Option GoError

/-- The loop `for i := SwitchWaitKill; i > 0; i -= 500` of `freeze`; `k` polls
have been made before.  The first argument bounds the number of iterations for
the recursion; `freeze` passes a bound that the loop cannot reach. -/
def freezeLoop (url : String) (o : FreezeObs) : Nat → Int → Nat → List Event → List Event
  | 0, _, _, ev => ev
  | fuel + 1, i, k, ev =>
    if i > 0 then
      let ev1 := ev ++ [Event.SQL url .CheckLongRunningWrites,
        .LogSQL (o.CheckErr k) "Could not check long running Writes %s as read-only: %s" url]
      if o.threads k == 0 then ev1
      else
        freezeLoop url o fuel (i - 500) (k + 1)
          (ev1 ++ [.Log "INFO" "Waiting for %d write threads to complete on %s" url])
    else ev

/-- The method `freeze`, with its Boolean result.  The write to `maxConn`, a
field that no other modelled function reads, is left out. -/
def freeze (c : Cluster) (server : Nat) (o : FreezeObs) : List Event × Bool :=
  let url := (c.heap server).URL
  let ev0 := [Event.SQL url (.SetReadOnly true),
    .LogSQL o.SetReadOnly "Could not set %s as read-only: %s" url]
  if o.SetReadOnly.isSome then (ev0, false)
  else
    let ev1 := freezeLoop url o c.Conf.SwitchWaitKill.toNat c.Conf.SwitchWaitKill 0 ev0
    let ev2 := ev1 ++ [.SQL url (.GetVariableByName "MAX_CONNECTIONS"),
      .LogSQL o.GetVariableByName "Could not get max_connections value on demoted leader" url]
    let ev3 :=
      if o.GetVariableByName.isNone && c.Conf.SwitchDecreaseMaxConn then
        [Event.SQL url (.SetMaxConnections c.Conf.SwitchDecreaseMaxConnValue),
         .LogSQL o.SetMaxConnections
           "Could not set max_connections to 1 on demoted leader %s %s" url]
      else []
    (ev2 ++ ev3 ++ [.Log "INFO" "Terminating all threads on %s" url, .SQL url .KillThreads],
      true)

/-! ## `ReadAllRelayLogs` (srv.go) -/

/-- A Go `sql.NullString`. -/
structure NullString where
  String : String
  Valid : Bool
  deriving DecidableEq, Repr, Inhabited

/-- One reading of the slave status during `ReadAllRelayLogs`, with the
refresh made next to it on the MariaDB GTID path. -/
structure RelayObs where
  /-- the error of `dbhelper.GetMSlaveStatus` or `dbhelper.GetSlaveStatus` -/
  err : Option GoError
  /-- the answers to the `server.Refresh()` made next to the reading -/
  Refresh : RefreshObs
  /-- the value of `myGtid_Slave_Pos.Equal(myGtid_IO_Pos)`, where the first
  list is `server.SlaveGtid` as the refresh has left it and the second is
  parsed from `ss.GtidIOPos` -/
  GtidEqual : Bool
  /-- the column `Using_Gtid` -/
  UsingGtid : String
  /-- the column `Gtid_Slave_Pos` -/
  GtidSlavePos : String
  /-- the column `Master_Log_File` -/
  MasterLogFile : String
  /-- the column `Relay_Master_Log_File` -/
  RelayMasterLogFile : String
  /-- the column `Read_Master_Log_Pos` -/
  ReadMasterLogPos : NullString
  /-- the column `Exec_Master_Log_Pos` -/
  ExecMasterLogPos : NullString
  /-- the column `Slave_SQL_Running_State` -/
  SlaveSQLRunningState : String
  deriving DecidableEq, Repr, Inhabited

/-- The loop of the MariaDB GTID path of `ReadAllRelayLogs`; `cur` is the
reading that the loop condition tests and `polls` are the readings still to
come.  The third component is `none` when the readings are used up and the
loop is still polling. -/
def relayGtidLoop (server : Nat) : List RelayObs → RelayObs → Cluster → List Event →
    Cluster × List Event × Option Ret
  | polls, cur, c, ev =>
    if cur.GtidEqual == false && cur.UsingGtid != "" && cur.GtidSlavePos != ""
        && (c.heap server).State != stateFailed then
      match polls with
      | [] => (c, ev, none)
      | p :: rest =>
        let r := Refresh c server p.Refresh
        let url := (r.1.heap server).URL
        let ev1 := ev ++ r.2.1 ++ [Event.SQL url (.GetMSlaveStatus r.1.Conf.MasterConn),
          .LogSQL p.err "Could not get slave status %s %s" url]
        match p.err with
        | some e => (r.1, ev1, some (.err e))
        | none =>
          relayGtidLoop server rest p r.1
            (ev1 ++ [.Log "INFO" "Waiting sync IO_Pos:%s, Slave_Pos:%s" url])
    else (c, ev, some .nil)

/-- The loop of the other path of `ReadAllRelayLogs`. -/
def relayPosLoop (url channel : String) : List RelayObs → RelayObs → List Event →
    List Event × Option Ret
  | polls, cur, ev =>
    let ev1 := ev ++ [Event.Log "INFO" "Waiting sync IO_Pos:%s/%s, Slave_Pos:%s %s" url]
    if cur.MasterLogFile == cur.RelayMasterLogFile
        && cur.ReadMasterLogPos == cur.ExecMasterLogPos then (ev1, some .nil)
    else
      match polls with
      | [] => (ev1, none)
      | p :: rest =>
        let ev2 := ev1 ++ [Event.SQL url (.GetSlaveStatus channel),
          .LogSQL p.err "Could not get slave status %s %s" url]
        match p.err with
        | some e => (ev2, some (.err e))
        | none =>
          if Contains p.SlaveSQLRunningState "Slave has read all relay log" then
            (ev2, some .nil)
          else relayPosLoop url channel rest p ev2

/-- The method `ReadAllRelayLogs`.  `haveMariaDBGTID` is the field
`server.HaveMariaDBGTID`, which lies outside the modelled record; `first` is
the reading made before the loop and `polls` are the readings made in it. -/
def ReadAllRelayLogs (c : Cluster) (server : Nat) (haveMariaDBGTID : Bool) (first : RelayObs)
    (polls : List RelayObs) : Cluster × List Event × Option Ret :=
  let url := (c.heap server).URL
  let ev0 := [Event.Log "INFO" "Reading all relay logs on %s" url]
  if (c.heap server).DBVersion.IsMariaDB && haveMariaDBGTID then
    let ev1 := ev0 ++ [.SQL url (.GetMSlaveStatus ""),
      .LogSQL first.err "Could not get slave status %s %s" url]
    match first.err with
    | some e => (c, ev1, some (.err e))
    | none =>
      let r := Refresh c server first.Refresh
      relayGtidLoop server polls first r.1 (ev1 ++ r.2.1)
  else
    let ev1 := ev0 ++ [.SQL url (.GetSlaveStatus c.Conf.MasterConn),
      .LogSQL first.err "Could not get slave status %s %s" url]
    match first.err with
    | some e => (c, ev1, some (.err e))
    | none =>
      let r := relayPosLoop url c.Conf.MasterConn polls first ev1
      (c, r.1, r.2)

/-! ## `CaptureLoop`, `WaitInnoDBPurge` and `Shutdown` (srv.go) -/

/-- What one iteration of `CaptureLoop` meets. -/
structure CaptureObs where
  /-- the error of `ioutil.WriteFile` -/
  WriteFile : Option GoError
  /-- the value of `GetHeartbeats()` at the test that follows the write -/
  Heartbeats : Int
  deriving DecidableEq, Repr, Inhabited

/-- The queries and the write of one iteration of `CaptureLoop`; the calls of
`LogSQL` that follow the queries are left out. -/
def captureSample (c : Cluster) (server : Nat) : List Event :=
  let srv := c.heap server
  let url := srv.URL
  [.SQL url .GetProcesslist, .SQL url .GetEngineInnoDBSatus, .SQL url .GetStatus,
   .SQL url (if !(c.Conf.MxsBinlogOn && srv.IsMaxscale) && srv.DBVersion.IsMariaDB
      then .GetAllSlavesStatus else .GetChannelSlaveStatus),
   .Call "ioutil.WriteFile" url]

/-- The loop of `CaptureLoop`, one observation per iteration.  The third
component is `none` when the observations are used up and the loop is still
running. -/
def captureIterations (server : Nat) (start : Int) : List CaptureObs → Cluster → List Event →
    Cluster × List Event × Option Ret
  | [], c, ev => (c, ev, none)
  | o :: rest, c, ev =>
    let ev1 := ev ++ captureSample c server
    if o.WriteFile.isSome then (c, ev1, some .nil)
    else if o.Heartbeats < start + 5 then
      (c.store server { c.heap server with InCaptureMode := false }, ev1, some .nil)
    else captureIterations server start rest c ev1

/-- The method `CaptureLoop`. -/
def CaptureLoop (c : Cluster) (server : Nat) (start : Int) (obs : List CaptureObs) :
    Cluster × List Event × Option Ret :=
  captureIterations server start obs
    (c.store server { c.heap server with InCaptureMode := true }) []

/-- A read `m[key]` of a Go `map[string]string`: the empty string when the key
is absent. -/
def mapIndex (m : List (String × String)) (key : String) : String :=
  (m.lookup key).getD ""

/-- The loop of `WaitInnoDBPurge` with the counter `ct`, which no statement of
the loop changes.  Each element of the list is the value of the field
`EngineInnoDB` at the test of one iteration, as the monitor has left it; the
result is `none` when the loop is still running after these iterations. -/
def waitInnoDBPurgeLoop (ct : Int) : List (List (String × String)) → Option Ret
  | [] => none
  | m :: rest =>
    if mapIndex m "history_list_lenght_inside_innodb" == "0" then some .nil
    else if ct == 1200 then
      some (.err (.Other "Waiting to long for history_list_lenght_inside_innodb 0"))
    else waitInnoDBPurgeLoop ct rest

/-- The method `WaitInnoDBPurge`, run for one loop iteration per reading of
`EngineInnoDB`. -/
def WaitInnoDBPurge (c : Cluster) (server : Nat) (readings : List (List (String × String))) :
    List Event × Option Ret :=
  ([.Call "ExecQueryNoBinLog" (c.heap server).URL], waitInnoDBPurgeLoop 0 readings)

/-- The readings of `EngineInnoDB` over `n` iterations during which nothing
writes the field. -/
def steadyReadings (c : Cluster) (server : Nat) (n : Nat) : List (List (String × String)) :=
  List.replicate n (c.heap server).EngineInnoDB

/-- The method `Shutdown`; `exec` is the error of `server.Conn.Exec(cmd)`. -/
def Shutdown (c : Cluster) (server : Nat) (exec : Option GoError) : List Event × Ret :=
  let srv := c.heap server
  if srv.Conn.isNone then ([], .err (.Other "No database connection pool"))
  else
    let cmd :=
      if srv.DBVersion.IsMariaDB && decide (srv.DBVersion.Major ≥ 10)
          && decide (srv.DBVersion.Minor ≥ 4) then "SHUTDOWN WAIT FOR ALL SLAVES"
      else "SHUTDOWN"
    match exec with
    | some err => ([.SQL srv.URL (.Exec cmd), .Log "TEST" "Shutdown failed %s" srv.URL], .err err)
    | none => ([.SQL srv.URL (.Exec cmd)], .nil)

/-- The sample cluster where the server `a` runs MariaDB 11.2. -/
def mariadb11Cluster : Cluster :=
  sampleCluster.store 0
    { srvA with DBVersion := { Flavor := "MariaDB", Major := 11, Minor := 2, Release := 0 } }

/-- The sample cluster where the InnoDB history list of the server `a` has
length 12. -/
def purgeCluster : Cluster :=
  sampleCluster.store 0
    { srvA with EngineInnoDB := [("history_list_lenght_inside_innodb", "12")] }

/-- An iteration of `CaptureLoop` whose write succeeds and that reads the
heartbeat counter `h`. -/
def sampleAt (h : Int) : CaptureObs := { WriteFile := none, Heartbeats := h }

/-- How many artifact writes a trace holds. -/
def countWrites (ev : List Event) : Nat := ev.countP (isCall "ioutil.WriteFile")

/-- The sample cluster while a failover holds the gate and a virtual master is
set. -/
def sampleInFailover : Cluster :=
  { sampleCluster with
    vmaster := some 1,
    sme := { sampleCluster.sme with InFailover := true } }

/-- A tick of the monitor: the state machine as the rest of the system has
left it, with the heartbeat counter at `h`, and a failing connectivity
check. -/
def failingTick (h : Int) : StateMachine × PingObs :=
  ({ Heartbeats := h, InFailover := false, Discovered := true }, failingObs)

/-- Database answers where CHANGE MASTER fails on every server and every other
command succeeds. -/
def changeMasterErrorDB : Nat → DBObs := fun _ =>
  { (default : DBObs) with ChangeMaster := some (.Other "Access denied") }

/-- Database answers where START SLAVE fails on every server and every other
command succeeds. -/
def startSlaveErrorDB : Nat → DBObs := fun _ =>
  { (default : DBObs) with ExecStartSlave := some (.Other "Error 1200") }

/-- A reading of the slave status of a replica that has fetched events up to
`0-1-100` and applied none: `Gtid_Slave_Pos` is empty and differs from
`Gtid_IO_Pos`. -/
def laggingReading : RelayObs :=
  { (default : RelayObs) with
    err := none, GtidEqual := false, UsingGtid := "Slave_Pos", GtidSlavePos := "" }

/-- A reading of the slave status of a replica whose `Gtid_Slave_Pos` equals
its `Gtid_IO_Pos`. -/
def syncedReading : RelayObs :=
  { (default : RelayObs) with
    err := none, GtidEqual := true, UsingGtid := "Slave_Pos", GtidSlavePos := "0-1-100" }

/-- How many polls for long-running writes a trace holds. -/
def countPolls (ev : List Event) : Nat :=
  ev.countP (fun e => match e with
    | .SQL _ .CheckLongRunningWrites => true
    | _ => false)

/-- How many calls of `dbhelper.KillThreads` a trace holds. -/
def countKills (ev : List Event) : Nat :=
  ev.countP (fun e => match e with
    | .SQL _ .KillThreads => true
    | _ => false)

/-- Answers to `freeze` where every command succeeds and every poll reports
one long-running write. -/
def oneLongWrite : FreezeObs :=
  { SetReadOnly := none, threads := fun _ => 1, CheckErr := fun _ => none,
    GetVariableByName := none, SetMaxConnections := none }

/-- The sample cluster with `SwitchWaitKill` set to 2000 milliseconds. -/
def waitKillCluster : Cluster :=
  { sampleCluster with Conf := { sampleCluster.Conf with SwitchWaitKill := 2000 } }

/-- How many orchestrator jobs a trace launches. -/
def countJobs (ev : List Event) : Nat := ev.countP Event.isJob

/-- The cookie calls of `ProvisionServices` as the code makes them: the `k`-th
message received decides for the `k`-th server; when it is `nil` the
Provisioned cookie of that server is set and its Reprovision and Restart
cookies are deleted, when it is an error no cookie call is made. -/
def provisionCookies : List String → List (Option GoError) → List Event
  | [], _ => []
  | _ :: _, [] => []
  | x :: rest, m :: errorChan =>
    (if m.isNone then
      [Event.Call "SetProvisionCookie" x, .Call "DelReprovisionCookie" x,
       .Call "DelRestartCookie" x]
     else []) ++ provisionCookies rest errorChan

/-- The messages on the completion channel when the job launched for the
`i`-th server sends `results[i]` and the jobs complete in the order `order`
(a list of indices into the launch order). -/
def arrival (results : List (Option GoError)) (order : List Nat) : List (Option GoError) :=
  order.map (fun i => (results.get? i).getD none)

/-- The sample cluster monitored in `agent` mode. -/
def agentCluster : Cluster :=
  { sampleCluster with Conf := { sampleCluster.Conf with CheckType := "agent" } }

/-- A tick in `agent` mode while nothing listens on port 10001 of the host:
`http.Get` returns a `nil` response and the error of the refused
connection. -/
def refusedObs : PingObs :=
  { (default : PingObs) with
    resp := none,
    httpErr := some (.Other "dial tcp 10.0.0.2:10001: connect: connection refused") }

/-- A tick in `agent` mode where the agent answers with the status 404. -/
def notFoundObs : PingObs :=
  { (default : PingObs) with resp := some 404, httpErr := none }

/-- The commands sent to databases in a trace, in program order. -/
def sqlCommands (ev : List Event) : List Event :=
  ev.filter fun e =>
    match e with
    | .SQL _ _ => true
    | _ => false

/-- The option record of a CHANGE MASTER in the words of the specification:
the source is the host and port of `master`, with the replication credentials
of the cluster and the configured heartbeat, channel, delay and SSL settings;
the mode, the binlog file and the offset are as given. -/
def specChangeMaster (c : Cluster) (server master : Nat) (mode logfile logpos : String) :
    ChangeMasterOpt :=
  { Host := (c.heap master).Host, Port := (c.heap master).Port,
    User := c.rplUser, Password := c.rplPass,
    Retry := c.Conf.ForceSlaveHeartbeatRetry, Heartbeat := c.Conf.ForceSlaveHeartbeatTime,
    Mode := mode, Logfile := logfile, Logpos := logpos, Channel := c.Conf.MasterConn,
    IsDelayed := (c.heap server).IsDelayed, Delay := c.Conf.HostsDelayedTime,
    SSL := c.Conf.ReplicationSSL, PostgressDB := (c.heap server).PostgressDB }

/-- Database answers where setting `gtid_slave_pos` fails on every server. -/
def gtidErrorDB : Nat → DBObs := fun _ =>
  { (default : DBObs) with ExecSetGlobalGtidSlavePos := some (.Other "Error 1948") }

/-- The fresh cluster in master-slave mode with a `PrefMaster` that names no
declared server. -/
def noPreferedCluster : Cluster :=
  { freshCluster with Conf := { freshCluster.Conf with PrefMaster := "d:3306" } }

/-! ## Frame of `Refresh` -/

theorem refreshMaxscale_kept (conf : Config) (o : RefreshObs) (s : ServerMonitor) :
    kept (refreshMaxscale conf o s).1 = kept s ∧ passive (refreshMaxscale conf o s).2 := by
  unfold refreshMaxscale
  repeat' split
  all_goals simp [kept, passive, Event.isAction]

theorem refreshVariables_kept (conf : Config) (hb : Int) (o : RefreshObs) (s : ServerMonitor) :
    kept (refreshVariables conf hb o s).1 = kept s ∧ passive (refreshVariables conf hb o s).2.1 := by
  unfold refreshVariables
  simp only []
  split_ifs <;> simp [kept, passive, Event.isAction]

theorem refreshMasterStatus_kept (o : RefreshObs) (s : ServerMonitor) :
    kept (refreshMasterStatus o s).1 = kept s ∧ passive (refreshMasterStatus o s).2 := by
  unfold refreshMasterStatus
  repeat' split
  all_goals simp [kept, passive, Event.isAction]

theorem refreshDumpThreads_kept (o : RefreshObs) (s : ServerMonitor) :
    kept (refreshDumpThreads o s).1 = kept s ∧ passive (refreshDumpThreads o s).2.1 := by
  unfold refreshDumpThreads
  repeat' split
  all_goals simp [kept, passive, Event.isAction]

theorem refreshStatus_kept (conf : Config) (hb : Int) (o : RefreshObs) (s : ServerMonitor) :
    kept (refreshStatus conf hb o s).1 = kept s ∧ passive (refreshStatus conf hb o s).2 := by
  unfold refreshStatus
  repeat' split
  all_goals simp [kept, passive, Event.isAction]

theorem passive_append {a b : List Event} (ha : passive a) (hb : passive b) : passive (a ++ b) := by
  intro e he
  rcases List.mem_append.1 he with h | h
  · exact ha e h
  · exact hb e h

theorem refreshServer_kept (conf : Config) (hb : Int) (o : RefreshObs) (s : ServerMonitor) :
    kept (refreshServer conf hb o s).1 = kept s ∧ passive (refreshServer conf hb o s).2.1 := by
  have hnil : passive [] := by intro e he; cases he
  have hcv : passive [Event.Call "CheckVersion" s.URL] := by
    intro e he; simp at he; subst he; rfl
  unfold refreshServer
  split
  · exact ⟨rfl, hnil⟩
  split
  · exact ⟨rfl, hnil⟩
  split
  · exact ⟨rfl, hnil⟩
  have h1 := refreshMaxscale_kept conf o s
  generalize refreshMaxscale conf o s = r1 at h1 ⊢
  obtain ⟨s1, ev1⟩ := r1
  dsimp only at *
  have h2 := refreshVariables_kept conf hb o s1
  generalize refreshVariables conf hb o s1 = r2 at h2 ⊢
  obtain ⟨s2, ev2, stop2⟩ := r2
  dsimp only at *
  have h3 := refreshMasterStatus_kept o s2
  generalize refreshMasterStatus o s2 = r3 at h3 ⊢
  obtain ⟨s3, ev3⟩ := r3
  dsimp only at *
  have h4 := refreshDumpThreads_kept o s3
  generalize refreshDumpThreads o s3 = r4 at h4 ⊢
  obtain ⟨s4, ev4, stop4⟩ := r4
  dsimp only at *
  have h6 := refreshStatus_kept conf hb o (refreshReplications o s4)
  generalize refreshStatus conf hb o (refreshReplications o s4) = r6 at h6 ⊢
  obtain ⟨s6, ev6⟩ := r6
  have h5 : kept (refreshReplications o s4) = kept s4 := rfl
  simp only at h1 h2 h3 h4 h6 ⊢
  split
  · exact ⟨h2.1.trans h1.1, passive_append (passive_append hcv h1.2) h2.2⟩
  split
  · exact ⟨h4.1.trans (h3.1.trans (h2.1.trans h1.1)),
      passive_append (passive_append (passive_append (passive_append hcv h1.2) h2.2) h3.2) h4.2⟩
  · exact ⟨h6.1.trans (h5.trans (h4.1.trans (h3.1.trans (h2.1.trans h1.1)))),
      passive_append (passive_append (passive_append (passive_append (passive_append hcv h1.2) h2.2) h3.2) h4.2) h6.2⟩

theorem Refresh_kept (c : Cluster) (p : Nat) (o : RefreshObs) (q : Nat) :
    kept ((Refresh c p o).1.heap q) = kept (c.heap q) := by
  unfold Refresh Cluster.store
  by_cases h : q = p
  · subst h
    simp only [Function.update_same]
    exact (refreshServer_kept _ _ _ _).1
  · simp only [Function.update_noteq h]

theorem Refresh_cluster (c : Cluster) (p : Nat) (o : RefreshObs) :
    (Refresh c p o).1.Conf = c.Conf ∧ (Refresh c p o).1.Servers = c.Servers
    ∧ (Refresh c p o).1.sme = c.sme ∧ (Refresh c p o).1.master = c.master
    ∧ (Refresh c p o).1.vmaster = c.vmaster ∧ (Refresh c p o).1.slaves = c.slaves
    ∧ (Refresh c p o).1.rplUser = c.rplUser ∧ (Refresh c p o).1.rplPass = c.rplPass :=
  ⟨rfl, rfl, rfl, rfl, rfl, rfl, rfl, rfl⟩

theorem Refresh_passive (c : Cluster) (p : Nat) (o : RefreshObs) : passive (Refresh c p o).2.1 :=
  (refreshServer_kept _ _ _ _).2

theorem styleOf_append_passive (a b : List Event) (ha : passive a) :
    styleOf (a ++ b) = styleOf b := by
  induction a with
  | nil => rfl
  | cons e a ih =>
    have he : Event.isAction e = false := ha e (List.mem_cons_self _ _)
    have ha2 : passive a := fun x hx => ha x (List.mem_cons_of_mem _ hx)
    cases e <;> simp_all [styleOf, Event.isAction]

theorem changeMasterStart_trace (c : Cluster) (server : Nat) (db : DBObs) (ev : List Event) :
    ∃ t, (changeMasterStart c server db ev).2.1 = ev ++ t := by
  unfold changeMasterStart
  cases db.ChangeMaster <;> cases (c.heap server).Conn <;> cases db.ExecStartSlave <;>
    simp

theorem kept_Conn {s t : ServerMonitor} (h : kept s = kept t) : s.Conn = t.Conn := by
  simp only [kept, Prod.mk.injEq] at h
  exact h.2.2.2.2.2.2.2.1

theorem changeMasterTo_style_gtid (c : Cluster) (server master : Nat) (mode : String)
    (db : Nat → DBObs) (hconn : (c.heap server).Conn.isSome = true)
    (h : ((c.heap server).State != stateFailed && c.Conf.ForceSlaveNoGtid == false
      && (c.heap server).DBVersion.IsMariaDB && decide ((c.heap server).DBVersion.Major ≥ 10)) = true) :
    styleOf (ChangeMasterTo c server master mode db).2.1 = some .MariaDBGtid := by
  unfold ChangeMasterTo
  simp only [h, if_true]
  have hk := kept_Conn (Refresh_kept c master (db master).Refresh server)
  have hn := Refresh_passive c master (db master).Refresh
  generalize Refresh c master (db master).Refresh = r at hk hn ⊢
  obtain ⟨c1, ev1, e1⟩ := r
  dsimp only at hk hn ⊢
  rw [← hk] at hconn
  obtain ⟨n, hn'⟩ := Option.isSome_iff_exists.1 hconn
  simp only [hn']
  cases (db server).ExecSetGlobalGtidSlavePos with
  | some err =>
    dsimp only
    rw [styleOf_append_passive _ _ hn]; rfl
  | none =>
    dsimp only
    obtain ⟨t, ht⟩ := changeMasterStart_trace c1 server (db server)
      (ev1 ++ [Event.SQL (c1.heap server).URL (Cmd.SetGlobalGtidSlavePos (c1.heap master).CurrentGtid)] ++
        [Event.SQL (c1.heap server).URL (Cmd.ChangeMaster (changeMasterOpt c1 (c1.heap server) (c1.heap master) mode)),
         Event.Log "INFO" "Replication bootstrapped with %s as master" (c1.heap master).URL])
    rw [ht, List.append_assoc, List.append_assoc, styleOf_append_passive _ _ hn]; rfl

theorem changeMasterTo_style_other (c : Cluster) (server master : Nat) (mode : String)
    (db : Nat → DBObs)
    (h : ((c.heap server).State != stateFailed && c.Conf.ForceSlaveNoGtid == false
      && (c.heap server).DBVersion.IsMariaDB && decide ((c.heap server).DBVersion.Major ≥ 10)) = false) :
    styleOf (ChangeMasterTo c server master mode db).2.1 =
      if ((db server).HasMySQLGTID && c.Conf.ForceSlaveNoGtid == false) = true
      then some .AutoPosition else some .Positional := by
  unfold ChangeMasterTo
  simp only [h, Bool.false_eq_true, if_false]
  split
  · obtain ⟨t, ht⟩ := changeMasterStart_trace c server (db server)
      [Event.SQL (c.heap server).URL (Cmd.ChangeMaster (changeMasterOpt c (c.heap server) (c.heap master) "MASTER_AUTO_POSITION")),
       Event.Log "INFO" "Replication bootstrapped with MySQL GTID replication style and %s as master" (c.heap master).URL]
    rw [ht]; rfl
  · obtain ⟨t, ht⟩ := changeMasterStart_trace c server (db server)
      [Event.SQL (c.heap server).URL (Cmd.ChangeMaster { changeMasterOpt c (c.heap server) (c.heap master) "POSITIONAL" with
          Logfile := (c.heap master).BinaryLogFile, Logpos := (c.heap master).BinaryLogPos }),
       Event.Log "INFO" "Replication bootstrapped with old replication style and %s as master" (c.heap master).URL]
    rw [ht]; rfl

theorem sqlCommands_append (a b : List Event) :
    sqlCommands (a ++ b) = sqlCommands a ++ sqlCommands b := by
  simp [sqlCommands]

theorem sqlCommands_passive {ev : List Event} (h : passive ev) : sqlCommands ev = [] := by
  unfold sqlCommands
  rw [List.filter_eq_nil_iff]
  intro e he
  have := h e he
  cases e <;> simp_all [Event.isAction]

theorem kept_source {s t : ServerMonitor} (h : kept s = kept t) :
    s.Host = t.Host ∧ s.Port = t.Port ∧ s.IsDelayed = t.IsDelayed
    ∧ s.PostgressDB = t.PostgressDB ∧ s.URL = t.URL := by
  simp only [kept, Prod.mk.injEq] at h
  obtain ⟨_, hU, hH, hP, _, _, _, _, _, _, hD, hPg, _⟩ := h
  exact ⟨hH, hP, hD, hPg, hU⟩

/-- The commands of the tail of `ChangeMasterTo` on a server with a
connection. -/
theorem changeMasterStart_sql (c : Cluster) (server : Nat) (db : DBObs) (ev : List Event)
    (hconn : (c.heap server).Conn.isSome = true) :
    sqlCommands (changeMasterStart c server db ev).2.1 =
      sqlCommands ev ++ [Event.SQL (c.heap server).URL (.StartSlave c.Conf.MasterConn)] := by
  unfold changeMasterStart
  obtain ⟨n, hn⟩ := Option.isSome_iff_exists.1 hconn
  cases db.ChangeMaster <;> cases db.ExecStartSlave <;>
    simp [hn, sqlCommands, List.filter_append]

/-- The commands that `ChangeMasterTo` sends, branch by branch. -/
theorem ChangeMasterTo_sql (c : Cluster) (server master : Nat) (mode : String)
    (db : Nat → DBObs) (hconn : (c.heap server).Conn.isSome = true) :
    sqlCommands (ChangeMasterTo c server master mode db).2.1 =
      (if ((c.heap server).State != stateFailed && c.Conf.ForceSlaveNoGtid == false
          && (c.heap server).DBVersion.IsMariaDB
          && decide ((c.heap server).DBVersion.Major ≥ 10)) = true then
        Event.SQL (c.heap server).URL (.SetGlobalGtidSlavePos
            ((Refresh c master (db master).Refresh).1.heap master).CurrentGtid) ::
          (if (db server).ExecSetGlobalGtidSlavePos = none then
            [Event.SQL (c.heap server).URL
                (.ChangeMaster (specChangeMaster c server master mode "" "")),
              Event.SQL (c.heap server).URL (.StartSlave c.Conf.MasterConn)]
          else [])
      else if ((db server).HasMySQLGTID && c.Conf.ForceSlaveNoGtid == false) = true then
        [Event.SQL (c.heap server).URL
            (.ChangeMaster (specChangeMaster c server master "MASTER_AUTO_POSITION" "" "")),
          Event.SQL (c.heap server).URL (.StartSlave c.Conf.MasterConn)]
      else
        [Event.SQL (c.heap server).URL
            (.ChangeMaster (specChangeMaster c server master "POSITIONAL"
              (c.heap master).BinaryLogFile (c.heap master).BinaryLogPos)),
          Event.SQL (c.heap server).URL (.StartSlave c.Conf.MasterConn)])
    ∧ (((c.heap server).State != stateFailed && c.Conf.ForceSlaveNoGtid == false
          && (c.heap server).DBVersion.IsMariaDB
          && decide ((c.heap server).DBVersion.Major ≥ 10)) = true →
        ∀ e, (db server).ExecSetGlobalGtidSlavePos = some e →
          (ChangeMasterTo c server master mode db).2.2 = Ret.err e) := by
  unfold ChangeMasterTo
  dsimp only
  split
  · rename_i hg
    have hks := fun q => Refresh_kept c master (db master).Refresh q
    have hc := Refresh_cluster c master (db master).Refresh
    have hp := sqlCommands_passive (Refresh_passive c master (db master).Refresh)
    generalize Refresh c master (db master).Refresh = r at hks hc hp ⊢
    obtain ⟨c1, ev1, e1⟩ := r
    dsimp only at hks hc hp ⊢
    have hk : (c1.heap server).Conn = (c.heap server).Conn := kept_Conn (hks server)
    have hu : (c1.heap server).URL = (c.heap server).URL := (kept_source (hks server)).2.2.2.2
    have hs := kept_source (hks server)
    have hm := kept_source (hks master)
    obtain ⟨n, hn⟩ := Option.isSome_iff_exists.1 (hk ▸ hconn)
    simp only [hn]
    cases hx : (db server).ExecSetGlobalGtidSlavePos with
    | some err =>
      dsimp only
      refine ⟨?_, fun _ e he => ?_⟩
      · rw [sqlCommands_append, hp, hu]
        simp [sqlCommands]
      · rw [Option.some.injEq] at he
        rw [he]
    | none =>
      dsimp only
      refine ⟨?_, fun _ e he => by simp at he⟩
      rw [changeMasterStart_sql c1 server (db server) _ (by rw [hn]; rfl)]
      rw [sqlCommands_append, sqlCommands_append, hp, hu, hc.1]
      have ho : changeMasterOpt c1 (c1.heap server) (c1.heap master) mode =
          specChangeMaster c server master mode "" "" := by
        simp only [changeMasterOpt, specChangeMaster, hm.1, hm.2.1, hs.2.2.1, hs.2.2.2.1, hc.1,
          hc.2.2.2.2.2.2.1, hc.2.2.2.2.2.2.2]
      rw [ho]
      simp [sqlCommands]
  · split
    · refine ⟨?_, fun h => by contradiction⟩
      rw [changeMasterStart_sql c server (db server) _ hconn]
      simp [sqlCommands, changeMasterOpt, specChangeMaster]
    · refine ⟨?_, fun h => by contradiction⟩
      rw [changeMasterStart_sql c server (db server) _ hconn]
      simp [sqlCommands, changeMasterOpt, specChangeMaster]

/-- C1 (amended): on a server with a connection, `ChangeMasterTo` takes the
MariaDB GTID style if and only if the server is not `Failed`, `ForceSlaveNoGtid`
is false, the flavor is MariaDB and the major version is at least 10; it
takes the `MASTER_AUTO_POSITION` style if and only if that test fails,
`HasMySQLGTID()` holds and `ForceSlaveNoGtid` is false; it takes the positional
style in every other case.  The commands it sends are exactly these.  In the
MariaDB GTID style: `SET GLOBAL gtid_slave_pos` to the current GTID of the
refreshed master and, when that statement succeeds, CHANGE MASTER to the host
and port of the master with the requested mode, then START SLAVE; when the
statement fails its error is returned and nothing more is sent.  In the
`MASTER_AUTO_POSITION` style: CHANGE MASTER to the master with that mode, then
START SLAVE.  In the positional style: CHANGE MASTER to the master with the
mode `POSITIONAL` and the binlog file and offset of the master, then START
SLAVE. -/
theorem C1_changeMasterTo_style (c : Cluster) (server master : Nat) (mode : String)
    (db : Nat → DBObs) (hconn : (c.heap server).Conn.isSome = true) :
    (styleOf (ChangeMasterTo c server master mode db).2.1 = some Style.MariaDBGtid ↔
      ((c.heap server).State ≠ stateFailed ∧ c.Conf.ForceSlaveNoGtid = false
        ∧ (c.heap server).DBVersion.IsMariaDB = true ∧ (c.heap server).DBVersion.Major ≥ 10))
    ∧ (styleOf (ChangeMasterTo c server master mode db).2.1 = some Style.AutoPosition ↔
      (¬ ((c.heap server).State ≠ stateFailed ∧ c.Conf.ForceSlaveNoGtid = false
        ∧ (c.heap server).DBVersion.IsMariaDB = true ∧ (c.heap server).DBVersion.Major ≥ 10)
       ∧ (db server).HasMySQLGTID = true ∧ c.Conf.ForceSlaveNoGtid = false))
    ∧ (styleOf (ChangeMasterTo c server master mode db).2.1 = some Style.Positional ↔
      (¬ ((c.heap server).State ≠ stateFailed ∧ c.Conf.ForceSlaveNoGtid = false
        ∧ (c.heap server).DBVersion.IsMariaDB = true ∧ (c.heap server).DBVersion.Major ≥ 10)
       ∧ ¬ ((db server).HasMySQLGTID = true ∧ c.Conf.ForceSlaveNoGtid = false)))
    ∧ sqlCommands (ChangeMasterTo c server master mode db).2.1 =
      (if (c.heap server).State ≠ stateFailed ∧ c.Conf.ForceSlaveNoGtid = false
          ∧ (c.heap server).DBVersion.IsMariaDB = true
          ∧ (c.heap server).DBVersion.Major ≥ 10 then
        Event.SQL (c.heap server).URL (.SetGlobalGtidSlavePos
            ((Refresh c master (db master).Refresh).1.heap master).CurrentGtid) ::
          (if (db server).ExecSetGlobalGtidSlavePos = none then
            [Event.SQL (c.heap server).URL
                (.ChangeMaster (specChangeMaster c server master mode "" "")),
              Event.SQL (c.heap server).URL (.StartSlave c.Conf.MasterConn)]
          else [])
      else if (db server).HasMySQLGTID = true ∧ c.Conf.ForceSlaveNoGtid = false then
        [Event.SQL (c.heap server).URL
            (.ChangeMaster (specChangeMaster c server master "MASTER_AUTO_POSITION" "" "")),
          Event.SQL (c.heap server).URL (.StartSlave c.Conf.MasterConn)]
      else
        [Event.SQL (c.heap server).URL
            (.ChangeMaster (specChangeMaster c server master "POSITIONAL"
              (c.heap master).BinaryLogFile (c.heap master).BinaryLogPos)),
          Event.SQL (c.heap server).URL (.StartSlave c.Conf.MasterConn)])
    ∧ (((c.heap server).State ≠ stateFailed ∧ c.Conf.ForceSlaveNoGtid = false
          ∧ (c.heap server).DBVersion.IsMariaDB = true
          ∧ (c.heap server).DBVersion.Major ≥ 10) →
        ∀ e, (db server).ExecSetGlobalGtidSlavePos = some e →
          (ChangeMasterTo c server master mode db).2.2 = Ret.err e) := by
  have hsql := ChangeMasterTo_sql c server master mode db hconn
  by_cases h : ((c.heap server).State != stateFailed && c.Conf.ForceSlaveNoGtid == false
      && (c.heap server).DBVersion.IsMariaDB && decide ((c.heap server).DBVersion.Major ≥ 10)) = true
  · rw [changeMasterTo_style_gtid c server master mode db hconn h]
    have h' := h
    simp only [Bool.and_eq_true, bne_iff_ne, beq_iff_eq, decide_eq_true_eq] at h'
    have hg : (c.heap server).State ≠ stateFailed ∧ c.Conf.ForceSlaveNoGtid = false
        ∧ (c.heap server).DBVersion.IsMariaDB = true ∧ (c.heap server).DBVersion.Major ≥ 10 :=
      ⟨h'.1.1.1, h'.1.1.2, h'.1.2, h'.2⟩
    refine ⟨⟨fun _ => hg, fun _ => rfl⟩, ⟨fun h => by simp at h, fun h => absurd hg h.1⟩,
      ⟨fun h => by simp at h, fun h => absurd hg h.1⟩, ?_, fun _ => hsql.2 h⟩
    rw [hsql.1, if_pos h, if_pos hg]
  · rw [changeMasterTo_style_other c server master mode db (by simpa using h)]
    have hg : ¬ ((c.heap server).State ≠ stateFailed ∧ c.Conf.ForceSlaveNoGtid = false
        ∧ (c.heap server).DBVersion.IsMariaDB = true ∧ (c.heap server).DBVersion.Major ≥ 10) := by
      intro hg
      apply h
      simp only [Bool.and_eq_true, bne_iff_ne, beq_iff_eq, decide_eq_true_eq]
      exact ⟨⟨⟨hg.1, hg.2.1⟩, hg.2.2.1⟩, hg.2.2.2⟩
    by_cases ha : ((db server).HasMySQLGTID && c.Conf.ForceSlaveNoGtid == false) = true
    · rw [if_pos ha]
      have ha' := ha
      simp only [Bool.and_eq_true, beq_iff_eq] at ha'
      refine ⟨⟨fun h => by simp at h, fun h => absurd h hg⟩, ⟨fun _ => ⟨hg, ha'⟩, fun _ => rfl⟩,
        ⟨fun h => by simp at h, fun h => absurd ha' h.2⟩, ?_, fun h => absurd h hg⟩
      rw [hsql.1, if_neg h, if_pos ha, if_neg hg, if_pos ha']
    · rw [if_neg ha]
      have ha' := ha
      simp only [Bool.and_eq_true, beq_iff_eq] at ha'
      refine ⟨⟨fun h => by simp at h, fun h => absurd h hg⟩,
        ⟨fun h => by simp at h, fun h => absurd h.2 ha'⟩, ⟨fun _ => ⟨hg, ha'⟩, fun _ => rfl⟩,
        ?_, fun h => absurd h hg⟩
      rw [hsql.1, if_neg h, if_neg ha, if_neg hg, if_neg ha']

/-- C1 (counterexample): a MariaDB 10.5 server in state `Failed`, with
`ForceSlaveNoGtid` false, is wired in the positional style, so the table of
the claim (MariaDB GTID whenever MariaDB, major at least 10 and not forced)
does not hold. -/
theorem C1_counterexample :
    ¬ ((styleOf (ChangeMasterTo (sampleCluster.store 0 { srvA with State := stateFailed })
            0 1 "SLAVE_POS" quietDB).2.1 = some Style.MariaDBGtid ↔
          (srvA.DBVersion.IsMariaDB = true ∧ srvA.DBVersion.Major ≥ 10
            ∧ sampleCluster.Conf.ForceSlaveNoGtid = false))
      ∧ (styleOf (ChangeMasterTo (sampleCluster.store 0 { srvA with State := stateFailed })
            0 1 "SLAVE_POS" quietDB).2.1 = some Style.AutoPosition ↔
          (srvA.DBVersion.IsMariaDB = false ∧ (quietDB 0).HasMySQLGTID = true
            ∧ sampleCluster.Conf.ForceSlaveNoGtid = false))
      ∧ (styleOf (ChangeMasterTo (sampleCluster.store 0 { srvA with State := stateFailed })
            0 1 "SLAVE_POS" quietDB).2.1 = some Style.Positional ↔
          (¬ (srvA.DBVersion.IsMariaDB = true ∧ srvA.DBVersion.Major ≥ 10
              ∧ sampleCluster.Conf.ForceSlaveNoGtid = false)
            ∧ ¬ (srvA.DBVersion.IsMariaDB = false ∧ (quietDB 0).HasMySQLGTID = true
              ∧ sampleCluster.Conf.ForceSlaveNoGtid = false)))) := by
  decide

/-- C1 (witness): the healthy MariaDB 10.5 server `a` of the sample cluster is
wired to `b` in the MariaDB GTID style: `gtid_slave_pos` is set, then CHANGE
MASTER to `b:3306` with the mode `SLAVE_POS`, then START SLAVE; when setting
`gtid_slave_pos` fails the error is returned after that one command. -/
theorem C1_witness :
    (sampleCluster.heap 0).Conn.isSome = true
    ∧ styleOf (ChangeMasterTo sampleCluster 0 1 "SLAVE_POS" quietDB).2.1
        = some Style.MariaDBGtid
    ∧ sqlCommands (ChangeMasterTo sampleCluster 0 1 "SLAVE_POS" quietDB).2.1 =
        [Event.SQL "a:3306" (.SetGlobalGtidSlavePos
            ((Refresh sampleCluster 1 (quietDB 1).Refresh).1.heap 1).CurrentGtid),
          Event.SQL "a:3306" (.ChangeMaster (specChangeMaster sampleCluster 0 1 "SLAVE_POS" "" "")),
          Event.SQL "a:3306" (.StartSlave "")]
    ∧ (specChangeMaster sampleCluster 0 1 "SLAVE_POS" "" "").Host = "b"
    ∧ (specChangeMaster sampleCluster 0 1 "SLAVE_POS" "" "").Mode = "SLAVE_POS"
    ∧ (ChangeMasterTo sampleCluster 0 1 "SLAVE_POS" gtidErrorDB).2.2
        = Ret.err (GoError.Other "Error 1948")
    ∧ sqlCommands (ChangeMasterTo sampleCluster 0 1 "SLAVE_POS" gtidErrorDB).2.1 =
        [Event.SQL "a:3306" (.SetGlobalGtidSlavePos
            ((Refresh sampleCluster 1 (gtidErrorDB 1).Refresh).1.heap 1).CurrentGtid)] :=
  have h := C1_changeMasterTo_style sampleCluster 0 1 "SLAVE_POS" quietDB (by decide)
  have h2 := C1_changeMasterTo_style sampleCluster 0 1 "SLAVE_POS" gtidErrorDB (by decide)
  ⟨by decide, h.1.2 ⟨by decide, by decide, by decide, by decide⟩,
    h.2.2.2.1.trans (by decide), rfl, rfl,
    h2.2.2.2.2 ⟨by decide, by decide, by decide, by decide⟩ _ rfl,
    h2.2.2.2.1.trans (by decide)⟩

/-! ## Memory -/

theorem store_heap (c : Cluster) (p q : Nat) (s : ServerMonitor) :
    (c.store p s).heap q = if q = p then s else c.heap q := by
  simp [Cluster.store, Function.update_apply]

@[simp] theorem store_heap_same (c : Cluster) (p : Nat) (s : ServerMonitor) :
    (c.store p s).heap p = s := by simp [store_heap]

@[simp] theorem store_master (c : Cluster) (p : Nat) (s : ServerMonitor) :
    (c.store p s).master = c.master := rfl

@[simp] theorem store_vmaster (c : Cluster) (p : Nat) (s : ServerMonitor) :
    (c.store p s).vmaster = c.vmaster := rfl

@[simp] theorem store_slaves (c : Cluster) (p : Nat) (s : ServerMonitor) :
    (c.store p s).slaves = c.slaves := rfl

@[simp] theorem store_Conf (c : Cluster) (p : Nat) (s : ServerMonitor) :
    (c.store p s).Conf = c.Conf := rfl

@[simp] theorem store_sme (c : Cluster) (p : Nat) (s : ServerMonitor) :
    (c.store p s).sme = c.sme := rfl

@[simp] theorem store_Servers (c : Cluster) (p : Nat) (s : ServerMonitor) :
    (c.store p s).Servers = c.Servers := rfl

theorem store_frame {α : Type} (g : ServerMonitor → α) (c : Cluster) (p q : Nat)
    (s : ServerMonitor) (h : g s = g (c.heap p)) : g ((c.store p s).heap q) = g (c.heap q) := by
  rw [store_heap]
  split_ifs with hq
  · rw [h, hq]
  · rfl

theorem countLog_append (f : String) (a b : List Event) :
    countLog f (a ++ b) = countLog f a + countLog f b := by
  simp [countLog, List.countP_append]

/-! ## The failure path of `Ping` -/

theorem pingVirtualMaster_frame {α : Type} (g : ServerMonitor → α)
    (hg : ∀ s x, g { s with IsVirtualMaster := x } = g s) (c : Cluster) (server q : Nat) :
    g ((pingVirtualMaster c server).heap q) = g (c.heap q) := by
  unfold pingVirtualMaster
  cases c.vmaster with
  | none => rfl
  | some v => exact store_frame g c server q _ (hg _ _)

theorem pingVirtualMaster_cluster (c : Cluster) (server : Nat) :
    (pingVirtualMaster c server).master = c.master
    ∧ (pingVirtualMaster c server).slaves = c.slaves
    ∧ (pingVirtualMaster c server).sme = c.sme
    ∧ (pingVirtualMaster c server).Conf = c.Conf
    ∧ (pingVirtualMaster c server).vmaster = c.vmaster
    ∧ (pingVirtualMaster c server).Servers = c.Servers := by
  cases h : c.vmaster <;> simp [pingVirtualMaster, h]

theorem pingFailAlert_frame {α : Type} (g : ServerMonitor → α)
    (hg : ∀ s x, g { s with PrevState := x } = g s) (c : Cluster) (server q : Nat) :
    g ((pingFailAlert c server).1.heap q) = g (c.heap q) := by
  unfold pingFailAlert
  dsimp only
  split_ifs
  · exact store_frame g c server q _ (hg _ _)
  · exact store_frame g c server q _ (hg _ _)
  · rfl

theorem pingFailAlert_cluster (c : Cluster) (server : Nat) :
    (pingFailAlert c server).1.master = c.master
    ∧ (pingFailAlert c server).1.slaves = c.slaves
    ∧ (pingFailAlert c server).1.sme = c.sme
    ∧ (pingFailAlert c server).1.Conf = c.Conf
    ∧ (pingFailAlert c server).1.vmaster = c.vmaster
    ∧ (pingFailAlert c server).1.Servers = c.Servers := by
  unfold pingFailAlert
  dsimp only
  split_ifs <;> exact ⟨rfl, rfl, rfl, rfl, rfl, rfl⟩

theorem pingFailAlert_countLog (c : Cluster) (server : Nat) :
    countLog "Declaring db master as failed %s" (pingFailAlert c server).2 = 0 := by
  unfold pingFailAlert
  dsimp only
  split_ifs <;> simp [countLog, isLog]

theorem pingFailedMaster_frame {α : Type} (g : ServerMonitor → α)
    (hg : ∀ s x y, g { s with FailSuspectHeartbeat := x, State := y } = g s)
    (c : Cluster) (server master q : Nat) :
    g ((pingFailedMaster c server master).1.heap q) = g (c.heap q) := by
  have h1 : ∀ s x, g { s with FailSuspectHeartbeat := x } = g s := fun s x => by
    have := hg s x s.State
    simpa using this
  have h2 : ∀ s y, g { s with State := y } = g s := fun s y => by
    have := hg s s.FailSuspectHeartbeat y
    simpa using this
  unfold pingFailedMaster
  dsimp only
  split_ifs <;>
  · rw [store_frame g _ master q _ (h2 _ _)]
    exact store_frame g c server q _ (h1 _ _)

theorem pingFailedMaster_cluster (c : Cluster) (server master : Nat) :
    (pingFailedMaster c server master).1.master = c.master
    ∧ (pingFailedMaster c server master).1.slaves = c.slaves
    ∧ (pingFailedMaster c server master).1.sme = c.sme
    ∧ (pingFailedMaster c server master).1.Conf = c.Conf
    ∧ (pingFailedMaster c server master).1.vmaster = c.vmaster
    ∧ (pingFailedMaster c server master).1.Servers = c.Servers := by
  unfold pingFailedMaster
  dsimp only
  split_ifs <;> exact ⟨rfl, rfl, rfl, rfl, rfl, rfl⟩

theorem pingFailedMaster_alias (c : Cluster) (server : Nat) :
    ((pingFailedMaster c server server).1.heap server).State =
        (if (c.heap server).FailCount ≥ c.Conf.MaxFail then stateFailed else stateSuspect)
    ∧ countLog "Declaring db master as failed %s" (pingFailedMaster c server server).2 =
        (if (c.heap server).FailCount = c.Conf.MaxFail then 1 else 0) := by
  unfold pingFailedMaster
  by_cases h1 : (c.heap server).FailCount ≥ c.Conf.MaxFail
  · by_cases h2 : (c.heap server).FailCount = c.Conf.MaxFail
    · by_cases h3 : (c.heap server).FailCount ≤ c.Conf.MaxFail <;>
        simp [h1, h2, h3, countLog, isLog]
    · by_cases h3 : (c.heap server).FailCount ≤ c.Conf.MaxFail <;>
        simp [h1, h2, h3, countLog, isLog]
  · have h2 : ¬ (c.heap server).FailCount = c.Conf.MaxFail := fun h => h1 (le_of_eq h.symm)
    by_cases h3 : (c.heap server).FailCount ≤ c.Conf.MaxFail <;>
        simp [h1, h2, h3, countLog, isLog]

theorem pingFailedSlave_frame {α : Type} (g : ServerMonitor → α)
    (hg : ∀ s x y z, g { s with State := x, Replications := y, LastSeenReplications := z } = g s)
    (c : Cluster) (server q : Nat) :
    g ((pingFailedSlave c server).1.heap q) = g (c.heap q) := by
  have h1 : ∀ s x, g { s with State := x } = g s := fun s x => by
    have := hg s x s.Replications s.LastSeenReplications
    simpa using this
  have h2 : ∀ s y, g { s with Replications := y } = g s := fun s y => by
    have := hg s s.State y s.LastSeenReplications
    simpa using this
  have h3 : ∀ s z, g { s with LastSeenReplications := z } = g s := fun s z => by
    have := hg s s.State s.Replications z
    simpa using this
  unfold pingFailedSlave
  dsimp only
  split_ifs
  · rw [store_heap]
    split_ifs with hq
    · subst hq
      rw [h2, h3]
      simp only [store_heap_same]
      exact h1 _ _
    · exact store_frame g c server q _ (h1 _ _)
  · rw [store_heap]
    split_ifs with hq
    · subst hq
      rw [h2]
      simp only [store_heap_same]
      exact h1 _ _
    · exact store_frame g c server q _ (h1 _ _)
  · rfl
  · exact store_frame g c server q _ (h1 _ _)

theorem pingFailedSlave_cluster (c : Cluster) (server : Nat) :
    (pingFailedSlave c server).1.master = c.master
    ∧ (pingFailedSlave c server).1.sme = c.sme
    ∧ (pingFailedSlave c server).1.Conf = c.Conf
    ∧ (pingFailedSlave c server).1.vmaster = c.vmaster
    ∧ (pingFailedSlave c server).1.Servers = c.Servers := by
  unfold pingFailedSlave
  dsimp only
  split_ifs <;> exact ⟨rfl, rfl, rfl, rfl, rfl⟩

theorem pingFailCount_frame {α : Type} (g : ServerMonitor → α)
    (hg : ∀ s n h x y z, g { s with FailCount := n, FailSuspectHeartbeat := h, State := x, Replications := y, LastSeenReplications := z } = g s)
    (c : Cluster) (server q : Nat) :
    g ((pingFailCount c server).1.heap q) = g (c.heap q) := by
  have h0 : ∀ s n, g { s with FailCount := n } = g s := fun s n => by
    have := hg s n s.FailSuspectHeartbeat s.State s.Replications s.LastSeenReplications
    simpa using this
  have h1 : ∀ s x y, g { s with FailSuspectHeartbeat := x, State := y } = g s := fun s x y => by
    have := hg s s.FailCount x y s.Replications s.LastSeenReplications
    simpa using this
  have h2 : ∀ s x y z, g { s with State := x, Replications := y, LastSeenReplications := z } = g s :=
    fun s x y z => by
      have := hg s s.FailCount s.FailSuspectHeartbeat x y z
      simpa using this
  unfold pingFailCount
  dsimp only
  cases hm : c.master with
  | none =>
    simp only [store_master, hm]
    rw [pingFailedSlave_frame g h2]
    exact store_frame g c server q _ (h0 _ _)
  | some m =>
    simp only [store_master, hm]
    split_ifs
    · rw [pingFailedMaster_frame g h1]
      exact store_frame g c server q _ (h0 _ _)
    · rw [pingFailedSlave_frame g h2]
      exact store_frame g c server q _ (h0 _ _)

theorem pingFailCount_cluster (c : Cluster) (server : Nat) :
    (pingFailCount c server).1.master = c.master
    ∧ (pingFailCount c server).1.sme = c.sme
    ∧ (pingFailCount c server).1.Conf = c.Conf
    ∧ (pingFailCount c server).1.vmaster = c.vmaster
    ∧ (pingFailCount c server).1.Servers = c.Servers := by
  have hS := pingFailedSlave_cluster (c.store server
        { c.heap server with FailCount := (c.heap server).FailCount + 1 }) server
  unfold pingFailCount
  dsimp only
  cases hm : c.master with
  | none =>
    simp only [store_master, hm]
    simpa [hm] using hS
  | some m =>
    have h := pingFailedMaster_cluster (c.store server
        { c.heap server with FailCount := (c.heap server).FailCount + 1 }) server m
    simp only [store_master, hm]
    split_ifs
    · simpa [hm] using And.intro h.1 (And.intro h.2.2.1 h.2.2.2)
    · simpa [hm] using hS

theorem pingFailCount_FailCount (c : Cluster) (server : Nat) :
    ((pingFailCount c server).1.heap server).FailCount = (c.heap server).FailCount + 1 := by
  unfold pingFailCount
  dsimp only
  cases hm : c.master with
  | none =>
    simp only [store_master, hm]
    rw [pingFailedSlave_frame (fun s => s.FailCount) (fun _ _ _ _ => rfl)]
    simp
  | some m =>
    simp only [store_master, hm]
    split_ifs
    · rw [pingFailedMaster_frame (fun s => s.FailCount) (fun _ _ _ => rfl)]
      simp
    · rw [pingFailedSlave_frame (fun s => s.FailCount) (fun _ _ _ _ => rfl)]
      simp

theorem pingFailCount_master (c : Cluster) (server : Nat) (hm : c.master = some server) :
    ((pingFailCount c server).1.heap server).State =
        (if (c.heap server).FailCount + 1 ≥ c.Conf.MaxFail then stateFailed else stateSuspect)
    ∧ countLog "Declaring db master as failed %s" (pingFailCount c server).2 =
        (if (c.heap server).FailCount + 1 = c.Conf.MaxFail then 1 else 0) := by
  have h := pingFailedMaster_alias (c.store server
    { c.heap server with FailCount := (c.heap server).FailCount + 1 }) server
  unfold pingFailCount
  simp only [store_master, hm]
  simpa using h

theorem pingFailRest_frame {α : Type} (g : ServerMonitor → α)
    (hg : ∀ s n h x y z p, g { s with FailCount := n, FailSuspectHeartbeat := h, State := x, Replications := y, LastSeenReplications := z, PrevState := p } = g s)
    (c : Cluster) (server : Nat) (e : GoError) (q : Nat) :
    g ((pingFailRest c server e).1.heap q) = g (c.heap q) := by
  have h1 : ∀ s p, g { s with PrevState := p } = g s := fun s p => by
    have := hg s s.FailCount s.FailSuspectHeartbeat s.State s.Replications s.LastSeenReplications p
    simpa using this
  have h2 : ∀ s n h x y z, g { s with FailCount := n, FailSuspectHeartbeat := h, State := x, Replications := y, LastSeenReplications := z } = g s := fun s n h x y z => by
    have := hg s n h x y z s.PrevState
    simpa using this
  unfold pingFailRest
  dsimp only
  rw [pingFailAlert_frame g h1]
  split_ifs
  · exact pingFailCount_frame g h2 c server q
  · rfl

theorem pingFailRest_cluster (c : Cluster) (server : Nat) (e : GoError) :
    (pingFailRest c server e).1.master = c.master
    ∧ (pingFailRest c server e).1.sme = c.sme
    ∧ (pingFailRest c server e).1.Conf = c.Conf
    ∧ (pingFailRest c server e).1.vmaster = c.vmaster
    ∧ (pingFailRest c server e).1.Servers = c.Servers := by
  unfold pingFailRest
  dsimp only
  split_ifs
  · have h1 := pingFailAlert_cluster (pingFailCount c server).1 server
    have h2 := pingFailCount_cluster c server
    exact ⟨h1.1.trans h2.1, h1.2.2.1.trans h2.2.1, h1.2.2.2.1.trans h2.2.2.1,
      h1.2.2.2.2.1.trans h2.2.2.2.1, h1.2.2.2.2.2.trans h2.2.2.2.2⟩
  · have h1 := pingFailAlert_cluster c server
    exact ⟨h1.1, h1.2.2.1, h1.2.2.2.1, h1.2.2.2.2.1, h1.2.2.2.2.2⟩

theorem pingFailRest_FailCount (c : Cluster) (server : Nat) (e : GoError) :
    ((pingFailRest c server e).1.heap server).FailCount =
      (c.heap server).FailCount + (if e ≠ GoError.ErrNoRows then 1 else 0) := by
  unfold pingFailRest
  dsimp only
  rw [pingFailAlert_frame (fun s => s.FailCount) (fun _ _ => rfl)]
  by_cases h : e = GoError.ErrNoRows
  · simp [h]
  · simp [h, pingFailCount_FailCount]

theorem pingFailRest_master (c : Cluster) (server : Nat) (e : GoError)
    (hm : c.master = some server) (h2 : e ≠ GoError.ErrNoRows) :
    ((pingFailRest c server e).1.heap server).State =
        (if (c.heap server).FailCount + 1 ≥ c.Conf.MaxFail then stateFailed else stateSuspect)
    ∧ countLog "Declaring db master as failed %s" (pingFailRest c server e).2 =
        (if (c.heap server).FailCount + 1 = c.Conf.MaxFail then 1 else 0) := by
  have h := pingFailCount_master c server hm
  unfold pingFailRest
  dsimp only
  rw [pingFailAlert_frame (fun s => s.State) (fun _ _ => rfl)]
  have hne : (e != GoError.ErrNoRows) = true := by simpa using h2
  simp only [hne, if_true, countLog_append, pingFailAlert_countLog, add_zero]
  exact h

theorem pingFailure_rest (c : Cluster) (server : Nat) (e : GoError)
    (h1 : accessDenied e = false) :
    (pingFailure c server e).1 = (pingFailRest c server e).1
    ∧ ∀ f, f ≠ "Driver Error %s %d " →
        countLog f (pingFailure c server e).2 = countLog f (pingFailRest c server e).2 := by
  unfold pingFailure
  cases e with
  | MySQLError n t =>
    have hn : (n == 1045) = false := by simpa [accessDenied] using h1
    simp only [hn]
    refine ⟨rfl, fun f hf => ?_⟩
    simp only [countLog_append, Bool.false_eq_true, if_false]
    by_cases hs : (c.heap server).State = stateFailed <;>
      simp [hs, countLog, isLog, Ne.symm hf]
  | ErrNoRows =>
    refine ⟨rfl, fun f _ => ?_⟩
    simp only [countLog_append]
    by_cases hs : (c.heap server).State = stateFailed <;> simp [hs, countLog, isLog]
  | Other t =>
    refine ⟨rfl, fun f _ => ?_⟩
    simp only [countLog_append]
    by_cases hs : (c.heap server).State = stateFailed <;> simp [hs, countLog, isLog]

/-- The probe whose connectivity check leaves the error `e`. -/
theorem Ping_fail (c : Cluster) (server : Nat) (o : PingObs) (e : GoError) (cn : Option Nat)
    (he : pingCheck c.Conf o = some (cn, some e)) :
    Ping c server o = ((pingFailure (pingVirtualMaster c server) server e).1,
      (pingFailure (pingVirtualMaster c server) server e).2, Ret.nil) := by
  unfold Ping
  simp only [he]

/-- The probe whose connectivity check leaves no error. -/
theorem Ping_success (c : Cluster) (server : Nat) (o : PingObs) (cn : Option Nat)
    (he : pingCheck c.Conf o = some (cn, none)) :
    Ping c server o = pingSuccess (pingVirtualMaster c server) server { o with conn := cn } := by
  unfold Ping
  simp only [he]

/-- The probe whose connectivity check reads the status of a `nil` response. -/
theorem Ping_panic (c : Cluster) (server : Nat) (o : PingObs)
    (he : pingCheck c.Conf o = none) :
    Ping c server o = (pingVirtualMaster c server, [], Ret.panic) := by
  unfold Ping
  simp only [he]

/-- In `tcp` mode the switch leaves what `GetNewDBConn` has returned. -/
theorem pingCheck_tcp (conf : Config) (o : PingObs) (h : conf.CheckType = "tcp") :
    pingCheck conf o = some (o.conn, o.err) := by
  unfold pingCheck
  simp [h]

/-- The switch leaves a connection in `tcp` mode only: there it is the
connection, and the error, that `GetNewDBConn` has returned. -/
theorem pingCheck_conn (conf : Config) (o : PingObs) (conn : Nat) (er : Option GoError) :
    pingCheck conf o = some (some conn, er) ↔
      (conf.CheckType = "tcp" ∧ o.conn = some conn ∧ o.err = er) := by
  unfold pingCheck
  by_cases h : conf.CheckType = "tcp"
  · simp [h]
  · have hb : (conf.CheckType == "tcp") = false := by simpa using h
    simp only [hb, Bool.false_eq_true, if_false, h, false_and, iff_false]
    split_ifs
    · cases o.resp with
      | none => simp
      | some status =>
        dsimp only
        split_ifs <;> simp
    · simp

/-- One failing probe of the current master. -/
theorem Ping_master_fail (c : Cluster) (server : Nat) (o : PingObs) (e : GoError)
    (cn : Option Nat)
    (hm : c.master = some server) (he : pingCheck c.Conf o = some (cn, some e))
    (h1 : accessDenied e = false)
    (h2 : e ≠ GoError.ErrNoRows) :
    (Ping c server o).2.2 = Ret.nil
    ∧ (Ping c server o).1.master = some server
    ∧ (Ping c server o).1.Conf = c.Conf
    ∧ ((Ping c server o).1.heap server).FailCount = (c.heap server).FailCount + 1
    ∧ ((Ping c server o).1.heap server).State =
        (if (c.heap server).FailCount + 1 ≥ c.Conf.MaxFail then stateFailed else stateSuspect)
    ∧ countLog "Declaring db master as failed %s" (Ping c server o).2.1 =
        (if (c.heap server).FailCount + 1 = c.Conf.MaxFail then 1 else 0) := by
  have hv := pingVirtualMaster_cluster c server
  have hvF := pingVirtualMaster_frame (fun s => s.FailCount) (fun _ _ => rfl) c server server
  have hr := pingFailure_rest (pingVirtualMaster c server) server e h1
  have hc := pingFailRest_cluster (pingVirtualMaster c server) server e
  have hF := pingFailRest_FailCount (pingVirtualMaster c server) server e
  have hM := pingFailRest_master (pingVirtualMaster c server) server e (hv.1.trans hm) h2
  rw [Ping_fail c server o e cn he]
  refine ⟨rfl, ?_, ?_, ?_, ?_, ?_⟩
  · show (pingFailure (pingVirtualMaster c server) server e).1.master = some server
    rw [hr.1, hc.1, hv.1, hm]
  · show (pingFailure (pingVirtualMaster c server) server e).1.Conf = c.Conf
    rw [hr.1, hc.2.2.1, hv.2.2.2.1]
  · show ((pingFailure (pingVirtualMaster c server) server e).1.heap server).FailCount = _
    rw [hr.1, hF, hvF]
    simp [h2]
  · show ((pingFailure (pingVirtualMaster c server) server e).1.heap server).State = _
    rw [hr.1, hM.1, hvF, hv.2.2.2.1]
  · show countLog _ (pingFailure (pingVirtualMaster c server) server e).2 = _
    rw [hr.2 _ (by decide), hM.2, hvF, hv.2.2.2.1]

theorem pingRun_cons_nil (server : Nat) (sme : StateMachine) (o : PingObs)
    (rest : List (StateMachine × PingObs)) (c : Cluster)
    (h : (Ping { c with sme := sme } server o).2.2 = Ret.nil) :
    pingRun server ((sme, o) :: rest) c =
      ((pingRun server rest (Ping { c with sme := sme } server o).1).1,
        (Ping { c with sme := sme } server o).2.1 ++
          (pingRun server rest (Ping { c with sme := sme } server o).1).2.1,
        (pingRun server rest (Ping { c with sme := sme } server o).1).2.2) := by
  rw [pingRun]
  simp only [h]

/-- A run of failing probes of the current master. -/
theorem pingRun_master_fail (server : Nat) (ticks : List (StateMachine × PingObs)) :
    ∀ c : Cluster, c.master = some server →
      (∀ t ∈ ticks, ∃ cn e, pingCheck c.Conf t.2 = some (cn, some e)
        ∧ accessDenied e = false ∧ e ≠ GoError.ErrNoRows) →
      (pingRun server ticks c).2.2 = Ret.nil
      ∧ (pingRun server ticks c).1.master = some server
      ∧ (pingRun server ticks c).1.Conf = c.Conf
      ∧ ((pingRun server ticks c).1.heap server).FailCount =
          (c.heap server).FailCount + ticks.length
      ∧ (ticks ≠ [] → ((pingRun server ticks c).1.heap server).State =
          (if (c.heap server).FailCount + ticks.length ≥ c.Conf.MaxFail then stateFailed
           else stateSuspect))
      ∧ countLog "Declaring db master as failed %s" (pingRun server ticks c).2.1 =
          (if (c.heap server).FailCount < c.Conf.MaxFail
              ∧ c.Conf.MaxFail ≤ (c.heap server).FailCount + ticks.length then 1 else 0) := by
  induction ticks with
  | nil =>
    intro c hm _
    refine ⟨rfl, hm, rfl, by simp [pingRun], fun h => absurd rfl h, ?_⟩
    have : ¬ ((c.heap server).FailCount < c.Conf.MaxFail
        ∧ c.Conf.MaxFail ≤ (c.heap server).FailCount + (([] : List (StateMachine × PingObs)).length : Int)) := by
      simp only [List.length_nil, Nat.cast_zero, add_zero]
      omega
    rw [if_neg this]
    rfl
  | cons t rest ih =>
    intro c hm hall
    obtain ⟨sme, o⟩ := t
    obtain ⟨cn, e, he, h1, h2⟩ := hall (sme, o) (List.mem_cons_self _ _)
    have hstep := Ping_master_fail { c with sme := sme } server o e cn hm he h1 h2
    have hrest := ih (Ping { c with sme := sme } server o).1 hstep.2.1
      (fun t ht => by rw [hstep.2.2.1]; exact hall t (List.mem_cons_of_mem _ ht))
    rw [pingRun_cons_nil server sme o rest c hstep.1]
    have hF : ((Ping { c with sme := sme } server o).1.heap server).FailCount
        = (c.heap server).FailCount + 1 := hstep.2.2.2.1
    have hC : (Ping { c with sme := sme } server o).1.Conf = c.Conf := hstep.2.2.1
    rw [hF, hC] at hrest
    refine ⟨hrest.1, hrest.2.1, hrest.2.2.1, ?_, ?_, ?_⟩
    · rw [hrest.2.2.2.1]
      simp only [List.length_cons, Nat.cast_add, Nat.cast_one]
      ring
    · intro _
      by_cases hr : rest = []
      · subst hr
        simp only [pingRun, List.length_cons, List.length_nil, Nat.cast_ofNat, zero_add,
          Nat.cast_one]
        exact hstep.2.2.2.2.1
      · rw [hrest.2.2.2.2.1 hr]
        simp only [List.length_cons, Nat.cast_add, Nat.cast_one]
        have : (c.heap server).FailCount + 1 + (rest.length : Int)
            = (c.heap server).FailCount + ((rest.length : Int) + 1) := by ring
        rw [this]
    · simp only [countLog_append]
      rw [hrest.2.2.2.2.2]
      have h6 : countLog "Declaring db master as failed %s" (Ping { c with sme := sme } server o).2.1
          = if (c.heap server).FailCount + 1 = c.Conf.MaxFail then 1 else 0 := hstep.2.2.2.2.2
      rw [h6]
      simp only [List.length_cons, Nat.cast_add, Nat.cast_one]
      split_ifs <;> omega

/-! ## The success path of `Ping` -/

theorem kept_fields {s t : ServerMonitor} (h : kept s = kept t) :
    s.Id = t.Id ∧ s.URL = t.URL ∧ s.PrevState = t.PrevState ∧ s.FailCount = t.FailCount
    ∧ s.FailSuspectHeartbeat = t.FailSuspectHeartbeat ∧ s.Conn = t.Conn
    ∧ s.Prefered = t.Prefered ∧ s.LastSeenReplications = t.LastSeenReplications := by
  simp only [kept, Prod.mk.injEq] at h
  exact ⟨h.1, h.2.1, h.2.2.2.2.1, h.2.2.2.2.2.1, h.2.2.2.2.2.2.1, h.2.2.2.2.2.2.2.1,
    h.2.2.2.2.2.2.2.2.1, h.2.2.2.2.2.2.2.2.2.1⟩

theorem refreshServer_State (conf : Config) (hb : Int) (o : RefreshObs) (s : ServerMonitor) :
    (refreshServer conf hb o s).1.State = s.State
    ∨ (refreshServer conf hb o s).1.State = stateRelay := by
  have e1 : (refreshMaxscale conf o s).1.State = s.State
      ∨ (refreshMaxscale conf o s).1.State = stateRelay := by
    unfold refreshMaxscale
    split_ifs <;> simp
  have e2 : ∀ t, (refreshVariables conf hb o t).1.State = t.State := by
    intro t
    unfold refreshVariables
    simp only []
    split_ifs <;> rfl
  have e3 : ∀ t, (refreshMasterStatus o t).1.State = t.State := by
    intro t
    unfold refreshMasterStatus
    simp only []
    split_ifs <;> rfl
  have e4 : ∀ t, (refreshDumpThreads o t).1.State = t.State := by
    intro t
    unfold refreshDumpThreads
    split
    · split
      · split_ifs <;> rfl
      · rfl
    · rfl
  have e6 : ∀ t, (refreshStatus conf hb o t).1.State = t.State := by
    intro t
    unfold refreshStatus
    split_ifs
    · rfl
    · split
      · split_ifs <;> rfl
      · rfl
    · rfl
  unfold refreshServer
  split
  · exact Or.inl rfl
  split
  · exact Or.inl rfl
  split
  · exact Or.inl rfl
  generalize refreshMaxscale conf o s = r1 at e1 ⊢
  obtain ⟨s1, ev1⟩ := r1
  dsimp only at e1 ⊢
  have h2 := e2 s1
  generalize refreshVariables conf hb o s1 = r2 at h2 ⊢
  obtain ⟨s2, ev2, stop2⟩ := r2
  dsimp only at h2 ⊢
  have h3 := e3 s2
  generalize refreshMasterStatus o s2 = r3 at h3 ⊢
  obtain ⟨s3, ev3⟩ := r3
  dsimp only at h3 ⊢
  have h4 := e4 s3
  generalize refreshDumpThreads o s3 = r4 at h4 ⊢
  obtain ⟨s4, ev4, stop4⟩ := r4
  dsimp only at h4 ⊢
  have h6 := e6 (refreshReplications o s4)
  generalize refreshStatus conf hb o (refreshReplications o s4) = r6 at h6 ⊢
  obtain ⟨s6, ev6⟩ := r6
  have h5 : (refreshReplications o s4).State = s4.State := rfl
  dsimp only at h6 ⊢
  split
  · rw [h2]; exact e1
  split
  · rw [h4, h3, h2]; exact e1
  · rw [h6, h5, h4, h3, h2]; exact e1

theorem refreshServer_err (conf : Config) (hb : Int) (o : RefreshObs) (s : ServerMonitor) :
    (refreshServer conf hb o s).2.2 = none ↔
      (s.Conn.isSome = true ∧ o.ConnUnusable = false ∧ o.PingErr = none) := by
  unfold refreshServer
  cases hc : s.Conn with
  | none => simp
  | some n =>
    cases hu : o.ConnUnusable with
    | true => simp
    | false =>
      cases hp : o.PingErr with
      | some e => simp
      | none =>
        simp only [Option.isNone_some, Bool.false_eq_true, if_false, Option.isSome_some,
          and_self, iff_true]
        generalize refreshMaxscale conf o s = r1
        obtain ⟨s1, ev1⟩ := r1
        dsimp only
        generalize refreshVariables conf hb o s1 = r2
        obtain ⟨s2, ev2, stop2⟩ := r2
        dsimp only
        generalize refreshMasterStatus o s2 = r3
        obtain ⟨s3, ev3⟩ := r3
        dsimp only
        generalize refreshDumpThreads o s3 = r4
        obtain ⟨s4, ev4, stop4⟩ := r4
        dsimp only
        split_ifs <;> rfl

theorem Refresh_heap (c : Cluster) (p : Nat) (o : RefreshObs) :
    (Refresh c p o).1.heap p = (refreshServer c.Conf c.sme.Heartbeats o (c.heap p)).1 := by
  simp [Refresh]

theorem Refresh_heap_other (c : Cluster) (p q : Nat) (o : RefreshObs) (h : q ≠ p) :
    (Refresh c p o).1.heap q = c.heap q := by
  simp [Refresh, store_heap, h]

theorem pingResetFailCount_frame {α : Type} (g : ServerMonitor → α)
    (hg : ∀ s n h, g { s with FailCount := n, FailSuspectHeartbeat := h } = g s)
    (c : Cluster) (server q : Nat) :
    g ((pingResetFailCount c server).1.heap q) = g (c.heap q) := by
  unfold pingResetFailCount
  dsimp only
  split_ifs <;> first | rfl | exact store_frame g c server q _ (hg _ _ _)

theorem pingResetFailCount_cluster (c : Cluster) (server : Nat) :
    (pingResetFailCount c server).1.master = c.master
    ∧ (pingResetFailCount c server).1.slaves = c.slaves
    ∧ (pingResetFailCount c server).1.sme = c.sme
    ∧ (pingResetFailCount c server).1.Conf = c.Conf
    ∧ (pingResetFailCount c server).1.vmaster = c.vmaster
    ∧ (pingResetFailCount c server).1.Servers = c.Servers := by
  unfold pingResetFailCount
  dsimp only
  split_ifs <;> exact ⟨rfl, rfl, rfl, rfl, rfl, rfl⟩

theorem pingResetFailCount_FailCount (c : Cluster) (server : Nat) :
    ((pingResetFailCount c server).1.heap server).FailCount =
      (if ((c.heap server).State ≠ stateFailed ∧ (c.heap server).State ≠ stateErrorAuth
            ∧ (c.heap server).State ≠ stateSuspect) ∧ (c.heap server).FailCount > 0
       then 0 else (c.heap server).FailCount) := by
  unfold pingResetFailCount
  dsimp only
  by_cases h1 : (c.heap server).State = stateFailed
  · simp [h1]
  by_cases h2 : (c.heap server).State = stateErrorAuth
  · simp [h2]
  by_cases h3 : (c.heap server).State = stateSuspect
  · simp [h3]
  by_cases h4 : (c.heap server).FailCount > 0
  · simp [h1, h2, h3, h4]
  · simp [h1, h2, h3, h4]

theorem pingPrevState_frame {α : Type} (g : ServerMonitor → α)
    (hg : ∀ s x, g { s with PrevState := x } = g s) (c : Cluster) (server q : Nat) :
    g ((pingPrevState c server).1.heap q) = g (c.heap q) := by
  unfold pingPrevState
  dsimp only
  split_ifs
  · exact store_frame g c server q _ (hg _ _)
  · exact store_frame g c server q _ (hg _ _)
  · rfl

theorem pingPrevState_cluster (c : Cluster) (server : Nat) :
    (pingPrevState c server).1.master = c.master
    ∧ (pingPrevState c server).1.slaves = c.slaves
    ∧ (pingPrevState c server).1.sme = c.sme
    ∧ (pingPrevState c server).1.Conf = c.Conf
    ∧ (pingPrevState c server).1.vmaster = c.vmaster
    ∧ (pingPrevState c server).1.Servers = c.Servers := by
  unfold pingPrevState
  dsimp only
  split_ifs <;> exact ⟨rfl, rfl, rfl, rfl, rfl, rfl⟩

theorem pingRejoinMaster_frame {α : Type} (g : ServerMonitor → α)
    (hg : ∀ s x n, g { s with State := x, FailCount := n } = g s)
    (c : Cluster) (server : Nat) (o : PingObs) (q : Nat) :
    g ((pingRejoinMaster c server o).1.heap q) = g (c.heap q) := by
  unfold pingRejoinMaster
  exact store_frame g c server q _ (hg _ _ _)

theorem pingUnconnected_frame {α : Type} (g : ServerMonitor → α)
    (hg : ∀ s x, g { s with State := x } = g s)
    (c : Cluster) (server : Nat) (o : PingObs) (q : Nat) :
    g ((pingUnconnected c server o).1.heap q) = g (c.heap q) := by
  unfold pingUnconnected
  split_ifs
  · exact store_frame g c server q _ (hg _ _)
  · rfl

theorem pingClassify_frame {α : Type} (g : ServerMonitor → α)
    (hg : ∀ s x n, g { s with State := x, FailCount := n } = g s)
    (c : Cluster) (server : Nat) (o : PingObs) (q : Nat) :
    g ((pingClassify c server o).1.heap q) = g (c.heap q) := by
  have h1 : ∀ s x, g { s with State := x } = g s := fun s x => by
    have := hg s x s.FailCount
    simpa using this
  unfold pingClassify
  dsimp only
  split_ifs
  · exact pingRejoinMaster_frame g hg c server o q
  · exact pingUnconnected_frame g h1 c server o q
  · rfl
  · rfl
  · rfl

theorem pingClassify_cluster (c : Cluster) (server : Nat) (o : PingObs) :
    (pingClassify c server o).1.master = c.master
    ∧ (pingClassify c server o).1.slaves = c.slaves
    ∧ (pingClassify c server o).1.sme = c.sme
    ∧ (pingClassify c server o).1.Conf = c.Conf
    ∧ (pingClassify c server o).1.vmaster = c.vmaster
    ∧ (pingClassify c server o).1.Servers = c.Servers := by
  unfold pingClassify pingRejoinMaster pingUnconnected
  dsimp only
  split_ifs <;> exact ⟨rfl, rfl, rfl, rfl, rfl, rfl⟩

theorem pingClassify_FailCount (c : Cluster) (server : Nat) (o : PingObs) :
    ((pingClassify c server o).1.heap server).FailCount = (c.heap server).FailCount
    ∨ ((pingClassify c server o).1.heap server).FailCount = 0 := by
  unfold pingClassify
  dsimp only
  split_ifs
  · right
    simp [pingRejoinMaster]
  · left
    exact pingUnconnected_frame (fun s => s.FailCount) (fun _ _ => rfl) c server o server
  · exact Or.inl rfl
  · exact Or.inl rfl
  · exact Or.inl rfl

theorem pingSuccess_full (c : Cluster) (server : Nat) (o : PingObs) (conn : Nat)
    (hF : c.sme.InFailover = false) (hC : (c.heap server).Conn.isSome = true)
    (hconn : o.conn = some conn) (hR : (Refresh c server o.Refresh).2.2 = none) :
    pingSuccess c server o =
      ((pingPrevState (pingClassify (pingResetFailCount (Refresh c server o.Refresh).1 server).1
          server o).1 server).1,
        (Refresh c server o.Refresh).2.1
          ++ (pingResetFailCount (Refresh c server o.Refresh).1 server).2
          ++ (pingClassify (pingResetFailCount (Refresh c server o.Refresh).1 server).1
              server o).2
          ++ (pingPrevState (pingClassify (pingResetFailCount (Refresh c server o.Refresh).1
              server).1 server o).1 server).2
          ++ [Event.ConnClose conn],
        Ret.nil) := by
  unfold pingSuccess
  have hC' : (c.heap server).Conn.isNone = false := by
    cases h : (c.heap server).Conn <;> simp_all
  simp only [hF, hC', Bool.false_eq_true, if_false]
  generalize Refresh c server o.Refresh = r at hR ⊢
  obtain ⟨c1, ev1, err⟩ := r
  dsimp only at hR ⊢
  subst hR
  simp only [hconn]

/-! ## C2 -/

/-- The threshold of the master over a run of `k >= 1` failing probes whose
connectivity checks return: `Suspect` when `k < MaxFail`, `Failed` when
`k >= MaxFail`, and the line "Declaring db master as failed" once in the trace
of the run when `k >= MaxFail`. -/
theorem pingRun_master_threshold (c : Cluster) (server : Nat)
    (ticks : List (StateMachine × PingObs))
    (hmax : 1 ≤ c.Conf.MaxFail) (hm : c.master = some server)
    (h0 : (c.heap server).FailCount = 0)
    (hfail : ∀ t ∈ ticks, ∃ cn e, pingCheck c.Conf t.2 = some (cn, some e)
      ∧ accessDenied e = false ∧ e ≠ GoError.ErrNoRows)
    (hk : ticks ≠ []) :
    (pingRun server ticks c).2.2 = Ret.nil
    ∧ (pingRun server ticks c).1.master = some server
    ∧ ((ticks.length : Int) < c.Conf.MaxFail →
        ((pingRun server ticks c).1.heap server).State = stateSuspect)
    ∧ (c.Conf.MaxFail ≤ (ticks.length : Int) →
        ((pingRun server ticks c).1.heap server).State = stateFailed)
    ∧ countLog "Declaring db master as failed %s" (pingRun server ticks c).2.1 =
        (if c.Conf.MaxFail ≤ (ticks.length : Int) then 1 else 0) := by
  have h := pingRun_master_fail server ticks c hm hfail
  rw [h0] at h
  simp only [zero_add] at h
  refine ⟨h.1, h.2.1, ?_, ?_, ?_⟩
  · intro hlt
    rw [h.2.2.2.2.1 hk, if_neg (by omega)]
  · intro hge
    rw [h.2.2.2.2.1 hk, if_pos (by omega)]
  · rw [h.2.2.2.2.2]
    split_ifs <;> omega

/-- C2 (code bug): in `agent` mode a probe of the master whose connection is
refused gets a `nil` response from `http.Get`, and `Ping` reads
`resp.StatusCode` (srv.go:305) before it looks at the error: the call panics,
the master keeps the state `Master` and `FailCount` 0, and a run of three such
probes never makes it `Suspect` or `Failed`.  On every run whose connectivity
checks return (the `tcp` mode, and the `agent` mode with a response, where a
status other than 200 is handled as a failure) the threshold behaves as the
claim says: `Suspect` below `MaxFail`, `Failed` from `MaxFail` on, one
transition line. -/
theorem C2_refused_agent_probe_panics :
    (∀ (c : Cluster) (server : Nat) (ticks : List (StateMachine × PingObs)),
      1 ≤ c.Conf.MaxFail → c.master = some server → (c.heap server).FailCount = 0 →
      (∀ t ∈ ticks, ∃ cn e, pingCheck c.Conf t.2 = some (cn, some e)
        ∧ accessDenied e = false ∧ e ≠ GoError.ErrNoRows) →
      ticks ≠ [] →
      (pingRun server ticks c).2.2 = Ret.nil
      ∧ ((ticks.length : Int) < c.Conf.MaxFail →
          ((pingRun server ticks c).1.heap server).State = stateSuspect)
      ∧ (c.Conf.MaxFail ≤ (ticks.length : Int) →
          ((pingRun server ticks c).1.heap server).State = stateFailed)
      ∧ countLog "Declaring db master as failed %s" (pingRun server ticks c).2.1 =
          (if c.Conf.MaxFail ≤ (ticks.length : Int) then 1 else 0))
    ∧ agentCluster.Conf.CheckType = "agent" ∧ agentCluster.Conf.MaxFail = 3
    ∧ agentCluster.master = some 1 ∧ (agentCluster.heap 1).FailCount = 0
    ∧ (agentCluster.heap 1).State = stateMaster
    ∧ refusedObs.resp = none
    ∧ (Ping agentCluster 1 refusedObs).2.2 = Ret.panic
    ∧ ((Ping agentCluster 1 refusedObs).1.heap 1).State = stateMaster
    ∧ ((Ping agentCluster 1 refusedObs).1.heap 1).FailCount = 0
    ∧ (pingRun 1 [(agentCluster.sme, refusedObs), (agentCluster.sme, refusedObs),
        (agentCluster.sme, refusedObs)] agentCluster).2.2 = Ret.panic
    ∧ ((pingRun 1 [(agentCluster.sme, refusedObs), (agentCluster.sme, refusedObs),
        (agentCluster.sme, refusedObs)] agentCluster).1.heap 1).State = stateMaster
    ∧ (Ping agentCluster 1 notFoundObs).2.2 = Ret.nil
    ∧ ((Ping agentCluster 1 notFoundObs).1.heap 1).State = stateSuspect
    ∧ ((pingRun 1 [(sampleCluster.sme, failingObs), (sampleCluster.sme, failingObs),
        (sampleCluster.sme, failingObs)] sampleCluster).1.heap 1).State = stateFailed := by
  refine ⟨fun c server ticks hmax hm h0 hfail hk => ?_, by decide, by decide, by decide,
    by decide, by decide, by decide, by decide, by decide, by decide, by decide, by decide,
    by decide, by decide, by decide⟩
  have h := pingRun_master_threshold c server ticks hmax hm h0 hfail hk
  exact ⟨h.1, h.2.2.1, h.2.2.2.1, h.2.2.2.2⟩

/-! ## C7 -/

/-- C7: a probe that fails with the access-denied driver error 1045 sets the
state `ErrorAuth`, publishes `ERR00004` and returns at once: the trace is the
copy of the old states (made when the server was not `Failed`) followed by
the publication, and `FailCount`, `FailSuspectHeartbeat`, `PrevState`,
`Replications` and the slaves list are unchanged. -/
theorem C7_access_denied (c : Cluster) (server : Nat) (o : PingObs) (text : String)
    (cn : Option Nat)
    (he : pingCheck c.Conf o = some (cn, some (GoError.MySQLError 1045 text))) :
    (Ping c server o).2.2 = Ret.nil
    ∧ ((Ping c server o).1.heap server).State = stateErrorAuth
    ∧ (Ping c server o).2.1 =
        (if (c.heap server).State != stateFailed
          then [Event.CopyOldStateFromUnknowServer (c.heap server).URL] else [])
        ++ [Event.SetState "ERR00004" (c.heap server).URL]
    ∧ ((Ping c server o).1.heap server).FailCount = (c.heap server).FailCount
    ∧ ((Ping c server o).1.heap server).FailSuspectHeartbeat
        = (c.heap server).FailSuspectHeartbeat
    ∧ ((Ping c server o).1.heap server).PrevState = (c.heap server).PrevState
    ∧ ((Ping c server o).1.heap server).Replications = (c.heap server).Replications
    ∧ (Ping c server o).1.slaves = c.slaves := by
  have hv := pingVirtualMaster_cluster c server
  have h1 := pingVirtualMaster_frame (fun s => s.FailCount) (fun _ _ => rfl) c server server
  have h2 := pingVirtualMaster_frame (fun s => s.FailSuspectHeartbeat) (fun _ _ => rfl) c server server
  have h3 := pingVirtualMaster_frame (fun s => s.PrevState) (fun _ _ => rfl) c server server
  have h4 := pingVirtualMaster_frame (fun s => s.Replications) (fun _ _ => rfl) c server server
  have h5 := pingVirtualMaster_frame (fun s => s.State) (fun _ _ => rfl) c server server
  have h6 := pingVirtualMaster_frame (fun s => s.URL) (fun _ _ => rfl) c server server
  rw [Ping_fail c server o _ cn he]
  unfold pingFailure
  simp only [beq_self_eq_true, if_true, store_heap_same, store_slaves]
  exact ⟨trivial, trivial, by rw [h5, h6], h1, h2, h3, h4, hv.2.1⟩

/-- C7 (witness): an access-denied probe of the slave `a` of the sample
cluster. -/
theorem C7_witness :
    ((Ping sampleCluster 0
        { failingObs with err := some (GoError.MySQLError 1045 "Access denied") }).1.heap 0).State
      = stateErrorAuth
    ∧ ((Ping sampleCluster 0
        { failingObs with err := some (GoError.MySQLError 1045 "Access denied") }).1.heap 0).FailCount
      = 0 :=
  ⟨(C7_access_denied sampleCluster 0
      { failingObs with err := some (GoError.MySQLError 1045 "Access denied") }
      "Access denied" none rfl).2.1,
   (C7_access_denied sampleCluster 0
      { failingObs with err := some (GoError.MySQLError 1045 "Access denied") }
      "Access denied" none rfl).2.2.2.1⟩

/-! ## C3 -/

/-- C3 (the code at the failing input): with `MaxFail = 3`, a failing probe of
the non-master server `a`, whose `FailCount` is 3 and whose state is `Slave`,
raises `FailCount` to 4 and leaves the state `Slave`: neither `Failed` nor
`Suspect`. -/
theorem C3_slave_above_threshold :
    flappingSlave.Conf.MaxFail = 3
    ∧ flappingSlave.master = some 1
    ∧ (flappingSlave.heap 0).URL ≠ (flappingSlave.heap 1).URL
    ∧ (flappingSlave.heap 0).FailCount = 3
    ∧ ((Ping flappingSlave 0 failingObs).1.heap 0).FailCount = 4
    ∧ ((Ping flappingSlave 0 failingObs).1.heap 0).State = stateSlave := by
  decide

/-! ## `delete` -/

theorem deleteList_cons (heap : Nat → ServerMonitor) (server s : Nat) (rest : List Nat) :
    deleteList heap server (s :: rest) =
      if (heap server).URL == (heap s).URL then
        (match rest.getLast? with
          | none => []
          | some last => last :: rest.dropLast)
      else s :: deleteList heap server rest := by
  unfold deleteList
  by_cases h : ((heap server).URL == (heap s).URL) = true
  · simp only [deleteIndex, h, if_true]
    cases rest with
    | nil => simp
    | cons r rest' =>
      have : (s :: r :: rest').getLast? = (r :: rest').getLast? := by
        simp [List.getLast?_cons_cons]
      rw [this]
      cases hl : (r :: rest').getLast? with
      | none => simp at hl
      | some last => simp [List.dropLast]
  · simp only [deleteIndex, h, Bool.false_eq_true, if_false]
    cases hk : deleteIndex heap (heap server).URL rest with
    | none => simp
    | some k =>
      cases rest with
      | nil => simp [deleteIndex] at hk
      | cons r rest' =>
        have : (s :: r :: rest').getLast? = (r :: rest').getLast? := by
          simp [List.getLast?_cons_cons]
        simp only [Option.map_some', this]
        cases hl : (r :: rest').getLast? with
        | none => simp at hl
        | some last =>
          simp only [List.set_cons_succ]
          cases hset : (r :: rest').set k last with
          | nil => simp at hset
          | cons a b => simp [List.dropLast]

theorem countURL_deleteList (heap : Nat → ServerMonitor) (server : Nat) (l : List Nat) :
    countURL heap (heap server).URL (deleteList heap server l)
      = countURL heap (heap server).URL l - 1 := by
  induction l with
  | nil => simp [deleteList, deleteIndex, countURL]
  | cons s rest ih =>
    rw [deleteList_cons]
    by_cases h : ((heap server).URL == (heap s).URL) = true
    · have hs : ((heap s).URL == (heap server).URL) = true := by
        simp only [beq_iff_eq] at h ⊢
        exact h.symm
      simp only [h, if_true]
      cases hl : rest.getLast? with
      | none =>
        have : rest = [] := by simpa using hl
        subst this
        simp [countURL, hs]
      | some last =>
        have hp := List.dropLast_append_getLast? (l := rest) last (by simp [hl])
        simp only [countURL, List.countP_cons, hs, if_true]
        have : List.countP (fun p => (heap p).URL == (heap server).URL) rest
            = List.countP (fun p => (heap p).URL == (heap server).URL) (rest.dropLast ++ [last]) := by
          rw [hp]
        rw [this, List.countP_append]
        simp [List.countP_cons]
    · have hs : ((heap s).URL == (heap server).URL) = false := by
        simp only [beq_iff_eq, Bool.not_eq_true, beq_eq_false_iff_ne, ne_eq] at h ⊢
        exact fun e => h e.symm
      simp only [h, Bool.false_eq_true, if_false]
      simp only [countURL, List.countP_cons, hs, Bool.false_eq_true, if_false, add_zero]
      exact ih

theorem deleteIndex_congr (h1 h2 : Nat → ServerMonitor) (hURL : ∀ q, (h1 q).URL = (h2 q).URL)
    (url : String) (l : List Nat) : deleteIndex h1 url l = deleteIndex h2 url l := by
  induction l with
  | nil => rfl
  | cons s rest ih => simp only [deleteIndex, hURL, ih]

theorem delete_congr (h1 h2 : Nat → ServerMonitor) (hURL : ∀ q, (h1 q).URL = (h2 q).URL)
    (server : Nat) (sl : Option (List Nat)) : delete h1 server sl = delete h2 server sl := by
  cases sl with
  | none => rfl
  | some l =>
    simp only [delete, Option.map_some', deleteList, hURL, deleteIndex_congr h1 h2 hURL]

theorem countURL_congr (h1 h2 : Nat → ServerMonitor) (hURL : ∀ q, (h1 q).URL = (h2 q).URL)
    (url : String) (l : List Nat) : countURL h1 url l = countURL h2 url l := by
  simp only [countURL, hURL]

theorem pingFailCount_slave (c : Cluster) (server : Nat)
    (hnm : ∀ m, c.master = some m → (c.heap server).URL ≠ (c.heap m).URL) :
    (pingFailCount c server).1 = (pingFailedSlave (c.store server
      { c.heap server with FailCount := (c.heap server).FailCount + 1 }) server).1 := by
  unfold pingFailCount
  dsimp only
  cases hm : c.master with
  | none => simp only [store_master, hm]
  | some m =>
    have hne := hnm m hm
    simp only [store_master, hm]
    have hm' : m ≠ server := fun h => hne (by rw [h])
    have : ((c.store server { c.heap server with FailCount := (c.heap server).FailCount + 1 }).heap m).URL
        = (c.heap m).URL := by
      rw [store_heap, if_neg hm']
    simp only [store_heap_same, this]
    rw [if_neg]
    simpa using hne

theorem pingFailedSlave_threshold (c : Cluster) (server : Nat)
    (hth : (c.heap server).FailCount = c.Conf.MaxFail) :
    ((pingFailedSlave c server).1.heap server).State = stateFailed
    ∧ (pingFailedSlave c server).1.slaves = delete c.heap server c.slaves
    ∧ ((pingFailedSlave c server).1.heap server).Replications = none
    ∧ ((pingFailedSlave c server).1.heap server).LastSeenReplications =
        (if (c.heap server).Replications.isSome then (c.heap server).Replications
         else (c.heap server).LastSeenReplications) := by
  unfold pingFailedSlave
  simp only [hth, ge_iff_le, le_refl, if_true, store_heap_same, store_slaves]
  refine ⟨?_, ?_, ?_, ?_⟩
  · split_ifs <;> rfl
  · apply delete_congr
    intro q
    rw [store_heap]
    split_ifs with hq
    · rw [hq]
    · rfl
  · trivial
  · split_ifs <;> rfl

/-! ## C6 -/

theorem pingFailRest_eq (c : Cluster) (server : Nat) (e : GoError)
    (h2 : e ≠ GoError.ErrNoRows) :
    (pingFailRest c server e).1 = (pingFailAlert (pingFailCount c server).1 server).1 := by
  unfold pingFailRest
  have hne : (e != GoError.ErrNoRows) = true := by simpa using h2
  simp only [hne, if_true]

/-- A failing probe that takes a non-master server to the threshold. -/
theorem pingFailure_slave_threshold (c : Cluster) (server : Nat) (e : GoError)
    (h1 : accessDenied e = false) (h2 : e ≠ GoError.ErrNoRows)
    (hnm : ∀ m, c.master = some m → (c.heap server).URL ≠ (c.heap m).URL)
    (hth : (c.heap server).FailCount + 1 = c.Conf.MaxFail) :
    ((pingFailure c server e).1.heap server).State = stateFailed
    ∧ (pingFailure c server e).1.slaves = delete c.heap server c.slaves
    ∧ ((pingFailure c server e).1.heap server).Replications = none
    ∧ ((pingFailure c server e).1.heap server).LastSeenReplications =
        (if (c.heap server).Replications.isSome then (c.heap server).Replications
         else (c.heap server).LastSeenReplications) := by
  have hS := pingFailedSlave_threshold (c.store server
      { c.heap server with FailCount := (c.heap server).FailCount + 1 }) server
      (by simpa using hth)
  have hURL : ∀ q, ((c.store server
      { c.heap server with FailCount := (c.heap server).FailCount + 1 }).heap q).URL
        = (c.heap q).URL := fun q => store_frame (fun s => s.URL) c server q _ rfl
  rw [(pingFailure_rest c server e h1).1, pingFailRest_eq c server e h2,
    pingFailAlert_frame (fun s => s.State) (fun _ _ => rfl),
    pingFailAlert_frame (fun s => s.Replications) (fun _ _ => rfl),
    pingFailAlert_frame (fun s => s.LastSeenReplications) (fun _ _ => rfl),
    (pingFailAlert_cluster _ server).2.1, pingFailCount_slave c server hnm]
  refine ⟨hS.1, ?_, hS.2.2.1, ?_⟩
  · rw [hS.2.1]
    exact delete_congr _ _ hURL server c.slaves
  · rw [hS.2.2.2]
    simp

/-- C6 (amended): when a failing probe (its connectivity check returns with an
error that is neither access-denied nor `sql.ErrNoRows`) takes a non-master
server to the threshold (`FailCount` reaches `MaxFail`), `Ping` classifies it
`Failed`,
replaces the slaves list by what `delete` returns on it (the first entry with
the server's URL is removed, so the number of entries with that URL drops by
one and none is left when the list held at most one), empties
`Replications`, and `LastSeenReplications` is the `Replications` the server
had before the probe, or is unchanged when it had none. -/
theorem C6_failed_slave_removed (c : Cluster) (server : Nat) (o : PingObs) (e : GoError)
    (cn : Option Nat) (he : pingCheck c.Conf o = some (cn, some e))
    (h1 : accessDenied e = false) (h2 : e ≠ GoError.ErrNoRows)
    (hnm : ∀ m, c.master = some m → (c.heap server).URL ≠ (c.heap m).URL)
    (hth : (c.heap server).FailCount + 1 = c.Conf.MaxFail) :
    ((Ping c server o).1.heap server).State = stateFailed
    ∧ (Ping c server o).1.slaves = delete c.heap server c.slaves
    ∧ (∀ l, c.slaves = some l → ∃ l', (Ping c server o).1.slaves = some l'
        ∧ countURL (Ping c server o).1.heap ((Ping c server o).1.heap server).URL l'
            = countURL c.heap (c.heap server).URL l - 1)
    ∧ ((Ping c server o).1.heap server).Replications = none
    ∧ ((Ping c server o).1.heap server).LastSeenReplications =
        (if (c.heap server).Replications.isSome then (c.heap server).Replications
         else (c.heap server).LastSeenReplications) := by
  have hv := pingVirtualMaster_cluster c server
  have hvURL : ∀ q, ((pingVirtualMaster c server).heap q).URL = (c.heap q).URL :=
    fun q => pingVirtualMaster_frame (fun s => s.URL) (fun _ _ => rfl) c server q
  have hvF := pingVirtualMaster_frame (fun s => s.FailCount) (fun _ _ => rfl) c server server
  have hvR := pingVirtualMaster_frame (fun s => s.Replications) (fun _ _ => rfl) c server server
  have hvL := pingVirtualMaster_frame (fun s => s.LastSeenReplications) (fun _ _ => rfl)
    c server server
  have hT := pingFailure_slave_threshold (pingVirtualMaster c server) server e h1 h2
    (by
      intro m hm
      rw [hvURL, hvURL]
      exact hnm m (hv.1 ▸ hm))
    (by rw [hvF, hv.2.2.2.1]; exact hth)
  have hURL' : ∀ q, ((pingFailure (pingVirtualMaster c server) server e).1.heap q).URL
      = (c.heap q).URL := by
    intro q
    rw [(pingFailure_rest _ server e h1).1,
      pingFailRest_frame (fun s => s.URL) (fun _ _ _ _ _ _ _ => rfl), hvURL]
  have hsl : (Ping c server o).1.slaves = delete c.heap server c.slaves := by
    rw [Ping_fail c server o e cn he]
    show (pingFailure (pingVirtualMaster c server) server e).1.slaves = _
    rw [hT.2.1, hv.2.1]
    exact delete_congr _ _ hvURL server c.slaves
  refine ⟨?_, hsl, ?_, ?_, ?_⟩
  · rw [Ping_fail c server o e cn he]
    exact hT.1
  · intro l hl
    refine ⟨deleteList c.heap server l, by rw [hsl, hl]; rfl, ?_⟩
    rw [Ping_fail c server o e cn he]
    show countURL (pingFailure (pingVirtualMaster c server) server e).1.heap
      ((pingFailure (pingVirtualMaster c server) server e).1.heap server).URL _ = _
    rw [countURL_congr _ c.heap hURL', hURL']
    exact countURL_deleteList c.heap server l
  · rw [Ping_fail c server o e cn he]
    exact hT.2.2.1
  · rw [Ping_fail c server o e cn he]
    show ((pingFailure (pingVirtualMaster c server) server e).1.heap server).LastSeenReplications
      = _
    rw [hT.2.2.2, hvR, hvL]

/-- C6 (counterexample): in the sample cluster the slaves list names the
slave `a` twice; the failing probe that takes `a` to `MaxFail` classifies it
`Failed` and removes one entry only, so an entry with the URL of `a` remains
in the slaves list. -/
theorem C6_counterexample :
    doubleSlave.master = some 1
    ∧ ((Ping doubleSlave 0 failingObs).1.heap 0).State = stateFailed
    ∧ (Ping doubleSlave 0 failingObs).1.slaves = some [0]
    ∧ ¬ (∀ l, (Ping doubleSlave 0 failingObs).1.slaves = some l →
          ∀ p ∈ l, ((Ping doubleSlave 0 failingObs).1.heap p).URL
            ≠ ((Ping doubleSlave 0 failingObs).1.heap 0).URL) := by
  have hs : (Ping doubleSlave 0 failingObs).1.slaves = some [0] := by decide
  refine ⟨by decide, by decide, hs, ?_⟩
  intro h
  exact h [0] hs 0 (List.mem_singleton.2 rfl) rfl

/-- C6 (witness): the failing probe that takes the slave `a` of the sample
cluster from `FailCount` 2 to `MaxFail = 3`. -/
theorem C6_witness :
    ((Ping (sampleCluster.store 0 { srvA with FailCount := 2 }) 0 failingObs).1.heap 0).State
      = stateFailed
    ∧ (Ping (sampleCluster.store 0 { srvA with FailCount := 2 }) 0 failingObs).1.slaves
      = some [2]
    ∧ ((Ping (sampleCluster.store 0 { srvA with FailCount := 2 }) 0 failingObs).1.heap 0).Replications
      = none :=
  ⟨(C6_failed_slave_removed (sampleCluster.store 0 { srvA with FailCount := 2 }) 0 failingObs
      (GoError.Other "dial tcp: i/o timeout") none rfl rfl (by decide)
      (fun m hm => by
        have : m = 1 := by
          have h1 : (sampleCluster.store 0 { srvA with FailCount := 2 }).master = some 1 := rfl
          rw [h1] at hm
          exact (Option.some.inj hm).symm
        subst this
        decide)
      (by decide)).1,
   (C6_failed_slave_removed (sampleCluster.store 0 { srvA with FailCount := 2 }) 0 failingObs
      (GoError.Other "dial tcp: i/o timeout") none rfl rfl (by decide)
      (fun m hm => by
        have : m = 1 := by
          have h1 : (sampleCluster.store 0 { srvA with FailCount := 2 }).master = some 1 := rfl
          rw [h1] at hm
          exact (Option.some.inj hm).symm
        subst this
        decide)
      (by decide)).2.1.trans (by decide),
   (C6_failed_slave_removed (sampleCluster.store 0 { srvA with FailCount := 2 }) 0 failingObs
      (GoError.Other "dial tcp: i/o timeout") none rfl rfl (by decide)
      (fun m hm => by
        have : m = 1 := by
          have h1 : (sampleCluster.store 0 { srvA with FailCount := 2 }).master = some 1 := rfl
          rw [h1] at hm
          exact (Option.some.inj hm).symm
        subst this
        decide)
      (by decide)).2.2.2.1⟩

/-! ## `FailCount` along a run -/

theorem pingSuccess_FailCount (c : Cluster) (server : Nat) (o : PingObs) :
    ((pingSuccess c server o).1.heap server).FailCount = (c.heap server).FailCount
    ∨ ((pingSuccess c server o).1.heap server).FailCount = 0 := by
  have hk := (kept_fields (Refresh_kept c server o.Refresh server)).2.2.2.1
  have hR := pingResetFailCount_FailCount (Refresh c server o.Refresh).1 server
  have hC := pingClassify_FailCount (pingResetFailCount (Refresh c server o.Refresh).1 server).1
    server o
  have hP := pingPrevState_frame (fun s => s.FailCount) (fun _ _ => rfl)
    (pingClassify (pingResetFailCount (Refresh c server o.Refresh).1 server).1 server o).1
    server server
  unfold pingSuccess
  dsimp only
  split_ifs
  · cases o.conn <;> exact Or.inl rfl
  · left
    simp
  · generalize Refresh c server o.Refresh = r at hk hR hC hP ⊢
    obtain ⟨c1, ev1, err⟩ := r
    dsimp only at hk hR hC hP ⊢
    cases err with
    | some e =>
      left
      simp only [store_heap_same]
      exact hk
    | none =>
      dsimp only
      cases o.conn with
      | none => exact Or.inl hk
      | some conn =>
        dsimp only
        rw [hP]
        rcases hC with h | h
        · rw [h, hR]
          split_ifs
          · exact Or.inr rfl
          · exact Or.inl hk
        · exact Or.inr h

theorem pingFailure_FailCount (c : Cluster) (server : Nat) (e : GoError) :
    ((pingFailure c server e).1.heap server).FailCount =
      (c.heap server).FailCount
        + (if (!accessDenied e && e != GoError.ErrNoRows) = true then 1 else 0) := by
  by_cases h1 : accessDenied e = false
  · rw [(pingFailure_rest c server e h1).1, pingFailRest_FailCount]
    by_cases h2 : e = GoError.ErrNoRows <;> simp [h1, h2]
  · have h1' : accessDenied e = true := by simpa using h1
    cases e with
    | MySQLError n t =>
      have hn : (n == 1045) = true := by simpa [accessDenied] using h1'
      unfold pingFailure
      simp [hn, accessDenied]
    | ErrNoRows => simp [accessDenied] at h1'
    | Other t => simp [accessDenied] at h1'

theorem pingFailure_Conf (c : Cluster) (server : Nat) (e : GoError) :
    (pingFailure c server e).1.Conf = c.Conf := by
  by_cases h1 : accessDenied e = false
  · rw [(pingFailure_rest c server e h1).1]
    exact (pingFailRest_cluster c server e).2.2.1
  · have h1' : accessDenied e = true := by simpa using h1
    cases e with
    | MySQLError n t =>
      have hn : (n == 1045) = true := by simpa [accessDenied] using h1'
      unfold pingFailure
      simp [hn]
    | ErrNoRows => simp [accessDenied] at h1'
    | Other t => simp [accessDenied] at h1'

theorem pingSuccess_Conf (c : Cluster) (server : Nat) (o : PingObs) :
    (pingSuccess c server o).1.Conf = c.Conf := by
  have hR := (pingResetFailCount_cluster (Refresh c server o.Refresh).1 server).2.2.2.1
  have hC := (pingClassify_cluster (pingResetFailCount (Refresh c server o.Refresh).1 server).1
    server o).2.2.2.1
  have hP := (pingPrevState_cluster
    (pingClassify (pingResetFailCount (Refresh c server o.Refresh).1 server).1 server o).1
    server).2.2.2.1
  have hk := (Refresh_cluster c server o.Refresh).1
  unfold pingSuccess
  dsimp only
  split_ifs
  · cases o.conn <;> rfl
  · rfl
  · generalize Refresh c server o.Refresh = r at hk hR hC hP ⊢
    obtain ⟨c1, ev1, err⟩ := r
    dsimp only at hk hR hC hP ⊢
    cases err with
    | some e => exact hk
    | none =>
      dsimp only
      cases o.conn with
      | none => exact hk
      | some conn =>
        dsimp only
        rw [hP, hC, hR, hk]

/-- No probe changes the configuration. -/
theorem Ping_Conf (c : Cluster) (server : Nat) (o : PingObs) :
    (Ping c server o).1.Conf = c.Conf := by
  have hv := (pingVirtualMaster_cluster c server).2.2.2.1
  cases hc : pingCheck c.Conf o with
  | none => rw [Ping_panic c server o hc]; exact hv
  | some r =>
    obtain ⟨cn, er⟩ := r
    cases er with
    | some e =>
      rw [Ping_fail c server o e cn hc]
      exact (pingFailure_Conf _ server e).trans hv
    | none =>
      rw [Ping_success c server o cn hc]
      exact (pingSuccess_Conf _ server _).trans hv

/-- What one probe does to `FailCount`. -/
theorem Ping_FailCount (c : Cluster) (server : Nat) (o : PingObs) :
    ((Ping c server o).1.heap server).FailCount
        = (c.heap server).FailCount + (if failing c.Conf o = true then 1 else 0)
    ∨ (failing c.Conf o = false ∧ ((Ping c server o).1.heap server).FailCount = 0) := by
  have hvF := pingVirtualMaster_frame (fun s => s.FailCount) (fun _ _ => rfl) c server server
  cases hc : pingCheck c.Conf o with
  | none =>
    left
    rw [Ping_panic c server o hc]
    simp only [failing, hc]
    show ((pingVirtualMaster c server).heap server).FailCount = _
    rw [hvF]
    simp
  | some r =>
    obtain ⟨cn, er⟩ := r
    cases er with
    | some e =>
      left
      rw [Ping_fail c server o e cn hc]
      show ((pingFailure (pingVirtualMaster c server) server e).1.heap server).FailCount = _
      rw [pingFailure_FailCount, hvF]
      simp only [failing, hc]
    | none =>
      have hf : failing c.Conf o = false := by simp [failing, hc]
      have hS := pingSuccess_FailCount (pingVirtualMaster c server) server
        { o with conn := cn }
      rw [Ping_success c server o cn hc, hf]
      rcases hS with h | h
      · left
        rw [h, hvF]
        simp
      · exact Or.inr ⟨rfl, h⟩

/-- A probe that does not return `nil` has panicked in the connectivity check
or on the success path: its check has left no counted error. -/
theorem Ping_stop_failing (c : Cluster) (server : Nat) (o : PingObs)
    (h : (Ping c server o).2.2 ≠ Ret.nil) : failing c.Conf o = false := by
  cases hc : pingCheck c.Conf o with
  | none => simp [failing, hc]
  | some r =>
    obtain ⟨cn, er⟩ := r
    cases er with
    | some e =>
      rw [Ping_fail c server o e cn hc] at h
      exact absurd rfl h
    | none => simp [failing, hc]

theorem pingRun_cons_stop (server : Nat) (sme : StateMachine) (o : PingObs)
    (rest : List (StateMachine × PingObs)) (c : Cluster)
    (h : (Ping { c with sme := sme } server o).2.2 ≠ Ret.nil) :
    pingRun server ((sme, o) :: rest) c =
      ((Ping { c with sme := sme } server o).1, (Ping { c with sme := sme } server o).2.1,
        (Ping { c with sme := sme } server o).2.2) := by
  rw [pingRun]
  cases hr : (Ping { c with sme := sme } server o).2.2 with
  | nil => exact absurd hr h
  | err e => rfl
  | panic => rfl

theorem pingRun_FailCount (server : Nat) (ticks : List (StateMachine × PingObs)) :
    ∀ c : Cluster, 0 ≤ (c.heap server).FailCount →
      0 ≤ ((pingRun server ticks c).1.heap server).FailCount
      ∧ ((pingRun server ticks c).1.heap server).FailCount
          ≤ (c.heap server).FailCount + (ticks.countP (fun t => failing c.Conf t.2) : Nat)
      ∧ ((∀ t ∈ ticks, failing c.Conf t.2 = true) →
          ((pingRun server ticks c).1.heap server).FailCount
            = (c.heap server).FailCount + (ticks.length : Nat)) := by
  induction ticks with
  | nil =>
    intro c h0
    simp [pingRun, h0]
  | cons t rest ih =>
    intro c h0
    obtain ⟨sme, o⟩ := t
    have hstep := Ping_FailCount { c with sme := sme } server o
    have hc : ({ c with sme := sme } : Cluster).heap server = c.heap server := rfl
    have hcf : ({ c with sme := sme } : Cluster).Conf = c.Conf := rfl
    rw [hc, hcf] at hstep
    have hConf : (Ping { c with sme := sme } server o).1.Conf = c.Conf :=
      Ping_Conf { c with sme := sme } server o
    by_cases hr : (Ping { c with sme := sme } server o).2.2 = Ret.nil
    · rw [pingRun_cons_nil server sme o rest c hr]
      dsimp only
      have h0' : 0 ≤ ((Ping { c with sme := sme } server o).1.heap server).FailCount := by
        rcases hstep with h | h
        · rw [h]; split_ifs <;> omega
        · rw [h.2]
      have h := ih (Ping { c with sme := sme } server o).1 h0'
      rw [hConf] at h
      refine ⟨h.1, ?_, ?_⟩
      · have h2 := h.2.1
        simp only [List.countP_cons]
        rcases hstep with hs | hs
        · rw [hs] at h2
          split_ifs at h2 ⊢ <;> push_cast <;> omega
        · rw [hs.2] at h2
          simp only [hs.1, Bool.false_eq_true, if_false, add_zero]
          omega
      · intro hall
        have ho : failing c.Conf o = true := hall (sme, o) (List.mem_cons_self _ _)
        have h3 := h.2.2 (fun t ht => hall t (List.mem_cons_of_mem _ ht))
        rcases hstep with hs | hs
        · rw [h3, hs, if_pos ho]
          simp only [List.length_cons]
          push_cast
          ring
        · rw [ho] at hs
          exact absurd hs.1 (by decide)
    · rw [pingRun_cons_stop server sme o rest c hr]
      dsimp only
      have hf : failing c.Conf o = false := Ping_stop_failing { c with sme := sme } server o hr
      refine ⟨?_, ?_, ?_⟩
      · rcases hstep with hs | hs
        · rw [hs, hf]; simpa using h0
        · rw [hs.2]
      · rcases hstep with hs | hs
        · rw [hs, hf]
          simp only [Bool.false_eq_true, if_false, add_zero, le_add_iff_nonneg_right]
          exact Int.natCast_nonneg _
        · rw [hs.2]
          have := Int.natCast_nonneg
            (List.countP (fun t => failing c.Conf t.2) ((sme, o) :: rest))
          omega
      · intro hall
        have ho : failing c.Conf o = true := hall (sme, o) (List.mem_cons_self _ _)
        rw [hf] at ho
        cases ho

/-! ## C4 -/

/-- C4 (amended): for any sequence of probe outcomes fed to `Ping` on one
server starting from `FailCount` 0, `FailCount` stays between 0 and the number
of ticks of the sequence whose connectivity check has returned with a counted
error (neither access-denied nor `sql.ErrNoRows`); when every tick fails so,
`FailCount` is the length of the sequence, whatever `MaxFail` is and whether
or not the cluster is in failover. -/
theorem C4_failcount_bound (c : Cluster) (server : Nat)
    (ticks : List (StateMachine × PingObs)) (h0 : (c.heap server).FailCount = 0) :
    0 ≤ ((pingRun server ticks c).1.heap server).FailCount
    ∧ ((pingRun server ticks c).1.heap server).FailCount
        ≤ ((ticks.countP (fun t => failing c.Conf t.2) : Nat) : Int)
    ∧ ((∀ t ∈ ticks, failing c.Conf t.2 = true) →
        ((pingRun server ticks c).1.heap server).FailCount = ((ticks.length : Nat) : Int)) := by
  have h := pingRun_FailCount server ticks c (by rw [h0])
  rw [h0] at h
  simpa using h

/-- C4 (counterexample): with `MaxFail = 3` and no tick in failover, four
failing probes of the slave `a` leave `FailCount = 4`, above `MaxFail + 0`. -/
theorem C4_counterexample :
    sampleCluster.Conf.MaxFail = 3
    ∧ (sampleCluster.heap 0).FailCount = 0
    ∧ ([(sampleCluster.sme, failingObs), (sampleCluster.sme, failingObs),
        (sampleCluster.sme, failingObs), (sampleCluster.sme, failingObs)].countP
          (fun t => t.1.InFailover)) = 0
    ∧ ((pingRun 0 [(sampleCluster.sme, failingObs), (sampleCluster.sme, failingObs),
        (sampleCluster.sme, failingObs), (sampleCluster.sme, failingObs)]
          sampleCluster).1.heap 0).FailCount = 4
    ∧ ¬ (((pingRun 0 [(sampleCluster.sme, failingObs), (sampleCluster.sme, failingObs),
        (sampleCluster.sme, failingObs), (sampleCluster.sme, failingObs)]
          sampleCluster).1.heap 0).FailCount
        ≤ sampleCluster.Conf.MaxFail
          + (([(sampleCluster.sme, failingObs), (sampleCluster.sme, failingObs),
              (sampleCluster.sme, failingObs), (sampleCluster.sme, failingObs)].countP
                (fun t => t.1.InFailover) : Nat) : Int)) := by
  decide

/-- C4 (witness): two failing probes and one successful probe of the slave
`a` of the sample cluster leave `FailCount` at most 2. -/
theorem C4_witness :
    (sampleCluster.heap 0).FailCount = 0
    ∧ ((pingRun 0 [(sampleCluster.sme, failingObs), (sampleCluster.sme, failingObs),
        (sampleCluster.sme, standaloneObs)] sampleCluster).1.heap 0).FailCount ≤ 2 :=
  ⟨rfl, (C4_failcount_bound sampleCluster 0
      [(sampleCluster.sme, failingObs), (sampleCluster.sme, failingObs),
        (sampleCluster.sme, standaloneObs)] rfl).2.1⟩

/-! ## Traces of the success path -/

theorem calls_append (name : String) (a b : List Event) :
    calls name (a ++ b) = (calls name a || calls name b) := by
  simp [calls, List.any_append]

theorem passive_nil : passive [] := by
  intro e he
  cases he

theorem passive_calls {ev : List Event} (h : passive ev) :
    calls "SetReadOnly" ev = false ∧ calls "RejoinMaster" ev = false := by
  induction ev with
  | nil => exact ⟨rfl, rfl⟩
  | cons e rest ih =>
    have he := h e (List.mem_cons_self _ _)
    have hr := ih (fun x hx => h x (List.mem_cons_of_mem _ hx))
    have h1 : isCall "SetReadOnly" e = false ∧ isCall "RejoinMaster" e = false := by
      cases e <;> simp_all [Event.isAction, isCall]
    simp only [calls, List.any_cons, h1.1, h1.2, Bool.false_or]
    exact hr

theorem pingResetFailCount_passive (c : Cluster) (server : Nat) :
    passive (pingResetFailCount c server).2 := by
  unfold pingResetFailCount
  dsimp only
  split_ifs <;> simp [passive, Event.isAction]

theorem pingPrevState_passive (c : Cluster) (server : Nat) :
    passive (pingPrevState c server).2 := by
  unfold pingPrevState
  dsimp only
  split_ifs <;> simp [passive, Event.isAction]

theorem Refresh_err (c : Cluster) (p : Nat) (o : RefreshObs) :
    (Refresh c p o).2.2 = none ↔
      ((c.heap p).Conn.isSome = true ∧ o.ConnUnusable = false ∧ o.PingErr = none) :=
  refreshServer_err _ _ _ _

/-- The trace of a full successful probe shows the calls of its
classification step only. -/
theorem pingSuccess_calls (c : Cluster) (server : Nat) (o : PingObs) (conn : Nat)
    (hF : c.sme.InFailover = false) (hC : (c.heap server).Conn.isSome = true)
    (hconn : o.conn = some conn) (hR : (Refresh c server o.Refresh).2.2 = none) :
    calls "SetReadOnly" (pingSuccess c server o).2.1
        = calls "SetReadOnly" (pingClassify
            (pingResetFailCount (Refresh c server o.Refresh).1 server).1 server o).2
    ∧ calls "RejoinMaster" (pingSuccess c server o).2.1
        = calls "RejoinMaster" (pingClassify
            (pingResetFailCount (Refresh c server o.Refresh).1 server).1 server o).2 := by
  rw [pingSuccess_full c server o conn hF hC hconn hR]
  have h1 := passive_calls (Refresh_passive c server o.Refresh)
  have h2 := passive_calls (pingResetFailCount_passive (Refresh c server o.Refresh).1 server)
  have h4 := passive_calls (pingPrevState_passive (pingClassify
    (pingResetFailCount (Refresh c server o.Refresh).1 server).1 server o).1 server)
  simp only [calls_append, h1.1, h1.2, h2.1, h2.2, h4.1, h4.2, Bool.false_or, Bool.or_false]
  simp [calls, isCall]

theorem Refresh_State (c : Cluster) (p : Nat) (o : RefreshObs) :
    ((Refresh c p o).1.heap p).State = (c.heap p).State
    ∨ ((Refresh c p o).1.heap p).State = stateRelay := by
  rw [Refresh_heap]
  exact refreshServer_State _ _ _ _

/-! ## C5 -/

/-- C5 (amended): after a successful probe made outside failover on a server
that has a persistent connection, whose refresh succeeds and whose state at
the start of the probe is outside `Failed`, `ErrorAuth` and `Suspect`, the
server's `FailCount` is 0. -/
theorem C5_failcount_reset (c : Cluster) (server : Nat) (o : PingObs) (conn : Nat)
    (hcheck : pingCheck c.Conf o = some (some conn, none))
    (hF : c.sme.InFailover = false) (hC : (c.heap server).Conn.isSome = true)
    (hU : o.Refresh.ConnUnusable = false) (hP : o.Refresh.PingErr = none)
    (hS : (c.heap server).State ≠ stateFailed ∧ (c.heap server).State ≠ stateErrorAuth
      ∧ (c.heap server).State ≠ stateSuspect)
    (h0 : 0 ≤ (c.heap server).FailCount) :
    (Ping c server o).2.2 = Ret.nil
    ∧ ((Ping c server o).1.heap server).FailCount = 0 := by
  have hv := pingVirtualMaster_cluster c server
  have hvC := pingVirtualMaster_frame (fun s => s.Conn) (fun _ _ => rfl) c server server
  have hvS := pingVirtualMaster_frame (fun s => s.State) (fun _ _ => rfl) c server server
  have hvF := pingVirtualMaster_frame (fun s => s.FailCount) (fun _ _ => rfl) c server server
  have hPing : Ping c server o =
      pingSuccess (pingVirtualMaster c server) server { o with conn := some conn } :=
    Ping_success c server o (some conn) hcheck
  have hR : (Refresh (pingVirtualMaster c server) server o.Refresh).2.2 = none :=
    (Refresh_err _ _ _).2 ⟨hvC ▸ hC, hU, hP⟩
  have hfull := pingSuccess_full (pingVirtualMaster c server) server
    { o with conn := some conn } conn (by rw [hv.2.2.1]; exact hF) (hvC ▸ hC) rfl hR
  have hk := (kept_fields (Refresh_kept (pingVirtualMaster c server) server o.Refresh
    server)).2.2.2.1
  have hSt := Refresh_State (pingVirtualMaster c server) server o.Refresh
  have hReset := pingResetFailCount_FailCount
    (Refresh (pingVirtualMaster c server) server o.Refresh).1 server
  have hCl := pingClassify_FailCount (pingResetFailCount
    (Refresh (pingVirtualMaster c server) server o.Refresh).1 server).1 server
    { o with conn := some conn }
  have hPrev := pingPrevState_frame (fun s => s.FailCount) (fun _ _ => rfl)
    (pingClassify (pingResetFailCount
      (Refresh (pingVirtualMaster c server) server o.Refresh).1 server).1 server
      { o with conn := some conn }).1
    server server
  rw [hvS] at hSt
  rw [hk, hvF] at hReset
  have hState : ((Refresh (pingVirtualMaster c server) server o.Refresh).1.heap server).State
        ≠ stateFailed
      ∧ ((Refresh (pingVirtualMaster c server) server o.Refresh).1.heap server).State
        ≠ stateErrorAuth
      ∧ ((Refresh (pingVirtualMaster c server) server o.Refresh).1.heap server).State
        ≠ stateSuspect := by
    rcases hSt with h | h
    · rw [h]; exact hS
    · rw [h]; decide
  have hZero : ((pingResetFailCount (Refresh (pingVirtualMaster c server) server
      o.Refresh).1 server).1.heap server).FailCount = 0 := by
    rw [hReset]
    split_ifs with h
    · rfl
    · have : ¬ (c.heap server).FailCount > 0 := fun hgt => h ⟨hState, hgt⟩
      omega
  rw [hPing, hfull]
  refine ⟨rfl, ?_⟩
  show ((pingPrevState _ server).1.heap server).FailCount = 0
  rw [hPrev]
  rcases hCl with h | h
  · rw [h]; exact hZero
  · exact h

/-- C5 (counterexample): two successful probes that end outside `Failed`,
`ErrorAuth` and `Suspect` with a non-zero `FailCount`.  First, the slave `a`
is `Slave` with `FailCount = 3` and the probe is made while a failover holds
the gate: `Ping` returns at once, the state is still `Slave` and `FailCount`
still 3.  Second, the slave `a` is `Suspect` with `FailCount = 1` after one
failed probe; the next probe succeeds outside failover, the refresh succeeds
and the slave status is empty: `Ping` ends with the state `StandAlone` and
`FailCount` still 1. -/
theorem C5_counterexample :
    standaloneObs.err = none ∧ standaloneObs.conn = some 9
    ∧ (Ping flappingInFailover 0 standaloneObs).2.2 = Ret.nil
    ∧ ((Ping flappingInFailover 0 standaloneObs).1.heap 0).State = stateSlave
    ∧ ((Ping flappingInFailover 0 standaloneObs).1.heap 0).FailCount = 3
    ∧ (Ping suspectSlave 0 standaloneObs).2.2 = Ret.nil
    ∧ ((Ping suspectSlave 0 standaloneObs).1.heap 0).State = stateUnconn
    ∧ ((Ping suspectSlave 0 standaloneObs).1.heap 0).FailCount = 1 := by
  decide

/-- C5 (witness): a successful probe of the slave `a` of the sample cluster
after its `FailCount` was left at 3 resets it. -/
theorem C5_witness :
    (flappingSlave.heap 0).FailCount = 3
    ∧ ((Ping flappingSlave 0 standaloneObs).1.heap 0).FailCount = 0 :=
  ⟨rfl, (C5_failcount_reset flappingSlave 0 standaloneObs 9 rfl rfl rfl rfl rfl
      (by decide) (by decide)).2⟩

/-! ## Classification -/

theorem pingClassify_rejoin (c : Cluster) (server : Nat) (o : PingObs)
    (hnr : o.errss = some GoError.ErrNoRows
      ∨ ∃ e, o.errss = some e ∧ Contains e.Error "1617" = true)
    (hprev : (c.heap server).PrevState = stateFailed
      ∨ (c.heap server).PrevState = stateErrorAuth) :
    pingClassify c server o = pingRejoinMaster c server o := by
  unfold pingClassify
  dsimp only
  rw [if_pos, if_pos]
  · rcases hprev with h | h <;> simp [h]
  · rcases hnr with h | ⟨e, he, hc⟩
    · simp [h]
    · simp [he, hc]

theorem pingClassify_unconnected (c : Cluster) (server : Nat) (o : PingObs)
    (hnr : o.errss = some GoError.ErrNoRows
      ∨ ∃ e, o.errss = some e ∧ Contains e.Error "1617" = true)
    (hprev : (c.heap server).PrevState ≠ stateFailed
      ∧ (c.heap server).PrevState ≠ stateErrorAuth)
    (hst : (c.heap server).State ≠ stateMaster)
    (hun : (c.heap server).PrevState ≠ stateUnconn) :
    pingClassify c server o = pingUnconnected c server o := by
  unfold pingClassify
  dsimp only
  rw [if_pos, if_neg, if_pos]
  · simp [hst, hun]
  · simp [hprev.1, hprev.2]
  · rcases hnr with h | ⟨e, he, hc⟩
    · simp [h]
    · simp [he, hc]

theorem calls_singleton (name : String) (e : Event) : calls name [e] = isCall name e := by
  simp [calls]

theorem calls_pair (name : String) (e f : Event) :
    calls name [e, f] = (isCall name e || isCall name f) := by
  simp [calls]

theorem calls_nil (name : String) : calls name [] = false := rfl

theorem pingRejoinReadOnly_calls (c : Cluster) (server : Nat) (o : PingObs) :
    calls "RejoinMaster" (pingRejoinReadOnly c server o) = false
    ∧ (calls "SetReadOnly" (pingRejoinReadOnly c server o) = true ↔
        (c.Conf.ReadOnly = true ∧ (c.heap server).HaveWsrep = false ∧ c.IsDiscovered = true
          ∧ o.IsInIgnoredReadonly = false
          ∧ ∃ m, c.master = some m
            ∧ ((o.StatusIsActif = true ∧ (c.heap m).Id ≠ (c.heap server).Id)
              ∨ (o.StatusIsStandby = true ∧ c.Conf.Arbitration = true)))) := by
  unfold pingRejoinReadOnly
  dsimp only
  by_cases h0 : (c.Conf.ReadOnly && (c.heap server).HaveWsrep == false && c.IsDiscovered) = true
  · rw [if_pos h0]
    simp only [Bool.and_eq_true, beq_iff_eq] at h0
    cases hm : c.master with
    | none => simp [calls_nil]
    | some m =>
      dsimp only
      by_cases h1 : (o.StatusIsActif && (c.heap m).Id != (c.heap server).Id
          && !o.IsInIgnoredReadonly) = true
      · rw [if_pos h1]
        simp only [Bool.and_eq_true, bne_iff_ne, ne_eq, Bool.not_eq_true'] at h1
        simp only [calls_pair, isCall]
        refine ⟨by decide, ?_⟩
        simp only [Option.some.injEq, exists_eq_left']
        constructor
        · intro _
          exact ⟨h0.1.1, h0.1.2, h0.2, h1.2, Or.inl ⟨h1.1.1, h1.1.2⟩⟩
        · intro _
          decide
      · rw [if_neg h1]
        by_cases h2 : (o.StatusIsStandby && c.Conf.Arbitration && !o.IsInIgnoredReadonly) = true
        · rw [if_pos h2]
          simp only [Bool.and_eq_true, Bool.not_eq_true'] at h2
          simp only [calls_pair, isCall]
          refine ⟨by decide, ?_⟩
          simp only [Option.some.injEq, exists_eq_left']
          constructor
          · intro _
            exact ⟨h0.1.1, h0.1.2, h0.2, h2.2, Or.inr ⟨h2.1.1, h2.1.2⟩⟩
          · intro _
            decide
        · rw [if_neg h2]
          refine ⟨rfl, ?_⟩
          simp only [calls_nil, Bool.false_eq_true, false_iff, Option.some.injEq,
            exists_eq_left', not_and]
          intro _ _ _ hi hor
          rcases hor with ⟨ha, hid⟩ | ⟨hs, harb⟩
          · apply h1
            simp [ha, hid, hi]
          · apply h2
            simp [hs, harb, hi]
  · rw [if_neg h0]
    refine ⟨rfl, ?_⟩
    simp only [calls_nil, Bool.false_eq_true, false_iff, not_and]
    intro hr hw hd
    exact absurd (by simp [hr, hw, hd]) h0

theorem pingRejoinMaster_spec (c : Cluster) (server : Nat) (o : PingObs) :
    ((pingRejoinMaster c server o).1.heap server).State = stateUnconn
    ∧ ((pingRejoinMaster c server o).1.heap server).FailCount = 0
    ∧ (calls "RejoinMaster" (pingRejoinMaster c server o).2 = true ↔
        (c.Conf.Autorejoin = true ∧ o.IsActive = true))
    ∧ (calls "SetReadOnly" (pingRejoinMaster c server o).2 = true ↔
        (c.Conf.ReadOnly = true ∧ (c.heap server).HaveWsrep = false ∧ c.IsDiscovered = true
          ∧ o.IsInIgnoredReadonly = false
          ∧ ∃ m, c.master = some m
            ∧ ((o.StatusIsActif = true ∧ (c.heap m).Id ≠ (c.heap server).Id)
              ∨ (o.StatusIsStandby = true ∧ c.Conf.Arbitration = true)))) := by
  have hro := pingRejoinReadOnly_calls c server o
  refine ⟨by simp [pingRejoinMaster], by simp [pingRejoinMaster], ?_, ?_⟩
  · unfold pingRejoinMaster
    dsimp only
    simp only [calls_append, hro.1, calls_singleton, calls_pair, isCall]
    by_cases h : (c.Conf.Autorejoin && o.IsActive) = true
    · rw [if_pos h]
      simp only [Bool.and_eq_true] at h
      simp [calls_singleton, isCall, h]
    · rw [if_neg h]
      simp only [Bool.and_eq_true] at h
      simp [calls_singleton, isCall, h]
  · rw [← hro.2]
    unfold pingRejoinMaster
    dsimp only
    simp only [calls_append, calls_singleton, calls_pair, isCall]
    by_cases h : (c.Conf.Autorejoin && o.IsActive) = true
    · rw [if_pos h]
      simp [calls_singleton, isCall]
    · rw [if_neg h]
      simp [calls_singleton, isCall]

theorem pingUnconnected_spec (c : Cluster) (server : Nat) (o : PingObs) :
    (o.TopologyIsWsrep = false → ((pingUnconnected c server o).1.heap server).State = stateUnconn)
    ∧ (calls "RejoinMaster" (pingUnconnected c server o).2 = false)
    ∧ (calls "SetReadOnly" (pingUnconnected c server o).2 = true ↔
        (c.Conf.ReadOnly = true ∧ (c.heap server).HaveWsrep = false ∧ c.IsDiscovered = true
          ∧ o.IsInIgnoredReadonly = false)) := by
  have hW : ∀ x : Cluster × List Event,
      x = (if (!o.TopologyIsWsrep) = true then
        (c.store server { c.heap server with State := stateUnconn },
          [Event.Log "DEBUG" "State unconnected set by non-master rule on server %s"
            (c.heap server).URL])
        else (c, [])) →
      x.1.Conf = c.Conf ∧ (x.1.heap server).HaveWsrep = (c.heap server).HaveWsrep
      ∧ x.1.IsDiscovered = c.IsDiscovered ∧ calls "SetReadOnly" x.2 = false
      ∧ calls "RejoinMaster" x.2 = false
      ∧ (o.TopologyIsWsrep = false → (x.1.heap server).State = stateUnconn) := by
    intro x hx
    subst hx
    cases o.TopologyIsWsrep <;> simp [calls, isCall, Cluster.IsDiscovered]
  unfold pingUnconnected
  dsimp only
  generalize (if (!o.TopologyIsWsrep) = true then
        (c.store server { c.heap server with State := stateUnconn },
          [Event.Log "DEBUG" "State unconnected set by non-master rule on server %s"
            (c.heap server).URL])
        else (c, [])) = x at hW
  have hx := hW x rfl
  obtain ⟨c1, ev1⟩ := x
  dsimp only at hx ⊢
  refine ⟨hx.2.2.2.2.2, ?_, ?_⟩
  · simp only [calls_append, hx.2.2.2.2.1, Bool.false_or]
    split_ifs <;> simp [calls, isCall]
  · simp only [calls_append, hx.2.2.2.1, Bool.false_or, hx.1, hx.2.1, hx.2.2.1]
    by_cases h : (c.Conf.ReadOnly && (c.heap server).HaveWsrep == false && c.IsDiscovered
        && !o.IsInIgnoredReadonly) = true
    · rw [if_pos h]
      simp only [Bool.and_eq_true, beq_iff_eq, Bool.not_eq_true'] at h
      have : calls "SetReadOnly" (if ((c1.heap server).State != stateSuspect) = true then
          [Event.Call "backendStateChangeProxies" (c.heap server).URL,
            Event.Call "SendAlert" (c.heap server).URL] else []) = false := by
        split_ifs <;> simp [calls, isCall]
      simp only [this, Bool.or_false, calls_pair, isCall]
      constructor
      · intro _
        exact ⟨h.1.1.1, h.1.1.2, h.1.2, h.2⟩
      · intro _
        decide
    · rw [if_neg h]
      have : calls "SetReadOnly" (if ((c1.heap server).State != stateSuspect) = true then
          [Event.Call "backendStateChangeProxies" (c.heap server).URL,
            Event.Call "SendAlert" (c.heap server).URL] else []) = false := by
        split_ifs <;> simp [calls, isCall]
      simp only [this, calls_nil, Bool.or_false, Bool.false_eq_true, false_iff, not_and]
      intro hr hw hd hi
      exact absurd (by simp [hr, hw, hd, hi]) h

/-- The cluster in which a full successful probe classifies the server: after
the virtual-master flag, the refresh and the reset of `FailCount`. -/
theorem pingSuccess_classified (c : Cluster) (server : Nat) (o : PingObs) (conn : Nat)
    (hcheck : pingCheck c.Conf o = some (some conn, none))
    (hF : c.sme.InFailover = false) (hC : (c.heap server).Conn.isSome = true)
    (hU : o.Refresh.ConnUnusable = false) (hP : o.Refresh.PingErr = none) :
    (Ping c server o).2.2 = Ret.nil
    ∧ (∀ q, ((Ping c server o).1.heap q).State =
        ((pingClassify (pingResetFailCount (Refresh (pingVirtualMaster c server) server
          o.Refresh).1 server).1 server o).1.heap q).State)
    ∧ (∀ q, ((Ping c server o).1.heap q).FailCount =
        ((pingClassify (pingResetFailCount (Refresh (pingVirtualMaster c server) server
          o.Refresh).1 server).1 server o).1.heap q).FailCount)
    ∧ calls "SetReadOnly" (Ping c server o).2.1
        = calls "SetReadOnly" (pingClassify (pingResetFailCount
            (Refresh (pingVirtualMaster c server) server o.Refresh).1 server).1 server o).2
    ∧ calls "RejoinMaster" (Ping c server o).2.1
        = calls "RejoinMaster" (pingClassify (pingResetFailCount
            (Refresh (pingVirtualMaster c server) server o.Refresh).1 server).1 server o).2
    ∧ (∀ q, ((pingResetFailCount (Refresh (pingVirtualMaster c server) server
          o.Refresh).1 server).1.heap q).PrevState = (c.heap q).PrevState)
    ∧ (∀ q, ((pingResetFailCount (Refresh (pingVirtualMaster c server) server
          o.Refresh).1 server).1.heap q).Id = (c.heap q).Id)
    ∧ (∀ q, ((pingResetFailCount (Refresh (pingVirtualMaster c server) server
          o.Refresh).1 server).1.heap q).State
        = ((Refresh (pingVirtualMaster c server) server o.Refresh).1.heap q).State)
    ∧ (∀ q, ((pingResetFailCount (Refresh (pingVirtualMaster c server) server
          o.Refresh).1 server).1.heap q).HaveWsrep
        = ((Refresh (pingVirtualMaster c server) server o.Refresh).1.heap q).HaveWsrep)
    ∧ (pingResetFailCount (Refresh (pingVirtualMaster c server) server
          o.Refresh).1 server).1.Conf = c.Conf
    ∧ (pingResetFailCount (Refresh (pingVirtualMaster c server) server
          o.Refresh).1 server).1.master = c.master
    ∧ (pingResetFailCount (Refresh (pingVirtualMaster c server) server
          o.Refresh).1 server).1.sme = c.sme := by
  have hv := pingVirtualMaster_cluster c server
  have hvC := pingVirtualMaster_frame (fun s => s.Conn) (fun _ _ => rfl) c server server
  have hPing : Ping c server o =
      pingSuccess (pingVirtualMaster c server) server { o with conn := some conn } :=
    Ping_success c server o (some conn) hcheck
  have hcl : ∀ x : Cluster,
      pingClassify x server { o with conn := some conn } = pingClassify x server o :=
    fun _ => rfl
  have hR : (Refresh (pingVirtualMaster c server) server o.Refresh).2.2 = none :=
    (Refresh_err _ _ _).2 ⟨hvC ▸ hC, hU, hP⟩
  have hF' : (pingVirtualMaster c server).sme.InFailover = false := by rw [hv.2.2.1]; exact hF
  have hfull := pingSuccess_full (pingVirtualMaster c server) server
    { o with conn := some conn } conn hF' (hvC ▸ hC) rfl hR
  have hcalls := pingSuccess_calls (pingVirtualMaster c server) server
    { o with conn := some conn } conn hF' (hvC ▸ hC) rfl hR
  simp only [hcl] at hfull hcalls
  have hRc := Refresh_cluster (pingVirtualMaster c server) server o.Refresh
  have hRs := pingResetFailCount_cluster
    (Refresh (pingVirtualMaster c server) server o.Refresh).1 server
  rw [hPing]
  refine ⟨by rw [hfull], ?_, ?_, hcalls.1, hcalls.2, ?_, ?_, ?_, ?_, ?_, ?_, ?_⟩
  · intro q
    rw [hfull]
    exact pingPrevState_frame (fun s => s.State) (fun _ _ => rfl) _ server q
  · intro q
    rw [hfull]
    exact pingPrevState_frame (fun s => s.FailCount) (fun _ _ => rfl) _ server q
  · intro q
    rw [pingResetFailCount_frame (fun s => s.PrevState) (fun _ _ _ => rfl),
      (kept_fields (Refresh_kept (pingVirtualMaster c server) server o.Refresh q)).2.2.1]
    exact pingVirtualMaster_frame (fun s => s.PrevState) (fun _ _ => rfl) c server q
  · intro q
    rw [pingResetFailCount_frame (fun s => s.Id) (fun _ _ _ => rfl),
      (kept_fields (Refresh_kept (pingVirtualMaster c server) server o.Refresh q)).1]
    exact pingVirtualMaster_frame (fun s => s.Id) (fun _ _ => rfl) c server q
  · intro q
    exact pingResetFailCount_frame (fun s => s.State) (fun _ _ _ => rfl) _ server q
  · intro q
    exact pingResetFailCount_frame (fun s => s.HaveWsrep) (fun _ _ _ => rfl) _ server q
  · rw [hRs.2.2.2.1, hRc.1, hv.2.2.2.1]
  · rw [hRs.1, hRc.2.2.2.1, hv.1]
  · rw [hRs.2.2.1, hRc.2.2.1, hv.2.2.1]

/-! ## C8 -/

/-- C8: a successful probe made outside failover on a server with a
persistent connection whose refresh succeeds, whose previous state is `Failed`
and whose slave-status query yields no replication (`sql.ErrNoRows`, or an
error containing "1617"), sets the state `StandAlone` and `FailCount` 0, and
calls `RejoinMaster` if and only if `Autorejoin` is set and the cluster is
active. -/
theorem C8_rejoin_standalone (c : Cluster) (server : Nat) (o : PingObs) (conn : Nat)
    (hcheck : pingCheck c.Conf o = some (some conn, none))
    (hF : c.sme.InFailover = false) (hC : (c.heap server).Conn.isSome = true)
    (hU : o.Refresh.ConnUnusable = false) (hP : o.Refresh.PingErr = none)
    (hprev : (c.heap server).PrevState = stateFailed)
    (hnr : o.errss = some GoError.ErrNoRows
      ∨ ∃ e, o.errss = some e ∧ Contains e.Error "1617" = true) :
    (Ping c server o).2.2 = Ret.nil
    ∧ ((Ping c server o).1.heap server).State = stateUnconn
    ∧ ((Ping c server o).1.heap server).FailCount = 0
    ∧ (calls "RejoinMaster" (Ping c server o).2.1 = true ↔
        (c.Conf.Autorejoin = true ∧ o.IsActive = true)) := by
  have h := pingSuccess_classified c server o conn hcheck hF hC hU hP
  have hcl := pingClassify_rejoin (pingResetFailCount (Refresh (pingVirtualMaster c server)
    server o.Refresh).1 server).1 server o hnr (Or.inl (by rw [h.2.2.2.2.2.1]; exact hprev))
  have hs := pingRejoinMaster_spec (pingResetFailCount (Refresh (pingVirtualMaster c server)
    server o.Refresh).1 server).1 server o
  refine ⟨h.1, ?_, ?_, ?_⟩
  · rw [h.2.1, hcl]; exact hs.1
  · rw [h.2.2.1, hcl]; exact hs.2.1
  · rw [h.2.2.2.2.1, hcl, hs.2.2.1, h.2.2.2.2.2.2.2.2.2.1]

/-- C8 (witness): the failed slave `a` of the sample cluster comes back with
an empty slave status while `Autorejoin` is off: it becomes `StandAlone` with
`FailCount` 0 and `RejoinMaster` is not called. -/
theorem C8_witness :
    (failedSlave.heap 0).PrevState = stateFailed
    ∧ ((Ping failedSlave 0 standaloneObs).1.heap 0).State = stateUnconn
    ∧ ((Ping failedSlave 0 standaloneObs).1.heap 0).FailCount = 0
    ∧ ¬ calls "RejoinMaster" (Ping failedSlave 0 standaloneObs).2.1 = true :=
  ⟨rfl,
   (C8_rejoin_standalone failedSlave 0 standaloneObs 9 rfl rfl rfl rfl rfl rfl
      (Or.inl rfl)).2.1,
   (C8_rejoin_standalone failedSlave 0 standaloneObs 9 rfl rfl rfl rfl rfl rfl
      (Or.inl rfl)).2.2.1,
   fun h => absurd ((C8_rejoin_standalone failedSlave 0 standaloneObs 9 rfl rfl rfl rfl
      rfl rfl (Or.inl rfl)).2.2.2.1 h).1 (by decide)⟩

/-! ## Read-only enforcement -/

theorem pingFailAlert_passive (c : Cluster) (server : Nat) :
    passive (pingFailAlert c server).2 := by
  unfold pingFailAlert
  dsimp only
  split_ifs <;> simp [passive, Event.isAction]

theorem pingFailedMaster_passive (c : Cluster) (server master : Nat) :
    passive (pingFailedMaster c server master).2 := by
  unfold pingFailedMaster
  dsimp only
  split_ifs <;> simp [passive, Event.isAction]

theorem pingFailedSlave_passive (c : Cluster) (server : Nat) :
    passive (pingFailedSlave c server).2 := by
  unfold pingFailedSlave
  dsimp only
  split_ifs <;> simp [passive, Event.isAction]

theorem passive_singleton (e : Event) (h : Event.isAction e = false) : passive [e] := by
  intro x hx
  rw [List.mem_singleton.1 hx]
  exact h

theorem pingFailCount_passive (c : Cluster) (server : Nat) :
    passive (pingFailCount c server).2 := by
  unfold pingFailCount
  dsimp only
  cases hm : c.master with
  | none =>
    simp only [store_master, hm]
    refine passive_append ?_ (pingFailedSlave_passive _ _)
    simp [passive, Event.isAction]
  | some m =>
    simp only [store_master, hm]
    split_ifs
    · exact pingFailedMaster_passive _ _ _
    · exact pingFailedSlave_passive _ _

theorem pingFailRest_passive (c : Cluster) (server : Nat) (e : GoError) :
    passive (pingFailRest c server e).2 := by
  unfold pingFailRest
  dsimp only
  split_ifs
  · exact passive_append (pingFailCount_passive _ _) (pingFailAlert_passive _ _)
  · exact passive_append passive_nil (pingFailAlert_passive _ _)

theorem pingFailure_passive (c : Cluster) (server : Nat) (e : GoError) :
    passive (pingFailure c server e).2 := by
  have h0 : passive (if ((c.heap server).State != stateFailed) = true
      then [Event.CopyOldStateFromUnknowServer (c.heap server).URL] else []) := by
    split_ifs <;> simp [passive, Event.isAction]
  have hS : passive [Event.SetState "ERR00004" (c.heap server).URL] := by
    simp [passive, Event.isAction]
  have hL : passive [Event.Log "ERROR" "Driver Error %s %d " (c.heap server).URL] := by
    simp [passive, Event.isAction]
  unfold pingFailure
  dsimp only
  generalize (if ((c.heap server).State != stateFailed) = true
      then [Event.CopyOldStateFromUnknowServer (c.heap server).URL] else []) = ev0 at h0 ⊢
  cases e with
  | MySQLError n t =>
    dsimp only
    split_ifs
    · exact passive_append h0 hS
    · exact passive_append (passive_append h0 hL) (pingFailRest_passive _ _ _)
  | ErrNoRows => exact passive_append h0 (pingFailRest_passive _ _ _)
  | Other t => exact passive_append h0 (pingFailRest_passive _ _ _)

theorem pingClassify_ignored (c : Cluster) (server : Nat) (o : PingObs)
    (hi : o.IsInIgnoredReadonly = true) :
    calls "SetReadOnly" (pingClassify c server o).2 = false := by
  have h1 := (pingRejoinMaster_spec c server o).2.2.2
  have h2 := (pingUnconnected_spec c server o).2.2
  unfold pingClassify
  dsimp only
  split_ifs
  · cases hc : calls "SetReadOnly" (pingRejoinMaster c server o).2 with
    | false => rfl
    | true =>
      have := (h1.1 hc).2.2.2.1
      rw [hi] at this
      cases this
  · cases hc : calls "SetReadOnly" (pingUnconnected c server o).2 with
    | false => rfl
    | true =>
      have := (h2.1 hc).2.2.2
      rw [hi] at this
      cases this
  · rfl
  · rfl
  · rfl

theorem pingSuccess_ignored (c : Cluster) (server : Nat) (o : PingObs)
    (hi : o.IsInIgnoredReadonly = true) :
    calls "SetReadOnly" (pingSuccess c server o).2.1 = false := by
  have h1 := passive_calls (Refresh_passive c server o.Refresh)
  have h2 := passive_calls (pingResetFailCount_passive (Refresh c server o.Refresh).1 server)
  have h3 := pingClassify_ignored (pingResetFailCount (Refresh c server o.Refresh).1 server).1
    server o hi
  have h4 := passive_calls (pingPrevState_passive (pingClassify
    (pingResetFailCount (Refresh c server o.Refresh).1 server).1 server o).1 server)
  unfold pingSuccess
  dsimp only
  split_ifs
  · cases o.conn <;> rfl
  · rfl
  · generalize Refresh c server o.Refresh = r at h1 h2 h3 h4 ⊢
    obtain ⟨c1, ev1, err⟩ := r
    dsimp only at h1 h2 h3 h4 ⊢
    cases err with
    | some e =>
      dsimp only
      simp only [calls_append, h1.1, Bool.false_or]
      rfl
    | none =>
      dsimp only
      cases o.conn with
      | none => exact h1.1
      | some conn =>
        dsimp only
        simp only [calls_append, h1.1, h2.1, h3, h4.1, Bool.false_or]
        rfl

/-! ## C9 -/

/-- C9 (amended): `Ping` never applies read-only to a server of the
ignored-readonly set.  When a successful probe outside failover (persistent
connection, refresh succeeded) finds no replication: coming from `Failed` or
`ErrorAuth` the server becomes `StandAlone` and read-only is applied if and
only if `ReadOnly` is set, the refreshed server has no wsrep, the cluster is
discovered, the server is not ignored, the master pointer is set, and either
the monitor is the active one and the master is another server, or the
monitor is a standby with arbitration; otherwise, when the refreshed state is
not `Master` and the previous state is not `StandAlone`, the server becomes
`StandAlone` unless the topology is wsrep, and read-only is applied if and
only if `ReadOnly` is set, the refreshed server has no wsrep, the cluster is
discovered and the server is not ignored. -/
theorem C9_read_only (c : Cluster) (server : Nat) (o : PingObs) :
    (o.IsInIgnoredReadonly = true → calls "SetReadOnly" (Ping c server o).2.1 = false)
    ∧ ∀ conn, pingCheck c.Conf o = some (some conn, none) → c.sme.InFailover = false →
        (c.heap server).Conn.isSome = true →
        o.Refresh.ConnUnusable = false → o.Refresh.PingErr = none →
        (o.errss = some GoError.ErrNoRows
          ∨ ∃ e, o.errss = some e ∧ Contains e.Error "1617" = true) →
        (((c.heap server).PrevState = stateFailed ∨ (c.heap server).PrevState = stateErrorAuth) →
          ((Ping c server o).1.heap server).State = stateUnconn
          ∧ (calls "SetReadOnly" (Ping c server o).2.1 = true ↔
              (c.Conf.ReadOnly = true
                ∧ ((Refresh (pingVirtualMaster c server) server o.Refresh).1.heap server).HaveWsrep
                    = false
                ∧ c.IsDiscovered = true ∧ o.IsInIgnoredReadonly = false
                ∧ ∃ m, c.master = some m
                  ∧ ((o.StatusIsActif = true ∧ (c.heap m).Id ≠ (c.heap server).Id)
                    ∨ (o.StatusIsStandby = true ∧ c.Conf.Arbitration = true)))))
        ∧ (((c.heap server).PrevState ≠ stateFailed ∧ (c.heap server).PrevState ≠ stateErrorAuth) →
            ((Refresh (pingVirtualMaster c server) server o.Refresh).1.heap server).State
              ≠ stateMaster →
            (c.heap server).PrevState ≠ stateUnconn →
          (o.TopologyIsWsrep = false → ((Ping c server o).1.heap server).State = stateUnconn)
          ∧ (calls "SetReadOnly" (Ping c server o).2.1 = true ↔
              (c.Conf.ReadOnly = true
                ∧ ((Refresh (pingVirtualMaster c server) server o.Refresh).1.heap server).HaveWsrep
                    = false
                ∧ c.IsDiscovered = true ∧ o.IsInIgnoredReadonly = false))) := by
  constructor
  · intro hi
    cases hc : pingCheck c.Conf o with
    | none =>
      rw [Ping_panic c server o hc]
      rfl
    | some r =>
      obtain ⟨cn, er⟩ := r
      cases er with
      | some e =>
        rw [Ping_fail c server o e cn hc]
        exact (passive_calls (pingFailure_passive _ _ _)).1
      | none =>
        rw [Ping_success c server o cn hc]
        exact pingSuccess_ignored _ _ _ hi
  · intro conn hcheck hF hC hU hP hnr
    have h := pingSuccess_classified c server o conn hcheck hF hC hU hP
    obtain ⟨_, hSt, _, hRO, _, hPrev, hId, hState, hW, hConf, hM, hsme⟩ := h
    have hD : (pingResetFailCount (Refresh (pingVirtualMaster c server) server
        o.Refresh).1 server).1.IsDiscovered = c.IsDiscovered := by
      simp only [Cluster.IsDiscovered, hsme]
    constructor
    · intro hprev
      have hcl := pingClassify_rejoin (pingResetFailCount (Refresh (pingVirtualMaster c server)
        server o.Refresh).1 server).1 server o hnr (by rw [hPrev]; exact hprev)
      have hs := pingRejoinMaster_spec (pingResetFailCount (Refresh (pingVirtualMaster c server)
        server o.Refresh).1 server).1 server o
      refine ⟨by rw [hSt, hcl]; exact hs.1, ?_⟩
      rw [hRO, hcl, hs.2.2.2, hConf, hW, hD, hM]
      simp only [hId]
    · intro hprev hst hun
      have hcl := pingClassify_unconnected (pingResetFailCount
        (Refresh (pingVirtualMaster c server) server o.Refresh).1 server).1 server o hnr
        (by rw [hPrev]; exact hprev) (by rw [hState]; exact hst) (by rw [hPrev]; exact hun)
      have hs := pingUnconnected_spec (pingResetFailCount (Refresh (pingVirtualMaster c server)
        server o.Refresh).1 server).1 server o
      refine ⟨fun ht => by rw [hSt, hcl]; exact hs.1 ht, ?_⟩
      rw [hRO, hcl, hs.2.2, hConf, hW, hD]

/-- C9 (counterexample): the failed slave `a` comes back with an empty slave
status and wsrep enabled; `ReadOnly` is set, the cluster is discovered with
master `b`, the monitor is active and `a` is not ignored: `Ping` moves `a` to
`StandAlone` and does not apply read-only. -/
theorem C9_counterexample :
    failedSlave.Conf.ReadOnly = true ∧ wsrepObs.IsInIgnoredReadonly = false
    ∧ failedSlave.master = some 1 ∧ failedSlave.IsDiscovered = true
    ∧ (failedSlave.heap 0).State = stateFailed
    ∧ ((Ping failedSlave 0 wsrepObs).1.heap 0).State = stateUnconn
    ∧ calls "SetReadOnly" (Ping failedSlave 0 wsrepObs).2.1 = false := by
  decide

/-- C9 (witness): the failed slave `a` of the sample cluster comes back with
an empty slave status and without wsrep: read-only is applied. -/
theorem C9_witness :
    (failedSlave.heap 0).PrevState = stateFailed
    ∧ ((Ping failedSlave 0 standaloneObs).1.heap 0).State = stateUnconn
    ∧ calls "SetReadOnly" (Ping failedSlave 0 standaloneObs).2.1 = true :=
  ⟨rfl,
   ((C9_read_only failedSlave 0 standaloneObs).2 9 rfl rfl rfl rfl rfl (Or.inl rfl)).1
      (Or.inl rfl) |>.1,
   (((C9_read_only failedSlave 0 standaloneObs).2 9 rfl rfl rfl rfl rfl (Or.inl rfl)).1
      (Or.inl rfl)).2.2
      ⟨rfl, by decide, rfl, rfl, 1, rfl, Or.inl ⟨rfl, by decide⟩⟩⟩

/-! ## The start of `BootstrapReplication` -/

theorem sameSetup_refl (c : Cluster) : sameSetup c c := ⟨rfl, rfl, fun _ => rfl⟩

theorem sameSetup_trans {a b c : Cluster} (h1 : sameSetup a b) (h2 : sameSetup b c) :
    sameSetup a c :=
  ⟨h2.1.trans h1.1, h2.2.1.trans h1.2.1, fun q => (h2.2.2 q).trans (h1.2.2 q)⟩

theorem Refresh_sameSetup (c : Cluster) (p : Nat) (o : RefreshObs) :
    sameSetup c (Refresh c p o).1 :=
  ⟨rfl, rfl, fun q => (kept_fields (Refresh_kept c p o q)).2.2.2.2.2.2.1⟩

theorem noWiring_nil : noWiring [] := by
  intro e he
  cases he

theorem noWiring_append {a b : List Event} (ha : noWiring a) (hb : noWiring b) :
    noWiring (a ++ b) := by
  intro e he
  rcases List.mem_append.1 he with h | h
  · exact ha e h
  · exact hb e h

theorem passive_noWiring {ev : List Event} (h : passive ev) : noWiring ev := by
  intro e he
  have := h e he
  cases e with
  | SQL u cmd => simp [Event.isAction] at this
  | ChangeMasterTo s m g => simp [Event.isAction] at this
  | Call n u =>
    simp only [Event.isAction, Bool.or_eq_false_iff] at this
    simp [Event.isWiring, this.1.1.1, this.1.1.2]
  | _ => rfl

theorem cleanupServer_noWiring (c : Cluster) (server : Nat) (db : DBObs) :
    noWiring (cleanupServer c server db) := by
  unfold cleanupServer StopSlave
  dsimp only
  split_ifs <;> simp [noWiring, Event.isWiring]

theorem cleanupLoop_spec (db : Nat → DBObs) (l : List Nat) :
    ∀ (c : Cluster) (ev : List Event), noWiring ev →
      sameSetup c (cleanupLoop db l c ev).1 ∧ noWiring (cleanupLoop db l c ev).2.1 := by
  induction l with
  | nil =>
    intro c ev hev
    exact ⟨sameSetup_refl c, hev⟩
  | cons server rest ih =>
    intro c ev hev
    have hR := Refresh_sameSetup c server (db server).Refresh
    have hP := passive_noWiring (Refresh_passive c server (db server).Refresh)
    unfold cleanupLoop
    generalize Refresh c server (db server).Refresh = r at hR hP ⊢
    obtain ⟨c1, ev1, err⟩ := r
    dsimp only at hR hP ⊢
    cases err with
    | some e =>
      dsimp only
      refine ⟨hR, noWiring_append (noWiring_append hev hP) ?_⟩
      simp [noWiring, Event.isWiring]
    | none =>
      dsimp only
      have h := ih c1 (ev ++ ev1 ++ cleanupServer c1 server (db server))
        (noWiring_append (noWiring_append hev hP) (cleanupServer_noWiring _ _ _))
      exact ⟨sameSetup_trans hR h.1, h.2⟩

theorem BootstrapReplicationCleanup_spec (c : Cluster) (db : Nat → DBObs) :
    sameSetup c (BootstrapReplicationCleanup c db).1
    ∧ noWiring (BootstrapReplicationCleanup c db).2.1 := by
  have h := cleanupLoop_spec db c.SetFailoverState.Servers c.SetFailoverState
    [Event.Log "INFO" "Cleaning up replication on existing servers" ""]
    (by simp [noWiring, Event.isWiring])
  have h0 : sameSetup c c.SetFailoverState := ⟨rfl, rfl, fun _ => rfl⟩
  unfold BootstrapReplicationCleanup
  dsimp only
  generalize cleanupLoop db c.SetFailoverState.Servers c.SetFailoverState
    [Event.Log "INFO" "Cleaning up replication on existing servers" ""] = r at h ⊢
  obtain ⟨c1, ev1, err⟩ := r
  dsimp only at h ⊢
  cases err with
  | some e => exact ⟨sameSetup_trans h0 h.1, h.2⟩
  | none =>
    refine ⟨sameSetup_trans h0 ?_, h.2⟩
    exact ⟨h.1.1, h.1.2.1, h.1.2.2⟩

theorem bootstrapRefresh_spec (db : Nat → DBObs) (l : List Nat) :
    ∀ (c : Cluster) (ev : List Event), noWiring ev →
      sameSetup c (bootstrapRefresh db l c ev).1 ∧ noWiring (bootstrapRefresh db l c ev).2 := by
  induction l with
  | nil =>
    intro c ev hev
    exact ⟨sameSetup_refl c, hev⟩
  | cons server rest ih =>
    intro c ev hev
    have hR := Refresh_sameSetup c server (db server).Refresh
    have hP := passive_noWiring (Refresh_passive c server (db server).Refresh)
    unfold bootstrapRefresh
    split_ifs
    · exact ih c ev hev
    · generalize Refresh c server (db server).Refresh = r at hR hP ⊢
      obtain ⟨c1, ev1, err⟩ := r
      dsimp only at hR hP ⊢
      have h := ih c1 (ev ++ ev1) (noWiring_append hev hP)
      exact ⟨sameSetup_trans hR h.1, h.2⟩

theorem TopologyDiscover_sameSetup (c : Cluster) (o : TopologyObs) :
    sameSetup c (TopologyDiscover c o).1 ∧ (TopologyDiscover c o).2 = o.err := by
  unfold TopologyDiscover
  split_ifs <;> exact ⟨⟨rfl, rfl, fun _ => rfl⟩, rfl⟩

theorem bootstrapClean_spec (c : Cluster) (clean : Bool) (db : Nat → DBObs) :
    sameSetup c (bootstrapClean c clean db).1 ∧ noWiring (bootstrapClean c clean db).2 := by
  have hC := BootstrapReplicationCleanup_spec c db
  unfold bootstrapClean
  split_ifs
  · dsimp only
    split
    · exact hC
    · exact ⟨hC.1, noWiring_append hC.2 (by simp [noWiring, Event.isWiring])⟩
  · exact ⟨sameSetup_refl c, noWiring_nil⟩

/-- What `BootstrapReplication` has done when it reaches the selection of the
master: nothing but cleanup, refresh and discovery. -/
theorem bootstrapPrepare_spec (c : Cluster) (clean : Bool) (db : Nat → DBObs)
    (topo : TopologyObs) (e : GoError)
    (hw : c.Conf.MultiMasterWsrep = false) (ht : topo.err = some e) :
    (bootstrapPrepare c clean db topo).2.2 = none
    ∧ sameSetup c (bootstrapPrepare c clean db topo).1
    ∧ noWiring (bootstrapPrepare c clean db topo).2.1 := by
  have h1 := bootstrapClean_spec c clean db
  have h2 := bootstrapRefresh_spec db (bootstrapClean c clean db).1.Servers
    (bootstrapClean c clean db).1 (bootstrapClean c clean db).2 h1.2
  have h3 := TopologyDiscover_sameSetup (bootstrapRefresh db (bootstrapClean c clean db).1.Servers
    (bootstrapClean c clean db).1 (bootstrapClean c clean db).2).1 topo
  unfold bootstrapPrepare
  simp only [hw, Bool.false_eq_true, if_false]
  rw [h3.2, ht]
  dsimp only
  exact ⟨rfl, sameSetup_trans h1.1 (sameSetup_trans h2.1 h3.1),
    noWiring_append h2.2 (by simp [noWiring, Event.isWiring])⟩

theorem preferedKey_none (heap : Nat → ServerMonitor) (l : List Nat) :
    ∀ k0 : Int, (∀ s ∈ l, (heap s).Prefered = false) → preferedKey heap l k0 = -1 := by
  induction l with
  | nil => intro k0 _; rfl
  | cons s rest ih =>
    intro k0 h
    have hs : (heap s).IsPrefered = false := h s (List.mem_cons_self _ _)
    simp only [preferedKey, hs, Bool.false_eq_true, if_false]
    exact ih (k0 + 1) (fun x hx => h x (List.mem_cons_of_mem _ hx))

theorem preferedKey_first (heap : Nat → ServerMonitor) (l : List Nat) :
    ∀ (k0 : Int) (k : Nat) (hk : k < l.length), (heap l[k]).Prefered = true →
      (∀ j (hj : j < k), (heap l[j]).Prefered = false) →
      preferedKey heap l k0 = k0 + k := by
  induction l with
  | nil => intro k0 k hk; simp at hk
  | cons s rest ih =>
    intro k0 k hk hp hmin
    cases k with
    | zero =>
      have hs : (heap s).IsPrefered = true := hp
      simp [preferedKey, hs]
    | succ k' =>
      have hs : (heap s).IsPrefered = false := hmin 0 (Nat.succ_pos _)
      simp only [preferedKey, hs, Bool.false_eq_true, if_false]
      have hk' : k' < rest.length := by simpa using hk
      rw [ih (k0 + 1) k' hk' (by simpa using hp)
        (fun j hj => by simpa using hmin (j + 1) (Nat.succ_lt_succ hj))]
      push_cast
      ring

theorem preferedKey_congr (h1 h2 : Nat → ServerMonitor)
    (h : ∀ q, (h1 q).Prefered = (h2 q).Prefered) (l : List Nat) :
    ∀ k0 : Int, preferedKey h1 l k0 = preferedKey h2 l k0 := by
  induction l with
  | nil => intro k0; rfl
  | cons s rest ih =>
    intro k0
    simp only [preferedKey, ServerMonitor.IsPrefered, h, ih]

theorem selectMaster_key (c : Cluster) :
    (selectMaster c).2 =
      if c.Conf.PrefMaster = "" then 0 else preferedKey c.heap c.Servers 0 := by
  unfold selectMaster
  by_cases h : c.Conf.PrefMaster = ""
  · simp [h, Cluster.SetFailoverState]
  · simp [h, Cluster.SetFailoverState]

theorem BootstrapReplication_selected (c : Cluster) (clean : Bool) (db : Nat → DBObs)
    (topo1 topo2 : TopologyObs)
    (hp : (bootstrapPrepare c clean db topo1).2.2 = none) :
    BootstrapReplication c clean db topo1 topo2 =
      if (selectMaster (bootstrapPrepare c clean db topo1).1).2 = -1 then
        ((selectMaster (bootstrapPrepare c clean db topo1).1).1,
          (bootstrapPrepare c clean db topo1).2.1,
          Ret.err (GoError.Other "Preferred master could not be found in existing servers"))
      else
        bootstrapWire (selectMaster (bootstrapPrepare c clean db topo1).1).1 db
          (selectMaster (bootstrapPrepare c clean db topo1).1).2
          (bootstrapPrepare c clean db topo1).2.1 topo2 := by
  unfold BootstrapReplication
  generalize bootstrapPrepare c clean db topo1 = p at hp ⊢
  obtain ⟨c1, ev1, r⟩ := p
  dsimp only at hp ⊢
  subst hp
  dsimp only
  generalize selectMaster c1 = sm
  obtain ⟨c2, key⟩ := sm
  dsimp only
  by_cases hk : key = -1
  · simp [hk]
  · have : (key == -1) = false := by simpa using hk
    simp [hk, this]

/-! ## C10 -/

/-- C10: when the first topology discovery of `BootstrapReplication` has failed
(and the cluster is not Galera), the master index is 0 when `PrefMaster` is
empty; when `PrefMaster` is non-empty it is the smallest index whose server is
flagged preferred, and the wiring runs with that index; when `PrefMaster` is
non-empty and no server is flagged preferred the operation returns the error
"Preferred master could not be found in existing servers" and its trace holds
no wiring command (no CHANGE MASTER, no read/write or read-only change). -/
theorem C10_master_selection (c : Cluster) (clean : Bool) (db : Nat → DBObs)
    (topo1 topo2 : TopologyObs) (e : GoError)
    (hw : c.Conf.MultiMasterWsrep = false) (ht : topo1.err = some e) :
    (c.Conf.PrefMaster = "" →
      (selectMaster (bootstrapPrepare c clean db topo1).1).2 = 0
      ∧ BootstrapReplication c clean db topo1 topo2 =
          bootstrapWire (selectMaster (bootstrapPrepare c clean db topo1).1).1 db 0
            (bootstrapPrepare c clean db topo1).2.1 topo2)
    ∧ (c.Conf.PrefMaster ≠ "" → ∀ (k : Nat) (hk : k < c.Servers.length),
        (c.heap c.Servers[k]).Prefered = true →
        (∀ j (hj : j < k), (c.heap c.Servers[j]).Prefered = false) →
        (selectMaster (bootstrapPrepare c clean db topo1).1).2 = (k : Int)
        ∧ BootstrapReplication c clean db topo1 topo2 =
            bootstrapWire (selectMaster (bootstrapPrepare c clean db topo1).1).1 db (k : Int)
              (bootstrapPrepare c clean db topo1).2.1 topo2)
    ∧ (c.Conf.PrefMaster ≠ "" → (∀ s ∈ c.Servers, (c.heap s).Prefered = false) →
        (BootstrapReplication c clean db topo1 topo2).2.2 =
            Ret.err (GoError.Other "Preferred master could not be found in existing servers")
        ∧ noWiring (BootstrapReplication c clean db topo1 topo2).2.1) := by
  have hprep := bootstrapPrepare_spec c clean db topo1 e hw ht
  have hsel := BootstrapReplication_selected c clean db topo1 topo2 hprep.1
  have hkey := selectMaster_key (bootstrapPrepare c clean db topo1).1
  rw [hprep.2.1.1, hprep.2.1.2.1,
    preferedKey_congr _ c.heap hprep.2.1.2.2 c.Servers 0] at hkey
  refine ⟨?_, ?_, ?_⟩
  · intro hpm
    rw [if_pos hpm] at hkey
    refine ⟨hkey, ?_⟩
    rw [hsel, hkey, if_neg (by decide)]
  · intro hpm k hk hflag hmin
    rw [if_neg hpm, preferedKey_first c.heap c.Servers 0 k hk hflag hmin, zero_add] at hkey
    refine ⟨hkey, ?_⟩
    rw [hsel, hkey, if_neg (by omega)]
  · intro hpm hnone
    rw [if_neg hpm, preferedKey_none c.heap c.Servers 0 hnone] at hkey
    rw [hsel, if_pos hkey]
    exact ⟨rfl, hprep.2.2⟩

/-- C10 (witness): in the sample cluster with `PrefMaster` set and the server
`b` flagged preferred, the master index is 1. -/
theorem C10_witness :
    preferedCluster.Conf.MultiMasterWsrep = false
    ∧ preferedCluster.Conf.PrefMaster ≠ ""
    ∧ (selectMaster (bootstrapPrepare preferedCluster false quietDB emptyTopology).1).2 = 1 :=
  ⟨rfl, by decide,
    ((C10_master_selection preferedCluster false quietDB emptyTopology foundTopology
      (GoError.Other "No master found") rfl rfl).2.1 (by decide) 1 (by decide) (by decide)
      (fun j hj => by
        have : j = 0 := by omega
        subst this
        rfl)).1⟩

/-! ## The wiring of `BootstrapReplication` -/

theorem wiringCalls_append (a b : List Event) :
    wiringCalls (a ++ b) = wiringCalls a ++ wiringCalls b := by
  simp [wiringCalls]

theorem wiringCalls_passive {ev : List Event} (h : passive ev) : wiringCalls ev = [] := by
  unfold wiringCalls
  rw [List.filter_eq_nil_iff]
  intro e he
  have := h e he
  cases e with
  | SQL u cmd => simp [Event.isWiringCall]
  | ChangeMasterTo s m g => simp [Event.isAction] at this
  | Call n u =>
    simp only [Event.isAction, Bool.or_eq_false_iff] at this
    simp [Event.isWiringCall, this.1.1.1, this.1.1.2]
  | _ => simp [Event.isWiringCall]

theorem wiringCalls_noWiring {ev : List Event} (h : noWiring ev) : wiringCalls ev = [] := by
  unfold wiringCalls
  rw [List.filter_eq_nil_iff]
  intro e he
  have := h e he
  cases e with
  | ChangeMasterTo s m g => simp [Event.isWiring] at this
  | Call n u =>
    simp only [Event.isWiring, Bool.or_eq_false_iff] at this
    simp [Event.isWiringCall, this.1, this.2]
  | _ => simp [Event.isWiringCall]

theorem sameServers_refl (c : Cluster) : sameServers c c :=
  ⟨rfl, rfl, fun _ => rfl, fun _ h => h⟩

theorem sameServers_trans {a b c : Cluster} (h1 : sameServers a b) (h2 : sameServers b c) :
    sameServers a c :=
  ⟨h2.1.trans h1.1, h2.2.1.trans h1.2.1, fun q => (h2.2.2.1 q).trans (h1.2.2.1 q),
    fun q h => h2.2.2.2 q (h1.2.2.2 q h)⟩

theorem Refresh_sameServers (c : Cluster) (p : Nat) (o : RefreshObs) :
    sameServers c (Refresh c p o).1 := by
  refine ⟨rfl, rfl, Refresh_kept c p o, ?_⟩
  intro q hq
  unfold Refresh Cluster.store
  by_cases h : q = p
  · subst h
    simp only [Function.update_same]
    rcases refreshServer_State c.Conf c.sme.Heartbeats o (c.heap q) with h1 | h1
    · rw [h1]; exact hq
    · rw [h1]; decide
  · simp only [Function.update_noteq h]
    exact hq

theorem changeMasterStart_spec (c : Cluster) (server : Nat) (db : DBObs) (ev : List Event) :
    (changeMasterStart c server db ev).1 = c
    ∧ wiringCalls (changeMasterStart c server db ev).2.1 = wiringCalls ev
    ∧ ((c.heap server).Conn ≠ none →
        (changeMasterStart c server db ev).2.2 ≠ Ret.panic
        ∧ (db.ExecStartSlave = none → (changeMasterStart c server db ev).2.2 = Ret.nil)) := by
  unfold changeMasterStart
  cases db.ChangeMaster <;> cases (c.heap server).Conn <;> cases db.ExecStartSlave <;>
    simp [wiringCalls, List.filter_append, Event.isWiringCall]

/-- What `ChangeMasterTo` leaves as it was, and when it returns `nil`. -/
theorem ChangeMasterTo_spec (c : Cluster) (server master : Nat) (mode : String)
    (db : Nat → DBObs) :
    sameServers c (ChangeMasterTo c server master mode db).1
    ∧ (ChangeMasterTo c server master mode db).1.sme = c.sme
    ∧ (ChangeMasterTo c server master mode db).1.master = c.master
    ∧ (ChangeMasterTo c server master mode db).1.vmaster = c.vmaster
    ∧ (ChangeMasterTo c server master mode db).1.slaves = c.slaves
    ∧ wiringCalls (ChangeMasterTo c server master mode db).2.1 = []
    ∧ ((c.heap server).Conn ≠ none →
        (ChangeMasterTo c server master mode db).2.2 ≠ Ret.panic
        ∧ ((db server).ExecSetGlobalGtidSlavePos = none → (db server).ExecStartSlave = none →
            (ChangeMasterTo c server master mode db).2.2 = Ret.nil)) := by
  unfold ChangeMasterTo
  dsimp only
  split
  · have hs := Refresh_sameServers c master (db master).Refresh
    have hc := Refresh_cluster c master (db master).Refresh
    have hp := wiringCalls_passive (Refresh_passive c master (db master).Refresh)
    generalize Refresh c master (db master).Refresh = r at hs hc hp ⊢
    obtain ⟨c1, ev1, e1⟩ := r
    dsimp only at hs hc hp ⊢
    have hk : (c1.heap server).Conn = (c.heap server).Conn := kept_Conn (hs.2.2.1 server)
    cases hconn : (c1.heap server).Conn with
    | none =>
      dsimp only
      refine ⟨hs, hc.2.2.1, hc.2.2.2.1, hc.2.2.2.2.1, hc.2.2.2.2.2.1, hp, ?_⟩
      intro h
      rw [← hk, hconn] at h
      exact absurd rfl h
    | some n =>
      dsimp only
      cases hx : (db server).ExecSetGlobalGtidSlavePos with
      | some err =>
        dsimp only
        refine ⟨hs, hc.2.2.1, hc.2.2.2.1, hc.2.2.2.2.1, hc.2.2.2.2.2.1, ?_, ?_⟩
        · rw [wiringCalls_append, hp]; rfl
        · intro _
          exact ⟨by simp, fun h => by simp at h⟩
      | none =>
        dsimp only
        have h := changeMasterStart_spec c1 server (db server)
          (ev1 ++ [Event.SQL (c1.heap server).URL (Cmd.SetGlobalGtidSlavePos (c1.heap master).CurrentGtid)] ++
            [Event.SQL (c1.heap server).URL (Cmd.ChangeMaster (changeMasterOpt c1 (c1.heap server) (c1.heap master) mode)),
             Event.Log "INFO" "Replication bootstrapped with %s as master" (c1.heap master).URL])
        rw [h.1, h.2.1]
        refine ⟨hs, hc.2.2.1, hc.2.2.2.1, hc.2.2.2.2.1, hc.2.2.2.2.2.1, ?_, ?_⟩
        · rw [wiringCalls_append, wiringCalls_append, hp]; rfl
        · intro _
          have h3 := h.2.2 (by rw [hconn]; simp)
          exact ⟨h3.1, fun _ hs => h3.2 hs⟩
  · split
    · have h := changeMasterStart_spec c server (db server)
        [Event.SQL (c.heap server).URL (Cmd.ChangeMaster (changeMasterOpt c (c.heap server) (c.heap master) "MASTER_AUTO_POSITION")),
         Event.Log "INFO" "Replication bootstrapped with MySQL GTID replication style and %s as master" (c.heap master).URL]
      rw [h.1, h.2.1]
      refine ⟨sameServers_refl c, rfl, rfl, rfl, rfl, rfl, ?_⟩
      intro hc
      exact ⟨(h.2.2 hc).1, fun _ hs => (h.2.2 hc).2 hs⟩
    · have h := changeMasterStart_spec c server (db server)
        [Event.SQL (c.heap server).URL (Cmd.ChangeMaster { changeMasterOpt c (c.heap server) (c.heap master) "POSITIONAL" with
            Logfile := (c.heap master).BinaryLogFile, Logpos := (c.heap master).BinaryLogPos }),
         Event.Log "INFO" "Replication bootstrapped with old replication style and %s as master" (c.heap master).URL]
      rw [h.1, h.2.1]
      refine ⟨sameServers_refl c, rfl, rfl, rfl, rfl, rfl, ?_⟩
      intro hc
      exact ⟨(h.2.2 hc).1, fun _ hs => (h.2.2 hc).2 hs⟩

theorem sameServers_alive {c0 c : Cluster} (h : sameServers c0 c) (s : Nat)
    (hs : (c0.heap s).State ≠ stateFailed) : ((c.heap s).State == stateFailed) = false := by
  simpa using h.2.2.2 s hs

theorem sameServers_Conn {c0 c : Cluster} (h : sameServers c0 c) (s : Nat)
    (hs : (c0.heap s).Conn ≠ none) : (c.heap s).Conn ≠ none := by
  rw [kept_Conn (h.2.2.1 s)]; exact hs

theorem sameServers_URL {c0 c : Cluster} (h : sameServers c0 c) (s : Nat) :
    (c.heap s).URL = (c0.heap s).URL := (kept_fields (h.2.2.1 s)).2.1

theorem setReadOnlyUnlessIgnored_congr {c0 c : Cluster} (h : sameServers c0 c) (s : Nat)
    (db : Nat → DBObs) : setReadOnlyUnlessIgnored c s db = setReadOnlyUnlessIgnored c0 s db := by
  unfold setReadOnlyUnlessIgnored
  rw [sameServers_URL h]

theorem wiringCalls_setReadOnly (c : Cluster) (s : Nat) (db : Nat → DBObs) :
    wiringCalls (setReadOnlyUnlessIgnored c s db) = setReadOnlyUnlessIgnored c s db := by
  unfold setReadOnlyUnlessIgnored
  split <;> simp [wiringCalls, Event.isWiringCall]

theorem wireMasterSlave_spec (c0 : Cluster) (db : Nat → DBObs) (mk master : Nat)
    (hmaster : c0.Servers[mk]? = some master) (l : List Nat) :
    ∀ (key : Nat) (c : Cluster) (ev : List Event), sameServers c0 c →
      (∀ s ∈ l, (c0.heap s).State ≠ stateFailed ∧ (c0.heap s).Conn ≠ none) →
      (wireMasterSlave db (mk : Int) l (key : Int) c ev).2.2 = none
      ∧ sameServers c0 (wireMasterSlave db (mk : Int) l (key : Int) c ev).1
      ∧ (wireMasterSlave db (mk : Int) l (key : Int) c ev).1.sme = c.sme
      ∧ wiringCalls (wireMasterSlave db (mk : Int) l (key : Int) c ev).2.1 =
          wiringCalls ev ++ perServer (fun k s =>
            if k = mk then [Event.Call "SetReadWrite" (c0.heap s).URL]
            else Event.ChangeMasterTo s master "SLAVE_POS" :: setReadOnlyUnlessIgnored c0 s db)
            l key := by
  induction l with
  | nil =>
    intro key c ev hc _
    simp [wireMasterSlave, perServer, hc]
  | cons server rest ih =>
    intro key c ev hc hl
    have hsrv := hl server (List.mem_cons_self _ _)
    have hrest : ∀ s ∈ rest, (c0.heap s).State ≠ stateFailed ∧ (c0.heap s).Conn ≠ none :=
      fun s hs => hl s (List.mem_cons_of_mem _ hs)
    have hkey : ((key : Int) + 1) = ((key + 1 : Nat) : Int) := by push_cast; rfl
    rw [wireMasterSlave]
    simp only [sameServers_alive hc server hsrv.1, Bool.false_eq_true, if_false]
    by_cases hk : key = mk
    · subst hk
      simp only [beq_self_eq_true, if_true, hkey]
      have h := ih (key + 1) c
        (ev ++ [Event.SQL (c.heap server).URL Cmd.FlushTables,
          Event.Call "SetReadWrite" (c.heap server).URL]) hc hrest
      refine ⟨h.1, h.2.1, h.2.2.1, ?_⟩
      rw [h.2.2.2, wiringCalls_append, perServer, sameServers_URL hc]
      simp [wiringCalls, Event.isWiringCall]
    · have hk2 : ((key : Int) == (mk : Int)) = false := by
        simpa using hk
      simp only [hk2, Bool.false_eq_true, if_false, Int.toNat_ofNat, hc.2.1, hmaster]
      have hcm := ChangeMasterTo_spec c server master "SLAVE_POS" db
      generalize ChangeMasterTo c server master "SLAVE_POS" db = r at hcm ⊢
      obtain ⟨c1, ev1, ret⟩ := r
      dsimp only at hcm ⊢
      have hc1 : sameServers c0 c1 := sameServers_trans hc hcm.1
      have hnp := (hcm.2.2.2.2.2.2 (sameServers_Conn hc server hsrv.2)).1
      have h := ih (key + 1) c1
        (ev ++ [Event.ChangeMasterTo server master "SLAVE_POS"] ++ ev1 ++
          setReadOnlyUnlessIgnored c1 server db) hc1 hrest
      have hcalls : wiringCalls (ev ++ [Event.ChangeMasterTo server master "SLAVE_POS"] ++ ev1 ++
          setReadOnlyUnlessIgnored c1 server db) ++ perServer (fun k s =>
            if k = mk then [Event.Call "SetReadWrite" (c0.heap s).URL]
            else Event.ChangeMasterTo s master "SLAVE_POS" :: setReadOnlyUnlessIgnored c0 s db)
            rest (key + 1) =
          wiringCalls ev ++ perServer (fun k s =>
            if k = mk then [Event.Call "SetReadWrite" (c0.heap s).URL]
            else Event.ChangeMasterTo s master "SLAVE_POS" :: setReadOnlyUnlessIgnored c0 s db)
            (server :: rest) key := by
        rw [wiringCalls_append, wiringCalls_append, wiringCalls_append, hcm.2.2.2.2.2.1,
          wiringCalls_setReadOnly, setReadOnlyUnlessIgnored_congr hc1, perServer, if_neg hk]
        simp [wiringCalls, Event.isWiringCall]
      cases ret with
      | panic => exact absurd rfl hnp
      | nil =>
        dsimp only
        rw [hkey]
        exact ⟨h.1, h.2.1, h.2.2.1.trans hcm.2.1, h.2.2.2.trans hcalls⟩
      | err e =>
        dsimp only
        rw [hkey]
        exact ⟨h.1, h.2.1, h.2.2.1.trans hcm.2.1, h.2.2.2.trans hcalls⟩

theorem cleanupLoop_sameServers (db : Nat → DBObs) (l : List Nat) :
    ∀ (c : Cluster) (ev : List Event), sameServers c (cleanupLoop db l c ev).1 := by
  induction l with
  | nil => intro c ev; exact sameServers_refl c
  | cons server rest ih =>
    intro c ev
    have hR := Refresh_sameServers c server (db server).Refresh
    unfold cleanupLoop
    generalize Refresh c server (db server).Refresh = r at hR ⊢
    obtain ⟨c1, ev1, err⟩ := r
    dsimp only at hR ⊢
    cases err with
    | some e => exact hR
    | none => exact sameServers_trans hR (ih c1 _)

theorem BootstrapReplicationCleanup_sameServers (c : Cluster) (db : Nat → DBObs) :
    sameServers c (BootstrapReplicationCleanup c db).1 := by
  have h := cleanupLoop_sameServers db c.SetFailoverState.Servers c.SetFailoverState
    [Event.Log "INFO" "Cleaning up replication on existing servers" ""]
  have h0 : sameServers c c.SetFailoverState := ⟨rfl, rfl, fun _ => rfl, fun _ h => h⟩
  unfold BootstrapReplicationCleanup
  dsimp only
  generalize cleanupLoop db c.SetFailoverState.Servers c.SetFailoverState
    [Event.Log "INFO" "Cleaning up replication on existing servers" ""] = r at h ⊢
  obtain ⟨c1, ev1, err⟩ := r
  dsimp only at h ⊢
  cases err with
  | some e => exact sameServers_trans h0 h
  | none => exact sameServers_trans h0 ⟨h.1, h.2.1, h.2.2.1, h.2.2.2⟩

theorem bootstrapRefresh_sameServers (db : Nat → DBObs) (l : List Nat) :
    ∀ (c : Cluster) (ev : List Event), sameServers c (bootstrapRefresh db l c ev).1 := by
  induction l with
  | nil => intro c ev; exact sameServers_refl c
  | cons server rest ih =>
    intro c ev
    have hR := Refresh_sameServers c server (db server).Refresh
    unfold bootstrapRefresh
    split_ifs
    · exact ih c ev
    · generalize Refresh c server (db server).Refresh = r at hR ⊢
      obtain ⟨c1, ev1, err⟩ := r
      dsimp only at hR ⊢
      exact sameServers_trans hR (ih c1 _)

theorem TopologyDiscover_sameServers (c : Cluster) (o : TopologyObs) :
    sameServers c (TopologyDiscover c o).1 := by
  unfold TopologyDiscover
  split_ifs <;> exact ⟨rfl, rfl, fun _ => rfl, fun _ h => h⟩

theorem bootstrapClean_sameServers (c : Cluster) (clean : Bool) (db : Nat → DBObs) :
    sameServers c (bootstrapClean c clean db).1 := by
  have hC := BootstrapReplicationCleanup_sameServers c db
  unfold bootstrapClean
  split_ifs
  · dsimp only
    split <;> exact hC
  · exact sameServers_refl c

theorem bootstrapPrepare_sameServers (c : Cluster) (clean : Bool) (db : Nat → DBObs)
    (topo : TopologyObs) : sameServers c (bootstrapPrepare c clean db topo).1 := by
  have h1 := bootstrapClean_sameServers c clean db
  have h2 := bootstrapRefresh_sameServers db (bootstrapClean c clean db).1.Servers
    (bootstrapClean c clean db).1 (bootstrapClean c clean db).2
  have h3 := TopologyDiscover_sameServers (bootstrapRefresh db (bootstrapClean c clean db).1.Servers
    (bootstrapClean c clean db).1 (bootstrapClean c clean db).2).1 topo
  unfold bootstrapPrepare
  split_ifs
  · exact sameServers_refl c
  · dsimp only
    split <;> exact sameServers_trans h1 (sameServers_trans h2 h3)

theorem selectMaster_sameServers (c : Cluster) : sameServers c (selectMaster c).1 := by
  unfold selectMaster
  dsimp only
  split_ifs <;> exact ⟨rfl, rfl, fun _ => rfl, fun _ h => h⟩

theorem preferedKey_range (heap : Nat → ServerMonitor) (l : List Nat) :
    ∀ k0 : Int, preferedKey heap l k0 = -1
      ∨ (k0 ≤ preferedKey heap l k0 ∧ preferedKey heap l k0 < k0 + l.length) := by
  induction l with
  | nil => intro k0; exact Or.inl rfl
  | cons s rest ih =>
    intro k0
    unfold preferedKey
    split_ifs
    · right
      simp only [List.length_cons]
      push_cast
      omega
    · rcases ih (k0 + 1) with h | h
      · exact Or.inl h
      · right
        simp only [List.length_cons]
        push_cast
        omega

/-- The master index selected on the cluster as it is when the selection is
made equals the one selected on the cluster the bootstrap starts from, and it
is the index of a declared server. -/
theorem selectMaster_index (c c1 : Cluster) (h : sameServers c c1) (mk : Nat)
    (hN : 1 ≤ c.Servers.length) (hsel : (selectMaster c).2 = (mk : Int)) :
    (selectMaster c1).2 = (mk : Int) ∧ mk < c.Servers.length := by
  have h1 := selectMaster_key c1
  rw [h.1, h.2.1, preferedKey_congr c1.heap c.heap
    (fun q => (kept_fields (h.2.2.1 q)).2.2.2.2.2.2.1) c.Servers 0, ← selectMaster_key c] at h1
  refine ⟨h1.trans hsel, ?_⟩
  rw [selectMaster_key] at hsel
  split_ifs at hsel
  · omega
  · rcases preferedKey_range c.heap c.Servers 0 with hr | hr
    · omega
    · omega

theorem andThen_none (r : Cluster × List Event × Option Ret)
    (f : Cluster → List Event → Cluster × List Event × Option Ret) (h : r.2.2 = none) :
    andThen r f = f r.1 r.2.1 := by
  unfold andThen
  rw [h]

theorem andThen_some (r : Cluster × List Event × Option Ret)
    (f : Cluster → List Event → Cluster × List Event × Option Ret) (x : Ret)
    (h : r.2.2 = some x) : andThen r f = r := by
  unfold andThen
  rw [h]

theorem phaseMultiTier_off (db : Nat → DBObs) (c : Cluster) (ev : List Event)
    (h : c.Conf.MultiTierSlave = false) : phaseMultiTier db c ev = (c, ev, none) := by
  simp [phaseMultiTier, h]

theorem phaseMultiMaster_off (db : Nat → DBObs) (c : Cluster) (ev : List Event)
    (h : c.Conf.MultiMaster = false) : phaseMultiMaster db c ev = (c, ev, none) := by
  simp [phaseMultiMaster, h]

theorem phaseRing_off (db : Nat → DBObs) (c : Cluster) (ev : List Event)
    (h : c.Conf.MultiMasterRing = false) : phaseRing db c ev = (c, ev, none) := by
  simp [phaseRing, h]

theorem phaseMasterSlave_off (db : Nat → DBObs) (mk : Int) (c : Cluster) (ev : List Event)
    (h : c.Conf.MultiMasterRing = true ∨ c.Conf.MultiMaster = true ∨ c.Conf.MxsBinlogOn = true
      ∨ c.Conf.MultiTierSlave = true) : phaseMasterSlave db mk c ev = (c, ev, none) := by
  unfold phaseMasterSlave
  rcases h with h | h | h | h <;> simp [h]

theorem wiringCalls_discover (ev : List Event) :
    wiringCalls (ev ++ [Event.TopologyDiscover]) = wiringCalls ev := by
  simp [wiringCalls, Event.isWiringCall]

theorem masterSlaveWiring_eq (c : Cluster) (db : Nat → DBObs) (mk master : Nat) :
    masterSlaveWiring c db mk master =
      perServer (fun k s =>
        if k = mk then [Event.Call "SetReadWrite" (c.heap s).URL]
        else Event.ChangeMasterTo s master "SLAVE_POS" :: setReadOnlyUnlessIgnored c s db)
        c.Servers 0 := by
  unfold masterSlaveWiring
  congr 1
  funext k s
  unfold setReadOnlyUnlessIgnored
  cases (db s).IsInIgnoredReadonly <;> simp

theorem bootstrapWire_masterSlave (c0 c : Cluster) (db : Nat → DBObs) (mk master : Nat)
    (ev : List Event) (topo : TopologyObs) (hc : sameServers c0 c)
    (hmm : c0.Conf.MultiMaster = false) (hring : c0.Conf.MultiMasterRing = false)
    (htier : c0.Conf.MultiTierSlave = false) (hmxs : c0.Conf.MxsBinlogOn = false)
    (hmaster : c0.Servers[mk]? = some master)
    (hall : ∀ s ∈ c0.Servers, (c0.heap s).State ≠ stateFailed ∧ (c0.heap s).Conn ≠ none) :
    (bootstrapWire c db (mk : Int) ev topo).2.2 = Ret.nil
    ∧ wiringCalls (bootstrapWire c db (mk : Int) ev topo).2.1 =
        wiringCalls ev ++ masterSlaveWiring c0 db mk master := by
  have hw := wireMasterSlave_spec c0 db mk master hmaster c0.Servers 0 c ev hc hall
  simp only [Nat.cast_zero] at hw
  have hp : phaseMasterSlave db (mk : Int) c ev = wireMasterSlave db (mk : Int) c0.Servers 0 c ev := by
    unfold phaseMasterSlave
    simp [hc.1, hc.2.1, hmm, hring, htier, hmxs]
  unfold bootstrapWire
  dsimp only
  rw [hp]
  generalize wireMasterSlave db (mk : Int) c0.Servers 0 c ev = w at hw ⊢
  obtain ⟨cw, evw, rw⟩ := w
  dsimp only at hw ⊢
  obtain ⟨h1, h2, _, h4⟩ := hw
  subst h1
  have e1 : cw.Conf.MultiTierSlave = false := by rw [h2.1]; exact htier
  have e2 : cw.Conf.MultiMaster = false := by rw [h2.1]; exact hmm
  have e3 : cw.Conf.MultiMasterRing = false := by rw [h2.1]; exact hring
  simp only [andThen, phaseMultiTier, phaseMultiMaster, phaseRing, e1, e2, e3,
    Bool.false_eq_true, beq_iff_eq, if_false]
  refine ⟨trivial, ?_⟩
  rw [wiringCalls_discover, h4, masterSlaveWiring_eq]

theorem perServer_countReadWrite (c : Cluster) (db : Nat → DBObs) (mk master : Nat)
    (l : List Nat) : ∀ key : Nat,
    (perServer (fun k s =>
        if k = mk then [Event.Call "SetReadWrite" (c.heap s).URL]
        else Event.ChangeMasterTo s master "SLAVE_POS" :: setReadOnlyUnlessIgnored c s db)
        l key).countP (isCall "SetReadWrite") =
      if key ≤ mk ∧ mk < key + l.length then 1 else 0 := by
  induction l with
  | nil =>
    intro key
    rw [if_neg (by simp only [List.length_nil]; omega)]
    rfl
  | cons s rest ih =>
    intro key
    rw [perServer, List.countP_append, ih (key + 1)]
    have hro : (setReadOnlyUnlessIgnored c s db).countP (isCall "SetReadWrite") = 0 := by
      unfold setReadOnlyUnlessIgnored
      split <;> simp [isCall]
    by_cases hk : key = mk
    · subst hk
      have h1 : ¬ (key + 1 ≤ key ∧ key < key + 1 + rest.length) := by omega
      have h2 : key ≤ key ∧ key < key + (s :: rest).length := by
        simp only [List.length_cons]; omega
      simp [h1, h2, isCall]
    · rw [if_neg hk]
      have h3 : (key + 1 ≤ mk ∧ mk < key + 1 + rest.length) ↔
          (key ≤ mk ∧ mk < key + (s :: rest).length) := by
        simp only [List.length_cons]; omega
      simp only [List.countP_cons, hro, isCall, h3]
      simp

/-- C11 (amended): in master-slave mode (none of the flags `MultiMaster`,
`MultiMasterRing`, `MultiTierSlave`, `MxsBinlogOn`, `MultiMasterWsrep` set), on
a cluster of at least two servers none of which is `Failed` and all of which
have a connection, when the first topology discovery reports no existing
set-up (it returns an error) and a master index `mk` is selected (0 without
`PrefMaster`, the first server flagged preferred with it), the bootstrap
returns `nil` and makes exactly these wiring calls, in list order: the server
at the master index is set read/write, and no other server is; every other
server gets `ChangeMasterTo(master, "SLAVE_POS")` followed by `SetReadOnly` if
and only if it is not in the ignored-readonly set. -/
theorem C11_master_slave (c : Cluster) (clean : Bool) (db : Nat → DBObs)
    (topo1 topo2 : TopologyObs) (e : GoError) (mk : Nat)
    (hw : c.Conf.MultiMasterWsrep = false) (hmm : c.Conf.MultiMaster = false)
    (hring : c.Conf.MultiMasterRing = false) (htier : c.Conf.MultiTierSlave = false)
    (hmxs : c.Conf.MxsBinlogOn = false) (hN : 2 ≤ c.Servers.length)
    (hall : ∀ s ∈ c.Servers, (c.heap s).State ≠ stateFailed ∧ (c.heap s).Conn ≠ none)
    (ht : topo1.err = some e) (hsel : (selectMaster c).2 = (mk : Int)) :
    ∃ master, c.Servers[mk]? = some master
      ∧ (BootstrapReplication c clean db topo1 topo2).2.2 = Ret.nil
      ∧ wiringCalls (BootstrapReplication c clean db topo1 topo2).2.1 =
          masterSlaveWiring c db mk master
      ∧ (wiringCalls (BootstrapReplication c clean db topo1 topo2).2.1).countP
          (isCall "SetReadWrite") = 1 := by
  have hprep := bootstrapPrepare_spec c clean db topo1 e hw ht
  have hs1 := bootstrapPrepare_sameServers c clean db topo1
  have hs2 := sameServers_trans hs1 (selectMaster_sameServers (bootstrapPrepare c clean db topo1).1)
  have hidx := selectMaster_index c _ hs1 mk (by omega) hsel
  have hsome : c.Servers[mk]? = some (c.Servers[mk]) := List.getElem?_eq_getElem hidx.2
  have hwire := bootstrapWire_masterSlave c _ db mk _ (bootstrapPrepare c clean db topo1).2.1 topo2
    hs2 hmm hring htier hmxs hsome hall
  have hsel2 := BootstrapReplication_selected c clean db topo1 topo2 hprep.1
  rw [hidx.1, if_neg (by omega)] at hsel2
  rw [hsel2, hwire.2, wiringCalls_noWiring hprep.2.2, List.nil_append]
  refine ⟨_, hsome, hwire.1, rfl, ?_⟩
  rw [masterSlaveWiring_eq, perServer_countReadWrite]
  simp [hidx.2]

theorem wireMultiTier_spec (c0 : Cluster) (db : Nat → DBObs) (s0 s1 : Nat)
    (h0 : c0.Servers[0]? = some s0) (h1 : c0.Servers[1]? = some s1) (l : List Nat) :
    ∀ (key : Nat) (c : Cluster) (ev : List Event), sameServers c0 c →
      (∀ s ∈ l, (c0.heap s).State ≠ stateFailed ∧ (c0.heap s).Conn ≠ none
        ∧ (db s).ExecSetGlobalGtidSlavePos = none ∧ (db s).ExecStartSlave = none) →
      (wireMultiTier db l (key : Int) c ev).2.2 = none
      ∧ sameServers c0 (wireMultiTier db l (key : Int) c ev).1
      ∧ (wireMultiTier db l (key : Int) c ev).1.sme = c.sme
      ∧ wiringCalls (wireMultiTier db l (key : Int) c ev).2.1 =
          wiringCalls ev ++ perServer (fun k s =>
            if k = 0 then [Event.Call "SetReadWrite" (c0.heap s).URL]
            else Event.ChangeMasterTo s (if k = 1 then s0 else s1) "CURRENT_POS"
              :: setReadOnlyUnlessIgnored c0 s db)
            l key := by
  induction l with
  | nil =>
    intro key c ev hc _
    simp [wireMultiTier, perServer, hc]
  | cons server rest ih =>
    intro key c ev hc hl
    have hsrv := hl server (List.mem_cons_self _ _)
    have hrest : ∀ s ∈ rest, (c0.heap s).State ≠ stateFailed ∧ (c0.heap s).Conn ≠ none
        ∧ (db s).ExecSetGlobalGtidSlavePos = none ∧ (db s).ExecStartSlave = none :=
      fun s hs => hl s (List.mem_cons_of_mem _ hs)
    have hkey : ((key : Int) + 1) = ((key + 1 : Nat) : Int) := by push_cast; rfl
    rw [wireMultiTier]
    simp only [sameServers_alive hc server hsrv.1, Bool.false_eq_true, if_false]
    by_cases hk : key = 0
    · subst hk
      simp only [Nat.cast_zero, beq_self_eq_true, if_true]
      have h := ih 1 c
        (ev ++ [Event.SQL (c.heap server).URL Cmd.FlushTables,
          Event.Call "SetReadWrite" (c.heap server).URL]) hc hrest
      simp only [Nat.cast_one] at h
      simp only [zero_add]
      refine ⟨h.1, h.2.1, h.2.2.1, ?_⟩
      rw [h.2.2.2, wiringCalls_append, perServer, sameServers_URL hc]
      simp [wiringCalls, Event.isWiringCall]
    · have hk2 : ((key : Int) == 0) = false := by
        simpa using hk
      have hsrc : c.Servers[if ((key : Int) == 1) = true then 0 else 1]? =
          some (if key = 1 then s0 else s1) := by
        rw [hc.2.1]
        by_cases hk1 : key = 1
        · subst hk1
          simpa using h0
        · have : ((key : Int) == 1) = false := by simpa using hk1
          simp only [this, Bool.false_eq_true, if_false, if_neg hk1]
          exact h1
      simp only [hk2, Bool.false_eq_true, if_false, hsrc]
      have hcm := ChangeMasterTo_spec c server (if key = 1 then s0 else s1) "CURRENT_POS" db
      generalize ChangeMasterTo c server (if key = 1 then s0 else s1) "CURRENT_POS" db = r
        at hcm ⊢
      obtain ⟨c1, ev1, ret⟩ := r
      dsimp only at hcm ⊢
      have hc1 : sameServers c0 c1 := sameServers_trans hc hcm.1
      have hnil := (hcm.2.2.2.2.2.2 (sameServers_Conn hc server hsrv.2.1)).2
        hsrv.2.2.1 hsrv.2.2.2
      subst hnil
      dsimp only
      have h := ih (key + 1) c1
        (ev ++ [Event.SQL (c.heap server).URL Cmd.StopAllSlaves,
            Event.SQL (c.heap server).URL Cmd.ResetAllSlaves] ++
          [Event.ChangeMasterTo server (if key = 1 then s0 else s1) "CURRENT_POS"] ++ ev1 ++
          setReadOnlyUnlessIgnored c1 server db) hc1 hrest
      rw [hkey]
      refine ⟨h.1, h.2.1, h.2.2.1.trans hcm.2.1, h.2.2.2.trans ?_⟩
      rw [wiringCalls_append, wiringCalls_append, wiringCalls_append, wiringCalls_append,
        hcm.2.2.2.2.2.1, wiringCalls_setReadOnly, setReadOnlyUnlessIgnored_congr hc1, perServer,
        if_neg hk]
      simp [wiringCalls, Event.isWiringCall]

theorem bootstrapWire_multiTier (c0 c : Cluster) (db : Nat → DBObs) (mk : Int) (s0 s1 : Nat)
    (ev : List Event) (topo : TopologyObs) (hc : sameServers c0 c)
    (htier : c0.Conf.MultiTierSlave = true) (hmm : c0.Conf.MultiMaster = false)
    (hring : c0.Conf.MultiMasterRing = false)
    (h0 : c0.Servers[0]? = some s0) (h1 : c0.Servers[1]? = some s1)
    (hall : ∀ s ∈ c0.Servers, (c0.heap s).State ≠ stateFailed ∧ (c0.heap s).Conn ≠ none
        ∧ (db s).ExecSetGlobalGtidSlavePos = none ∧ (db s).ExecStartSlave = none) :
    (bootstrapWire c db mk ev topo).2.2 = Ret.nil
    ∧ wiringCalls (bootstrapWire c db mk ev topo).2.1 =
        wiringCalls ev ++ multiTierWiring c0 db s0 s1 := by
  have hw := wireMultiTier_spec c0 db s0 s1 h0 h1 c0.Servers 0 c ev hc hall
  simp only [Nat.cast_zero] at hw
  have hp : phaseMasterSlave db mk c ev = (c, ev, none) :=
    phaseMasterSlave_off db mk c ev (Or.inr (Or.inr (Or.inr (by rw [hc.1]; exact htier))))
  have e1 : c.Conf.MultiTierSlave = true := by rw [hc.1]; exact htier
  unfold bootstrapWire
  dsimp only
  rw [hp]
  simp only [andThen, phaseMultiTier, e1, hc.2.1, beq_self_eq_true, if_true]
  generalize wireMultiTier db c0.Servers 0 c ev = w at hw ⊢
  obtain ⟨cw, evw, rw⟩ := w
  dsimp only at hw ⊢
  obtain ⟨h1', h2, _, h4⟩ := hw
  subst h1'
  have e2 : cw.Conf.MultiMaster = false := by rw [h2.1]; exact hmm
  have e3 : cw.Conf.MultiMasterRing = false := by rw [h2.1]; exact hring
  simp only [h2.2.1, h0, phaseMultiMaster, phaseRing, e2, e3,
    Bool.false_eq_true, beq_iff_eq, if_false]
  refine ⟨trivial, ?_⟩
  rw [wiringCalls_discover, wiringCalls_append, h4]
  simp [wiringCalls, Event.isWiringCall, multiTierWiring]

theorem selectMaster_congr {c c1 : Cluster} (h : sameServers c c1) :
    (selectMaster c1).2 = (selectMaster c).2 := by
  rw [selectMaster_key c1, h.1, h.2.1, preferedKey_congr c1.heap c.heap
    (fun q => (kept_fields (h.2.2.1 q)).2.2.2.2.2.2.1) c.Servers 0, ← selectMaster_key c]

/-- C12 (amended): in multi-tier mode (`MultiTierSlave` set, `MultiMaster`,
`MultiMasterRing` and `MultiMasterWsrep` not set), on a cluster of at least two
servers none of which is `Failed`, all of which have a connection and answer
the statements of `ChangeMasterTo` without error, a bootstrap that goes on to
the wiring (the first topology discovery reports no existing set-up, and
`PrefMaster` is empty or some server is flagged preferred) returns `nil` and
makes exactly these wiring calls, in list order: server 0 is set read/write;
server 1 gets `ChangeMasterTo(server 0, "CURRENT_POS")` and every server of
index at least 2 gets `ChangeMasterTo(server 1, "CURRENT_POS")`, each followed
by `SetReadOnly` if and only if the server is not in the ignored-readonly
set. -/
theorem C12_multi_tier (c : Cluster) (clean : Bool) (db : Nat → DBObs)
    (topo1 topo2 : TopologyObs) (e : GoError)
    (hw : c.Conf.MultiMasterWsrep = false) (htier : c.Conf.MultiTierSlave = true)
    (hmm : c.Conf.MultiMaster = false) (hring : c.Conf.MultiMasterRing = false)
    (hN : 2 ≤ c.Servers.length)
    (hall : ∀ s ∈ c.Servers, (c.heap s).State ≠ stateFailed ∧ (c.heap s).Conn ≠ none
        ∧ (db s).ExecSetGlobalGtidSlavePos = none ∧ (db s).ExecStartSlave = none)
    (ht : topo1.err = some e) (hsel : (selectMaster c).2 ≠ -1) :
    ∃ s0 s1, c.Servers[0]? = some s0 ∧ c.Servers[1]? = some s1
      ∧ (BootstrapReplication c clean db topo1 topo2).2.2 = Ret.nil
      ∧ wiringCalls (BootstrapReplication c clean db topo1 topo2).2.1 =
          multiTierWiring c db s0 s1 := by
  have hprep := bootstrapPrepare_spec c clean db topo1 e hw ht
  have hs1 := bootstrapPrepare_sameServers c clean db topo1
  have hs2 := sameServers_trans hs1 (selectMaster_sameServers (bootstrapPrepare c clean db topo1).1)
  have h0 : c.Servers[0]? = some (c.Servers[0]) := List.getElem?_eq_getElem (by omega)
  have h1 : c.Servers[1]? = some (c.Servers[1]) := List.getElem?_eq_getElem (by omega)
  have hwire := bootstrapWire_multiTier c _ db
    (selectMaster (bootstrapPrepare c clean db topo1).1).2 _ _
    (bootstrapPrepare c clean db topo1).2.1 topo2 hs2 htier hmm hring h0 h1 hall
  have hsel2 := BootstrapReplication_selected c clean db topo1 topo2 hprep.1
  rw [if_neg (by rw [selectMaster_congr hs1]; exact hsel)] at hsel2
  rw [hsel2, hwire.2, wiringCalls_noWiring hprep.2.2, List.nil_append]
  exact ⟨_, _, h0, h1, hwire.1, rfl⟩

set_option maxRecDepth 100000 in
/-- C12 (counterexample): two bootstraps, in multi-tier mode, of three servers
none of which is `Failed`.  In the first the server `c` is in the
ignored-readonly set: it is pointed at `b` and never set read-only.  In the
second `PrefMaster` names no declared server: the bootstrap returns the error
"Preferred master could not be found in existing servers" and makes no wiring
call, so server 0 is not made the master. -/
theorem C12_counterexample :
    (tierCluster.Conf.MultiTierSlave = true ∧ 2 ≤ tierCluster.Servers.length
      ∧ ∀ s ∈ tierCluster.Servers, (tierCluster.heap s).State ≠ stateFailed)
    ∧ wiringCalls (BootstrapReplication tierCluster false ignoredDB emptyTopology
          foundTopology).2.1 =
        [Event.Call "SetReadWrite" "a:3306",
         Event.ChangeMasterTo 1 0 "CURRENT_POS", Event.Call "SetReadOnly" "b:3306",
         Event.ChangeMasterTo 2 1 "CURRENT_POS"]
    ∧ (tierNoPrefered.Conf.MultiTierSlave = true ∧ 2 ≤ tierNoPrefered.Servers.length
      ∧ ∀ s ∈ tierNoPrefered.Servers, (tierNoPrefered.heap s).State ≠ stateFailed)
    ∧ (BootstrapReplication tierNoPrefered false quietDB emptyTopology foundTopology).2.2 =
        Ret.err (GoError.Other "Preferred master could not be found in existing servers")
    ∧ wiringCalls (BootstrapReplication tierNoPrefered false quietDB emptyTopology
          foundTopology).2.1 = [] := by
  decide

theorem wireMultiMasterPair_spec (c0 c : Cluster) (db : Nat → DBObs) (s0 s1 server key : Nat)
    (h0 : c0.Servers[0]? = some s0) (h1 : c0.Servers[1]? = some s1) (hc : sameServers c0 c)
    (hsrv : (c0.heap server).Conn ≠ none
        ∧ (db server).ExecSetGlobalGtidSlavePos = none ∧ (db server).ExecStartSlave = none) :
    (wireMultiMasterPair db server (key : Int) c).2.2 = none
    ∧ sameServers c0 (wireMultiMasterPair db server (key : Int) c).1
    ∧ (wireMultiMasterPair db server (key : Int) c).1.sme = c.sme
    ∧ wiringCalls (wireMultiMasterPair db server (key : Int) c).2.1 =
        (if key = 0 then
          Event.ChangeMasterTo server s1 "CURRENT_POS" :: setReadOnlyUnlessIgnored c0 server db
         else if key = 1 then [Event.ChangeMasterTo server s0 "CURRENT_POS"]
         else []) := by
  unfold wireMultiMasterPair
  by_cases hk : key = 0
  · subst hk
    simp only [Nat.cast_zero, beq_self_eq_true, if_true, hc.2.1, h1]
    have hcm := ChangeMasterTo_spec c server s1 "CURRENT_POS" db
    generalize ChangeMasterTo c server s1 "CURRENT_POS" db = r at hcm ⊢
    obtain ⟨c1, ev1, ret⟩ := r
    dsimp only at hcm ⊢
    have hc1 : sameServers c0 c1 := sameServers_trans hc hcm.1
    have hnil := (hcm.2.2.2.2.2.2 (sameServers_Conn hc server hsrv.1)).2 hsrv.2.1 hsrv.2.2
    subst hnil
    dsimp only
    refine ⟨rfl, hc1, hcm.2.1, ?_⟩
    rw [wiringCalls_append, wiringCalls_setReadOnly, setReadOnlyUnlessIgnored_congr hc1]
    show wiringCalls ([Event.ChangeMasterTo server s1 "CURRENT_POS"] ++ ev1) ++ _ = _
    rw [wiringCalls_append, hcm.2.2.2.2.2.1]
    rfl
  · have hk2 : ((key : Int) == 0) = false := by simpa using hk
    simp only [hk2, Bool.false_eq_true, if_false, if_neg hk]
    by_cases hk1 : key = 1
    · subst hk1
      simp only [Nat.cast_one, beq_self_eq_true, if_true, hc.2.1, h0]
      have hcm := ChangeMasterTo_spec c server s0 "CURRENT_POS" db
      generalize ChangeMasterTo c server s0 "CURRENT_POS" db = r at hcm ⊢
      obtain ⟨c1, ev1, ret⟩ := r
      dsimp only at hcm ⊢
      have hc1 : sameServers c0 c1 := sameServers_trans hc hcm.1
      have hnil := (hcm.2.2.2.2.2.2 (sameServers_Conn hc server hsrv.1)).2 hsrv.2.1 hsrv.2.2
      subst hnil
      dsimp only
      refine ⟨rfl, hc1, hcm.2.1, ?_⟩
      show wiringCalls ([Event.ChangeMasterTo server s0 "CURRENT_POS"] ++ ev1) = _
      rw [wiringCalls_append, hcm.2.2.2.2.2.1]
      rfl
    · have hk3 : ((key : Int) == 1) = false := by simpa using hk1
      simp only [hk3, Bool.false_eq_true, if_false, if_neg hk1]
      exact ⟨trivial, hc, trivial, rfl⟩

theorem wireMultiMaster_spec (c0 : Cluster) (db : Nat → DBObs) (s0 s1 : Nat)
    (h0 : c0.Servers[0]? = some s0) (h1 : c0.Servers[1]? = some s1) (l : List Nat) :
    ∀ (key : Nat) (c : Cluster) (ev : List Event), sameServers c0 c →
      (∀ s ∈ l, (c0.heap s).State ≠ stateFailed ∧ (c0.heap s).Conn ≠ none
        ∧ (db s).ExecSetGlobalGtidSlavePos = none ∧ (db s).ExecStartSlave = none) →
      (wireMultiMaster db l (key : Int) c ev).2.2 = none
      ∧ sameServers c0 (wireMultiMaster db l (key : Int) c ev).1
      ∧ (wireMultiMaster db l (key : Int) c ev).1.sme = c.sme
      ∧ wiringCalls (wireMultiMaster db l (key : Int) c ev).2.1 =
          wiringCalls ev ++ perServer (fun k s =>
            (if k = 0 then
              Event.ChangeMasterTo s s1 "CURRENT_POS" :: setReadOnlyUnlessIgnored c0 s db
             else if k = 1 then [Event.ChangeMasterTo s s0 "CURRENT_POS"]
             else []) ++ setReadOnlyUnlessIgnored c0 s db)
            l key := by
  induction l with
  | nil =>
    intro key c ev hc _
    simp [wireMultiMaster, perServer, hc]
  | cons server rest ih =>
    intro key c ev hc hl
    have hsrv := hl server (List.mem_cons_self _ _)
    have hrest : ∀ s ∈ rest, (c0.heap s).State ≠ stateFailed ∧ (c0.heap s).Conn ≠ none
        ∧ (db s).ExecSetGlobalGtidSlavePos = none ∧ (db s).ExecStartSlave = none :=
      fun s hs => hl s (List.mem_cons_of_mem _ hs)
    have hkey : ((key : Int) + 1) = ((key + 1 : Nat) : Int) := by push_cast; rfl
    rw [wireMultiMaster]
    simp only [sameServers_alive hc server hsrv.1, Bool.false_eq_true, if_false]
    have hp := wireMultiMasterPair_spec c0 c db s0 s1 server key h0 h1 hc hsrv.2
    generalize wireMultiMasterPair db server (key : Int) c = r at hp ⊢
    obtain ⟨c1, ev1, ret⟩ := r
    dsimp only at hp ⊢
    obtain ⟨hp1, hp2, hp3, hp4⟩ := hp
    subst hp1
    dsimp only
    have h := ih (key + 1) c1 (ev ++ ev1 ++ setReadOnlyUnlessIgnored c1 server db) hp2 hrest
    rw [hkey]
    refine ⟨h.1, h.2.1, h.2.2.1.trans hp3, h.2.2.2.trans ?_⟩
    rw [wiringCalls_append, wiringCalls_append, hp4, wiringCalls_setReadOnly,
      setReadOnlyUnlessIgnored_congr hp2, perServer]
    simp only [List.append_assoc]

theorem bootstrapWire_multiMaster (c0 c : Cluster) (db : Nat → DBObs) (mk : Int) (s0 s1 : Nat)
    (ev : List Event) (topo : TopologyObs) (hc : sameServers c0 c)
    (htier : c0.Conf.MultiTierSlave = false) (hmm : c0.Conf.MultiMaster = true)
    (hring : c0.Conf.MultiMasterRing = false)
    (h0 : c0.Servers[0]? = some s0) (h1 : c0.Servers[1]? = some s1)
    (hall : ∀ s ∈ c0.Servers, (c0.heap s).State ≠ stateFailed ∧ (c0.heap s).Conn ≠ none
        ∧ (db s).ExecSetGlobalGtidSlavePos = none ∧ (db s).ExecStartSlave = none) :
    (bootstrapWire c db mk ev topo).2.2 = Ret.nil
    ∧ wiringCalls (bootstrapWire c db mk ev topo).2.1 =
        wiringCalls ev ++ multiMasterWiring c0 db s0 s1 := by
  have hw := wireMultiMaster_spec c0 db s0 s1 h0 h1 c0.Servers 0 c ev hc hall
  simp only [Nat.cast_zero] at hw
  have hp : phaseMasterSlave db mk c ev = (c, ev, none) :=
    phaseMasterSlave_off db mk c ev (Or.inr (Or.inl (by rw [hc.1]; exact hmm)))
  have e1 : c.Conf.MultiTierSlave = false := by rw [hc.1]; exact htier
  have e2 : c.Conf.MultiMaster = true := by rw [hc.1]; exact hmm
  unfold bootstrapWire
  dsimp only
  rw [hp]
  simp only [andThen, phaseMultiTier, phaseMultiMaster, e1, e2, hc.2.1, beq_self_eq_true,
    if_true, Bool.false_eq_true, beq_iff_eq, if_false]
  generalize wireMultiMaster db c0.Servers 0 c ev = w at hw ⊢
  obtain ⟨cw, evw, rw⟩ := w
  dsimp only at hw ⊢
  obtain ⟨h1', h2, _, h4⟩ := hw
  subst h1'
  have e3 : cw.Conf.MultiMasterRing = false := by rw [h2.1]; exact hring
  simp only [phaseRing, e3, Bool.false_eq_true, beq_iff_eq, if_false]
  refine ⟨trivial, ?_⟩
  rw [wiringCalls_discover, h4]
  rfl

theorem ring_index (n key : Nat) (h : key < n) :
    ((((n : Int) + (key : Int) - 1) % (n : Int))).toNat = if key = 0 then n - 1 else key - 1 := by
  by_cases hk : key = 0
  · subst hk
    rw [if_pos rfl, Int.emod_eq_of_lt (by omega) (by omega)]
    omega
  · rw [if_neg hk]
    have e : (n : Int) + (key : Int) - 1 = ((key : Int) - 1) + (n : Int) := by ring
    rw [e, Int.add_emod_self, Int.emod_eq_of_lt (by omega) (by omega)]
    omega

theorem ring_index_lt (n key : Nat) (h : key < n) : (if key = 0 then n - 1 else key - 1) < n := by
  split_ifs <;> omega

theorem wireRing_spec (c0 : Cluster) (db : Nat → DBObs) (l : List Nat) :
    ∀ (key : Nat) (c : Cluster) (ev : List Event), sameServers c0 c →
      key + l.length = c0.Servers.length →
      (∀ s ∈ l, (c0.heap s).State ≠ stateFailed ∧ (c0.heap s).Conn ≠ none
        ∧ (db s).ExecSetGlobalGtidSlavePos = none ∧ (db s).ExecStartSlave = none) →
      (wireRing db l (key : Int) c ev).2.2 = none
      ∧ sameServers c0 (wireRing db l (key : Int) c ev).1
      ∧ (wireRing db l (key : Int) c ev).1.sme = c.sme
      ∧ (wireRing db l (key : Int) c ev).1.vmaster =
          (if l = [] then c.vmaster else c0.Servers[0]?)
      ∧ wiringCalls (wireRing db l (key : Int) c ev).2.1 =
          wiringCalls ev ++ perServer (fun k s =>
            match c0.Servers[if k = 0 then c0.Servers.length - 1 else k - 1]? with
            | some source => [Event.ChangeMasterTo s source "SLAVE_POS"]
            | none => [])
            l key := by
  induction l with
  | nil =>
    intro key c ev hc _ _
    simp [wireRing, perServer, hc]
  | cons server rest ih =>
    intro key c ev hc hlen hl
    have hsrv := hl server (List.mem_cons_self _ _)
    have hrest : ∀ s ∈ rest, (c0.heap s).State ≠ stateFailed ∧ (c0.heap s).Conn ≠ none
        ∧ (db s).ExecSetGlobalGtidSlavePos = none ∧ (db s).ExecStartSlave = none :=
      fun s hs => hl s (List.mem_cons_of_mem _ hs)
    have hkey : ((key : Int) + 1) = ((key + 1 : Nat) : Int) := by push_cast; rfl
    have hlt : key < c0.Servers.length := by
      simp only [List.length_cons] at hlen; omega
    have hidx := ring_index_lt c0.Servers.length key hlt
    have hsrc : c0.Servers[if key = 0 then c0.Servers.length - 1 else key - 1]? =
        some (c0.Servers[if key = 0 then c0.Servers.length - 1 else key - 1]) :=
      List.getElem?_eq_getElem hidx
    rw [wireRing]
    simp only [sameServers_alive hc server hsrv.1, Bool.false_eq_true, if_false, hc.2.1,
      ring_index c0.Servers.length key hlt, hsrc]
    generalize c0.Servers[if key = 0 then c0.Servers.length - 1 else key - 1] = source
      at hsrc ⊢
    have hcm := ChangeMasterTo_spec c server source "SLAVE_POS" db
    generalize ChangeMasterTo c server source "SLAVE_POS" db = r at hcm ⊢
    obtain ⟨c1, ev1, ret⟩ := r
    dsimp only at hcm ⊢
    have hc1 : sameServers c0 c1 := sameServers_trans hc hcm.1
    have hnil := (hcm.2.2.2.2.2.2 (sameServers_Conn hc server hsrv.2.1)).2
      hsrv.2.2.1 hsrv.2.2.2
    subst hnil
    dsimp only
    have hc2 : sameServers c0 { c1 with vmaster := c1.Servers[0]? } :=
      ⟨hc1.1, hc1.2.1, hc1.2.2.1, hc1.2.2.2⟩
    have h := ih (key + 1) { c1 with vmaster := c1.Servers[0]? }
      (ev ++ [Event.ChangeMasterTo server source "SLAVE_POS"] ++ ev1) hc2
      (by simp only [List.length_cons] at hlen; omega) hrest
    rw [hkey]
    refine ⟨h.1, h.2.1, h.2.2.1.trans hcm.2.1, ?_, h.2.2.2.2.trans ?_⟩
    · rw [h.2.2.2.1]
      simp only [hc1.2.1]
      split_ifs <;> simp_all
    · rw [wiringCalls_append, wiringCalls_append, hcm.2.2.2.2.2.1, perServer]
      simp only [hsrc]
      simp [wiringCalls, Event.isWiringCall]

theorem bootstrapWire_ring (c0 c : Cluster) (db : Nat → DBObs) (mk : Int)
    (ev : List Event) (topo : TopologyObs) (hc : sameServers c0 c)
    (htier : c0.Conf.MultiTierSlave = false) (hmm : c0.Conf.MultiMaster = false)
    (hring : c0.Conf.MultiMasterRing = true) (hN : 1 ≤ c0.Servers.length)
    (hall : ∀ s ∈ c0.Servers, (c0.heap s).State ≠ stateFailed ∧ (c0.heap s).Conn ≠ none
        ∧ (db s).ExecSetGlobalGtidSlavePos = none ∧ (db s).ExecStartSlave = none) :
    (bootstrapWire c db mk ev topo).2.2 = Ret.nil
    ∧ wiringCalls (bootstrapWire c db mk ev topo).2.1 = wiringCalls ev ++ ringWiring c0
    ∧ (phaseRing db c ev).1.vmaster = c0.Servers[0]?
    ∧ (bootstrapWire c db mk ev topo).1 =
        (TopologyDiscover (phaseRing db c ev).1.RemoveFailoverState topo).1 := by
  have hw := wireRing_spec c0 db c0.Servers 0 c ev hc (by omega) hall
  simp only [Nat.cast_zero] at hw
  have hp : phaseMasterSlave db mk c ev = (c, ev, none) :=
    phaseMasterSlave_off db mk c ev (Or.inl (by rw [hc.1]; exact hring))
  have e1 : c.Conf.MultiTierSlave = false := by rw [hc.1]; exact htier
  have e2 : c.Conf.MultiMaster = false := by rw [hc.1]; exact hmm
  have e3 : c.Conf.MultiMasterRing = true := by rw [hc.1]; exact hring
  have hne : c0.Servers ≠ [] := by
    intro h; rw [h] at hN; simp at hN
  unfold bootstrapWire
  dsimp only
  rw [hp]
  simp only [andThen, phaseMultiTier, phaseMultiMaster, phaseRing, e1, e2, e3, hc.2.1,
    beq_self_eq_true, if_true, Bool.false_eq_true, beq_iff_eq, if_false]
  generalize wireRing db c0.Servers 0 c ev = w at hw ⊢
  obtain ⟨cw, evw, rw⟩ := w
  dsimp only at hw ⊢
  obtain ⟨h1', h2, _, h3, h4⟩ := hw
  subst h1'
  dsimp only
  rw [if_neg hne] at h3
  refine ⟨rfl, ?_, h3, rfl⟩
  rw [wiringCalls_discover, h4]
  rfl

set_option maxRecDepth 100000 in
/-- C11 (counterexample): two bootstraps, in master-slave mode, of three
servers none of which is `Failed`.  In the first the topology discovery finds
an existing set-up: the bootstrap returns the error "Environment already has
an existing master/slave setup", sets no server read/write and points no
server anywhere.  In the second `PrefMaster` names no declared server: the
bootstrap returns the error "Preferred master could not be found in existing
servers" and makes no wiring call either. -/
theorem C11_counterexample :
    (freshCluster.Conf.MultiMaster = false ∧ freshCluster.Conf.MultiMasterRing = false
      ∧ freshCluster.Conf.MultiTierSlave = false ∧ freshCluster.Conf.MxsBinlogOn = false
      ∧ freshCluster.Conf.MultiMasterWsrep = false ∧ 2 ≤ freshCluster.Servers.length
      ∧ ∀ s ∈ freshCluster.Servers, (freshCluster.heap s).State ≠ stateFailed)
    ∧ (BootstrapReplication freshCluster false quietDB foundTopology foundTopology).2.2 =
        Ret.err (GoError.Other "Environment already has an existing master/slave setup")
    ∧ wiringCalls (BootstrapReplication freshCluster false quietDB foundTopology
          foundTopology).2.1 = []
    ∧ (noPreferedCluster.Conf.MultiMaster = false
      ∧ noPreferedCluster.Conf.MultiMasterRing = false
      ∧ noPreferedCluster.Conf.MultiTierSlave = false
      ∧ noPreferedCluster.Conf.MxsBinlogOn = false
      ∧ noPreferedCluster.Conf.MultiMasterWsrep = false
      ∧ 2 ≤ noPreferedCluster.Servers.length
      ∧ ∀ s ∈ noPreferedCluster.Servers, (noPreferedCluster.heap s).State ≠ stateFailed)
    ∧ (BootstrapReplication noPreferedCluster false quietDB emptyTopology foundTopology).2.2 =
        Ret.err (GoError.Other "Preferred master could not be found in existing servers")
    ∧ wiringCalls (BootstrapReplication noPreferedCluster false quietDB emptyTopology
          foundTopology).2.1 = [] := by
  decide

/-- C11 (witness): the sample cluster with `PrefMaster` set and the server `b`
flagged preferred, bootstrapped after a cleanup, where the server `c` is in
the ignored-readonly set: `b` is set read/write; `a` and `c` are pointed at
`b` with `SLAVE_POS`; `a` is set read-only and `c` is not. -/
theorem C11_witness :
    (ignoredDB 2).IsInIgnoredReadonly = true ∧ (ignoredDB 0).IsInIgnoredReadonly = false
    ∧ (BootstrapReplication preferedCluster true ignoredDB emptyTopology foundTopology).2.2
        = Ret.nil
    ∧ wiringCalls (BootstrapReplication preferedCluster true ignoredDB emptyTopology
          foundTopology).2.1 =
        [Event.ChangeMasterTo 0 1 "SLAVE_POS", Event.Call "SetReadOnly" "a:3306",
         Event.Call "SetReadWrite" "b:3306",
         Event.ChangeMasterTo 2 1 "SLAVE_POS"] := by
  obtain ⟨m, hm, hr, hc, _⟩ := C11_master_slave preferedCluster true ignoredDB emptyTopology
    foundTopology (GoError.Other "No master found") 1 rfl rfl rfl rfl rfl (by decide)
    (by decide) rfl (by decide)
  have : m = 1 := by
    have h : preferedCluster.Servers[1]? = some 1 := rfl
    rw [h] at hm
    exact (Option.some.inj hm).symm
  subst this
  exact ⟨rfl, rfl, hr, hc.trans (by decide)⟩

/-- C12 (witness): the fresh cluster of three servers in multi-tier mode,
bootstrapped after a cleanup: `a` is set read/write, `b` is pointed at `a` and
`c` at `b` with `CURRENT_POS`, and both are set read-only. -/
theorem C12_witness :
    (BootstrapReplication tierCluster true quietDB emptyTopology foundTopology).2.2 = Ret.nil
    ∧ wiringCalls (BootstrapReplication tierCluster true quietDB emptyTopology
          foundTopology).2.1 =
        [Event.Call "SetReadWrite" "a:3306",
         Event.ChangeMasterTo 1 0 "CURRENT_POS", Event.Call "SetReadOnly" "b:3306",
         Event.ChangeMasterTo 2 1 "CURRENT_POS", Event.Call "SetReadOnly" "c:3306"] := by
  obtain ⟨s0, s1, h0, h1, hr, hc⟩ := C12_multi_tier tierCluster true quietDB emptyTopology
    foundTopology (GoError.Other "No master found") rfl rfl rfl rfl (by decide)
    (by decide) rfl (by decide)
  have e0 : s0 = 0 := by
    have h : tierCluster.Servers[0]? = some 0 := rfl
    rw [h] at h0
    exact (Option.some.inj h0).symm
  have e1 : s1 = 1 := by
    have h : tierCluster.Servers[1]? = some 1 := rfl
    rw [h] at h1
    exact (Option.some.inj h1).symm
  subst e0 e1
  exact ⟨hr, hc.trans (by decide)⟩

/-- C13 (amended): in two-node multi-master mode (`MultiMaster` set,
`MultiTierSlave`, `MultiMasterRing` and `MultiMasterWsrep` not set), on a
cluster of at least two servers none of which is `Failed`, all of which have a
connection and answer the statements of `ChangeMasterTo` without error, a
bootstrap that goes on to the wiring (the first topology discovery reports no
existing set-up, and `PrefMaster` is empty or some server is flagged
preferred) returns `nil` and makes exactly these wiring calls, in list order:
server 0 gets `ChangeMasterTo(server 1, "CURRENT_POS")` and server 1 gets
`ChangeMasterTo(server 0, "CURRENT_POS")`; no server of index at least 2 gets
a `ChangeMasterTo`; every server, whatever its index, is set read-only unless
it is in the ignored-readonly set (server 0 twice). -/
theorem C13_multi_master (c : Cluster) (clean : Bool) (db : Nat → DBObs)
    (topo1 topo2 : TopologyObs) (e : GoError)
    (hw : c.Conf.MultiMasterWsrep = false) (hmm : c.Conf.MultiMaster = true)
    (htier : c.Conf.MultiTierSlave = false) (hring : c.Conf.MultiMasterRing = false)
    (hN : 2 ≤ c.Servers.length)
    (hall : ∀ s ∈ c.Servers, (c.heap s).State ≠ stateFailed ∧ (c.heap s).Conn ≠ none
        ∧ (db s).ExecSetGlobalGtidSlavePos = none ∧ (db s).ExecStartSlave = none)
    (ht : topo1.err = some e) (hsel : (selectMaster c).2 ≠ -1) :
    ∃ s0 s1, c.Servers[0]? = some s0 ∧ c.Servers[1]? = some s1
      ∧ (BootstrapReplication c clean db topo1 topo2).2.2 = Ret.nil
      ∧ wiringCalls (BootstrapReplication c clean db topo1 topo2).2.1 =
          multiMasterWiring c db s0 s1 := by
  have hprep := bootstrapPrepare_spec c clean db topo1 e hw ht
  have hs1 := bootstrapPrepare_sameServers c clean db topo1
  have hs2 := sameServers_trans hs1 (selectMaster_sameServers (bootstrapPrepare c clean db topo1).1)
  have h0 : c.Servers[0]? = some (c.Servers[0]) := List.getElem?_eq_getElem (by omega)
  have h1 : c.Servers[1]? = some (c.Servers[1]) := List.getElem?_eq_getElem (by omega)
  have hwire := bootstrapWire_multiMaster c _ db
    (selectMaster (bootstrapPrepare c clean db topo1).1).2 _ _
    (bootstrapPrepare c clean db topo1).2.1 topo2 hs2 htier hmm hring h0 h1 hall
  have hsel2 := BootstrapReplication_selected c clean db topo1 topo2 hprep.1
  rw [if_neg (by rw [selectMaster_congr hs1]; exact hsel)] at hsel2
  rw [hsel2, hwire.2, wiringCalls_noWiring hprep.2.2, List.nil_append]
  exact ⟨_, _, h0, h1, hwire.1, rfl⟩

set_option maxRecDepth 100000 in
/-- C13 (counterexample): a bootstrap in multi-master mode of three servers
none of which is `Failed`.  The servers `a` and `b` are pointed at each other;
the only call made on the third server `c` is `SetReadOnly`: no
`ChangeMasterTo` is issued on it, so it is not made a slave of server 1. -/
theorem C13_counterexample :
    (multiMasterCluster.Conf.MultiMaster = true ∧ 2 ≤ multiMasterCluster.Servers.length
      ∧ ∀ s ∈ multiMasterCluster.Servers, (multiMasterCluster.heap s).State ≠ stateFailed)
    ∧ (BootstrapReplication multiMasterCluster false quietDB emptyTopology foundTopology).2.2 =
        Ret.nil
    ∧ wiringCalls (BootstrapReplication multiMasterCluster false quietDB emptyTopology
          foundTopology).2.1 =
        [Event.ChangeMasterTo 0 1 "CURRENT_POS", Event.Call "SetReadOnly" "a:3306",
         Event.Call "SetReadOnly" "a:3306",
         Event.ChangeMasterTo 1 0 "CURRENT_POS", Event.Call "SetReadOnly" "b:3306",
         Event.Call "SetReadOnly" "c:3306"] := by
  decide

/-- C13 (witness): the fresh cluster of three servers in multi-master mode,
with `c` in the ignored-readonly set, bootstrapped after a cleanup: `a` and `b`
are pointed at each other with `CURRENT_POS` and set read-only, `a` twice; no
call is made on `c`. -/
theorem C13_witness :
    (BootstrapReplication multiMasterCluster true ignoredDB emptyTopology
      foundTopology).2.2 = Ret.nil
    ∧ wiringCalls (BootstrapReplication multiMasterCluster true ignoredDB emptyTopology
          foundTopology).2.1 =
        [Event.ChangeMasterTo 0 1 "CURRENT_POS", Event.Call "SetReadOnly" "a:3306",
         Event.Call "SetReadOnly" "a:3306",
         Event.ChangeMasterTo 1 0 "CURRENT_POS", Event.Call "SetReadOnly" "b:3306"] := by
  obtain ⟨s0, s1, h0, h1, hr, hc⟩ := C13_multi_master multiMasterCluster true ignoredDB
    emptyTopology foundTopology (GoError.Other "No master found") rfl rfl rfl rfl (by decide)
    (by decide) rfl (by decide)
  have e0 : s0 = 0 := by
    have h : multiMasterCluster.Servers[0]? = some 0 := rfl
    rw [h] at h0
    exact (Option.some.inj h0).symm
  have e1 : s1 = 1 := by
    have h : multiMasterCluster.Servers[1]? = some 1 := rfl
    rw [h] at h1
    exact (Option.some.inj h1).symm
  subst e0 e1
  exact ⟨hr, hc.trans (by decide)⟩

/-- C14 (amended): in ring mode (`MultiMasterRing` set, `MultiMaster`,
`MultiTierSlave` and `MultiMasterWsrep` not set), on a cluster of `n ≥ 1`
servers none of which is `Failed` and all of which have a connection, when the
first topology discovery reports no existing set-up, `PrefMaster` is empty or
some server is flagged preferred, and every `ChangeMasterTo` succeeds (setting
`gtid_slave_pos` and START SLAVE return no error), the bootstrap returns `nil`
and its wiring calls are exactly one `ChangeMasterTo` with mode `SLAVE_POS`
per server, in list order; the source for the server at index `k` is the
server at index `n - 1` when `k = 0` and `k - 1` otherwise, which is always a
valid index.  The ring loop leaves `vmaster` at server 0; the gate is then
released and the topology discovery is re-run on that state, and the cluster
on return is the one this discovery leaves. -/
theorem C14_ring (c : Cluster) (clean : Bool) (db : Nat → DBObs)
    (topo1 topo2 : TopologyObs) (e : GoError)
    (hw : c.Conf.MultiMasterWsrep = false) (hring : c.Conf.MultiMasterRing = true)
    (hmm : c.Conf.MultiMaster = false) (htier : c.Conf.MultiTierSlave = false)
    (hN : 1 ≤ c.Servers.length)
    (hall : ∀ s ∈ c.Servers, (c.heap s).State ≠ stateFailed ∧ (c.heap s).Conn ≠ none
        ∧ (db s).ExecSetGlobalGtidSlavePos = none ∧ (db s).ExecStartSlave = none)
    (ht : topo1.err = some e) (hsel : (selectMaster c).2 ≠ -1) :
    (BootstrapReplication c clean db topo1 topo2).2.2 = Ret.nil
    ∧ wiringCalls (BootstrapReplication c clean db topo1 topo2).2.1 = ringWiring c
    ∧ (∀ k < c.Servers.length, (if k = 0 then c.Servers.length - 1 else k - 1) < c.Servers.length)
    ∧ (phaseRing db (selectMaster (bootstrapPrepare c clean db topo1).1).1
        (bootstrapPrepare c clean db topo1).2.1).1.vmaster = c.Servers[0]?
    ∧ (BootstrapReplication c clean db topo1 topo2).1 =
        (TopologyDiscover (phaseRing db (selectMaster (bootstrapPrepare c clean db topo1).1).1
          (bootstrapPrepare c clean db topo1).2.1).1.RemoveFailoverState topo2).1 := by
  have hprep := bootstrapPrepare_spec c clean db topo1 e hw ht
  have hs1 := bootstrapPrepare_sameServers c clean db topo1
  have hs2 := sameServers_trans hs1 (selectMaster_sameServers (bootstrapPrepare c clean db topo1).1)
  have hwire := bootstrapWire_ring c _ db
    (selectMaster (bootstrapPrepare c clean db topo1).1).2
    (bootstrapPrepare c clean db topo1).2.1 topo2 hs2 htier hmm hring hN hall
  have hsel2 := BootstrapReplication_selected c clean db topo1 topo2 hprep.1
  rw [if_neg (by rw [selectMaster_congr hs1]; exact hsel)] at hsel2
  rw [hsel2, hwire.2.1, wiringCalls_noWiring hprep.2.2, List.nil_append]
  exact ⟨hwire.1, rfl, fun k hk => ring_index_lt _ k hk, hwire.2.2.1, hwire.2.2.2⟩

set_option maxRecDepth 100000 in
/-- C14 (counterexample): the fresh cluster of three servers in ring mode,
none of which is `Failed`, where START SLAVE fails.  The first
`ChangeMasterTo`, on server 0, returns the error and the loop returns it
(prov.go:592-595): the servers 1 and 2 get no `ChangeMasterTo`, and on return
`vmaster` is not set. -/
theorem C14_counterexample :
    (ringCluster.Conf.MultiMasterRing = true ∧ 1 ≤ ringCluster.Servers.length
      ∧ ∀ s ∈ ringCluster.Servers, (ringCluster.heap s).State ≠ stateFailed)
    ∧ (BootstrapReplication ringCluster false startSlaveErrorDB emptyTopology
        foundTopology).2.2 = Ret.err (GoError.Other ("Can't start slave:  Error 1200" ++ newline))
    ∧ wiringCalls (BootstrapReplication ringCluster false startSlaveErrorDB emptyTopology
        foundTopology).2.1 = [Event.ChangeMasterTo 0 2 "SLAVE_POS"]
    ∧ (BootstrapReplication ringCluster false startSlaveErrorDB emptyTopology
        foundTopology).1.vmaster = none := by
  decide

/-- C14 (witness): the fresh cluster of three servers in ring mode,
bootstrapped after a cleanup: `a` is pointed at `c`, `b` at `a` and `c` at
`b`, with `SLAVE_POS`; the cluster on return is what the closing discovery
leaves of the state in which `vmaster` is `a`. -/
theorem C14_witness :
    (BootstrapReplication ringCluster true quietDB emptyTopology foundTopology).2.2 = Ret.nil
    ∧ wiringCalls (BootstrapReplication ringCluster true quietDB emptyTopology
        foundTopology).2.1 =
        [Event.ChangeMasterTo 0 2 "SLAVE_POS", Event.ChangeMasterTo 1 0 "SLAVE_POS",
         Event.ChangeMasterTo 2 1 "SLAVE_POS"]
    ∧ (phaseRing quietDB (selectMaster (bootstrapPrepare ringCluster true quietDB
        emptyTopology).1).1 (bootstrapPrepare ringCluster true quietDB
        emptyTopology).2.1).1.vmaster = some 0 :=
  have h := C14_ring ringCluster true quietDB emptyTopology foundTopology
    (GoError.Other "No master found") rfl rfl rfl rfl (by decide) (by decide) rfl (by decide)
  ⟨h.1, h.2.1.trans (by decide), h.2.2.2.1⟩

/-! ## C15 -/

theorem bootstrapWire_discovery (c : Cluster) (db : Nat → DBObs) (mk : Int) (ev : List Event)
    (topo topo' : TopologyObs) :
    (bootstrapWire c db mk ev topo).2 = (bootstrapWire c db mk ev topo').2
    ∧ ((bootstrapWire c db mk ev topo).1 ≠ (bootstrapWire c db mk ev topo').1 →
        (bootstrapWire c db mk ev topo).2.2 = Ret.nil) := by
  unfold bootstrapWire
  dsimp only
  generalize andThen (andThen (andThen (phaseMasterSlave db mk c ev) (phaseMultiTier db))
    (phaseMultiMaster db)) (phaseRing db) = r
  obtain ⟨c1, ev1, x⟩ := r
  cases x with
  | some x => exact ⟨rfl, fun h => absurd rfl h⟩
  | none => exact ⟨rfl, fun _ => rfl⟩

/-- C15 (amended): the result of the topology discovery that
`BootstrapReplication` re-runs after the wiring is dropped.  Whatever that
discovery returns, the value returned by `BootstrapReplication` and its trace
are the same; and on every path on which the re-run discovery decides
anything of the final cluster, the value returned is `nil`. -/
theorem C15_discovery_dropped (c : Cluster) (clean : Bool) (db : Nat → DBObs)
    (topo1 topo2 topo2' : TopologyObs) :
    (BootstrapReplication c clean db topo1 topo2).2 =
      (BootstrapReplication c clean db topo1 topo2').2
    ∧ ((BootstrapReplication c clean db topo1 topo2).1 ≠
          (BootstrapReplication c clean db topo1 topo2').1 →
        (BootstrapReplication c clean db topo1 topo2).2.2 = Ret.nil) := by
  unfold BootstrapReplication
  generalize bootstrapPrepare c clean db topo1 = p
  obtain ⟨c1, ev1, r⟩ := p
  cases r with
  | some r => exact ⟨rfl, fun h => absurd rfl h⟩
  | none =>
    dsimp only
    generalize selectMaster c1 = sm
    obtain ⟨c2, key⟩ := sm
    dsimp only
    split
    · exact ⟨rfl, fun h => absurd rfl h⟩
    · exact bootstrapWire_discovery c2 db key ev1 topo2 topo2'

set_option maxRecDepth 100000 in
/-- C15 (counterexample): the fresh cluster of three servers is bootstrapped
in master-slave mode; the topology discovery re-run after the wiring returns
the error "No master found", and `BootstrapReplication` returns `nil`. -/
theorem C15_counterexample :
    emptyTopology.err = some (GoError.Other "No master found")
    ∧ wiringCalls (BootstrapReplication freshCluster false quietDB emptyTopology
          emptyTopology).2.1 =
        [Event.Call "SetReadWrite" "a:3306",
         Event.ChangeMasterTo 1 0 "SLAVE_POS", Event.Call "SetReadOnly" "b:3306",
         Event.ChangeMasterTo 2 0 "SLAVE_POS", Event.Call "SetReadOnly" "c:3306"]
    ∧ (BootstrapReplication freshCluster false quietDB emptyTopology emptyTopology).2.2 =
        Ret.nil := by
  decide

set_option maxRecDepth 100000 in
/-- C15 (witness): on the fresh cluster the master found by the re-run
discovery ends up in the cluster, and the value returned is `nil`. -/
theorem C15_witness :
    (BootstrapReplication freshCluster false quietDB emptyTopology foundTopology).1.master ≠
      (BootstrapReplication freshCluster false quietDB emptyTopology emptyTopology).1.master
    ∧ (BootstrapReplication freshCluster false quietDB emptyTopology foundTopology).2.2 =
        Ret.nil :=
  ⟨by decide,
   (C15_discovery_dropped freshCluster false quietDB emptyTopology foundTopology
      emptyTopology).2 (fun h => absurd (congrArg Cluster.master h) (by decide))⟩

/-! ## C16, C17 -/

theorem cleanupAttempts_append (a b : List Event) :
    cleanupAttempts (a ++ b) = cleanupAttempts a ++ cleanupAttempts b := by
  induction a with
  | nil => rfl
  | cons e a ih =>
    cases e with
    | SQL u cmd => cases cmd <;> simp [cleanupAttempts, ih]
    | _ => simp [cleanupAttempts, ih]

theorem cleanupAttempts_passive {ev : List Event} (h : passive ev) : cleanupAttempts ev = [] := by
  induction ev with
  | nil => rfl
  | cons e a ih =>
    have he : Event.isAction e = false := h e (List.mem_cons_self _ _)
    have ha : passive a := fun x hx => h x (List.mem_cons_of_mem _ hx)
    cases e with
    | SQL u cmd => simp [Event.isAction] at he
    | _ => simp [cleanupAttempts, ih ha]

theorem cleanupAttempts_cleanupServer (c : Cluster) (server : Nat) (db : DBObs) :
    cleanupAttempts (cleanupServer c server db) = [(c.heap server).URL] := by
  unfold cleanupServer StopSlave
  dsimp only
  split_ifs <;> simp [cleanupAttempts]

theorem refreshServer_err_value (conf : Config) (hb : Int) (o : RefreshObs) (s : ServerMonitor) :
    (refreshServer conf hb o s).2.2 =
      if s.Conn.isNone then some (GoError.Other "Connection is nil, server unreachable")
      else if o.ConnUnusable then some (GoError.Other "Connection is unsafe, server unreachable")
      else o.PingErr := by
  by_cases h1 : s.Conn.isNone = true
  · simp [refreshServer, h1]
  · by_cases h2 : o.ConnUnusable = true
    · simp [refreshServer, h1, h2]
    · cases h3 : o.PingErr with
      | some e => simp [refreshServer, h1, h2, h3]
      | none =>
        rw [if_neg h1, if_neg h2]
        rw [refreshServer_err]
        refine ⟨?_, by simpa using h2, h3⟩
        cases hc : s.Conn with
        | none => simp [hc] at h1
        | some n => rfl

theorem Refresh_err_congr (c c0 : Cluster) (p : Nat) (o : RefreshObs)
    (h : (c.heap p).Conn = (c0.heap p).Conn) : (Refresh c p o).2.2 = (Refresh c0 p o).2.2 := by
  unfold Refresh
  dsimp only
  rw [refreshServer_err_value, refreshServer_err_value, h]

theorem cleanupLoop_attempts (c0 : Cluster) (db : Nat → DBObs) (l : List Nat) :
    ∀ (c : Cluster) (ev : List Event), sameServers c0 c →
      cleanupAttempts (cleanupLoop db l c ev).2.1 =
        cleanupAttempts ev ++
          (l.takeWhile (fun s => (Refresh c0 s (db s).Refresh).2.2.isNone)).map
            (fun s => (c0.heap s).URL)
      ∧ ((cleanupLoop db l c ev).2.2 = none ↔
          ∀ s ∈ l, (Refresh c0 s (db s).Refresh).2.2 = none)
      ∧ (∀ e, (cleanupLoop db l c ev).2.2 = some e →
          ∃ url, (cleanupLoop db l c ev).2.1.getLast? =
            some (Event.Log "ERROR" "Refresh failed in Cleanup on server %s %s" url))
      ∧ (cleanupLoop db l c ev).1.sme = c.sme := by
  induction l with
  | nil =>
    intro c ev _
    simp [cleanupLoop]
  | cons server rest ih =>
    intro c ev hc
    have hR := Refresh_sameServers c server (db server).Refresh
    have hP := cleanupAttempts_passive (Refresh_passive c server (db server).Refresh)
    have hE := Refresh_err_congr c c0 server (db server).Refresh (kept_Conn (hc.2.2.1 server))
    have hS := (Refresh_cluster c server (db server).Refresh).2.2.1
    unfold cleanupLoop
    generalize Refresh c server (db server).Refresh = r at hR hP hE hS ⊢
    obtain ⟨c1, ev1, err⟩ := r
    dsimp only at hR hP hE hS ⊢
    cases err with
    | some e =>
      dsimp only
      refine ⟨?_, ?_, ?_, hS⟩
      · rw [cleanupAttempts_append, cleanupAttempts_append, hP, List.takeWhile_cons, ← hE]
        simp [cleanupAttempts]
      · constructor
        · intro h; cases h
        · intro h
          have := h server (List.mem_cons_self _ _)
          rw [← hE] at this
          cases this
      · intro e' _
        exact ⟨(c1.heap server).URL, by simp⟩
    | none =>
      dsimp only
      have h := ih c1 (ev ++ ev1 ++ cleanupServer c1 server (db server)) (sameServers_trans hc hR)
      refine ⟨?_, ?_, h.2.2.1, h.2.2.2.trans hS⟩
      · rw [h.1, cleanupAttempts_append, cleanupAttempts_append, hP,
          cleanupAttempts_cleanupServer, List.takeWhile_cons, ← hE,
          sameServers_URL (sameServers_trans hc hR)]
        simp
      · rw [h.2.1]
        constructor
        · intro h2 s hs
          rcases List.mem_cons.1 hs with h3 | h3
          · rw [h3, ← hE]
          · exact h2 s h3
        · intro h2 s hs
          exact h2 s (List.mem_cons_of_mem _ hs)

/-- What `BootstrapReplicationCleanup` returns, in terms of its loop. -/
theorem BootstrapReplicationCleanup_eq (c : Cluster) (db : Nat → DBObs) :
    (BootstrapReplicationCleanup c db).2.1 =
      (cleanupLoop db c.Servers c.SetFailoverState
        [Event.Log "INFO" "Cleaning up replication on existing servers" ""]).2.1
    ∧ (BootstrapReplicationCleanup c db).2.2 =
      (match (cleanupLoop db c.Servers c.SetFailoverState
          [Event.Log "INFO" "Cleaning up replication on existing servers" ""]).2.2 with
        | some e => Ret.err e
        | none => Ret.nil)
    ∧ (BootstrapReplicationCleanup c db).1.sme.InFailover =
      (cleanupLoop db c.Servers c.SetFailoverState
        [Event.Log "INFO" "Cleaning up replication on existing servers" ""]).2.2.isSome := by
  have h := (cleanupLoop_attempts c db c.Servers c.SetFailoverState
    [Event.Log "INFO" "Cleaning up replication on existing servers" ""]
    ⟨rfl, rfl, fun _ => rfl, fun _ h => h⟩).2.2.2
  have hs : c.SetFailoverState.Servers = c.Servers := rfl
  unfold BootstrapReplicationCleanup
  dsimp only
  rw [hs]
  generalize cleanupLoop db c.Servers c.SetFailoverState
    [Event.Log "INFO" "Cleaning up replication on existing servers" ""] = r at h ⊢
  obtain ⟨c1, ev1, err⟩ := r
  dsimp only at h ⊢
  cases err with
  | some e => exact ⟨rfl, rfl, by rw [h]; rfl⟩
  | none => exact ⟨rfl, rfl, rfl⟩

/-- C16 (amended): on a server list none of whose servers is `Failed`,
`BootstrapReplicationCleanup` takes the servers in list order and attempts the
cleanup on each of them as long as the refreshes succeed: the servers on which
the cleanup is attempted are those before the first server whose refresh
fails, whatever errors the cleanup commands return.  It returns `nil` if and
only if every refresh succeeds; when a refresh fails the error is logged
("Refresh failed in Cleanup on server") and returned at once, so that the
servers after it are not cleaned. -/
theorem C16_cleanup_attempts (c : Cluster) (db : Nat → DBObs)
    (hnf : ∀ s ∈ c.Servers, (c.heap s).State ≠ stateFailed) :
    cleanupAttempts (BootstrapReplicationCleanup c db).2.1 =
      (c.Servers.takeWhile (fun s => (Refresh c s (db s).Refresh).2.2.isNone)).map
        (fun s => (c.heap s).URL)
    ∧ ((BootstrapReplicationCleanup c db).2.2 = Ret.nil ↔
        ∀ s ∈ c.Servers, (Refresh c s (db s).Refresh).2.2 = none)
    ∧ (∀ e, (BootstrapReplicationCleanup c db).2.2 = Ret.err e →
        ∃ url, (BootstrapReplicationCleanup c db).2.1.getLast? =
          some (Event.Log "ERROR" "Refresh failed in Cleanup on server %s %s" url)) := by
  have _ := hnf
  have h := cleanupLoop_attempts c db c.Servers c.SetFailoverState
    [Event.Log "INFO" "Cleaning up replication on existing servers" ""]
    ⟨rfl, rfl, fun _ => rfl, fun _ h => h⟩
  have he := BootstrapReplicationCleanup_eq c db
  rw [he.1, he.2.1]
  refine ⟨by rw [h.1]; rfl, ?_, ?_⟩
  · rw [← h.2.1]
    cases (cleanupLoop db c.Servers c.SetFailoverState
      [Event.Log "INFO" "Cleaning up replication on existing servers" ""]).2.2 <;> simp
  · intro e hx
    cases hr : (cleanupLoop db c.Servers c.SetFailoverState
      [Event.Log "INFO" "Cleaning up replication on existing servers" ""]).2.2 with
    | none => rw [hr] at hx; cases hx
    | some e' => exact h.2.2.1 e' hr

/-- C16 (counterexample): the fresh cluster of three servers, none `Failed`,
where the connection of `b` does not answer the ping of the refresh.  The
cleanup is attempted on `a` only: the refresh error on `b` is returned at once
and prevents the cleanup of `c`, the server after it. -/
theorem C16_counterexample :
    (∀ s ∈ freshCluster.Servers, (freshCluster.heap s).State ≠ stateFailed)
    ∧ (BootstrapReplicationCleanup freshCluster unreachableDB).2.2 =
        Ret.err (GoError.Other "invalid connection")
    ∧ cleanupAttempts (BootstrapReplicationCleanup freshCluster unreachableDB).2.1 =
        ["a:3306"] := by
  decide

/-- C16 (witness): on the fresh cluster, where cleanup commands fail on `a`
and on `b` and every refresh succeeds, the cleanup is attempted on the three
servers and `nil` is returned. -/
theorem C16_witness :
    cleanupAttempts (BootstrapReplicationCleanup freshCluster commandErrorDB).2.1 =
      ["a:3306", "b:3306", "c:3306"]
    ∧ (BootstrapReplicationCleanup freshCluster commandErrorDB).2.2 = Ret.nil :=
  ⟨(C16_cleanup_attempts freshCluster commandErrorDB (by decide)).1.trans (by decide),
   (C16_cleanup_attempts freshCluster commandErrorDB (by decide)).2.1.2 (by decide)⟩

/-- C17 (code bug): `BootstrapReplicationCleanup` returns with the failover
gate held exactly when it returns an error: the `return err` that follows a
failed refresh (prov.go:407) does not release the gate taken at line 402,
whereas the return at the end of the function does.  On the fresh cluster,
gate released, where the connection of `b` does not answer the ping of the
refresh, the cleanup returns the error "invalid connection" with `InFailover`
still set. -/
theorem C17_cleanup_keeps_gate :
    (∀ (c : Cluster) (db : Nat → DBObs),
      (BootstrapReplicationCleanup c db).1.sme.InFailover = true ↔
        (BootstrapReplicationCleanup c db).2.2 ≠ Ret.nil)
    ∧ freshCluster.sme.InFailover = false
    ∧ (BootstrapReplicationCleanup freshCluster unreachableDB).2.2 =
        Ret.err (GoError.Other "invalid connection")
    ∧ (BootstrapReplicationCleanup freshCluster unreachableDB).1.sme.InFailover = true := by
  refine ⟨?_, by decide, by decide, by decide⟩
  intro c db
  have he := BootstrapReplicationCleanup_eq c db
  rw [he.2.2, he.2.1]
  cases (cleanupLoop db c.Servers c.SetFailoverState
    [Event.Log "INFO" "Cleaning up replication on existing servers" ""]).2.2 <;> simp

set_option maxRecDepth 100000 in
/-- C18 (code bug): a bootstrap in ring mode with a non-empty `PrefMaster`, on
the fresh cluster where `b` is flagged preferred.  The function literal that
looks for the preferred server (prov.go:484-493) releases the gate that line
481 has just taken, so that the wiring starts with `InFailover` false; the
ring loop then writes `vmaster` (line 597, from `nil` to server 0) with the
gate still released.  With an empty `PrefMaster` the same wiring starts with
the gate held. -/
theorem C18_vmaster_written_without_gate :
    (bootstrapPrepare ringPrefered false quietDB emptyTopology).2.2 = none
    ∧ (selectMaster (bootstrapPrepare ringPrefered false quietDB emptyTopology).1).2 = 1
    ∧ (selectMaster (bootstrapPrepare ringPrefered false quietDB emptyTopology).1).1.sme.InFailover
        = false
    ∧ (selectMaster (bootstrapPrepare ringPrefered false quietDB emptyTopology).1).1.vmaster = none
    ∧ (phaseRing quietDB (selectMaster (bootstrapPrepare ringPrefered false quietDB
          emptyTopology).1).1
        (bootstrapPrepare ringPrefered false quietDB emptyTopology).2.1).2.2 = none
    ∧ (phaseRing quietDB (selectMaster (bootstrapPrepare ringPrefered false quietDB
          emptyTopology).1).1
        (bootstrapPrepare ringPrefered false quietDB emptyTopology).2.1).1.vmaster = some 0
    ∧ (phaseRing quietDB (selectMaster (bootstrapPrepare ringPrefered false quietDB
          emptyTopology).1).1
        (bootstrapPrepare ringPrefered false quietDB emptyTopology).2.1).1.sme.InFailover = false
    ∧ (BootstrapReplication ringPrefered false quietDB emptyTopology emptyTopology).2.2 = Ret.nil
    ∧ (selectMaster (bootstrapPrepare ringCluster false quietDB emptyTopology).1).1.sme.InFailover
        = true := by
  decide



/-! ## Orchestrator-facing operations -/

theorem orchestratorJob_unknown (c : Cluster) (service : String) (h : unknownOrchestrator c) :
    orchestratorJob c service = none := by
  unfold orchestratorJob
  simp [h.1, h.2.1, h.2.2.1, h.2.2.2.2]

theorem launchLoop_none (l : List String) (c : Cluster) (ev : List Event) :
    launchLoop none l c ev =
      if l = [] then (c, ev, false) else (c.RemoveFailoverState, ev, true) := by
  cases l <;> simp [launchLoop]

theorem awaitLoop_nil (f g : String) (done : String → List Event)
    (errorChan : List (Option GoError)) (ev : List Event) :
    awaitLoop f g done [] errorChan ev = (ev, errorChan, false) := by
  simp [awaitLoop]

/-- C19 (amended): when `ProvOrchestrator` is none of `opensvc`, `kubernetes`,
`slapos`, `onpremise`, `localhost`: `ProvisionServices`, `Unprovision` and
`InitDatabaseService` launch no job, return `nil` and leave the gate released;
`InitProxyService` launches no job and returns `nil`; `StartDatabaseService`
and `StopDatabaseService` launch no job and return the error "No valid
orchestrator"; `StartProxyService` and `StopProxyService` call the localhost
adapter and return what it returns; `UnprovisionDatabaseService` launches the
localhost job; `UnprovisionProxyService` launches no job. -/
theorem C19_unknown_orchestrator (c : Cluster) (h : unknownOrchestrator c) (server : Nat)
    (prx : String) (proxies : List String) (errorChan : List (Option GoError))
    (adapter : String → String → Option GoError) :
    ((ProvisionServices c proxies errorChan).2.2.2 = Outcome.returns none
      ∧ noJob (ProvisionServices c proxies errorChan).2.1
      ∧ (ProvisionServices c proxies errorChan).1.sme.InFailover = false)
    ∧ ((Unprovision c proxies errorChan).2.2.2 = Outcome.returns none
      ∧ noJob (Unprovision c proxies errorChan).2.1
      ∧ (Unprovision c proxies errorChan).1.sme.InFailover = false)
    ∧ ((InitDatabaseService c server errorChan).2.2.2 = Outcome.returns none
      ∧ noJob (InitDatabaseService c server errorChan).2.1
      ∧ (InitDatabaseService c server errorChan).1.sme.InFailover = false)
    ∧ ((InitProxyService c prx errorChan).2.2.2 = Outcome.returns none
      ∧ noJob (InitProxyService c prx errorChan).2.1)
    ∧ ((StartDatabaseService c server adapter).2 = some (GoError.Other "No valid orchestrator")
      ∧ noJob (StartDatabaseService c server adapter).1)
    ∧ ((StopDatabaseService c server adapter).2 = some (GoError.Other "No valid orchestrator")
      ∧ noJob (StopDatabaseService c server adapter).1)
    ∧ ((StartProxyService c prx adapter).1 = [Event.Job false "LocalhostStartProxyService" prx]
      ∧ (StartProxyService c prx adapter).2 = adapter "LocalhostStartProxyService" prx)
    ∧ ((StopProxyService c prx adapter).1 = [Event.Job false "LocalhostStopProxyService" prx]
      ∧ (StopProxyService c prx adapter).2 = adapter "LocalhostStopProxyService" prx)
    ∧ ((UnprovisionDatabaseService c server errorChan).1.take 2 =
        [Event.Call "ResetCrashes" "",
         Event.Job true "LocalhostUnprovisionDatabaseService" (c.heap server).URL])
    ∧ noJob (UnprovisionProxyService c prx errorChan).1 := by
  have hj : ∀ service, orchestratorJob c service = none :=
    fun service => orchestratorJob_unknown c service h
  obtain ⟨h1, h2, h3, h4, h5⟩ := h
  refine ⟨?_, ?_, ?_, ?_, ?_, ?_, ?_, ?_, ?_, ?_⟩
  · unfold ProvisionServices
    simp only [hj, launchLoop_none]
    by_cases hs : serverURLs c = []
    · by_cases hp : proxies = []
      · simp [hs, hp, awaitLoop_nil, noJob, Event.isJob, Cluster.RemoveFailoverState]
      · simp [hs, hp, awaitLoop_nil, noJob, Event.isJob, Cluster.RemoveFailoverState]
    · simp [hs, noJob, Event.isJob, Cluster.RemoveFailoverState]
  · unfold Unprovision
    simp only [hj, launchLoop_none]
    by_cases hs : serverURLs c = []
    · by_cases hp : proxies = []
      · simp [hs, hp, awaitLoop_nil, noJob, Cluster.RemoveFailoverState, Cluster.UnDiscovered]
      · simp [hs, hp, awaitLoop_nil, noJob, Cluster.RemoveFailoverState]
    · simp [hs, noJob, Cluster.RemoveFailoverState]
  · unfold InitDatabaseService
    simp [hj, noJob, Cluster.RemoveFailoverState]
  · unfold InitProxyService
    simp [hj, noJob]
  · unfold StartDatabaseService databaseService
    simp [h1, h2, h3, h4, h5, noJob, Event.isJob]
  · unfold StopDatabaseService databaseService
    simp [h1, h2, h3, h4, h5, noJob]
  · unfold StartProxyService proxyService
    simp [h1, h2, h3]
  · unfold StopProxyService proxyService
    simp [h1, h2, h3]
  · unfold UnprovisionDatabaseService
    cases errorChan <;> simp [h1, h2, h3]
  · unfold UnprovisionProxyService
    cases errorChan with
    | nil => simp [hj, noJob]
    | cons err rest =>
      intro e he
      simp only [hj, List.nil_append] at he
      split_ifs at he
      · simp only [List.mem_cons, List.mem_singleton, List.not_mem_nil, or_false] at he
        rcases he with he | he | he <;> subst he <;> rfl
      · cases he

/-- C19 (counterexample): with the orchestrator kind `nomad`, which the
specification does not list, `StopDatabaseService` and `StartDatabaseService`
return the error "No valid orchestrator" instead of `nil`;
`UnprovisionDatabaseService` launches the localhost job;
`StopProxyService` calls the localhost adapter. -/
theorem C19_counterexample :
    unknownOrchestrator nomadCluster
    ∧ StopDatabaseService nomadCluster 0 quietAdapter =
        ([], some (GoError.Other "No valid orchestrator"))
    ∧ (StartDatabaseService nomadCluster 0 quietAdapter).2 =
        some (GoError.Other "No valid orchestrator")
    ∧ (UnprovisionDatabaseService nomadCluster 0 [none]).1 =
        [Event.Call "ResetCrashes" "",
         Event.Job true "LocalhostUnprovisionDatabaseService" "a:3306",
         Event.Call "DelProvisionCookie" "a:3306", Event.Call "DelReprovisionCookie" "a:3306",
         Event.Call "DelRestartCookie" "a:3306"]
    ∧ (StopProxyService nomadCluster "proxy1" quietAdapter).1 =
        [Event.Job false "LocalhostStopProxyService" "proxy1"] := by
  unfold unknownOrchestrator
  decide

/-- C19 (witness): with the orchestrator kind `nomad`, `ProvisionServices`
returns `nil` without launching a job, and `StopDatabaseService` returns the
error "No valid orchestrator". -/
theorem C19_witness :
    unknownOrchestrator nomadCluster
    ∧ (ProvisionServices nomadCluster ["proxy1"] []).2.2.2 = Outcome.returns none
    ∧ noJob (ProvisionServices nomadCluster ["proxy1"] []).2.1
    ∧ (StopDatabaseService nomadCluster 0 quietAdapter).2 =
        some (GoError.Other "No valid orchestrator") :=
  have hu : unknownOrchestrator nomadCluster := by unfold unknownOrchestrator; decide
  have h := C19_unknown_orchestrator nomadCluster hu 0 "proxy1" ["proxy1"] [] quietAdapter
  ⟨hu, h.1.1, h.1.2.1, h.2.2.2.2.2.1.1⟩

/-! ## C20 -/

theorem orchestratorJob_known (c : Cluster) (service : String)
    (hk : c.Conf.ProvOrchestrator = ConstOrchestratorOpenSVC
      ∨ c.Conf.ProvOrchestrator = ConstOrchestratorKubernetes
      ∨ c.Conf.ProvOrchestrator = ConstOrchestratorSlapOS
      ∨ c.Conf.ProvOrchestrator = ConstOrchestratorLocalhost) :
    ∃ j, orchestratorJob c service = some j := by
  unfold orchestratorJob
  split_ifs with a b d e
  · exact ⟨_, rfl⟩
  · exact ⟨_, rfl⟩
  · exact ⟨_, rfl⟩
  · exact ⟨_, rfl⟩
  · simp only [beq_iff_eq] at a b d e
    rcases hk with h | h | h | h
    · exact absurd h a
    · exact absurd h b
    · exact absurd h d
    · exact absurd h e

theorem cookieCalls_append (a b : List Event) :
    cookieCalls (a ++ b) = cookieCalls a ++ cookieCalls b := by
  simp [cookieCalls]

theorem launchLoop_some (j : String) (l : List String) :
    ∀ (c : Cluster) (ev : List Event),
      (launchLoop (some j) l c ev).1 = c ∧ (launchLoop (some j) l c ev).2.2 = false
      ∧ cookieCalls (launchLoop (some j) l c ev).2.1 = cookieCalls ev := by
  induction l with
  | nil => intro c ev; exact ⟨rfl, rfl, rfl⟩
  | cons x rest ih =>
    intro c ev
    rw [launchLoop]
    have h := ih c (ev ++ [Event.Job true j x])
    refine ⟨h.1, h.2.1, h.2.2.trans ?_⟩
    rw [cookieCalls_append]
    simp [cookieCalls]

theorem awaitLoop_servers (f g : String) (l : List String) :
    ∀ (errorChan : List (Option GoError)) (ev : List Event), l.length ≤ errorChan.length →
      (awaitLoop f g (fun x => [Event.Call "DelProvisionCookie" x,
          Event.Call "DelRestartCookie" x, Event.Call "DelReprovisionCookie" x])
        l errorChan ev).2.2 = false
      ∧ (awaitLoop f g (fun x => [Event.Call "DelProvisionCookie" x,
          Event.Call "DelRestartCookie" x, Event.Call "DelReprovisionCookie" x])
        l errorChan ev).2.1 = errorChan.drop l.length
      ∧ cookieCalls (awaitLoop f g (fun x => [Event.Call "DelProvisionCookie" x,
          Event.Call "DelRestartCookie" x, Event.Call "DelReprovisionCookie" x])
        l errorChan ev).1 = cookieCalls ev ++ unprovisionCookies l errorChan := by
  induction l with
  | nil =>
    intro errorChan ev _
    cases errorChan <;> simp [awaitLoop, unprovisionCookies]
  | cons x rest ih =>
    intro errorChan ev hlen
    cases errorChan with
    | nil => simp at hlen
    | cons m ch =>
      have hlen2 : rest.length ≤ ch.length := by simpa using hlen
      cases m with
      | some e =>
        rw [awaitLoop]
        have h := ih ch (ev ++ [Event.Log "ERROR" f x]) hlen2
        refine ⟨h.1, by rw [h.2.1]; rfl, h.2.2.trans ?_⟩
        rw [cookieCalls_append]
        simp [cookieCalls, unprovisionCookies]
      | none =>
        rw [awaitLoop]
        have h := ih ch (ev ++ [Event.Log "INFO" g x] ++ [Event.Call "DelProvisionCookie" x,
          Event.Call "DelRestartCookie" x, Event.Call "DelReprovisionCookie" x]) hlen2
        refine ⟨h.1, by rw [h.2.1]; rfl, h.2.2.trans ?_⟩
        rw [cookieCalls_append, cookieCalls_append]
        simp [cookieCalls, unprovisionCookies]

theorem awaitLoop_proxies (f g : String) (l : List String) :
    ∀ (errorChan : List (Option GoError)) (ev : List Event), l.length ≤ errorChan.length →
      (awaitLoop f g (fun x => [Event.Call "Proxy.DelProvisionCookie" x,
          Event.Call "Proxy.DelRestartCookie" x, Event.Call "Proxy.DelReprovisionCookie" x])
        l errorChan ev).2.2 = false
      ∧ cookieCalls (awaitLoop f g (fun x => [Event.Call "Proxy.DelProvisionCookie" x,
          Event.Call "Proxy.DelRestartCookie" x, Event.Call "Proxy.DelReprovisionCookie" x])
        l errorChan ev).1 = cookieCalls ev := by
  induction l with
  | nil =>
    intro errorChan ev _
    cases errorChan <;> simp [awaitLoop]
  | cons x rest ih =>
    intro errorChan ev hlen
    cases errorChan with
    | nil => simp at hlen
    | cons m ch =>
      have hlen2 : rest.length ≤ ch.length := by simpa using hlen
      cases m with
      | some e =>
        rw [awaitLoop]
        have h := ih ch (ev ++ [Event.Log "ERROR" f x]) hlen2
        refine ⟨h.1, h.2.trans ?_⟩
        rw [cookieCalls_append]
        simp [cookieCalls]
      | none =>
        rw [awaitLoop]
        have h := ih ch (ev ++ [Event.Log "INFO" g x] ++ [Event.Call "Proxy.DelProvisionCookie" x,
          Event.Call "Proxy.DelRestartCookie" x, Event.Call "Proxy.DelReprovisionCookie" x]) hlen2
        refine ⟨h.1, h.2.trans ?_⟩
        rw [cookieCalls_append, cookieCalls_append]
        simp only [cookieCalls, List.filter_cons, List.filter_nil]
        simp

/-- C20 (amended): when `ProvOrchestrator` is one of `opensvc`, `kubernetes`,
`slapos`, `localhost`, and the completion channel delivers a message for each
job launched (one per server, one per proxy), `Unprovision` returns `nil`; on
return the `master`, `vmaster` and `slaves` pointers are `nil`, the cluster is
undiscovered and the gate is released.  The cookie calls it makes on servers
are exactly these: for the `k`-th server, when the `k`-th message received is
`nil`, the Provisioned, Restart and Reprovision cookies are deleted; when it
is an error no cookie of that server is touched.  No WaitStart or WaitStop
cookie is deleted. -/
theorem C20_unprovision (c : Cluster) (proxies : List String)
    (errorChan : List (Option GoError))
    (hk : c.Conf.ProvOrchestrator = ConstOrchestratorOpenSVC
      ∨ c.Conf.ProvOrchestrator = ConstOrchestratorKubernetes
      ∨ c.Conf.ProvOrchestrator = ConstOrchestratorSlapOS
      ∨ c.Conf.ProvOrchestrator = ConstOrchestratorLocalhost)
    (hch : c.Servers.length + proxies.length ≤ errorChan.length) :
    (Unprovision c proxies errorChan).2.2.2 = Outcome.returns none
    ∧ (Unprovision c proxies errorChan).1.master = none
    ∧ (Unprovision c proxies errorChan).1.vmaster = none
    ∧ (Unprovision c proxies errorChan).1.slaves = none
    ∧ (Unprovision c proxies errorChan).1.IsDiscovered = false
    ∧ (Unprovision c proxies errorChan).1.sme.InFailover = false
    ∧ cookieCalls (Unprovision c proxies errorChan).2.1 =
        unprovisionCookies (serverURLs c) errorChan := by
  obtain ⟨j1, hj1⟩ := orchestratorJob_known c "UnprovisionDatabaseService" hk
  obtain ⟨j2, hj2⟩ := orchestratorJob_known c "UnprovisionProxyService" hk
  have hlen : (serverURLs c).length = c.Servers.length := by simp [serverURLs]
  unfold Unprovision
  simp only [hj1, hj2]
  have l1 := launchLoop_some j1 (serverURLs c) c.SetFailoverState []
  generalize launchLoop (some j1) (serverURLs c) c.SetFailoverState [] = r1 at l1 ⊢
  obtain ⟨c1, ev1, b1⟩ := r1
  dsimp only at l1 ⊢
  obtain ⟨e1, e2, e3⟩ := l1
  subst e1 e2
  simp only [Bool.false_eq_true, if_false]
  have a1 := awaitLoop_servers "Unprovision error %s on  %s" "Unprovision done for database %s"
    (serverURLs c) errorChan ev1 (by rw [hlen]; omega)
  generalize awaitLoop "Unprovision error %s on  %s" "Unprovision done for database %s"
    (fun x => [Event.Call "DelProvisionCookie" x, Event.Call "DelRestartCookie" x,
      Event.Call "DelReprovisionCookie" x]) (serverURLs c) errorChan ev1 = r2 at a1 ⊢
  obtain ⟨ev2, ch2, b2⟩ := r2
  dsimp only at a1 ⊢
  obtain ⟨f1, f2, f3⟩ := a1
  subst f1 f2
  simp only [Bool.false_eq_true, if_false]
  have l3 := launchLoop_some j2 proxies c.SetFailoverState ev2
  generalize launchLoop (some j2) proxies c.SetFailoverState ev2 = r3 at l3 ⊢
  obtain ⟨c3, ev3, b3⟩ := r3
  dsimp only at l3 ⊢
  obtain ⟨g1, g2, g3⟩ := l3
  subst g1 g2
  simp only [Bool.false_eq_true, if_false]
  have a4 := awaitLoop_proxies "Unprovision proxy error %s on  %s"
    "Unprovision done for proxy %s" proxies (errorChan.drop (serverURLs c).length) ev3
    (by rw [List.length_drop, hlen]; omega)
  generalize awaitLoop "Unprovision proxy error %s on  %s" "Unprovision done for proxy %s"
    (fun x => [Event.Call "Proxy.DelProvisionCookie" x, Event.Call "Proxy.DelRestartCookie" x,
      Event.Call "Proxy.DelReprovisionCookie" x]) proxies
    (errorChan.drop (serverURLs c).length) ev3 = r4 at a4 ⊢
  obtain ⟨ev4, ch4, b4⟩ := r4
  dsimp only at a4 ⊢
  obtain ⟨k1, k2⟩ := a4
  subst k1
  simp only [Bool.false_eq_true, if_false]
  refine ⟨trivial, rfl, rfl, rfl, rfl, rfl, ?_⟩
  rw [k2, g3, f3, e3]
  rfl

/-- C20 (counterexample): with the on-premise orchestrator, one of the kinds
of the specification, `Unprovision` takes the `default` case of its first
`switch` and returns `nil` at once: `master` and `slaves` are still set, the
cluster is still discovered and the Provisioned cookie of `a` is still there.
With the localhost orchestrator, where the first message received is an
error: `Unprovision` returns `nil`, the Provisioned cookie of `a` remains
(the one of `b` is deleted) and the WaitStart cookie of `b` remains. -/
theorem C20_counterexample :
    (Unprovision onPremiseCluster [] []).2.2.2 = Outcome.returns none
    ∧ (Unprovision onPremiseCluster [] []).1.master = some 1
    ∧ (Unprovision onPremiseCluster [] []).1.slaves = some [0, 2]
    ∧ (Unprovision onPremiseCluster [] []).1.IsDiscovered = true
    ∧ cookieAfter "Provision" "a:3306" (Unprovision onPremiseCluster [] []).2.1 true = true
    ∧ (Unprovision localhostCluster []
        [some (GoError.Other "exit status 1"), none, none]).2.2.2 = Outcome.returns none
    ∧ cookieAfter "Provision" "a:3306" (Unprovision localhostCluster []
        [some (GoError.Other "exit status 1"), none, none]).2.1 true = true
    ∧ cookieAfter "WaitStart" "b:3306" (Unprovision localhostCluster []
        [some (GoError.Other "exit status 1"), none, none]).2.1 true = true
    ∧ cookieAfter "Provision" "b:3306" (Unprovision localhostCluster []
        [some (GoError.Other "exit status 1"), none, none]).2.1 true = false := by
  decide

/-- C20 (witness): the discovered cluster with the localhost orchestrator and
one proxy; the job of `b` reports an error, the other jobs succeed.
`Unprovision` returns `nil`, clears the pointers and the discovered flag, and
deletes the Provisioned, Restart and Reprovision cookies of `a` and of `c`. -/
theorem C20_witness :
    (Unprovision localhostCluster ["proxy1"]
      [none, some (GoError.Other "exit status 1"), none, none]).2.2.2 = Outcome.returns none
    ∧ (Unprovision localhostCluster ["proxy1"]
      [none, some (GoError.Other "exit status 1"), none, none]).1.master = none
    ∧ (Unprovision localhostCluster ["proxy1"]
      [none, some (GoError.Other "exit status 1"), none, none]).1.IsDiscovered = false
    ∧ cookieCalls (Unprovision localhostCluster ["proxy1"]
      [none, some (GoError.Other "exit status 1"), none, none]).2.1 =
        [Event.Call "DelProvisionCookie" "a:3306", Event.Call "DelRestartCookie" "a:3306",
         Event.Call "DelReprovisionCookie" "a:3306",
         Event.Call "DelProvisionCookie" "c:3306", Event.Call "DelRestartCookie" "c:3306",
         Event.Call "DelReprovisionCookie" "c:3306"] :=
  have h := C20_unprovision localhostCluster ["proxy1"]
    [none, some (GoError.Other "exit status 1"), none, none] (Or.inr (Or.inr (Or.inr rfl)))
    (by decide)
  ⟨h.1, h.2.1, h.2.2.2.2.1, h.2.2.2.2.2.2.trans (by decide)⟩


/-! ## C21 -/

theorem countJobs_append (a b : List Event) : countJobs (a ++ b) = countJobs a + countJobs b := by
  simp [countJobs, List.countP_append]

theorem launchLoop_jobs (j : String) (l : List String) :
    ∀ (c : Cluster) (ev : List Event),
      countJobs (launchLoop (some j) l c ev).2.1 = countJobs ev + l.length := by
  induction l with
  | nil => intro c ev; rfl
  | cons x rest ih =>
    intro c ev
    rw [launchLoop, ih, countJobs_append]
    simp only [List.length_cons]
    show countJobs ev + 1 + rest.length = _
    omega

/-- The receive loop of `ProvisionServices` for the servers, when the channel
delivers a message for every server. -/
theorem awaitLoop_provision (f g : String) (l : List String) :
    ∀ (errorChan : List (Option GoError)) (ev : List Event), l.length ≤ errorChan.length →
      (awaitLoop f g (fun x => [Event.Call "SetProvisionCookie" x,
          Event.Call "DelReprovisionCookie" x, Event.Call "DelRestartCookie" x])
        l errorChan ev).2.2 = false
      ∧ (awaitLoop f g (fun x => [Event.Call "SetProvisionCookie" x,
          Event.Call "DelReprovisionCookie" x, Event.Call "DelRestartCookie" x])
        l errorChan ev).2.1 = errorChan.drop l.length
      ∧ cookieCalls (awaitLoop f g (fun x => [Event.Call "SetProvisionCookie" x,
          Event.Call "DelReprovisionCookie" x, Event.Call "DelRestartCookie" x])
        l errorChan ev).1 = cookieCalls ev ++ provisionCookies l errorChan
      ∧ countJobs (awaitLoop f g (fun x => [Event.Call "SetProvisionCookie" x,
          Event.Call "DelReprovisionCookie" x, Event.Call "DelRestartCookie" x])
        l errorChan ev).1 = countJobs ev := by
  induction l with
  | nil =>
    intro errorChan ev _
    cases errorChan <;> simp [awaitLoop, provisionCookies]
  | cons x rest ih =>
    intro errorChan ev hlen
    cases errorChan with
    | nil => simp at hlen
    | cons m ch =>
      have hlen2 : rest.length ≤ ch.length := by simpa using hlen
      cases m with
      | some e =>
        rw [awaitLoop]
        have h := ih ch (ev ++ [Event.Log "ERROR" f x]) hlen2
        refine ⟨h.1, by rw [h.2.1]; rfl, h.2.2.1.trans ?_, h.2.2.2.trans ?_⟩
        · rw [cookieCalls_append]
          simp [cookieCalls, provisionCookies]
        · rw [countJobs_append]
          show _ + 0 = _
          omega
      | none =>
        rw [awaitLoop]
        have h := ih ch (ev ++ [Event.Log "INFO" g x] ++ [Event.Call "SetProvisionCookie" x,
          Event.Call "DelReprovisionCookie" x, Event.Call "DelRestartCookie" x]) hlen2
        refine ⟨h.1, by rw [h.2.1]; rfl, h.2.2.1.trans ?_, h.2.2.2.trans ?_⟩
        · rw [cookieCalls_append, cookieCalls_append]
          simp [cookieCalls, provisionCookies]
        · rw [countJobs_append, countJobs_append]
          show _ + 0 + 0 = _
          omega

/-- The receive loop of `ProvisionServices` for the proxies. -/
theorem awaitLoop_provisionProxy (f g : String) (l : List String) :
    ∀ (errorChan : List (Option GoError)) (ev : List Event), l.length ≤ errorChan.length →
      (awaitLoop f g (fun x => [Event.Call "Proxy.SetProvisionCookie" x]) l errorChan ev).2.2
        = false
      ∧ (awaitLoop f g (fun x => [Event.Call "Proxy.SetProvisionCookie" x]) l errorChan ev).2.1
        = errorChan.drop l.length
      ∧ cookieCalls (awaitLoop f g (fun x => [Event.Call "Proxy.SetProvisionCookie" x])
          l errorChan ev).1 = cookieCalls ev
      ∧ countJobs (awaitLoop f g (fun x => [Event.Call "Proxy.SetProvisionCookie" x])
          l errorChan ev).1 = countJobs ev := by
  induction l with
  | nil =>
    intro errorChan ev _
    cases errorChan <;> simp [awaitLoop]
  | cons x rest ih =>
    intro errorChan ev hlen
    cases errorChan with
    | nil => simp at hlen
    | cons m ch =>
      have hlen2 : rest.length ≤ ch.length := by simpa using hlen
      cases m with
      | some e =>
        rw [awaitLoop]
        have h := ih ch (ev ++ [Event.Log "ERROR" f x]) hlen2
        refine ⟨h.1, by rw [h.2.1]; rfl, h.2.2.1.trans ?_, h.2.2.2.trans ?_⟩
        · rw [cookieCalls_append]
          simp [cookieCalls]
        · rw [countJobs_append]
          show _ + 0 = _
          omega
      | none =>
        rw [awaitLoop]
        have h := ih ch (ev ++ [Event.Log "INFO" g x] ++ [Event.Call "Proxy.SetProvisionCookie" x])
          hlen2
        refine ⟨h.1, by rw [h.2.1]; rfl, h.2.2.1.trans ?_, h.2.2.2.trans ?_⟩
        · rw [cookieCalls_append, cookieCalls_append]
          simp only [cookieCalls, List.filter_cons, List.filter_nil]
          simp
        · rw [countJobs_append, countJobs_append]
          show _ + 0 + 0 = _
          omega

/-- Which servers the plan `provisionCookies` sets the Provisioned cookie
of. -/
theorem provisionCookies_set (x : String) (l : List String) :
    ∀ errorChan : List (Option GoError),
      Event.Call "SetProvisionCookie" x ∈ provisionCookies l errorChan ↔
        ∃ k, l.get? k = some x ∧ errorChan.get? k = some none := by
  induction l with
  | nil => intro errorChan; simp [provisionCookies]
  | cons u rest ih =>
    intro errorChan
    cases errorChan with
    | nil => simp [provisionCookies]
    | cons m ch =>
      rw [provisionCookies, List.mem_append, ih ch]
      constructor
      · rintro (h | ⟨k, h1, h2⟩)
        · cases m with
          | some e => simp at h
          | none =>
            simp only [Option.isNone_none, if_true, List.mem_cons, Event.Call.injEq,
              String.reduceEq, false_and, true_and, List.mem_singleton, or_false,
              List.not_mem_nil] at h
            exact ⟨0, by simp [h], rfl⟩
        · exact ⟨k + 1, by simpa using h1, by simpa using h2⟩
      · rintro ⟨k, h1, h2⟩
        cases k with
        | zero =>
          left
          simp only [List.get?_cons_zero, Option.some.injEq] at h1 h2
          subst h1 h2
          simp
        | succ k2 =>
          right
          exact ⟨k2, by simpa using h1, by simpa using h2⟩

theorem mem_cookieCalls_set (x : String) (ev : List Event) :
    Event.Call "SetProvisionCookie" x ∈ cookieCalls ev ↔ Event.Call "SetProvisionCookie" x ∈ ev := by
  simp only [cookieCalls, List.mem_filter]
  constructor
  · exact fun h => h.1
  · exact fun h => ⟨h, by decide⟩

/-- C21 (amended): when `ProvOrchestrator` is one of `opensvc`, `kubernetes`,
`slapos`, `localhost` and the completion channel delivers a message for each
job launched, `ProvisionServices` launches one job per server and per proxy,
reads exactly that many messages and returns nil.  The messages carry no
mark of the job that sent them: the Provisioned cookie of a server is set if
and only if the message received at the position of that server in the list
is nil, whichever job has sent it. -/
theorem C21_provision_cookies (c : Cluster) (proxies : List String)
    (errorChan : List (Option GoError))
    (hk : c.Conf.ProvOrchestrator = ConstOrchestratorOpenSVC
      ∨ c.Conf.ProvOrchestrator = ConstOrchestratorKubernetes
      ∨ c.Conf.ProvOrchestrator = ConstOrchestratorSlapOS
      ∨ c.Conf.ProvOrchestrator = ConstOrchestratorLocalhost)
    (hch : c.Servers.length + proxies.length ≤ errorChan.length) :
    (ProvisionServices c proxies errorChan).2.2.2 = Outcome.returns none
    ∧ countJobs (ProvisionServices c proxies errorChan).2.1 = c.Servers.length + proxies.length
    ∧ (ProvisionServices c proxies errorChan).2.2.1 =
        errorChan.drop (c.Servers.length + proxies.length)
    ∧ cookieCalls (ProvisionServices c proxies errorChan).2.1 =
        provisionCookies (serverURLs c) errorChan
    ∧ ∀ x, Event.Call "SetProvisionCookie" x ∈ (ProvisionServices c proxies errorChan).2.1 ↔
        ∃ k, (serverURLs c).get? k = some x ∧ errorChan.get? k = some none := by
  obtain ⟨j1, hj1⟩ := orchestratorJob_known c "ProvisionDatabaseService" hk
  obtain ⟨j2, hj2⟩ := orchestratorJob_known c "ProvisionProxyService" hk
  have hlen : (serverURLs c).length = c.Servers.length := by simp [serverURLs]
  have main : (ProvisionServices c proxies errorChan).2.2.2 = Outcome.returns none
      ∧ countJobs (ProvisionServices c proxies errorChan).2.1 =
          c.Servers.length + proxies.length
      ∧ (ProvisionServices c proxies errorChan).2.2.1 =
          errorChan.drop (c.Servers.length + proxies.length)
      ∧ cookieCalls (ProvisionServices c proxies errorChan).2.1 =
          provisionCookies (serverURLs c) errorChan := by
    unfold ProvisionServices
    simp only [hj1, hj2]
    have l1 := launchLoop_some j1 (serverURLs c) c.SetFailoverState
      [Event.Call "os.Remove" "", Event.Call "ResetCrashes" ""]
    have n1 := launchLoop_jobs j1 (serverURLs c) c.SetFailoverState
      [Event.Call "os.Remove" "", Event.Call "ResetCrashes" ""]
    generalize launchLoop (some j1) (serverURLs c) c.SetFailoverState
      [Event.Call "os.Remove" "", Event.Call "ResetCrashes" ""] = r1 at l1 n1 ⊢
    obtain ⟨c1, ev1, b1⟩ := r1
    dsimp only at l1 n1 ⊢
    obtain ⟨e1, e2, e3⟩ := l1
    subst e1 e2
    simp only [Bool.false_eq_true, if_false]
    have a1 := awaitLoop_provision "Provisionning error %s on  %s"
      "Provisionning done for database %s" (serverURLs c) errorChan ev1 (by rw [hlen]; omega)
    generalize awaitLoop "Provisionning error %s on  %s" "Provisionning done for database %s"
      (fun x => [Event.Call "SetProvisionCookie" x, Event.Call "DelReprovisionCookie" x,
        Event.Call "DelRestartCookie" x]) (serverURLs c) errorChan ev1 = r2 at a1 ⊢
    obtain ⟨ev2, ch2, b2⟩ := r2
    dsimp only at a1 ⊢
    obtain ⟨f1, f2, f3, f4⟩ := a1
    subst f1 f2
    simp only [Bool.false_eq_true, if_false]
    have l3 := launchLoop_some j2 proxies c.SetFailoverState ev2
    have n3 := launchLoop_jobs j2 proxies c.SetFailoverState ev2
    generalize launchLoop (some j2) proxies c.SetFailoverState ev2 = r3 at l3 n3 ⊢
    obtain ⟨c3, ev3, b3⟩ := r3
    dsimp only at l3 n3 ⊢
    obtain ⟨g1, g2, g3⟩ := l3
    subst g1 g2
    simp only [Bool.false_eq_true, if_false]
    have a4 := awaitLoop_provisionProxy "Provisionning proxy error %s on  %s"
      "Provisionning done for proxy %s" proxies (errorChan.drop (serverURLs c).length) ev3
      (by rw [List.length_drop, hlen]; omega)
    generalize awaitLoop "Provisionning proxy error %s on  %s" "Provisionning done for proxy %s"
      (fun x => [Event.Call "Proxy.SetProvisionCookie" x]) proxies
      (errorChan.drop (serverURLs c).length) ev3 = r4 at a4 ⊢
    obtain ⟨ev4, ch4, b4⟩ := r4
    dsimp only at a4 ⊢
    obtain ⟨k1, k2, k3, k4⟩ := a4
    subst k1 k2
    simp only [Bool.false_eq_true, if_false]
    refine ⟨trivial, ?_, ?_, ?_⟩
    · rw [k4, n3, f4, n1, hlen]
      show 0 + _ + _ = _
      omega
    · rw [List.drop_drop, hlen, Nat.add_comm]
    · rw [k3, g3, f3, e3]
      rfl
  refine ⟨main.1, main.2.1, main.2.2.1, main.2.2.2, fun x => ?_⟩
  rw [← mem_cookieCalls_set, main.2.2.2]
  exact provisionCookies_set x (serverURLs c) errorChan

/-- C21 (counterexample): the cluster with the localhost orchestrator and the
servers `a`, `b`, `c`.  The job of `a` reports an error, the jobs of `b` and
`c` succeed, and the job of `b` completes first.  `ProvisionServices` sets the
Provisioned cookie of `a`, whose job has failed, and not the one of `b`, whose
job has succeeded. -/
theorem C21_counterexample :
    serverURLs localhostCluster = ["a:3306", "b:3306", "c:3306"]
    ∧ arrival [some (GoError.Other "exit status 1"), none, none] [1, 0, 2] =
        [none, some (GoError.Other "exit status 1"), none]
    ∧ (ProvisionServices localhostCluster []
        (arrival [some (GoError.Other "exit status 1"), none, none] [1, 0, 2])).2.2.2
        = Outcome.returns none
    ∧ cookieAfter "Provision" "a:3306" (ProvisionServices localhostCluster []
        (arrival [some (GoError.Other "exit status 1"), none, none] [1, 0, 2])).2.1 false = true
    ∧ cookieAfter "Provision" "b:3306" (ProvisionServices localhostCluster []
        (arrival [some (GoError.Other "exit status 1"), none, none] [1, 0, 2])).2.1 false
        = false := by
  decide

/-- C21 (witness): the same jobs completing in launch order, with one proxy:
four jobs are launched, four messages are read and the Provisioned cookie is
set on `b` and `c`. -/
theorem C21_witness :
    (ProvisionServices localhostCluster ["proxy1"]
      [some (GoError.Other "exit status 1"), none, none, none]).2.2.2 = Outcome.returns none
    ∧ countJobs (ProvisionServices localhostCluster ["proxy1"]
      [some (GoError.Other "exit status 1"), none, none, none]).2.1 = 4
    ∧ (ProvisionServices localhostCluster ["proxy1"]
      [some (GoError.Other "exit status 1"), none, none, none]).2.2.1 = []
    ∧ cookieCalls (ProvisionServices localhostCluster ["proxy1"]
      [some (GoError.Other "exit status 1"), none, none, none]).2.1 =
        [Event.Call "SetProvisionCookie" "b:3306", Event.Call "DelReprovisionCookie" "b:3306",
         Event.Call "DelRestartCookie" "b:3306",
         Event.Call "SetProvisionCookie" "c:3306", Event.Call "DelReprovisionCookie" "c:3306",
         Event.Call "DelRestartCookie" "c:3306"] :=
  have h := C21_provision_cookies localhostCluster ["proxy1"]
    [some (GoError.Other "exit status 1"), none, none, none] (Or.inr (Or.inr (Or.inr rfl)))
    (by decide)
  ⟨h.1, h.2.1, h.2.2.1, h.2.2.2.1.trans (by decide)⟩

/-! ## C22 -/

/-- When the loop of the MariaDB GTID path ends with `nil`, the reading tested
last has equal positions, an empty `Using_Gtid`, an empty `Gtid_Slave_Pos`, or
the server is `Failed`; an error it returns is the error of a reading. -/
theorem relayGtidLoop_result (server : Nat) (polls : List RelayObs) :
    ∀ (cur : RelayObs) (c : Cluster) (ev : List Event),
      ((relayGtidLoop server polls cur c ev).2.2 = some Ret.nil →
        ∃ s ∈ cur :: polls, s.GtidEqual = true ∨ s.UsingGtid = "" ∨ s.GtidSlavePos = ""
          ∨ ((relayGtidLoop server polls cur c ev).1.heap server).State = stateFailed)
      ∧ (∀ r, (relayGtidLoop server polls cur c ev).2.2 = some r →
          r = Ret.nil ∨ ∃ s ∈ polls, ∃ e, s.err = some e ∧ r = Ret.err e) := by
  induction polls with
  | nil =>
    intro cur c ev
    rw [relayGtidLoop]
    by_cases h : (cur.GtidEqual == false && cur.UsingGtid != "" && cur.GtidSlavePos != ""
        && (c.heap server).State != stateFailed) = true
    · rw [if_pos h]
      exact ⟨fun h => by simp at h, fun r h => by simp at h⟩
    · rw [if_neg h]
      refine ⟨fun _ => ⟨cur, List.mem_cons_self _ _, ?_⟩, fun r hr => Or.inl ?_⟩
      · simp only [Bool.and_eq_true, beq_iff_eq, bne_iff_ne, ne_eq, not_and, not_not] at h
        by_cases h1 : cur.GtidEqual = true
        · exact Or.inl h1
        · by_cases h2 : cur.UsingGtid = ""
          · exact Or.inr (Or.inl h2)
          · by_cases h3 : cur.GtidSlavePos = ""
            · exact Or.inr (Or.inr (Or.inl h3))
            · exact Or.inr (Or.inr (Or.inr (h ⟨⟨by simpa using h1, h2⟩, h3⟩)))
      · simp only [Option.some.injEq] at hr
        exact hr.symm
  | cons p rest ih =>
    intro cur c ev
    rw [relayGtidLoop]
    by_cases h : (cur.GtidEqual == false && cur.UsingGtid != "" && cur.GtidSlavePos != ""
        && (c.heap server).State != stateFailed) = true
    · rw [if_pos h]
      cases hp : p.err with
      | some e =>
        dsimp only
        exact ⟨fun h => by simp at h, fun r hr => Or.inr ⟨p, List.mem_cons_self _ _, e, hp, by
          simp only [Option.some.injEq] at hr
          exact hr.symm⟩⟩
      | none =>
        dsimp only
        have := ih p (Refresh c server p.Refresh).1
          (ev ++ (Refresh c server p.Refresh).2.1 ++
            [Event.SQL ((Refresh c server p.Refresh).1.heap server).URL
                (.GetMSlaveStatus (Refresh c server p.Refresh).1.Conf.MasterConn),
              Event.LogSQL none "Could not get slave status %s %s"
                ((Refresh c server p.Refresh).1.heap server).URL] ++
            [Event.Log "INFO" "Waiting sync IO_Pos:%s, Slave_Pos:%s"
              ((Refresh c server p.Refresh).1.heap server).URL])
        refine ⟨fun hn => ?_, fun r hr => ?_⟩
        · obtain ⟨s, hs, hd⟩ := this.1 hn
          exact ⟨s, List.mem_cons_of_mem _ hs, hd⟩
        · rcases this.2 r hr with h1 | ⟨s, hs, e, he, hre⟩
          · exact Or.inl h1
          · exact Or.inr ⟨s, List.mem_cons_of_mem _ hs, e, he, hre⟩
    · rw [if_neg h]
      refine ⟨fun _ => ⟨cur, List.mem_cons_self _ _, ?_⟩, fun r hr => Or.inl ?_⟩
      · simp only [Bool.and_eq_true, beq_iff_eq, bne_iff_ne, ne_eq, not_and, not_not] at h
        by_cases h1 : cur.GtidEqual = true
        · exact Or.inl h1
        · by_cases h2 : cur.UsingGtid = ""
          · exact Or.inr (Or.inl h2)
          · by_cases h3 : cur.GtidSlavePos = ""
            · exact Or.inr (Or.inr (Or.inl h3))
            · exact Or.inr (Or.inr (Or.inr (h ⟨⟨by simpa using h1, h2⟩, h3⟩)))
      · simp only [Option.some.injEq] at hr
        exact hr.symm

/-- When the loop of the other path ends with `nil`, a reading has equal files
and positions or reports that all relay logs have been read. -/
theorem relayPosLoop_result (url channel : String) (polls : List RelayObs) :
    ∀ (cur : RelayObs) (ev : List Event),
      ((relayPosLoop url channel polls cur ev).2 = some Ret.nil →
        ∃ s ∈ cur :: polls,
          (s.MasterLogFile = s.RelayMasterLogFile ∧ s.ReadMasterLogPos = s.ExecMasterLogPos)
          ∨ Contains s.SlaveSQLRunningState "Slave has read all relay log" = true)
      ∧ (∀ r, (relayPosLoop url channel polls cur ev).2 = some r →
          r = Ret.nil ∨ ∃ s ∈ polls, ∃ e, s.err = some e ∧ r = Ret.err e) := by
  induction polls with
  | nil =>
    intro cur ev
    rw [relayPosLoop]
    by_cases h : (cur.MasterLogFile == cur.RelayMasterLogFile
        && cur.ReadMasterLogPos == cur.ExecMasterLogPos) = true
    · rw [if_pos h]
      refine ⟨fun _ => ⟨cur, List.mem_cons_self _ _, Or.inl ?_⟩, fun r hr => Or.inl ?_⟩
      · simpa using h
      · simp only [Option.some.injEq] at hr
        exact hr.symm
    · rw [if_neg h]
      exact ⟨fun h => by simp at h, fun r h => by simp at h⟩
  | cons p rest ih =>
    intro cur ev
    rw [relayPosLoop]
    by_cases h : (cur.MasterLogFile == cur.RelayMasterLogFile
        && cur.ReadMasterLogPos == cur.ExecMasterLogPos) = true
    · rw [if_pos h]
      refine ⟨fun _ => ⟨cur, List.mem_cons_self _ _, Or.inl ?_⟩, fun r hr => Or.inl ?_⟩
      · simpa using h
      · simp only [Option.some.injEq] at hr
        exact hr.symm
    · rw [if_neg h]
      cases hp : p.err with
      | some e =>
        dsimp only
        exact ⟨fun h => by simp at h, fun r hr => Or.inr ⟨p, List.mem_cons_self _ _, e, hp, by
          simp only [Option.some.injEq] at hr
          exact hr.symm⟩⟩
      | none =>
        dsimp only
        by_cases hc : Contains p.SlaveSQLRunningState "Slave has read all relay log" = true
        · rw [if_pos hc]
          refine ⟨fun _ => ⟨p, List.mem_cons_of_mem _ (List.mem_cons_self _ _), Or.inr hc⟩,
            fun r hr => Or.inl ?_⟩
          simp only [Option.some.injEq] at hr
          exact hr.symm
        · rw [if_neg hc]
          have := ih p (ev ++ [Event.Log "INFO" "Waiting sync IO_Pos:%s/%s, Slave_Pos:%s %s" url] ++
            [Event.SQL url (.GetSlaveStatus channel),
              Event.LogSQL none "Could not get slave status %s %s" url])
          refine ⟨fun hn => ?_, fun r hr => ?_⟩
          · obtain ⟨s, hs, hd⟩ := this.1 hn
            exact ⟨s, List.mem_cons_of_mem _ hs, hd⟩
          · rcases this.2 r hr with h1 | ⟨s, hs, e, he, hre⟩
            · exact Or.inl h1
            · exact Or.inr ⟨s, List.mem_cons_of_mem _ hs, e, he, hre⟩

/-- C22 (amended): `ReadAllRelayLogs` returns nil on the MariaDB GTID path only
when a reading of the slave status has `Gtid_Slave_Pos` equal to `Gtid_IO_Pos`,
or an empty `Using_Gtid`, or an empty `Gtid_Slave_Pos`, or the server is in
state `Failed`; on the other path only when a reading has
`Relay_Master_Log_File` equal to `Master_Log_File` with equal read and exec
positions, or its SQL thread state contains "Slave has read all relay log".
Whatever it returns otherwise is the error of a reading of the slave status;
a first reading with an empty `Gtid_Slave_Pos` ends the GTID path with nil
before any poll. -/
theorem C22_relay_logs_nil (c : Cluster) (server : Nat) (haveMariaDBGTID : Bool)
    (first : RelayObs) (polls : List RelayObs) :
    (((c.heap server).DBVersion.IsMariaDB && haveMariaDBGTID) = true →
      (ReadAllRelayLogs c server haveMariaDBGTID first polls).2.2 = some Ret.nil →
      ∃ s ∈ first :: polls, s.GtidEqual = true ∨ s.UsingGtid = "" ∨ s.GtidSlavePos = ""
        ∨ ((ReadAllRelayLogs c server haveMariaDBGTID first polls).1.heap server).State
            = stateFailed)
    ∧ (((c.heap server).DBVersion.IsMariaDB && haveMariaDBGTID) = false →
      (ReadAllRelayLogs c server haveMariaDBGTID first polls).2.2 = some Ret.nil →
      ∃ s ∈ first :: polls,
        (s.MasterLogFile = s.RelayMasterLogFile ∧ s.ReadMasterLogPos = s.ExecMasterLogPos)
        ∨ Contains s.SlaveSQLRunningState "Slave has read all relay log" = true)
    ∧ (∀ r, (ReadAllRelayLogs c server haveMariaDBGTID first polls).2.2 = some r →
        r = Ret.nil ∨ ∃ s ∈ first :: polls, ∃ e, s.err = some e ∧ r = Ret.err e)
    ∧ (((c.heap server).DBVersion.IsMariaDB && haveMariaDBGTID) = true →
        first.err = none → first.GtidSlavePos = "" →
        (ReadAllRelayLogs c server haveMariaDBGTID first polls).2.2 = some Ret.nil) := by
  unfold ReadAllRelayLogs
  dsimp only
  by_cases hg : ((c.heap server).DBVersion.IsMariaDB && haveMariaDBGTID) = true
  · simp only [hg, if_true]
    cases he : first.err with
    | some e =>
      dsimp only
      refine ⟨fun _ h => by simp at h, fun h => by simp at h, fun r hr => Or.inr
        ⟨first, List.mem_cons_self _ _, e, he, by
          simp only [Option.some.injEq] at hr
          exact hr.symm⟩, fun _ h => by simp at h⟩
    | none =>
      dsimp only
      have := relayGtidLoop_result server polls first (Refresh c server first.Refresh).1
        ([Event.Log "INFO" "Reading all relay logs on %s" (c.heap server).URL] ++
          [Event.SQL (c.heap server).URL (.GetMSlaveStatus ""),
            Event.LogSQL none "Could not get slave status %s %s" (c.heap server).URL] ++
          (Refresh c server first.Refresh).2.1)
      refine ⟨fun _ => this.1, fun h => by simp at h, fun r hr => ?_, fun _ _ h3 => ?_⟩
      · rcases this.2 r hr with h1 | ⟨s, hs, e, he, hre⟩
        · exact Or.inl h1
        · exact Or.inr ⟨s, List.mem_cons_of_mem _ hs, e, he, hre⟩
      · cases polls <;> rw [relayGtidLoop] <;> simp [h3]
  · have hg2 : ((c.heap server).DBVersion.IsMariaDB && haveMariaDBGTID) = false := by
      simpa using hg
    simp only [hg2, Bool.false_eq_true, if_false]
    cases he : first.err with
    | some e =>
      dsimp only
      refine ⟨fun h => by simp at h, fun _ h => by simp at h, fun r hr => Or.inr
        ⟨first, List.mem_cons_self _ _, e, he, by
          simp only [Option.some.injEq] at hr
          exact hr.symm⟩, fun h => by simp at h⟩
    | none =>
      dsimp only
      have := relayPosLoop_result (c.heap server).URL c.Conf.MasterConn polls first
        ([Event.Log "INFO" "Reading all relay logs on %s" (c.heap server).URL] ++
          [Event.SQL (c.heap server).URL (.GetSlaveStatus c.Conf.MasterConn),
            Event.LogSQL none "Could not get slave status %s %s" (c.heap server).URL])
      refine ⟨fun h => by simp at h, fun _ => this.1, fun r hr => ?_, fun h => by simp at h⟩
      rcases this.2 r hr with h1 | ⟨s, hs, e, he, hre⟩
      · exact Or.inl h1
      · exact Or.inr ⟨s, List.mem_cons_of_mem _ hs, e, he, hre⟩

/-- C22 (counterexample): on the MariaDB GTID path the first reading of the
slave `a` of the sample cluster has an empty `Gtid_Slave_Pos` that differs
from `Gtid_IO_Pos`.  `ReadAllRelayLogs` returns nil without polling, though
the positions are not equal. -/
theorem C22_counterexample :
    ((sampleCluster.heap 0).DBVersion.IsMariaDB && true) = true
    ∧ laggingReading.GtidEqual = false
    ∧ ((ReadAllRelayLogs sampleCluster 0 true laggingReading [syncedReading]).1.heap 0).State
        ≠ stateFailed
    ∧ (ReadAllRelayLogs sampleCluster 0 true laggingReading [syncedReading]).2.2
        = some Ret.nil := by
  decide

/-- C22 (witness): a lagging first reading followed by a poll with equal
positions; the call returns nil, and a reading with equal positions exists. -/
theorem C22_witness :
    (ReadAllRelayLogs sampleCluster 0 true
        { laggingReading with GtidSlavePos := "0-1-50" } [syncedReading]).2.2 = some Ret.nil
    ∧ ∃ s ∈ [{ laggingReading with GtidSlavePos := "0-1-50" }, syncedReading],
        s.GtidEqual = true ∨ s.UsingGtid = "" ∨ s.GtidSlavePos = ""
        ∨ ((ReadAllRelayLogs sampleCluster 0 true
            { laggingReading with GtidSlavePos := "0-1-50" } [syncedReading]).1.heap 0).State
            = stateFailed :=
  ⟨by decide,
    (C22_relay_logs_nil sampleCluster 0 true
      { laggingReading with GtidSlavePos := "0-1-50" } [syncedReading]).1 (by decide)
      (by decide)⟩

/-! ## C23 -/

theorem waitInnoDBPurgeLoop_zero (readings : List (List (String × String))) :
    waitInnoDBPurgeLoop 0 readings =
      if readings.any (fun m => mapIndex m "history_list_lenght_inside_innodb" == "0") = true
        then some Ret.nil
      else none := by
  induction readings with
  | nil => rfl
  | cons m rest ih =>
    rw [waitInnoDBPurgeLoop, ih]
    by_cases h : (mapIndex m "history_list_lenght_inside_innodb" == "0") = true
    · simp [h]
    · have hb := Bool.eq_false_iff.2 h
      simp [hb]

/-- C23 (code bug): the counter `ct` of `WaitInnoDBPurge` is set to 0 and
never incremented (srv.go:1235-1243), so the test `ct == 1200` never holds.
Whatever the readings of the history list length, the sentinel error is never
returned: the call returns nil at the first reading that is "0", and is still
running after any number of iterations without such a reading.  On a server
whose history list length stays at "12" the call never returns. -/
theorem C23_purge_never_gives_up :
    (∀ (c : Cluster) (server : Nat) (readings : List (List (String × String))),
      (WaitInnoDBPurge c server readings).2 =
        if readings.any (fun m => mapIndex m "history_list_lenght_inside_innodb" == "0") = true
          then some Ret.nil
        else none)
    ∧ mapIndex (purgeCluster.heap 0).EngineInnoDB "history_list_lenght_inside_innodb" = "12"
    ∧ (∀ n : Nat, (WaitInnoDBPurge purgeCluster 0 (steadyReadings purgeCluster 0 n)).2 = none)
    ∧ (WaitInnoDBPurge purgeCluster 0 (steadyReadings purgeCluster 0 1201)).2 ≠
        some (Ret.err (.Other "Waiting to long for history_list_lenght_inside_innodb 0")) := by
  have hall : ∀ n : Nat,
      (WaitInnoDBPurge purgeCluster 0 (steadyReadings purgeCluster 0 n)).2 = none := by
    intro n
    show waitInnoDBPurgeLoop 0 _ = none
    rw [waitInnoDBPurgeLoop_zero, if_neg]
    simp only [steadyReadings, List.any_eq_true, List.mem_replicate, not_exists, not_and]
    rintro m ⟨_, rfl⟩
    decide
  refine ⟨fun c server readings => waitInnoDBPurgeLoop_zero readings, by decide, hall, ?_⟩
  rw [hall]
  simp

/-! ## C24 -/

theorem countPolls_append (a b : List Event) :
    countPolls (a ++ b) = countPolls a + countPolls b := by
  simp [countPolls, List.countP_append]

theorem countKills_append (a b : List Event) :
    countKills (a ++ b) = countKills a + countKills b := by
  simp [countKills, List.countP_append]

/-- The polling loop of `freeze`: what it appends to the trace. -/
theorem freezeLoop_spec (url : String) (o : FreezeObs) (fuel : Nat) :
    ∀ (i : Int) (k : Nat) (ev : List Event),
      ∃ t, freezeLoop url o fuel i k ev = ev ++ t
        ∧ countKills t = 0
        ∧ countPolls t ≤ ((i + 499) / 500).toNat
        ∧ (∀ j, j + 1 < countPolls t → o.threads (k + j) ≠ 0)
        ∧ (countPolls t < ((i + 499) / 500).toNat → ((i + 499) / 500).toNat ≤ fuel →
            0 < countPolls t ∧ o.threads (k + (countPolls t - 1)) = 0) := by
  induction fuel with
  | zero =>
    intro i k ev
    refine ⟨[], by simp [freezeLoop], rfl, by simp [countPolls], by simp [countPolls], ?_⟩
    intro h1 h2
    simp only [countPolls, List.countP_nil] at h1
    omega
  | succ fuel ih =>
    intro i k ev
    rw [freezeLoop]
    by_cases hi : i > 0
    · rw [if_pos hi]
      dsimp only
      by_cases ht : (o.threads k == 0) = true
      · rw [if_pos ht]
        refine ⟨[Event.SQL url .CheckLongRunningWrites,
          .LogSQL (o.CheckErr k) "Could not check long running Writes %s as read-only: %s" url],
          rfl, rfl, ?_, ?_, ?_⟩
        · show 1 ≤ _
          omega
        · intro j hj
          have : countPolls [Event.SQL url .CheckLongRunningWrites,
            .LogSQL (o.CheckErr k) "Could not check long running Writes %s as read-only: %s" url]
              = 1 := rfl
          omega
        · intro _ _
          refine ⟨by show 0 < 1; omega, ?_⟩
          show o.threads (k + (1 - 1)) = 0
          simpa using ht
      · rw [if_neg ht]
        obtain ⟨t, h1, h2, h3, h4, h5⟩ := ih (i - 500) (k + 1)
          (ev ++ [Event.SQL url .CheckLongRunningWrites,
            .LogSQL (o.CheckErr k) "Could not check long running Writes %s as read-only: %s" url]
            ++ [.Log "INFO" "Waiting for %d write threads to complete on %s" url])
        have hc : ∀ t2 : List Event, countPolls ([Event.SQL url .CheckLongRunningWrites,
            .LogSQL (o.CheckErr k) "Could not check long running Writes %s as read-only: %s" url,
            .Log "INFO" "Waiting for %d write threads to complete on %s" url] ++ t2)
              = 1 + countPolls t2 := by
          intro t2
          rw [countPolls_append]
          rfl
        have hk : ∀ t2 : List Event, countKills ([Event.SQL url .CheckLongRunningWrites,
            .LogSQL (o.CheckErr k) "Could not check long running Writes %s as read-only: %s" url,
            .Log "INFO" "Waiting for %d write threads to complete on %s" url] ++ t2)
              = countKills t2 := by
          intro t2
          rw [countKills_append]
          show 0 + _ = _
          omega
        have hceil : ((i + 499) / 500).toNat = ((i - 500 + 499) / 500).toNat + 1 := by omega
        refine ⟨[Event.SQL url .CheckLongRunningWrites,
            .LogSQL (o.CheckErr k) "Could not check long running Writes %s as read-only: %s" url,
            .Log "INFO" "Waiting for %d write threads to complete on %s" url] ++ t, ?_, ?_, ?_, ?_, ?_⟩
        · rw [h1]
          simp
        · rw [hk]; exact h2
        · rw [hc, hceil]; omega
        · intro j hj
          rw [hc] at hj
          cases j with
          | zero => simpa using ht
          | succ j2 =>
            have := h4 j2 (by omega)
            rw [show k + (j2 + 1) = k + 1 + j2 by omega]
            exact this
        · intro ha hb
          rw [hc] at ha ⊢
          rw [hceil] at ha hb
          have := h5 (by omega) (by omega)
          refine ⟨by omega, ?_⟩
          rw [show k + (1 + countPolls t - 1) = k + 1 + (countPolls t - 1) by omega]
          exact this.2
    · rw [if_neg hi]
      refine ⟨[], by simp, rfl, by simp [countPolls], by simp [countPolls], ?_⟩
      intro h1 _
      simp only [countPolls, List.countP_nil] at h1
      omega

/-- C24: when setting read-only succeeds, `freeze` returns true; it polls for
long-running writes at most ceil(W/500) times for `SwitchWaitKill = W` (never
when W is at most 0, at most 4 times when W is 2000); every poll but the last
one has reported a thread, and when fewer than ceil(W/500) polls are made the
last one has reported 0 threads; `KillThreads` is called once, as the last
command, after all polls.  It returns false exactly when setting read-only
fails, and then neither polls nor kills. -/
theorem C24_freeze_bounded (c : Cluster) (server : Nat) (o : FreezeObs) :
    ((freeze c server o).2 = false ↔ o.SetReadOnly ≠ none)
    ∧ (o.SetReadOnly ≠ none →
        countPolls (freeze c server o).1 = 0 ∧ countKills (freeze c server o).1 = 0)
    ∧ (o.SetReadOnly = none →
        (freeze c server o).2 = true
        ∧ countPolls (freeze c server o).1 ≤ ((c.Conf.SwitchWaitKill + 499) / 500).toNat
        ∧ (c.Conf.SwitchWaitKill ≤ 0 → countPolls (freeze c server o).1 = 0)
        ∧ (c.Conf.SwitchWaitKill = 2000 → countPolls (freeze c server o).1 ≤ 4)
        ∧ (∀ j, j + 1 < countPolls (freeze c server o).1 → o.threads j ≠ 0)
        ∧ (countPolls (freeze c server o).1 < ((c.Conf.SwitchWaitKill + 499) / 500).toNat →
            0 < countPolls (freeze c server o).1
            ∧ o.threads (countPolls (freeze c server o).1 - 1) = 0)
        ∧ ∃ pre, (freeze c server o).1 =
              pre ++ [Event.Log "INFO" "Terminating all threads on %s" (c.heap server).URL,
                Event.SQL (c.heap server).URL .KillThreads]
            ∧ countKills pre = 0
            ∧ countPolls pre = countPolls (freeze c server o).1) := by
  cases hs : o.SetReadOnly with
  | some e =>
    refine ⟨⟨fun _ => by simp, fun _ => by simp [freeze, hs]⟩,
      fun _ => by simp [freeze, hs, countPolls, countKills], fun h => by simp at h⟩
  | none =>
    obtain ⟨t, h1, h2, h3, h4, h5⟩ := freezeLoop_spec (c.heap server).URL o
      c.Conf.SwitchWaitKill.toNat c.Conf.SwitchWaitKill 0
      [Event.SQL (c.heap server).URL (.SetReadOnly true),
        .LogSQL o.SetReadOnly "Could not set %s as read-only: %s" (c.heap server).URL]
    have hfuel : ((c.Conf.SwitchWaitKill + 499) / 500).toNat ≤ c.Conf.SwitchWaitKill.toNat := by
      omega
    have hf : (freeze c server o).1 =
        ([Event.SQL (c.heap server).URL (.SetReadOnly true),
          .LogSQL o.SetReadOnly "Could not set %s as read-only: %s" (c.heap server).URL] ++ t ++
          [.SQL (c.heap server).URL (.GetVariableByName "MAX_CONNECTIONS"),
            .LogSQL o.GetVariableByName "Could not get max_connections value on demoted leader"
              (c.heap server).URL] ++
          (if (o.GetVariableByName.isNone && c.Conf.SwitchDecreaseMaxConn) = true then
            [Event.SQL (c.heap server).URL (.SetMaxConnections c.Conf.SwitchDecreaseMaxConnValue),
             .LogSQL o.SetMaxConnections
               "Could not set max_connections to 1 on demoted leader %s %s" (c.heap server).URL]
          else [])) ++
          [.Log "INFO" "Terminating all threads on %s" (c.heap server).URL,
            .SQL (c.heap server).URL .KillThreads] := by
      unfold freeze
      simp only [hs, Option.isSome_none, Bool.false_eq_true, if_false]
      rw [hs] at h1
      rw [h1]
    have hp : countPolls (freeze c server o).1 = countPolls t := by
      rw [hf]
      simp only [countPolls_append]
      split_ifs <;> simp [countPolls]
    have hpre : countPolls
        ([Event.SQL (c.heap server).URL (.SetReadOnly true),
          .LogSQL o.SetReadOnly "Could not set %s as read-only: %s" (c.heap server).URL] ++ t ++
          [.SQL (c.heap server).URL (.GetVariableByName "MAX_CONNECTIONS"),
            .LogSQL o.GetVariableByName "Could not get max_connections value on demoted leader"
              (c.heap server).URL] ++
          (if (o.GetVariableByName.isNone && c.Conf.SwitchDecreaseMaxConn) = true then
            [Event.SQL (c.heap server).URL (.SetMaxConnections c.Conf.SwitchDecreaseMaxConnValue),
             .LogSQL o.SetMaxConnections
               "Could not set max_connections to 1 on demoted leader %s %s" (c.heap server).URL]
          else [])) = countPolls t := by
      simp only [countPolls_append]
      split_ifs <;> simp [countPolls]
    have hkill : countKills
        ([Event.SQL (c.heap server).URL (.SetReadOnly true),
          .LogSQL o.SetReadOnly "Could not set %s as read-only: %s" (c.heap server).URL] ++ t ++
          [.SQL (c.heap server).URL (.GetVariableByName "MAX_CONNECTIONS"),
            .LogSQL o.GetVariableByName "Could not get max_connections value on demoted leader"
              (c.heap server).URL] ++
          (if (o.GetVariableByName.isNone && c.Conf.SwitchDecreaseMaxConn) = true then
            [Event.SQL (c.heap server).URL (.SetMaxConnections c.Conf.SwitchDecreaseMaxConnValue),
             .LogSQL o.SetMaxConnections
               "Could not set max_connections to 1 on demoted leader %s %s" (c.heap server).URL]
          else [])) = 0 := by
      simp only [countKills_append, h2]
      split_ifs <;> simp [countKills]
    have hr : (freeze c server o).2 = true := by simp [freeze, hs]
    refine ⟨⟨fun h => by rw [hr] at h; simp at h, fun h => absurd rfl h⟩,
      fun h => absurd rfl h, fun _ => ⟨hr, ?_, ?_, ?_, ?_, ?_, ?_⟩⟩
    · rw [hp]; exact h3
    · intro hw
      rw [hp]
      omega
    · intro hw
      rw [hp]
      rw [hw] at h3
      exact h3
    · intro j hj
      rw [hp] at hj
      have := h4 j hj
      rwa [Nat.zero_add] at this
    · intro hlt
      rw [hp] at hlt ⊢
      have := h5 hlt hfuel
      rwa [Nat.zero_add] at this
    · exact ⟨_, hf, hkill, by rw [hpre, hp]⟩

/-- C24 (witness): with `SwitchWaitKill` at 2000 and one long-running write
that never ends, `freeze` polls four times, kills once and returns true. -/
theorem C24_witness :
    oneLongWrite.SetReadOnly = none
    ∧ waitKillCluster.Conf.SwitchWaitKill = 2000
    ∧ (freeze waitKillCluster 0 oneLongWrite).2 = true
    ∧ countPolls (freeze waitKillCluster 0 oneLongWrite).1 = 4
    ∧ countKills (freeze waitKillCluster 0 oneLongWrite).1 = 1
    ∧ countPolls (freeze waitKillCluster 0 oneLongWrite).1 ≤ 4 :=
  ⟨rfl, rfl, ((C24_freeze_bounded waitKillCluster 0 oneLongWrite).2.2 rfl).1, by decide,
    by decide, ((C24_freeze_bounded waitKillCluster 0 oneLongWrite).2.2 rfl).2.2.2.1 rfl⟩

/-! ## C25 -/

theorem pingFailedMaster_heartbeat (c : Cluster) (server : Nat) :
    ((pingFailedMaster c server server).1.heap server).FailSuspectHeartbeat =
      c.sme.Heartbeats := by
  unfold pingFailedMaster
  dsimp only
  split_ifs <;> simp [store_heap]

/-- A failing probe of the current master writes the heartbeat counter of the
tick into `FailSuspectHeartbeat`. -/
theorem Ping_master_heartbeat (c : Cluster) (server : Nat) (o : PingObs) (e : GoError)
    (cn : Option Nat)
    (hm : c.master = some server) (he : pingCheck c.Conf o = some (cn, some e))
    (h1 : accessDenied e = false)
    (h2 : e ≠ GoError.ErrNoRows) :
    ((Ping c server o).1.heap server).FailSuspectHeartbeat = c.sme.Heartbeats := by
  have hv := pingVirtualMaster_cluster c server
  have hr := pingFailure_rest (pingVirtualMaster c server) server e h1
  rw [Ping_fail c server o e cn he]
  show ((pingFailure (pingVirtualMaster c server) server e).1.heap server).FailSuspectHeartbeat = _
  rw [hr.1]
  unfold pingFailRest
  dsimp only
  rw [pingFailAlert_frame (fun s => s.FailSuspectHeartbeat) (fun _ _ => rfl)]
  have hne : (e != GoError.ErrNoRows) = true := by simpa using h2
  simp only [hne, if_true]
  unfold pingFailCount
  simp only [store_master, hv.1, hm]
  have := pingFailedMaster_heartbeat ((pingVirtualMaster c server).store server
    { (pingVirtualMaster c server).heap server with
      FailCount := ((pingVirtualMaster c server).heap server).FailCount + 1 }) server
  simp only [store_heap_same] at this ⊢
  simp only [beq_self_eq_true, if_true]
  rw [this]
  exact hv.2.2.1 ▸ rfl

/-- C25 (amended): during a run of failing probes of the current master, each
with a connectivity check that returns with a counted error (neither
access-denied nor `sql.ErrNoRows`), `FailSuspectHeartbeat` holds the heartbeat
counter of the latest failing probe of the run, not of the first one: every
such probe of the master writes the counter of its own tick. -/
theorem C25_suspect_heartbeat_latest (server : Nat) (ticks : List (StateMachine × PingObs)) :
    ∀ c : Cluster, c.master = some server →
      (∀ t ∈ ticks, ∃ cn e, pingCheck c.Conf t.2 = some (cn, some e)
        ∧ accessDenied e = false ∧ e ≠ GoError.ErrNoRows) →
      ∀ hne : ticks ≠ [],
        (pingRun server ticks c).2.2 = Ret.nil
        ∧ ((pingRun server ticks c).1.heap server).FailSuspectHeartbeat =
            (ticks.getLast hne).1.Heartbeats := by
  induction ticks with
  | nil => intro c _ _ hne; exact absurd rfl hne
  | cons t rest ih =>
    intro c hm hall hne
    obtain ⟨sme, o⟩ := t
    obtain ⟨cn, e, he, h1, h2⟩ := hall (sme, o) (List.mem_cons_self _ _)
    have hp := Ping_master_fail { c with sme := sme } server o e cn hm he h1 h2
    have hh := Ping_master_heartbeat { c with sme := sme } server o e cn hm he h1 h2
    rw [pingRun_cons_nil server sme o rest c hp.1]
    dsimp only
    cases rest with
    | nil => exact ⟨rfl, hh⟩
    | cons t2 rest2 =>
      have := ih (Ping { c with sme := sme } server o).1 hp.2.1
        (fun t ht => by rw [hp.2.2.1]; exact hall t (List.mem_cons_of_mem _ ht))
        (List.cons_ne_nil _ _)
      rw [List.getLast_cons (List.cons_ne_nil _ _)]
      exact this

/-- C25 (counterexample): two consecutive failing probes of the master `b` of
the sample cluster, at heartbeats 7 and 8.  After the first probe the server
is suspect and `FailSuspectHeartbeat` is 7; the second failing probe of the
same run overwrites it with 8. -/
theorem C25_counterexample :
    sampleCluster.master = some 1
    ∧ ((pingRun 1 [failingTick 7] sampleCluster).1.heap 1).State = stateSuspect
    ∧ ((pingRun 1 [failingTick 7] sampleCluster).1.heap 1).FailSuspectHeartbeat = 7
    ∧ ((pingRun 1 [failingTick 7, failingTick 8] sampleCluster).1.heap 1).State = stateSuspect
    ∧ ((pingRun 1 [failingTick 7, failingTick 8] sampleCluster).1.heap 1).FailCount = 2
    ∧ ((pingRun 1 [failingTick 7, failingTick 8] sampleCluster).1.heap 1).FailSuspectHeartbeat
        = 8 := by
  decide

/-- C25 (witness): the run of the counterexample, through the theorem. -/
theorem C25_witness :
    sampleCluster.master = some 1
    ∧ ((pingRun 1 [failingTick 7, failingTick 8] sampleCluster).1.heap 1).FailSuspectHeartbeat
        = 8 :=
  ⟨rfl, (C25_suspect_heartbeat_latest 1 [failingTick 7, failingTick 8] sampleCluster rfl
    (fun t ht => by
      have : t.2 = failingObs := by
        simp only [List.mem_cons, List.mem_singleton, List.not_mem_nil, or_false] at ht
        rcases ht with h | h <;> subst h <;> rfl
      exact ⟨none, GoError.Other "dial tcp: i/o timeout", by rw [this]; rfl, rfl, by decide⟩)
    (by simp)).2⟩

/-! ## C26 -/

theorem countWrites_append (a b : List Event) :
    countWrites (a ++ b) = countWrites a + countWrites b := by
  simp [countWrites, List.countP_append]

theorem countWrites_captureSample (c : Cluster) (server : Nat) :
    countWrites (captureSample c server) = 1 := by
  unfold captureSample countWrites
  dsimp only
  split_ifs <;> simp [List.countP_cons, isCall]

theorem captureIterations_running (server : Nat) (start : Int) (n : Nat) :
    ∀ (c : Cluster) (ev : List Event) (h : Int), start + 5 ≤ h →
      (captureIterations server start (List.replicate n (sampleAt h)) c ev).2.2 = none
      ∧ countWrites (captureIterations server start (List.replicate n (sampleAt h)) c ev).2.1 =
          countWrites ev + n
      ∧ (captureIterations server start (List.replicate n (sampleAt h)) c ev).1 = c := by
  induction n with
  | zero => intro c ev h _; exact ⟨rfl, rfl, rfl⟩
  | succ n ih =>
    intro c ev h hh
    rw [List.replicate_succ, captureIterations]
    have h1 : ¬ (h < start + 5) := by omega
    simp only [sampleAt, Option.isSome_none, Bool.false_eq_true, if_false, h1]
    have := ih c (ev ++ captureSample c server) h hh
    simp only [sampleAt] at this
    refine ⟨this.1, ?_, this.2.2⟩
    rw [this.2.1, countWrites_append, countWrites_captureSample]
    omega

/-- C26 (code bug): the test at the end of an iteration of `CaptureLoop`
(srv.go:1190) leaves the loop when the heartbeat counter is below `start + 5`
and goes on when it is not.  Started at the heartbeat value `start`, with the
counter read below `start + 5` at the first test, the loop stops after one
artifact write and resets `InCaptureMode`, whatever the counter does later;
with the counter read at `start + 5` or above it is still running after any
number of iterations, one write per iteration, with `InCaptureMode` set. -/
theorem C26_capture_stops_at_once :
    (∀ (c : Cluster) (server : Nat) (start h : Int) (rest : List CaptureObs), h < start + 5 →
      (CaptureLoop c server start (sampleAt h :: rest)).2.2 = some Ret.nil
      ∧ countWrites (CaptureLoop c server start (sampleAt h :: rest)).2.1 = 1
      ∧ ((CaptureLoop c server start (sampleAt h :: rest)).1.heap server).InCaptureMode = false)
    ∧ (∀ (c : Cluster) (server : Nat) (start h : Int) (n : Nat), start + 5 ≤ h →
      (CaptureLoop c server start (List.replicate n (sampleAt h))).2.2 = none
      ∧ countWrites (CaptureLoop c server start (List.replicate n (sampleAt h))).2.1 = n
      ∧ ((CaptureLoop c server start (List.replicate n (sampleAt h))).1.heap server).InCaptureMode
          = true)
    ∧ (CaptureLoop sampleCluster 0 7 [sampleAt 7, sampleAt 8, sampleAt 9]).2.2 = some Ret.nil
    ∧ countWrites (CaptureLoop sampleCluster 0 7 [sampleAt 7, sampleAt 8, sampleAt 9]).2.1
        = 1 := by
  refine ⟨?_, ?_, by decide, by decide⟩
  · intro c server start h rest hh
    unfold CaptureLoop
    rw [captureIterations]
    simp only [sampleAt, Option.isSome_none, Bool.false_eq_true, if_false, hh, if_true,
      List.nil_append]
    exact ⟨trivial, countWrites_captureSample _ _, by simp⟩
  · intro c server start h n hh
    unfold CaptureLoop
    have := captureIterations_running server start n
      (c.store server { c.heap server with InCaptureMode := true }) [] h hh
    refine ⟨this.1, ?_, ?_⟩
    · rw [this.2.1]; simp [countWrites]
    · rw [this.2.2]; simp


/-! ## C27 -/

theorem startsWith_append (p r : List Char) : startsWith (p ++ r) p = true := by
  induction p with
  | nil => cases r <;> rfl
  | cons a p ih =>
    show (a == a && startsWith (p ++ r) p) = true
    rw [ih]
    simp

theorem startSlave_text (err : String) :
    startsWith ("Can't start slave:  " ++ err ++ newline).toList
      "Can't start slave: ".toList = true := by
  have h : ("Can't start slave:  " ++ err ++ newline).toList =
      "Can't start slave: ".toList ++ ([' '] ++ err.toList ++ newline.toList) := by
    simp only [String.toList, String.data_append]
    rfl
  rw [h]
  exact startsWith_append _ _

/-- The tail of `ChangeMasterTo` (lines 1327-1334) on a server with a
connection. -/
theorem changeMasterStart_result (c : Cluster) (server : Nat) (db : DBObs) (ev : List Event)
    (hconn : (c.heap server).Conn ≠ none) :
    (changeMasterStart c server db ev).2.1.getLast? =
        some (Event.SQL (c.heap server).URL (.StartSlave c.Conf.MasterConn))
    ∧ (changeMasterStart c server db ev).2.2 =
        (match db.ExecStartSlave with
          | some err => Ret.err (.Other ("Can't start slave:  " ++ err.Error ++ newline))
          | none => Ret.nil) := by
  unfold changeMasterStart
  cases hc : (c.heap server).Conn with
  | none => exact absurd hc hconn
  | some x =>
    cases db.ChangeMaster <;> cases db.ExecStartSlave <;> simp

/-- The value returned by `ChangeMasterTo` on a server with a connection, and
the last command of its trace once CHANGE MASTER has been issued. -/
theorem ChangeMasterTo_result (c : Cluster) (server master : Nat) (mode : String)
    (db : Nat → DBObs) (hconn : (c.heap server).Conn ≠ none) :
    (ChangeMasterTo c server master mode db).2.2 =
      (if (((c.heap server).State != stateFailed && c.Conf.ForceSlaveNoGtid == false
            && (c.heap server).DBVersion.IsMariaDB
            && decide ((c.heap server).DBVersion.Major ≥ 10)) = true
          ∧ (db server).ExecSetGlobalGtidSlavePos.isSome = true)
        then Ret.err ((db server).ExecSetGlobalGtidSlavePos.getD .ErrNoRows)
        else match (db server).ExecStartSlave with
          | some err => Ret.err (.Other ("Can't start slave:  " ++ err.Error ++ newline))
          | none => Ret.nil)
    ∧ ((∃ opt, Event.SQL (c.heap server).URL (.ChangeMaster opt) ∈
          (ChangeMasterTo c server master mode db).2.1) →
        (ChangeMasterTo c server master mode db).2.1.getLast? =
          some (Event.SQL (c.heap server).URL (.StartSlave c.Conf.MasterConn))) := by
  unfold ChangeMasterTo
  dsimp only
  split
  · rename_i hg
    have hs := Refresh_sameServers c master (db master).Refresh
    have hc := Refresh_cluster c master (db master).Refresh
    have hp := Refresh_passive c master (db master).Refresh
    generalize Refresh c master (db master).Refresh = r at hs hc hp ⊢
    obtain ⟨c1, ev1, e1⟩ := r
    dsimp only at hs hc hp ⊢
    have hk : (c1.heap server).Conn = (c.heap server).Conn := kept_Conn (hs.2.2.1 server)
    have hu : (c1.heap server).URL = (c.heap server).URL := (kept_fields (hs.2.2.1 server)).2.1
    have hconn1 : (c1.heap server).Conn ≠ none := by rw [hk]; exact hconn
    cases hcn : (c1.heap server).Conn with
    | none => exact absurd hcn hconn1
    | some x =>
      dsimp only
      cases hx : (db server).ExecSetGlobalGtidSlavePos with
      | some err =>
        dsimp only
        refine ⟨by rw [if_pos ⟨hg, rfl⟩]; rfl, ?_⟩
        rintro ⟨opt, hmem⟩
        exfalso
        rw [List.mem_append] at hmem
        rcases hmem with h | h
        · have := hp _ h
          simp [Event.isAction] at this
        · simp at h
      | none =>
        dsimp only
        have hr := changeMasterStart_result c1 server (db server)
          (ev1 ++ [Event.SQL (c1.heap server).URL (.SetGlobalGtidSlavePos (c1.heap master).CurrentGtid)] ++
            [Event.SQL (c1.heap server).URL
                (.ChangeMaster (changeMasterOpt c1 (c1.heap server) (c1.heap master) mode)),
              Event.Log "INFO" "Replication bootstrapped with %s as master" (c1.heap master).URL])
          hconn1
        refine ⟨?_, fun _ => hr.1.trans (by rw [hu, hc.1])⟩
        rw [hr.2, if_neg]
        rintro ⟨_, h⟩
        simp at h
  · split
    · have hr := changeMasterStart_result c server (db server)
        [Event.SQL (c.heap server).URL
            (.ChangeMaster (changeMasterOpt c (c.heap server) (c.heap master) "MASTER_AUTO_POSITION")),
          Event.Log "INFO" "Replication bootstrapped with MySQL GTID replication style and %s as master"
            (c.heap master).URL] hconn
      refine ⟨?_, fun _ => hr.1⟩
      rw [hr.2, if_neg]
      rintro ⟨h, _⟩
      contradiction
    · have hr := changeMasterStart_result c server (db server)
        [Event.SQL (c.heap server).URL
            (.ChangeMaster { changeMasterOpt c (c.heap server) (c.heap master) "POSITIONAL" with
              Logfile := (c.heap master).BinaryLogFile, Logpos := (c.heap master).BinaryLogPos }),
          Event.Log "INFO" "Replication bootstrapped with old replication style and %s as master"
            (c.heap master).URL] hconn
      refine ⟨?_, fun _ => hr.1⟩
      rw [hr.2, if_neg]
      rintro ⟨h, _⟩
      contradiction

/-- C27: on a server with a connection the value returned by `ChangeMasterTo`
does not depend on the outcome of the CHANGE MASTER command.  When START SLAVE
succeeds, and on the MariaDB GTID path setting gtid_slave_pos succeeded, it
returns nil whatever CHANGE MASTER answered; whenever CHANGE MASTER has been
issued, START SLAVE on the configured channel is the last command issued; and
a failure of START SLAVE, once reached, is returned as an error whose text
starts with "Can't start slave: ". -/
theorem C27_change_master_error_dropped (c : Cluster) (server master : Nat) (mode : String)
    (db : Nat → DBObs) (x : Option GoError) (hconn : (c.heap server).Conn ≠ none) :
    (ChangeMasterTo c server master mode
        (Function.update db server { db server with ChangeMaster := x })).2.2
      = (ChangeMasterTo c server master mode db).2.2
    ∧ ((db server).ExecStartSlave = none →
        (((c.heap server).State != stateFailed && c.Conf.ForceSlaveNoGtid == false
            && (c.heap server).DBVersion.IsMariaDB
            && decide ((c.heap server).DBVersion.Major ≥ 10)) = true →
          (db server).ExecSetGlobalGtidSlavePos = none) →
        (ChangeMasterTo c server master mode db).2.2 = Ret.nil)
    ∧ ((∃ opt, Event.SQL (c.heap server).URL (.ChangeMaster opt) ∈
          (ChangeMasterTo c server master mode db).2.1) →
        (ChangeMasterTo c server master mode db).2.1.getLast? =
          some (Event.SQL (c.heap server).URL (.StartSlave c.Conf.MasterConn)))
    ∧ (∀ e, (db server).ExecStartSlave = some e →
        (((c.heap server).State != stateFailed && c.Conf.ForceSlaveNoGtid == false
            && (c.heap server).DBVersion.IsMariaDB
            && decide ((c.heap server).DBVersion.Major ≥ 10)) = true →
          (db server).ExecSetGlobalGtidSlavePos = none) →
        ∃ text, (ChangeMasterTo c server master mode db).2.2 = Ret.err (.Other text)
          ∧ startsWith text.toList "Can't start slave: ".toList = true) := by
  have h1 := ChangeMasterTo_result c server master mode db hconn
  have h2 := ChangeMasterTo_result c server master mode
    (Function.update db server { db server with ChangeMaster := x }) hconn
  refine ⟨?_, ?_, h1.2, ?_⟩
  · rw [h1.1, h2.1]
    simp only [Function.update_same]
  · intro hs hg
    rw [h1.1, if_neg, hs]
    rintro ⟨a, b⟩
    rw [hg a] at b
    simp at b
  · intro e hs hg
    refine ⟨"Can't start slave:  " ++ e.Error ++ newline, ?_, startSlave_text _⟩
    rw [h1.1, if_neg, hs]
    rintro ⟨a, b⟩
    rw [hg a] at b
    simp at b

/-- C27 (witness): on the sample cluster the slave `a` is pointed at `b` while
CHANGE MASTER fails and START SLAVE succeeds: the call returns nil, and the
trace holds the log line of the failure. -/
theorem C27_witness :
    (sampleCluster.heap 0).Conn ≠ none
    ∧ (ChangeMasterTo sampleCluster 0 1 "SLAVE_POS" changeMasterErrorDB).2.2 = Ret.nil
    ∧ (ChangeMasterTo sampleCluster 0 1 "SLAVE_POS"
        (Function.update changeMasterErrorDB 0
          { changeMasterErrorDB 0 with ChangeMaster := none })).2.2
        = (ChangeMasterTo sampleCluster 0 1 "SLAVE_POS" changeMasterErrorDB).2.2 :=
  have h := C27_change_master_error_dropped sampleCluster 0 1 "SLAVE_POS" changeMasterErrorDB
    none (by decide)
  ⟨by decide, h.2.1 rfl (fun _ => rfl), h.1⟩

/-! ## C28 -/

theorem deleteIndex_none (heap : Nat → ServerMonitor) (url : String) (l : List Nat) :
    deleteIndex heap url l = none ↔ ∀ s ∈ l, (heap s).URL ≠ url := by
  induction l with
  | nil => simp [deleteIndex]
  | cons s rest ih =>
    by_cases h : url = (heap s).URL
    · simp [deleteIndex, h]
    · have h2 : ¬ (heap s).URL = url := fun e => h e.symm
      simp [deleteIndex, h, h2, ih]

theorem deleteIndex_some (heap : Nat → ServerMonitor) (url : String) (l : List Nat) :
    ∀ k, deleteIndex heap url l = some k →
      ∃ hk : k < l.length, (heap (l.get ⟨k, hk⟩)).URL = url
        ∧ ∀ j (hj : j < l.length), j < k → (heap (l.get ⟨j, hj⟩)).URL ≠ url := by
  induction l with
  | nil => intro k h; simp [deleteIndex] at h
  | cons s rest ih =>
    intro k h
    by_cases hu : url = (heap s).URL
    · simp only [deleteIndex, hu, beq_self_eq_true, if_true, Option.some.injEq] at h
      subst h
      exact ⟨by simp, by simp [hu], fun j _ hj => absurd hj (Nat.not_lt_zero j)⟩
    · have hb : (url == (heap s).URL) = false := by simpa using hu
      simp only [deleteIndex, hb, Bool.false_eq_true, if_false, Option.map_eq_some'] at h
      obtain ⟨k2, hk2, rfl⟩ := h
      obtain ⟨hk, h1, h2⟩ := ih k2 hk2
      refine ⟨by simp only [List.length_cons]; omega, by simpa using h1, ?_⟩
      intro j hj hjk
      cases j with
      | zero => simpa using fun e : (heap s).URL = url => hu e.symm
      | succ j2 =>
        have := h2 j2 (by simp only [List.length_cons] at hj; omega) (by omega)
        simpa using this

theorem getLast_cons_dropLast (rest : List Nat) (last : Nat) (h : rest.getLast? = some last) :
    rest = rest.dropLast ++ [last] := by
  have hne : rest ≠ [] := by
    intro e
    rw [e] at h
    simp at h
  have h2 := List.dropLast_append_getLast hne
  rw [List.getLast?_eq_getLast _ hne, Option.some.injEq] at h
  rw [h] at h2
  exact h2.symm

/-- What `delete` does to a list in which the URL occurs first at index
`k`. -/
theorem deleteList_spec (heap : Nat → ServerMonitor) (server : Nat) (l : List Nat) :
    ∀ k, deleteIndex heap (heap server).URL l = some k →
      (deleteList heap server l).length = l.length - 1
      ∧ (deleteList heap server l).Perm (l.eraseIdx k)
      ∧ (l.length ≤ k + 2 → deleteList heap server l = l.eraseIdx k)
      ∧ (l.Nodup → k + 2 < l.length → deleteList heap server l ≠ l.eraseIdx k) := by
  induction l with
  | nil => intro k h; simp [deleteIndex] at h
  | cons s rest ih =>
    intro k h
    rw [deleteList_cons]
    by_cases hu : (heap server).URL = (heap s).URL
    · have hb : ((heap server).URL == (heap s).URL) = true := by simpa using hu
      simp only [deleteIndex, hb, if_true, Option.some.injEq] at h
      subst h
      simp only [hb, if_true, List.eraseIdx_cons_zero, List.length_cons, Nat.add_sub_cancel]
      cases hl : rest.getLast? with
      | none =>
        have : rest = [] := by simpa using hl
        subst this
        simp
      | some last =>
        have hr := getLast_cons_dropLast rest last hl
        dsimp only
        refine ⟨?_, ?_, ?_, ?_⟩
        · have := congrArg List.length hr
          simp only [List.length_append, List.length_singleton] at this
          simp only [List.length_cons]
          omega
        · have hp : (last :: rest.dropLast).Perm (rest.dropLast ++ [last]) :=
            (List.perm_append_singleton last rest.dropLast).symm
          rw [← hr] at hp
          exact hp
        · intro hlen
          have h0 : rest.dropLast = [] := by
            apply List.eq_nil_of_length_eq_zero
            simp only [List.length_dropLast]
            omega
          rw [h0] at hr ⊢
          rw [hr]
          rfl
        · intro hnd hlen
          have hnd2 : rest.Nodup := (List.nodup_cons.1 hnd).2
          intro e
          cases hd : rest.dropLast with
          | nil =>
            have := congrArg List.length hd
            simp only [List.length_dropLast, List.length_nil] at this
            omega
          | cons d ds =>
            rw [hd] at hr e
            rw [hr] at hnd2 e
            simp only [List.cons_append, List.cons.injEq] at e
            rw [← e.1] at hnd2
            have : last ∈ ds ++ [last] := by simp
            exact (List.nodup_cons.1 hnd2).1 this
    · have hb : ((heap server).URL == (heap s).URL) = false := by simpa using hu
      simp only [deleteIndex, hb, Bool.false_eq_true, if_false, Option.map_eq_some'] at h
      obtain ⟨k2, hk2, rfl⟩ := h
      obtain ⟨i1, i2, i3, i4⟩ := ih k2 hk2
      obtain ⟨hk, _, _⟩ := deleteIndex_some heap (heap server).URL rest k2 hk2
      simp only [hb, Bool.false_eq_true, if_false, List.eraseIdx_cons_succ, List.length_cons]
      refine ⟨by rw [i1]; omega, List.Perm.cons s i2, ?_, ?_⟩
      · intro hlen
        rw [i3 (by omega)]
      · intro hnd hlen e
        simp only [List.cons.injEq, true_and] at e
        exact i4 (List.nodup_cons.1 hnd).2 (by omega) e

/-- C28 (amended): `delete` leaves the list as it is when no element has the
URL of the server, and a nil list nil.  Otherwise, with `k` the first index
whose element has the URL, the result is the list with the last element
written at index `k` and the last position cut off: it is one shorter, it is a
permutation of the list without element `k`, and it keeps the order of the
remaining elements when `k` is the last or the last but one index; on a list
without repetition these are the only cases that keep the order. -/
theorem C28_delete_swaps_last (heap : Nat → ServerMonitor) (server : Nat) (l : List Nat) :
    delete heap server none = none
    ∧ ((∀ s ∈ l, (heap s).URL ≠ (heap server).URL) → delete heap server (some l) = some l)
    ∧ ((∃ s ∈ l, (heap s).URL = (heap server).URL) →
        ∃ k, ∃ hk : k < l.length, ∃ last,
          (heap (l.get ⟨k, hk⟩)).URL = (heap server).URL
          ∧ (∀ j (hj : j < l.length), j < k → (heap (l.get ⟨j, hj⟩)).URL ≠ (heap server).URL)
          ∧ l.getLast? = some last
          ∧ delete heap server (some l) = some ((l.set k last).dropLast)
          ∧ ((l.set k last).dropLast).length = l.length - 1
          ∧ ((l.set k last).dropLast).Perm (l.eraseIdx k)
          ∧ (l.length ≤ k + 2 → (l.set k last).dropLast = l.eraseIdx k)
          ∧ (l.Nodup → k + 2 < l.length → (l.set k last).dropLast ≠ l.eraseIdx k)) := by
  refine ⟨rfl, ?_, ?_⟩
  · intro h
    have := (deleteIndex_none heap (heap server).URL l).2 h
    simp only [delete, Option.map_some', deleteList, this]
  · rintro ⟨s, hs, hu⟩
    cases hk : deleteIndex heap (heap server).URL l with
    | none => exact absurd hu ((deleteIndex_none heap (heap server).URL l).1 hk s hs)
    | some k =>
      obtain ⟨hlt, h1, h2⟩ := deleteIndex_some heap (heap server).URL l k hk
      have hne : l ≠ [] := by
        intro e
        rw [e] at hs
        simp at hs
      have hlast : l.getLast? = some (l.getLast hne) := List.getLast?_eq_getLast _ hne
      have hd : deleteList heap server l = (l.set k (l.getLast hne)).dropLast := by
        simp only [deleteList, hk, hlast]
      have hspec := deleteList_spec heap server l k hk
      rw [hd] at hspec
      exact ⟨k, hlt, l.getLast hne, h1, h2, hlast, by simp only [delete, Option.map_some', hd],
        hspec⟩

/-- C28 (counterexample): the server `b` is removed from the list `[a, b, c]`
of the sample cluster.  The removed element is not the last one, and the
remaining elements keep their order. -/
theorem C28_counterexample :
    delete sampleCluster.heap 1 (some [0, 1, 2]) = some [0, 2]
    ∧ [0, 1, 2].getLast? ≠ some 1
    ∧ delete sampleCluster.heap 1 (some [0, 1, 2]) = some ([0, 1, 2].eraseIdx 1) := by
  decide

/-- C28 (witness): the server `a` is removed from the list `[a, b, c]` of the
sample cluster; the last element takes its place. -/
theorem C28_witness :
    (∃ s ∈ [0, 1, 2], (sampleCluster.heap s).URL = (sampleCluster.heap 0).URL)
    ∧ delete sampleCluster.heap 0 (some [0, 1, 2]) = some [2, 1]
    ∧ ∃ k last, [0, 1, 2].getLast? = some last
        ∧ delete sampleCluster.heap 0 (some [0, 1, 2]) = some (([0, 1, 2].set k last).dropLast)
        ∧ (([0, 1, 2].set k last).dropLast).Perm ([0, 1, 2].eraseIdx k) :=
  ⟨⟨0, by simp, rfl⟩, by decide,
    match (C28_delete_swaps_last sampleCluster.heap 0 [0, 1, 2]).2.2 ⟨0, by simp, rfl⟩ with
    | ⟨k, _, last, _, _, h3, h4, _, h6, _⟩ => ⟨k, last, h3, h4, h6⟩⟩
/-! ## C29 -/

/-- C29: a probe that succeeds while a failover is in progress returns nil after
closing the fresh connection and logging that the refresh is skipped.  It
leaves `State`, `PrevState`, `FailCount`, `FailSuspectHeartbeat`, `Conn` and
`Replications` of the server and the master and slave list of the cluster as
they were, makes no rejoin call, and changes nothing in the heap but the
`IsVirtualMaster` flag of the probed server. -/
theorem C29_probe_in_failover (c : Cluster) (server : Nat) (o : PingObs) (conn : Nat)
    (hF : c.sme.InFailover = true) (hcheck : pingCheck c.Conf o = some (some conn, none)) :
    (Ping c server o).2.2 = Ret.nil
    ∧ ((Ping c server o).1.heap server).State = (c.heap server).State
    ∧ ((Ping c server o).1.heap server).PrevState = (c.heap server).PrevState
    ∧ ((Ping c server o).1.heap server).FailCount = (c.heap server).FailCount
    ∧ ((Ping c server o).1.heap server).FailSuspectHeartbeat =
        (c.heap server).FailSuspectHeartbeat
    ∧ ((Ping c server o).1.heap server).Conn = (c.heap server).Conn
    ∧ ((Ping c server o).1.heap server).Replications = (c.heap server).Replications
    ∧ (Ping c server o).1.master = c.master
    ∧ (Ping c server o).1.slaves = c.slaves
    ∧ (Ping c server o).2.1 =
        [Event.ConnClose conn,
         Event.Log "DEBUG" "Inside failover, skiping refresh" (c.heap server).URL]
    ∧ calls "RejoinMaster" (Ping c server o).2.1 = false
    ∧ calls "rejoinSlave" (Ping c server o).2.1 = false
    ∧ (Ping c server o).1.heap server =
        { c.heap server with
          IsVirtualMaster := ((Ping c server o).1.heap server).IsVirtualMaster }
    ∧ ∀ q, q ≠ server → (Ping c server o).1.heap q = c.heap q := by
  have hv := pingVirtualMaster_cluster c server
  have hp : Ping c server o = (pingVirtualMaster c server,
      [Event.ConnClose conn, Event.Log "DEBUG" "Inside failover, skiping refresh"
        ((pingVirtualMaster c server).heap server).URL], Ret.nil) := by
    rw [Ping_success c server o (some conn) hcheck]
    unfold pingSuccess
    simp only [hv.2.2.1, hF, if_true]
  have hurl := pingVirtualMaster_frame (fun s => s.URL) (fun _ _ => rfl) c server server
  rw [hp, hurl]
  refine ⟨rfl, pingVirtualMaster_frame (fun s => s.State) (fun _ _ => rfl) c server server,
    pingVirtualMaster_frame (fun s => s.PrevState) (fun _ _ => rfl) c server server,
    pingVirtualMaster_frame (fun s => s.FailCount) (fun _ _ => rfl) c server server,
    pingVirtualMaster_frame (fun s => s.FailSuspectHeartbeat) (fun _ _ => rfl) c server server,
    pingVirtualMaster_frame (fun s => s.Conn) (fun _ _ => rfl) c server server,
    pingVirtualMaster_frame (fun s => s.Replications) (fun _ _ => rfl) c server server,
    hv.1, hv.2.1, rfl, by simp [calls, isCall], by simp [calls, isCall], ?_, ?_⟩
  · show (pingVirtualMaster c server).heap server = _
    unfold pingVirtualMaster
    cases c.vmaster with
    | none => rfl
    | some v => simp
  · intro q hq
    show (pingVirtualMaster c server).heap q = _
    unfold pingVirtualMaster
    cases c.vmaster with
    | none => rfl
    | some v => simp [store_heap, hq]

/-- C29 (witness): a successful probe of the slave `a` of the sample cluster
during a failover. -/
theorem C29_witness :
    sampleInFailover.sme.InFailover = true
    ∧ (Ping sampleInFailover 0 standaloneObs).2.2 = Ret.nil
    ∧ ((Ping sampleInFailover 0 standaloneObs).1.heap 0).State = stateSlave
    ∧ (Ping sampleInFailover 0 standaloneObs).2.1 =
        [Event.ConnClose 9, Event.Log "DEBUG" "Inside failover, skiping refresh" "a:3306"] :=
  have h := C29_probe_in_failover sampleInFailover 0 standaloneObs 9 rfl rfl
  ⟨rfl, h.1, h.2.1, h.2.2.2.2.2.2.2.2.2.1⟩


/-! ## C30 -/

theorem Shutdown_command (c : Cluster) (server : Nat) (exec : Option GoError)
    (hconn : (c.heap server).Conn ≠ none) :
    (Shutdown c server exec).1.head? = some (Event.SQL (c.heap server).URL (Cmd.Exec
      (if (c.heap server).DBVersion.IsMariaDB = true ∧ (c.heap server).DBVersion.Major ≥ 10
          ∧ (c.heap server).DBVersion.Minor ≥ 4 then "SHUTDOWN WAIT FOR ALL SLAVES"
       else "SHUTDOWN"))) := by
  unfold Shutdown
  have h : (c.heap server).Conn.isNone = false := by
    cases hc : (c.heap server).Conn with
    | none => exact absurd hc hconn
    | some n => rfl
  simp only [h, Bool.false_eq_true, if_false]
  by_cases h1 : (c.heap server).DBVersion.IsMariaDB = true ∧ (c.heap server).DBVersion.Major ≥ 10
      ∧ (c.heap server).DBVersion.Minor ≥ 4
  · rw [if_pos h1]
    have : ((c.heap server).DBVersion.IsMariaDB && decide ((c.heap server).DBVersion.Major ≥ 10)
        && decide ((c.heap server).DBVersion.Minor ≥ 4)) = true := by
      simp [h1.1, h1.2.1, h1.2.2]
    cases exec <;> simp [this]
  · rw [if_neg h1]
    have : ((c.heap server).DBVersion.IsMariaDB && decide ((c.heap server).DBVersion.Major ≥ 10)
        && decide ((c.heap server).DBVersion.Minor ≥ 4)) = false := by
      rw [Bool.eq_false_iff]
      intro h2
      apply h1
      simp only [Bool.and_eq_true, decide_eq_true_eq] at h2
      exact ⟨h2.1.1, h2.1.2, h2.2⟩
    cases exec <;> simp [this]

/-- C30 (code bug): `Shutdown` on a server with a connection sends `SHUTDOWN
WAIT FOR ALL SLAVES` exactly when the flavor is MariaDB, the major version is
at least 10 and the minor version is at least 4; the two numbers are tested
one by one (srv.go:1251), not in version order.  A MariaDB 11.2 server with a
connection, whose version is above 10.4, is sent the plain `SHUTDOWN`. -/
theorem C30_shutdown_mariadb11 :
    (∀ (c : Cluster) (server : Nat) (exec : Option GoError),
      (Shutdown c server exec).1.head? =
        if (c.heap server).Conn = none then none
        else some (Event.SQL (c.heap server).URL (Cmd.Exec
          (if (c.heap server).DBVersion.IsMariaDB = true
              ∧ (c.heap server).DBVersion.Major ≥ 10
              ∧ (c.heap server).DBVersion.Minor ≥ 4 then "SHUTDOWN WAIT FOR ALL SLAVES"
           else "SHUTDOWN"))))
    ∧ (mariadb11Cluster.heap 0).Conn = some 1
    ∧ (mariadb11Cluster.heap 0).DBVersion =
        { Flavor := "MariaDB", Major := 11, Minor := 2, Release := 0 }
    ∧ Shutdown mariadb11Cluster 0 none = ([Event.SQL "a:3306" (Cmd.Exec "SHUTDOWN")], Ret.nil)
    ∧ Shutdown (mariadb11Cluster.store 0 { mariadb11Cluster.heap 0 with Conn := none }) 0 none =
        ([], Ret.err (GoError.Other "No database connection pool")) := by
  refine ⟨?_, by decide, by decide, by decide, by decide⟩
  intro c server exec
  by_cases hc : (c.heap server).Conn = none
  · rw [if_pos hc]
    simp [Shutdown, hc]
  · rw [if_neg hc]
    exact Shutdown_command c server exec hc


end ReplicationManager
